import Mathlib

/-!
# Demand paging and swap of xv6-riscv: a shallow embedding

The definitions below follow `kernel/vm.c` function by function.  A C pointer
to a page descriptor is an index into `pages[]`, a pointer to a page-table
entry is the virtual address it translates, and a function that changes the
process or the kernel returns the new state next to its C return value.
Unsigned 64-bit arithmetic is written on `Nat` with an explicit `% 2 ^ 64`
where the C expression can wrap.
-/

namespace Xv6

/-! ## Constants of `riscv.h` and `param.h` -/

/-- Modelled from the spec: `riscv.h` is not among the sources; frames are 4 KiB. -/
def PGSIZE : Nat := 4096

/-- Modelled from the spec: `riscv.h` is not among the sources; Sv39 as used by
xv6 leaves the top bit of the 39 unused, `MAXVA = 1 << (9+9+9+12-1)`. -/
def MAXVA : Nat := 2 ^ 38

/-- Modelled from the spec: valid bit of an Sv39 page-table entry. -/
def PTE_V : Nat := 1
/-- Modelled from the spec: read permission bit of an Sv39 entry. -/
def PTE_R : Nat := 2
/-- Modelled from the spec: write permission bit of an Sv39 entry. -/
def PTE_W : Nat := 4
/-- Modelled from the spec: execute permission bit of an Sv39 entry. -/
def PTE_X : Nat := 8
/-- Modelled from the spec: user-accessible bit of an Sv39 entry. -/
def PTE_U : Nat := 16

/-- Modelled from the spec: `MAX_SWAP_PAGES = 1024` (section 6). -/
def MAX_SWAP_PAGES : Nat := 1024

/-- Width of `uint64`. -/
def U64 : Nat := 2 ^ 64

/-- The macro `PGROUNDUP(sz) = (sz + PGSIZE - 1) & ~(PGSIZE - 1)` on `uint64`. -/
def PGROUNDUP (sz : Nat) : Nat := ((sz + PGSIZE - 1) % U64) / PGSIZE * PGSIZE

/-- The macro `PGROUNDDOWN(a) = a & ~(PGSIZE - 1)`. -/
def PGROUNDDOWN (a : Nat) : Nat := a / PGSIZE * PGSIZE

/-- The macro `PA2PTE(pa) = (pa >> 12) << 10`. -/
def PA2PTE (pa : Nat) : Nat := (pa >>> 12) <<< 10

/-- The macro `PTE2PA(pte) = (pte >> 10) << 12`. -/
def PTE2PA (pte : Nat) : Nat := (pte >>> 10) <<< 12

/-- The macro `PTE_FLAGS(pte) = pte & 0x3FF`. -/
def PTE_FLAGS (pte : Nat) : Nat := pte &&& 0x3FF

/-- The macro `PX(level, va) = (va >> (12 + 9*level)) & 0x1FF`, the 9-bit table index. -/
def PX (level va : Nat) : Nat := (va / 2 ^ (12 + 9 * level)) % 512

/-! ## Page tables

A page-table page is a record of the frame it lives in and its 512 entries.
An intermediate entry with `PTE_V` set is the child table it points to; an
intermediate entry without `PTE_V` is `none`. -/

/-- Level-0 page-table page: 512 leaf entries. -/
structure leaf_table where
  pa : Nat
  pte : Nat → Nat

/-- Level-1 page-table page. -/
structure dir_table where
  pa : Nat
  sub : Nat → Option leaf_table

/-- Level-2 (root) page-table page, the `pagetable_t` of a process. -/
structure pagetable_t where
  pa : Nat
  sub : Nat → Option dir_table

/-- Modelled from the spec: the frame allocator is external (`kalloc.c` is not
among the sources); `kalloc` hands out the first frame of the free list and
returns 0 when there is none. -/
def kalloc (fl : List Nat) : Nat × List Nat :=
  match fl with
  | [] => (0, [])
  | pa :: rest => (pa, rest)

/-- Modelled from the spec: the frame allocator is external; `kfree` returns a
frame to the free list. -/
def kfree (fl : List Nat) (pa : Nat) : List Nat := pa :: fl

/-- The entry `*walk(pagetable, va, 0)` for `va < MAXVA`; `none` when `walk`
returns the null pointer because an intermediate table is missing. -/
def walk (pagetable : pagetable_t) (va : Nat) : Option Nat :=
  match pagetable.sub (PX 2 va) with
  | none => none
  | some d =>
    match d.sub (PX 1 va) with
    | none => none
    | some l => some (l.pte (PX 0 va))

/-- The store `*pte = v` through a non-null `pte = walk(pagetable, va, 0)`. -/
def pte_store (pagetable : pagetable_t) (va v : Nat) : pagetable_t :=
  match pagetable.sub (PX 2 va) with
  | none => pagetable
  | some d =>
    match d.sub (PX 1 va) with
    | none => pagetable
    | some l =>
      { pagetable with
        sub := Function.update pagetable.sub (PX 2 va)
          (some { d with
            sub := Function.update d.sub (PX 1 va)
              (some { l with pte := Function.update l.pte (PX 0 va) v }) }) }

/-- The call `walk(pagetable, va, 1)` for `va < MAXVA`: missing intermediate
tables are allocated and zeroed.  The Boolean is false when the call returns
the null pointer (a `kalloc` failed); tables allocated before the failure
stay in place. -/
def walk_alloc (pagetable : pagetable_t) (fl : List Nat) (va : Nat) :
    Bool × pagetable_t × List Nat :=
  match pagetable.sub (PX 2 va) with
  | some d =>
    (match d.sub (PX 1 va) with
    | some _ => (true, pagetable, fl)
    | none =>
      let r := kalloc fl
      if r.1 = 0 then (false, pagetable, r.2)
      else
        let l : leaf_table := { pa := r.1, pte := fun _ => 0 }
        (true,
          { pagetable with
            sub := Function.update pagetable.sub (PX 2 va)
              (some { d with sub := Function.update d.sub (PX 1 va) (some l) }) },
          r.2))
  | none =>
    let r := kalloc fl
    if r.1 = 0 then (false, pagetable, r.2)
    else
      let d : dir_table := { pa := r.1, sub := fun _ => none }
      let pt1 : pagetable_t :=
        { pagetable with sub := Function.update pagetable.sub (PX 2 va) (some d) }
      let r2 := kalloc r.2
      if r2.1 = 0 then (false, pt1, r2.2)
      else
        let l : leaf_table := { pa := r2.1, pte := fun _ => 0 }
        (true,
          { pagetable with
            sub := Function.update pagetable.sub (PX 2 va)
              (some { d with sub := Function.update d.sub (PX 1 va) (some l) }) },
          r2.2)

/-- Outcome of a call that can fail or stop the kernel with `panic`. -/
inductive outcome where
  | ok
  | fail
  | panic
  deriving DecidableEq, Repr

/-- The loop of `mappages`: `n` counts the pages still to map. -/
def mappages_loop (perm last : Nat) :
    Nat → pagetable_t → List Nat → Nat → Nat → outcome × pagetable_t × List Nat
  | 0, pt, fl, _, _ => (outcome.ok, pt, fl)
  | n + 1, pt, fl, a, pa =>
    if a ≥ MAXVA then (outcome.panic, pt, fl)
    else
      let w := walk_alloc pt fl a
      if w.1 = false then (outcome.fail, w.2.1, w.2.2)
      else
        match walk w.2.1 a with
        | none => (outcome.fail, w.2.1, w.2.2)
        | some e =>
          if e &&& PTE_V ≠ 0 then (outcome.panic, w.2.1, w.2.2)
          else
            let pt1 := pte_store w.2.1 a (PA2PTE pa ||| perm ||| PTE_V)
            if a = last then (outcome.ok, pt1, w.2.2)
            else mappages_loop perm last n pt1 w.2.2 ((a + PGSIZE) % U64) ((pa + PGSIZE) % U64)

/-- The function `mappages(pagetable, va, size, pa, perm)`: `ok` is the return value 0,
`fail` the return value -1. -/
def mappages (pagetable : pagetable_t) (fl : List Nat) (va size pa perm : Nat) :
    outcome × pagetable_t × List Nat :=
  if va % PGSIZE ≠ 0 then (outcome.panic, pagetable, fl)
  else if size % PGSIZE ≠ 0 then (outcome.panic, pagetable, fl)
  else if size = 0 then (outcome.panic, pagetable, fl)
  else
    mappages_loop perm ((va + size + U64 - PGSIZE) % U64) (size / PGSIZE) pagetable fl va pa

/-- The loop of `uvmunmap`: `n` counts the pages still to visit. -/
def uvmunmap_loop (do_free : Bool) :
    Nat → pagetable_t → List Nat → Nat → outcome × pagetable_t × List Nat
  | 0, pt, fl, _ => (outcome.ok, pt, fl)
  | n + 1, pt, fl, a =>
    if a ≥ MAXVA then (outcome.panic, pt, fl)
    else
      match walk pt a with
      | none => uvmunmap_loop do_free n pt fl (a + PGSIZE)
      | some e =>
        if e &&& PTE_V = 0 then uvmunmap_loop do_free n pt fl (a + PGSIZE)
        else
          uvmunmap_loop do_free n (pte_store pt a 0)
            (if do_free then kfree fl (PTE2PA e) else fl) (a + PGSIZE)

/-- The function `uvmunmap(pagetable, va, npages, do_free)`. -/
def uvmunmap (pagetable : pagetable_t) (fl : List Nat) (va npages : Nat) (do_free : Bool) :
    outcome × pagetable_t × List Nat :=
  if va % PGSIZE ≠ 0 then (outcome.panic, pagetable, fl)
  else uvmunmap_loop do_free npages pagetable fl va

/-- The function `ismapped(pagetable, va)` for `va < MAXVA`. -/
def ismapped (pagetable : pagetable_t) (va : Nat) : Bool :=
  match walk pagetable va with
  | none => false
  | some e => decide (e &&& PTE_V ≠ 0)

/-- The function `walkaddr(pagetable, va)`. -/
def walkaddr (pagetable : pagetable_t) (va : Nat) : Nat :=
  if va ≥ MAXVA then 0
  else
    match walk pagetable va with
    | none => 0
    | some e =>
      if e &&& PTE_V = 0 then 0
      else if e &&& PTE_U = 0 then 0
      else PTE2PA e

/-! ## Process and kernel state -/

/-- Modelled from the spec: `proc.h` is not among the sources.  The descriptor
`struct page_info`, one per tracked page, with the fields `vm.c` uses. -/
structure page_info where
  va : Nat
  seq : Nat
  dirty : Bool
  resident : Bool
  swapped : Bool
  swap_offset : Nat

/-- Modelled from the spec: `proc.h` is not among the sources.  The record
`struct prog_segment` kept from exec for one loadable segment. -/
structure prog_segment where
  vaddr : Nat
  filesz : Nat
  memsz : Nat
  off : Nat
  perm : Nat

/-- Modelled from the spec: the file system is external.  A file is its size,
its bytes, and the number of bytes the file system is able to hold for it;
reads past the size come back short and writes past the limit fail. -/
structure inode where
  size : Nat
  data : Nat → Nat
  limit : Nat

/-- Modelled from the spec: `proc.h` is not among the sources.  The paging
fields of `struct proc`, as `vm.c` uses them, and the trapframe's `sp`. -/
structure proc where
  pid : Nat
  killed : Bool
  sz : Nat
  pagetable : pagetable_t
  trapframe_sp : Nat
  segments : Nat → prog_segment
  nsegments : Nat
  pages : Nat → page_info
  npages : Nat
  swap_slots : Nat → Nat
  nswap_slots : Nat
  swapfile : Option inode
  exec_inode : inode
  next_seq : Nat
  heap_start : Nat
  stack_bottom : Nat
  stack_top : Nat

/-- Access kind printed in the log lines, from `scause`. -/
inductive access where
  | exec
  | read
  | write
  deriving DecidableEq, Repr

/-- Cause printed in a `PAGEFAULT` line. -/
inductive cause where
  | exec
  | heap
  | stack
  | swap
  deriving DecidableEq, Repr

/-- The console lines `vm.c` and `exec.c` print for the current process; numbers are
recorded as they are before the `(int)` casts of the format arguments. -/
inductive log_line where
  | KILL_invalid_access (va : Nat) (a : access)
  | KILL_swap_exhausted
  | PAGEFAULT (va : Nat) (a : access) (c : cause)
  | LOADEXEC (va : Nat)
  | ALLOC (va : Nat)
  | RESIDENT (va seq : Nat)
  | VICTIM (va seq : Nat)
  | EVICT (va : Nat) (dirty : Bool)
  | DISCARD (va : Nat)
  | SWAPOUT (va slot : Nat)
  | SWAPIN (va slot : Nat)
  | MEMFULL
  | SWAPFULL
  | SWAPCLEANUP (freed : Nat)
  | INIT_LAZYMAP (text_start text_end data_start data_end heap_start stack_top : Nat)
  deriving DecidableEq, Repr

/-- The current process `myproc()` together with the kernel state `vm.c`
touches: physical memory by byte address, the allocator's free list, what
`create` would return for the swap file path, the console, and whether the
kernel has stopped in `panic`. -/
structure kernel where
  p : proc
  mem : Nat → Nat
  freelist : List Nat
  fs_create : Option inode
  log : List log_line
  panicked : Bool

/-- The call `printf` of one of the paging log lines. -/
def printf (k : kernel) (l : log_line) : kernel := { k with log := k.log ++ [l] }

/-- The kernel after `panic`. -/
def do_panic (k : kernel) : kernel := { k with panicked := true }

/-- The call `memset((void*)pa, 0, PGSIZE)` on physical memory. -/
def memset_page (mem : Nat → Nat) (pa : Nat) : Nat → Nat :=
  fun a => if pa ≤ a ∧ a < pa + PGSIZE then 0 else mem a

/-- Modelled from the spec: `readi(ip, 0, dst, off, n)` of the external file
system: copies the bytes of the file from `off`, at most up to its size, to
kernel address `dst` and returns how many were copied. -/
def readi (ip : inode) (mem : Nat → Nat) (dst off n : Nat) : Nat × (Nat → Nat) :=
  let m := if off > ip.size then 0 else if off + n > ip.size then ip.size - off else n
  (m, fun a => if dst ≤ a ∧ a < dst + m then ip.data (off + (a - dst)) else mem a)

/-- Modelled from the spec: `writei(ip, 0, src, off, n)` of the external file
system: writes `n` bytes from kernel address `src` at `off` and returns `n`,
or writes nothing and returns -1 when the file cannot hold them. -/
def writei (ip : inode) (mem : Nat → Nat) (src off n : Nat) : Int × inode :=
  if off + n ≤ ip.limit then
    ((n : Int),
      { ip with
        size := max ip.size (off + n)
        data := fun o => if off ≤ o ∧ o < off + n then mem (src + (o - off)) else ip.data o })
  else (-1, ip)

/-- The scan of `find_page_info`: `n` entries left, next index `i`. -/
def find_from (pages : Nat → page_info) (va : Nat) : Nat → Nat → Option Nat
  | 0, _ => none
  | n + 1, i => if (pages i).va = va then some i else find_from pages va n (i + 1)

/-- The function `find_page_info(p, va)`: the index of the first descriptor of the page. -/
def find_page_info (p : proc) (va : Nat) : Option Nat :=
  find_from p.pages (PGROUNDDOWN va) p.npages 0

/-- The function `add_page_info(p, va)`: the index of the new descriptor, `none` when the
table is full. -/
def add_page_info (p : proc) (va : Nat) : Option Nat × proc :=
  if p.npages ≥ MAX_SWAP_PAGES then (none, p)
  else
    (some p.npages,
      { p with
        pages := Function.update p.pages p.npages
          { va := PGROUNDDOWN va, seq := p.next_seq, dirty := false, swapped := false,
            swap_offset := 0, resident := true }
        next_seq := (p.next_seq + 1) % U64
        npages := p.npages + 1 })

/-- The scan of `alloc_swap_slot` for the first clear bit: `n` indices left,
next index `i`. -/
def first_clear (swap_slots : Nat → Nat) : Nat → Nat → Option Nat
  | 0, _ => none
  | n + 1, i =>
    if swap_slots (i / 32) &&& (1 <<< (i % 32)) = 0 then some i
    else first_clear swap_slots n (i + 1)

/-- The function `alloc_swap_slot(p)`: the slot, or -1. -/
def alloc_swap_slot (p : proc) : Int × proc :=
  if p.nswap_slots ≥ MAX_SWAP_PAGES then (-1, p)
  else
    match first_clear p.swap_slots MAX_SWAP_PAGES 0 with
    | some i =>
      ((i : Int),
        { p with
          swap_slots := Function.update p.swap_slots (i / 32)
            (p.swap_slots (i / 32) ||| (1 <<< (i % 32)))
          nswap_slots := p.nswap_slots + 1 })
    | none => (-1, p)

/-- The function `free_swap_slot(p, slot)`; the word is 32 bits wide. -/
def free_swap_slot (p : proc) (slot : Int) : proc :=
  if slot < 0 ∨ slot ≥ (MAX_SWAP_PAGES : Int) then p
  else
    let i := slot.toNat
    if p.swap_slots (i / 32) &&& (1 <<< (i % 32)) ≠ 0 then
      { p with
        swap_slots := Function.update p.swap_slots (i / 32)
          (p.swap_slots (i / 32) &&& (0xFFFFFFFF - (1 <<< (i % 32))))
        nswap_slots := p.nswap_slots - 1 }
    else p

/-- The function `create_swapfile(p)`: 0 with the file opened, or -1. -/
def create_swapfile (k : kernel) : Int × kernel :=
  match k.fs_create with
  | none => (-1, k)
  | some f => (0, { k with p := { k.p with swapfile := some f } })

/-- The function `delete_swapfile(p)`. -/
def delete_swapfile (k : kernel) : kernel :=
  match k.p.swapfile with
  | none => k
  | some _ =>
    let k1 := printf k (log_line.SWAPCLEANUP k.p.nswap_slots)
    { k1 with p := { k1.p with swapfile := none, swap_slots := fun _ => 0, nswap_slots := 0 } }

/-- The first segment whose range `[vaddr, vaddr + memsz)` holds `va`, as the
segment loops of `vmfault`, `evict_page` and `swapin_page` find it: `n`
segments left, next index `i`. -/
def find_segment (segments : Nat → prog_segment) (va : Nat) : Nat → Nat → Option Nat
  | 0, _ => none
  | n + 1, i =>
    if va ≥ (segments i).vaddr ∧ va < ((segments i).vaddr + (segments i).memsz) % U64 then some i
    else find_segment segments va n (i + 1)

/-- The function `mark_page_dirty(p, va)`. -/
def mark_page_dirty (p : proc) (va : Nat) : proc :=
  match find_page_info p va with
  | some i => { p with pages := Function.update p.pages i { p.pages i with dirty := true } }
  | none => p

/-- The victim loop of `evict_page`: `n` descriptors left, next index `i`,
the victim and the smallest sequence number found so far. -/
def victim_scan (pages : Nat → page_info) : Nat → Nat → Option Nat → Nat → Option Nat
  | 0, _, victim, _ => victim
  | n + 1, i, victim, min_seq =>
    if (pages i).resident = true ∧ (pages i).seq < min_seq then
      victim_scan pages n (i + 1) (some i) (pages i).seq
    else victim_scan pages n (i + 1) victim min_seq

/-- The victim `evict_page` selects; `min_seq` starts at `~0ULL`. -/
def evict_victim (p : proc) : Option Nat :=
  victim_scan p.pages p.npages 0 none (U64 - 1)

/-- The flag `has_backing_store` computed by `evict_page` for the page `va`. -/
def has_backing_store (p : proc) (va : Nat) : Bool :=
  match find_segment p.segments va p.nsegments 0 with
  | some i => decide (va - (p.segments i).vaddr < (p.segments i).filesz)
  | none => false

/-- The shifting loop that removes a descriptor: `n` copies left, next
destination `i`. -/
def shift_down (pages : Nat → page_info) : Nat → Nat → (Nat → page_info)
  | 0, _ => pages
  | n + 1, i => shift_down (Function.update pages i (pages (i + 1))) n (i + 1)

/-- The function `swapout_page(p, va)`: 0 after the page has been written to its slot of
the swap file, -1 otherwise. -/
def swapout_page (k : kernel) (va0 : Nat) : Int × kernel :=
  let va := PGROUNDDOWN va0
  match find_page_info k.p va with
  | none => (-1, k)
  | some pi =>
    let c : Int × kernel := if k.p.swapfile.isNone then create_swapfile k else (0, k)
    if c.1 < 0 then (-1, c.2)
    else
      let k1 := c.2
      let a : Int × kernel :=
        if (k1.p.pages pi).swapped = false then
          let r := alloc_swap_slot k1.p
          if r.1 < 0 then (-1, printf { k1 with p := r.2 } log_line.SWAPFULL)
          else
            (r.1,
              { k1 with
                p := { r.2 with
                  pages := Function.update r.2.pages pi
                    { r.2.pages pi with swap_offset := r.1.toNat } } })
        else (((k1.p.pages pi).swap_offset : Nat), k1)
      if a.1 < 0 then (-1, a.2)
      else
        let slot := a.1.toNat
        let k2 := a.2
        if va ≥ MAXVA then (-1, do_panic k2)
        else
          match walk k2.p.pagetable va with
          | none => (-1, k2)
          | some e =>
            if e &&& PTE_V = 0 then (-1, k2)
            else
              match k2.p.swapfile with
              | none => (-1, do_panic k2)
              | some f =>
                let w := writei f k2.mem (PTE2PA e) (slot * PGSIZE) PGSIZE
                let k3 := { k2 with p := { k2.p with swapfile := some w.2 } }
                if w.1 ≠ (PGSIZE : Int) then (-1, k3)
                else (0, printf k3 (log_line.SWAPOUT va slot))

/-- The end of `evict_page`, shared by both branches: free the frame and
clear the entry. -/
def evict_release (k : kernel) (va pa : Nat) : Nat × kernel :=
  (pa, { k with
    freelist := kfree k.freelist pa
    p := { k.p with pagetable := pte_store k.p.pagetable va 0 } })

/-- The function `evict_page(p)`: the physical address of the frame released, or 0. -/
def evict_page (k : kernel) : Nat × kernel :=
  match evict_victim k.p with
  | none => (0, k)
  | some vi =>
    let va := (k.p.pages vi).va
    let k1 := printf k (log_line.VICTIM va (k.p.pages vi).seq)
    if va ≥ MAXVA then (0, do_panic k1)
    else
      match walk k1.p.pagetable va with
      | none => (0, k1)
      | some e =>
        if e &&& PTE_V = 0 then (0, k1)
        else
          let pa := PTE2PA e
          let should_swap := (k1.p.pages vi).dirty || !(has_backing_store k1.p va)
          if should_swap then
            let r := swapout_page k1 va
            if r.2.panicked then (0, r.2)
            else if r.1 < 0 then
              let k2 := printf (printf r.2 log_line.SWAPFULL) log_line.KILL_swap_exhausted
              (0, { k2 with p := { k2.p with killed := true } })
            else
              let k2 : kernel :=
                { r.2 with
                  p := { r.2.p with
                    pages := Function.update r.2.p.pages vi
                      { r.2.p.pages vi with swapped := true, resident := false } } }
              evict_release (printf k2 (log_line.EVICT va (k2.p.pages vi).dirty)) va pa
          else
            let k2 := printf (printf k1 (log_line.EVICT va false)) (log_line.DISCARD va)
            let k3 : kernel :=
              { k2 with
                p := { k2.p with
                  pages := shift_down k2.p.pages (k2.p.npages - 1 - vi) vi
                  npages := k2.p.npages - 1 } }
            evict_release k3 va pa

/-- The permissions `swapin_page` and `vmfault` map a page with: those of its
segment plus `U|R`, or `U|R|W` outside every segment. -/
def page_perm (p : proc) (va : Nat) : Nat :=
  match find_segment p.segments va p.nsegments 0 with
  | some i => (p.segments i).perm ||| PTE_U ||| PTE_R
  | none => PTE_U ||| PTE_R ||| PTE_W

/-- The part of `swapin_page` after the frame `mem` has been allocated; `pi`
is the descriptor pointer taken at the start of the call. -/
def swapin_fill (k : kernel) (va pi mem : Nat) : Int × kernel :=
  match k.p.swapfile with
  | none => (-1, { k with freelist := kfree k.freelist mem })
  | some f =>
    let slot := (k.p.pages pi).swap_offset
    let r := readi f k.mem mem (slot * PGSIZE) PGSIZE
    let k1 := { k with mem := r.2 }
    if r.1 ≠ PGSIZE then (-1, { k1 with freelist := kfree k1.freelist mem })
    else
      let k2 := printf k1 (log_line.SWAPIN va slot)
      let perm := page_perm k2.p va
      let m := mappages k2.p.pagetable k2.freelist va PGSIZE mem perm
      let k3 := { k2 with p := { k2.p with pagetable := m.2.1 }, freelist := m.2.2 }
      match m.1 with
      | outcome.panic => (-1, do_panic k3)
      | outcome.fail => (-1, { k3 with freelist := kfree k3.freelist mem })
      | outcome.ok =>
        let p4 := free_swap_slot k3.p (slot : Int)
        let p5 : proc :=
          { p4 with
            pages := Function.update p4.pages pi
              { p4.pages pi with
                resident := true, seq := p4.next_seq, dirty := false, swapped := false }
            next_seq := (p4.next_seq + 1) % U64 }
        (0, printf { k3 with p := p5 } (log_line.RESIDENT va p4.next_seq))

/-- The function `swapin_page(p, va)`: 0 after the page has been read back and mapped, -1
otherwise. -/
def swapin_page (k : kernel) (va0 : Nat) : Int × kernel :=
  let va := PGROUNDDOWN va0
  match find_page_info k.p va with
  | none => (-1, k)
  | some pi =>
    if (k.p.pages pi).swapped = false then (-1, k)
    else
      let r := kalloc k.freelist
      if r.1 = 0 then
        let k1 := printf { k with freelist := r.2 } log_line.MEMFULL
        let e := evict_page k1
        if e.2.panicked then (-1, e.2)
        else if e.1 = 0 then (-1, e.2)
        else
          let r2 := kalloc e.2.freelist
          if r2.1 = 0 then (-1, { e.2 with freelist := r2.2 })
          else swapin_fill { e.2 with freelist := r2.2 } va pi r2.1
      else swapin_fill { k with freelist := r.2 } va pi r.1

/-- The access kind `vmfault` derives from `scause`: 12 is an instruction
fetch, 13 a load, anything else is treated as a store. -/
def access_of (scause : Nat) : access :=
  if scause = 12 then access.exec else if scause = 13 then access.read else access.write

/-- The flag `is_write` of `vmfault`. -/
def is_write (scause : Nat) : Bool := !(decide (scause = 12) || decide (scause = 13))

/-- The three places where `vmfault` kills the process for an invalid access. -/
def kill_invalid (k : kernel) (va scause : Nat) : Nat × kernel :=
  let k1 := printf k (log_line.KILL_invalid_access va (access_of scause))
  (0, { k1 with p := { k1.p with killed := true } })

/-- The flag `in_heap` of `vmfault`. -/
def in_heap (p : proc) (va : Nat) : Bool :=
  let h := decide (va ≥ p.heap_start) && decide (va < p.stack_bottom)
  if p.stack_top > 0 then h || (decide (va ≥ p.stack_top) && decide (va < PGROUNDUP p.sz))
  else h

/-- The flag `in_stack` of `vmfault`; `PGROUNDDOWN(sp) - PGSIZE` is unsigned. -/
def in_stack (p : proc) (va : Nat) : Bool :=
  let sp := p.trapframe_sp
  let below := (PGROUNDDOWN sp + U64 - PGSIZE) % U64
  if p.stack_top > 0 then
    decide (va ≥ p.stack_bottom) && decide (va < p.stack_top) &&
      (decide (va ≥ below) || decide (sp ≥ p.stack_top))
  else
    decide (va ≥ p.stack_bottom) && decide (va < PGROUNDUP p.sz) &&
      (decide (va ≥ below) || decide (sp ≥ p.sz))

/-- The end of each of the three branches of `vmfault`: map the filled frame
with `perm`, print `line`, and record the descriptor. -/
def vmfault_map (k : kernel) (va scause mem perm : Nat) (line : log_line) : Nat × kernel :=
  let m := mappages k.p.pagetable k.freelist va PGSIZE mem perm
  let k3 := { k with p := { k.p with pagetable := m.2.1 }, freelist := m.2.2 }
  match m.1 with
  | outcome.panic => (0, do_panic k3)
  | outcome.fail => (0, { k3 with freelist := kfree k3.freelist mem })
  | outcome.ok =>
    let k4 := printf k3 line
    let a := add_page_info k4.p va
    match a.1 with
    | none =>
      let u := uvmunmap k4.p.pagetable k4.freelist va 1 true
      let k5 := { k4 with p := { k4.p with pagetable := u.2.1 }, freelist := u.2.2 }
      (0, if u.1 = outcome.panic then do_panic k5 else k5)
    | some pi =>
      let p5 : proc :=
        if is_write scause then
          { a.2 with pages := Function.update a.2.pages pi { a.2.pages pi with dirty := true } }
        else a.2
      (mem, printf { k4 with p := p5 } (log_line.RESIDENT va (p5.pages pi).seq))

/-- The part of `vmfault` after the frame `mem` has been allocated: fill the
frame, map it, and record the descriptor.  `seg` is `seg_index` when
`in_segment` is set; otherwise the page is a heap or a stack page. -/
def vmfault_fill (k : kernel) (va scause mem : Nat) (seg : Option Nat) : Nat × kernel :=
  match seg with
  | some si =>
    let k1 := printf k (log_line.PAGEFAULT va (access_of scause) cause.exec)
    let sg := k1.p.segments si
    let offset_in_seg := va - sg.vaddr
    let file_offset := (sg.off + offset_in_seg) % U64
    let k2 := { k1 with mem := memset_page k1.mem mem }
    if offset_in_seg < sg.filesz then
      let to_read :=
        if (offset_in_seg + PGSIZE) % U64 > sg.filesz then sg.filesz - offset_in_seg
        else PGSIZE
      let r := readi k2.p.exec_inode k2.mem mem file_offset to_read
      let k3 := { k2 with mem := r.2 }
      if r.1 ≠ to_read then (0, { k3 with freelist := kfree k3.freelist mem })
      else vmfault_map k3 va scause mem (sg.perm ||| PTE_U ||| PTE_R) (log_line.LOADEXEC va)
    else vmfault_map k2 va scause mem (sg.perm ||| PTE_U ||| PTE_R) (log_line.LOADEXEC va)
  | none =>
    let c := if in_heap k.p va then cause.heap else cause.stack
    let k1 := printf k (log_line.PAGEFAULT va (access_of scause) c)
    let k2 := { k1 with mem := memset_page k1.mem mem }
    vmfault_map k2 va scause mem (PTE_W ||| PTE_U ||| PTE_R) (log_line.ALLOC va)

/-- The part of `vmfault` from the frame allocation on, reached once the
address has been classified: allocate a frame, evicting one page of the
process and retrying when the allocator is empty, then fill and map it. -/
def vmfault_alloc (k : kernel) (va scause : Nat) (seg : Option Nat) : Nat × kernel :=
  let r := kalloc k.freelist
  if r.1 = 0 then
    let k1 := printf { k with freelist := r.2 } log_line.MEMFULL
    let e := evict_page k1
    if e.2.panicked then (0, e.2)
    else if e.1 = 0 then (0, e.2)
    else
      let r2 := kalloc e.2.freelist
      if r2.1 = 0 then (0, { e.2 with freelist := r2.2 })
      else vmfault_fill { e.2 with freelist := r2.2 } va scause r2.1 seg
  else vmfault_fill { k with freelist := r.2 } va scause r.1 seg

/-- The function `vmfault(pagetable, va, scause)` for the faulting process, called with its
own page table `p->pagetable` as the trap handler and the copy routines do.
The result is the physical address of the page, or 0. -/
def vmfault (k : kernel) (va0 scause : Nat) : Nat × kernel :=
  let va := PGROUNDDOWN va0
  if va ≥ MAXVA then kill_invalid k va scause
  else if ismapped k.p.pagetable va then
    match walk k.p.pagetable va with
    | none => kill_invalid k va scause
    | some e =>
      if e &&& PTE_V = 0 ∨ e &&& PTE_U = 0 then kill_invalid k va scause
      else
        let ok : Bool :=
          if scause = 12 then decide (e &&& PTE_X ≠ 0)
          else if scause = 13 then decide (e &&& PTE_R ≠ 0)
          else decide (e &&& PTE_W ≠ 0)
        if ok = false then kill_invalid k va scause
        else
          let k1 := if is_write scause then { k with p := mark_page_dirty k.p va } else k
          (walkaddr k1.p.pagetable va, k1)
  else
    let swapped_pi : Bool :=
      match find_page_info k.p va with
      | some pi => (k.p.pages pi).swapped
      | none => false
    if swapped_pi then
      let k1 := printf k (log_line.PAGEFAULT va (access_of scause) cause.swap)
      let r := swapin_page k1 va
      if r.2.panicked then (0, r.2)
      else if r.1 < 0 then (0, r.2)
      else
        let k2 := if is_write scause then { r.2 with p := mark_page_dirty r.2.p va } else r.2
        (walkaddr k2.p.pagetable va, k2)
    else
      let seg := find_segment k.p.segments va k.p.nsegments 0
      if seg.isNone ∧ in_heap k.p va = false ∧ in_stack k.p va = false then
        kill_invalid k va scause
      else vmfault_alloc k va scause seg

/-- Value of the entry for `va`, 0 when `walk` finds no leaf table. -/
def pte_at (pagetable : pagetable_t) (va : Nat) : Nat :=
  match walk pagetable va with
  | none => 0
  | some e => e


/-- Loop invariant of the victim scan after the descriptors below `i`. -/
def scan_inv (pages : Nat → page_info) (i : Nat) (victim : Option Nat) (m : Nat) : Prop :=
  match victim with
  | none => m = U64 - 1 ∧ ∀ j, j < i → (pages j).resident = true → U64 - 1 ≤ (pages j).seq
  | some v =>
    v < i ∧ (pages v).resident = true ∧ (pages v).seq = m ∧ m < U64 - 1 ∧
      ∀ j, j < i → (pages j).resident = true → m ≤ (pages j).seq ∧ (j < v → m < (pages j).seq)

/-! ## Concrete states used by the closed examples -/

/-- A page table whose only leaf table covers the first 2 MiB; every entry is 0. -/
def ex_pt : pagetable_t :=
  { pa := 0x87fff000
    sub := fun i =>
      if i = 0 then
        some { pa := 0x87ffe000
               sub := fun j => if j = 0 then some { pa := 0x87ffd000, pte := fun _ => 0 } else none }
      else none }

/-- A descriptor with every field clear. -/
def ex_page : page_info :=
  { va := 0, seq := 0, dirty := false, resident := false, swapped := false, swap_offset := 0 }

/-- An executable of three pages whose byte at offset `o` is `o % 251`. -/
def ex_file : inode := { size := 0x3000, data := fun o => o % 251, limit := 0x3000 }

/-- Two segments: read-only text `[0, 0x1000)` from file offset 0x1000, and
writable data `[0x1000, 0x3000)` with 0x1800 bytes in the file at offset 0x2000
(the rest is BSS). -/
def ex_segments : Nat → prog_segment := fun i =>
  if i = 0 then { vaddr := 0, filesz := 0x1000, memsz := 0x1000, off := 0x1000, perm := PTE_X }
  else { vaddr := 0x1000, filesz := 0x1800, memsz := 0x2000, off := 0x800, perm := PTE_W }

/-- A process just after exec of `ex_file` with one stack page configured:
guard page at 0x3000, stack `[0x4000, 0x5000)`, nothing resident. -/
def ex_proc : proc :=
  { pid := 3, killed := false, sz := 0x5000, pagetable := ex_pt, trapframe_sp := 0x4ff0,
    segments := ex_segments, nsegments := 2,
    pages := fun _ => ex_page, npages := 0,
    swap_slots := fun _ => 0, nswap_slots := 0, swapfile := none,
    exec_inode := ex_file, next_seq := 0,
    heap_start := 0x3000, stack_bottom := 0x4000, stack_top := 0x5000 }

/-- A kernel running `ex_proc` with three free frames and a file system able
to create a swap file of 4 MiB. -/
def ex_kernel : kernel :=
  { p := ex_proc, mem := fun _ => 0,
    freelist := [0x80001000, 0x80002000, 0x80003000],
    fs_create := some { size := 0, data := fun _ => 0, limit := 0x400000 },
    log := [], panicked := false }

/-- The process of `ex_kernel` with one resident page at 0x4000 whose
sequence number is the largest 64-bit value. -/
def sentinel_kernel : kernel :=
  { ex_kernel with
    p := { ex_proc with
      pagetable := pte_store ex_pt 0x4000 (PA2PTE 0x80004000 ||| (PTE_W ||| PTE_U ||| PTE_R) ||| PTE_V)
      pages := fun i => if i = 0 then { ex_page with va := 0x4000, seq := U64 - 1, resident := true }
        else ex_page
      npages := 1 } }

/-- The process of `ex_kernel` with three descriptors: a swapped page with
sequence number 1 and two resident pages with sequence numbers 5 and 2. -/
def c2_fifo_kernel : kernel :=
  { ex_kernel with
    p := { ex_proc with
      pages := fun i =>
        if i = 0 then { ex_page with va := 0x5000, seq := 1, swapped := true }
        else if i = 1 then { ex_page with va := 0x6000, seq := 5, resident := true }
        else { ex_page with va := 0x7000, seq := 2, resident := true }
      npages := 3
      next_seq := 6 } }

/-- The test of the segment loops: `va` lies in `[vaddr, vaddr + memsz)`. -/
def seg_contains (sg : prog_segment) (va : Nat) : Prop :=
  va ≥ sg.vaddr ∧ va < (sg.vaddr + sg.memsz) % U64

instance (sg : prog_segment) (va : Nat) : Decidable (seg_contains sg va) := by
  unfold seg_contains
  exact inferInstance

/-- The state `ex_kernel` with the data page 0x1000 resident and dirty in frame
0x80004000, mapped `W|U|R`. -/
def c3_kernel : kernel :=
  { ex_kernel with
    mem := fun a => if 0x80004000 ≤ a ∧ a < 0x80005000 then a % 7 else 0
    p := { ex_proc with
      pagetable := pte_store ex_pt 0x1000 (PA2PTE 0x80004000 ||| (PTE_W ||| PTE_U ||| PTE_R) ||| PTE_V)
      pages := fun i =>
        if i = 0 then { ex_page with va := 0x1000, seq := 0, resident := true, dirty := true }
        else ex_page
      npages := 1
      next_seq := 1 } }

/-- The state `ex_kernel` with the text page 0 resident and clean in frame 0x80004000,
mapped `X|U|R`, followed by a swapped descriptor of the stack page. -/
def c4_kernel : kernel :=
  { ex_kernel with
    p := { ex_proc with
      pagetable := pte_store ex_pt 0 (PA2PTE 0x80004000 ||| (PTE_X ||| PTE_U ||| PTE_R) ||| PTE_V)
      pages := fun i =>
        if i = 0 then { ex_page with va := 0, seq := 3, resident := true }
        else if i = 1 then { ex_page with va := 0x4000, seq := 1, swapped := true, swap_offset := 0 }
        else ex_page
      npages := 2
      next_seq := 4
      swap_slots := fun w => if w = 0 then 1 else 0
      nswap_slots := 1
      swapfile := some { size := 0x1000, data := fun o => o % 5, limit := 0x400000 } } }

/-- A process under memory pressure: the free list is empty, the clean text
page 0 is resident in frame 0x80004000, and the heap pages 0x5000 and 0x6000
are swapped out to slots 0 and 1, whose bytes in the swap file are 0xAA and
0xBB. -/
def c5_kernel : kernel :=
  { ex_kernel with
    freelist := []
    p := { ex_proc with
      sz := 0x8000
      pagetable := pte_store ex_pt 0 (PA2PTE 0x80004000 ||| (PTE_X ||| PTE_U ||| PTE_R) ||| PTE_V)
      pages := fun i =>
        if i = 0 then { ex_page with va := 0, seq := 3, resident := true }
        else if i = 1 then { ex_page with va := 0x5000, seq := 1, swapped := true, swap_offset := 0 }
        else if i = 2 then { ex_page with va := 0x6000, seq := 2, swapped := true, swap_offset := 1 }
        else ex_page
      npages := 3
      next_seq := 4
      swap_slots := fun w => if w = 0 then 3 else 0
      nswap_slots := 2
      swapfile := some
        { size := 0x2000, data := fun o => if o < 0x1000 then 0xAA else 0xBB, limit := 0x400000 } } }

/-- Modelled from the spec: a user-mode store of the byte `b` at address `a`.
The hardware and the trap handler are not among the sources: the store goes
straight to the frame when the page is mapped valid, user-accessible and
writable; otherwise the trap handler calls `vmfault(a, 15)` and the store is
retried once when that call returned a frame. -/
def user_store (k : kernel) (a b : Nat) : kernel :=
  let e := pte_at k.p.pagetable (PGROUNDDOWN a)
  if e &&& PTE_V ≠ 0 ∧ e &&& PTE_U ≠ 0 ∧ e &&& PTE_W ≠ 0 then
    { k with mem := Function.update k.mem (PTE2PA e + a % PGSIZE) b }
  else
    let r := vmfault k a 15
    if r.1 = 0 then r.2
    else
      let e1 := pte_at r.2.p.pagetable (PGROUNDDOWN a)
      if e1 &&& PTE_V ≠ 0 ∧ e1 &&& PTE_U ≠ 0 ∧ e1 &&& PTE_W ≠ 0 then
        { r.2 with mem := Function.update r.2.mem (PTE2PA e1 + a % PGSIZE) b }
      else (vmfault r.2 a 15).2

/-- The state `ex_kernel` after a load from the writable data page 0x1000: the page has
been brought in from the executable by `vmfault(0x1000, 13)`. -/
def c1_loaded : kernel := (vmfault ex_kernel 0x1000 13).2

/-- The state `c1_loaded` after the user stored the byte 0x5A at 0x1005. -/
def c1_written : kernel := user_store c1_loaded 0x1005 0x5A

/-- The state `c1_written` after `evict_page` evicted the only resident page. -/
def c1_evicted : kernel := (evict_page c1_written).2

/-- The state `c1_loaded` under another name for the mapped-page examples: the data
page 0x1000 is resident, clean and mapped `W|U|R`. -/
def c7_kernel : kernel := c1_loaded

/-- The state `ex_kernel` with the text page 0 resident and mapped `X|U|R`. -/
def c8_kernel : kernel := (vmfault ex_kernel 0 12).2

/-! ## Growing and shrinking the process: `uvmalloc`, `uvmdealloc`, `sys_sbrk` -/

/-- Modelled from the spec: `memlayout.h` is not among the sources; the
trampoline page is the highest page of the user address space. -/
def TRAMPOLINE : Nat := MAXVA - PGSIZE

/-- Modelled from the spec: `memlayout.h` is not among the sources; the
trapframe page lies just below the trampoline. -/
def TRAPFRAME : Nat := TRAMPOLINE - PGSIZE

/-- Modelled from the spec: `vm.h` is not among the sources; the mode argument
of `sbrk` that asks for immediate allocation. -/
def SBRK_EAGER : Int := 1

/-- Modelled from the spec: `vm.h` is not among the sources; the mode argument
of `sbrk` that asks for lazy allocation. -/
def SBRK_LAZY : Int := 2

/-- Number of iterations of `for(a = va; a < va + npages*PGSIZE; a += PGSIZE)`
in `uvmunmap` for a page-aligned `va`, the bound being computed in `uint64`. -/
def unmap_count (va npages : Nat) : Nat := ((va + npages * PGSIZE) % U64 - va) / PGSIZE

/-- The function `uvmdealloc(pagetable, oldsz, newsz)`: the new size, and the page table
and free list after the pages above it have been unmapped and freed.  The
local `npages` is an `int`, widened to `uint64` when passed to `uvmunmap`. -/
def uvmdealloc (pagetable : pagetable_t) (fl : List Nat) (oldsz newsz : Nat) :
    Nat × outcome × pagetable_t × List Nat :=
  if newsz ≥ oldsz then (oldsz, outcome.ok, pagetable, fl)
  else if PGROUNDUP newsz < PGROUNDUP oldsz then
    let d := ((PGROUNDUP oldsz - PGROUNDUP newsz) / PGSIZE) % 2 ^ 32
    let npages := if d < 2 ^ 31 then d else U64 - 2 ^ 32 + d
    (newsz, uvmunmap pagetable fl (PGROUNDUP newsz) (unmap_count (PGROUNDUP newsz) npages) true)
  else (newsz, outcome.ok, pagetable, fl)

/-- The loop of `uvmalloc`: `n` counts the pages still to allocate, `a` is the
next address.  The result is the return value, whether the kernel stopped in
`panic`, the page table, the free list and physical memory. -/
def uvmalloc_loop (xperm oldsz newsz : Nat) :
    Nat → pagetable_t → List Nat → (Nat → Nat) → Nat →
      Nat × outcome × pagetable_t × List Nat × (Nat → Nat)
  | 0, pt, fl, mem, _ => (newsz, outcome.ok, pt, fl, mem)
  | n + 1, pt, fl, mem, a =>
    if a < newsz then
      let r := kalloc fl
      if r.1 = 0 then
        let u := uvmdealloc pt r.2 a oldsz
        (0, u.2.1, u.2.2.1, u.2.2.2, mem)
      else
        let mem1 := memset_page mem r.1
        let m := mappages pt r.2 a PGSIZE r.1 (PTE_R ||| PTE_U ||| xperm)
        match m.1 with
        | outcome.panic => (0, outcome.panic, m.2.1, m.2.2, mem1)
        | outcome.fail =>
          let u := uvmdealloc m.2.1 (kfree m.2.2 r.1) a oldsz
          (0, u.2.1, u.2.2.1, u.2.2.2, mem1)
        | outcome.ok => uvmalloc_loop xperm oldsz newsz n m.2.1 m.2.2 mem1 ((a + PGSIZE) % U64)
    else (newsz, outcome.ok, pt, fl, mem)

/-- The function `uvmalloc(pagetable, oldsz, newsz, xperm)`: the new size, or 0 on error. -/
def uvmalloc (pagetable : pagetable_t) (fl : List Nat) (mem : Nat → Nat)
    (oldsz newsz xperm : Nat) : Nat × outcome × pagetable_t × List Nat × (Nat → Nat) :=
  if newsz < oldsz then (oldsz, outcome.ok, pagetable, fl, mem)
  else
    uvmalloc_loop xperm (PGROUNDUP oldsz) newsz ((newsz - PGROUNDUP oldsz + PGSIZE - 1) / PGSIZE)
      pagetable fl mem (PGROUNDUP oldsz)

/-- Modelled from the spec: `proc.c` is not among the sources.  The function
`growproc(n)` of xv6: grow the process by `n` bytes with `uvmalloc`, refusing a
size above the trapframe, or shrink it with `uvmdealloc`; `sz + n` is computed
in `uint64`.  The result is 0 or -1. -/
def growproc (k : kernel) (n : Int) : Int × kernel :=
  let sz := k.p.sz
  if n > 0 then
    if sz + n.toNat > TRAPFRAME then (-1, k)
    else
      let r := uvmalloc k.p.pagetable k.freelist k.mem sz (sz + n.toNat) PTE_W
      let k1 : kernel :=
        { k with
          p := { k.p with pagetable := r.2.2.1 }
          freelist := r.2.2.2.1
          mem := r.2.2.2.2
          panicked := k.panicked || decide (r.2.1 = outcome.panic) }
      if r.1 = 0 then (-1, k1) else (0, { k1 with p := { k1.p with sz := r.1 } })
  else if n < 0 then
    let r := uvmdealloc k.p.pagetable k.freelist sz ((sz + U64 - (-n).toNat % U64) % U64)
    (0, { k with
      p := { k.p with pagetable := r.2.2.1, sz := r.1 }
      freelist := r.2.2.2
      panicked := k.panicked || decide (r.2.1 = outcome.panic) })
  else (0, k)

/-- The loop of `sys_sbrk` that removes the descriptors of pages at or above
`newsz`: `n` iterations left, index `i`, the table and its length. -/
def sbrk_prune (newsz : Nat) : Nat → Nat → (Nat → page_info) → Nat → (Nat → page_info) × Nat
  | 0, _, pages, npages => (pages, npages)
  | n + 1, i, pages, npages =>
    if i < npages then
      if (pages i).va ≥ newsz then
        sbrk_prune newsz n i (shift_down pages (npages - 1 - i) i) (npages - 1)
      else sbrk_prune newsz n (i + 1) pages npages
    else (pages, npages)

/-- The system call `sys_sbrk` with arguments `n` and `t` (both `int`): the previous size, or
`(uint64)-1`.  Each iteration of the descriptor loop either removes an entry or
moves on, so it runs at most `npages` times. -/
def sys_sbrk (k : kernel) (n t : Int) : Nat × kernel :=
  let addr := k.p.sz
  if t = SBRK_EAGER ∨ n < 0 then
    let g := growproc k n
    if g.2.panicked then (U64 - 1, g.2)
    else if g.1 < 0 then (U64 - 1, g.2)
    else if n < 0 then
      let newsz := g.2.p.sz
      let r := sbrk_prune newsz g.2.p.npages 0 g.2.p.pages g.2.p.npages
      (addr, { g.2 with p := { g.2.p with pages := r.1, npages := r.2 } })
    else (addr, g.2)
  else
    if (addr + n.toNat) % U64 < addr then (U64 - 1, k)
    else if (addr + n.toNat) % U64 > TRAPFRAME then (U64 - 1, k)
    else (addr, { k with p := { k.p with sz := (k.p.sz + n.toNat) % U64 } })

/-! ## Freeing a page table: `freewalk`, `uvmfree` -/

/-- The loop of `freewalk` over a level-0 table: `n` entries left, next index
`i`.  A valid entry with one of `R`, `W`, `X` is a leaf still present: its
frame is freed.  A valid entry with none of them would be followed as a
pointer to a lower table, which a level-0 table does not have; the model
stops there with `panic`. -/
def freewalk_leaf (l : leaf_table) : Nat → Nat → outcome × List Nat → outcome × List Nat
  | 0, _, r => r
  | n + 1, i, r =>
    if l.pte i &&& PTE_V ≠ 0 ∧ l.pte i &&& (PTE_R ||| PTE_W ||| PTE_X) = 0 then
      (outcome.panic, r.2)
    else if l.pte i &&& PTE_V ≠ 0 then
      freewalk_leaf l n (i + 1) (r.1, kfree r.2 (PTE2PA (l.pte i)))
    else freewalk_leaf l n (i + 1) r

/-- The loop of `freewalk` over a level-1 table: each child table is walked
and then freed. -/
def freewalk_dir (d : dir_table) : Nat → Nat → outcome × List Nat → outcome × List Nat
  | 0, _, r => r
  | n + 1, i, r =>
    match d.sub i with
    | none => freewalk_dir d n (i + 1) r
    | some l =>
      let r1 := freewalk_leaf l 512 0 r
      if r1.1 = outcome.panic then r1
      else freewalk_dir d n (i + 1) (r1.1, kfree r1.2 l.pa)

/-- The loop of `freewalk` over the root table. -/
def freewalk_root (pt : pagetable_t) : Nat → Nat → outcome × List Nat → outcome × List Nat
  | 0, _, r => r
  | n + 1, i, r =>
    match pt.sub i with
    | none => freewalk_root pt n (i + 1) r
    | some d =>
      let r1 := freewalk_dir d 512 0 r
      if r1.1 = outcome.panic then r1
      else freewalk_root pt n (i + 1) (r1.1, kfree r1.2 d.pa)

/-- The function `freewalk(pagetable)` on the root table: the free list after every frame
and page-table page reachable from it has been freed. -/
def freewalk (pt : pagetable_t) (fl : List Nat) : outcome × List Nat :=
  let r := freewalk_root pt 512 0 (outcome.ok, fl)
  if r.1 = outcome.panic then r else (outcome.ok, kfree r.2 pt.pa)

/-- The function `uvmfree(pagetable, sz)`. -/
def uvmfree (pt : pagetable_t) (fl : List Nat) (sz : Nat) : outcome × List Nat :=
  let u : outcome × pagetable_t × List Nat :=
    if sz > 0 then uvmunmap pt fl 0 (unmap_count 0 (PGROUNDUP sz / PGSIZE)) true
    else (outcome.ok, pt, fl)
  if u.1 = outcome.panic then (outcome.panic, u.2.2) else freewalk u.2.1 u.2.2

/-- The function `uvmcreate()`: an empty root table, `none` when out of memory. -/
def uvmcreate (fl : List Nat) : Option pagetable_t × List Nat :=
  let r := kalloc fl
  if r.1 = 0 then (none, r.2) else (some { pa := r.1, sub := fun _ => none }, r.2)

/-- Modelled from the spec: `proc.c` is not among the sources.  The function
`proc_pagetable(p)` of xv6: an empty user page table with the trampoline page
mapped `R|X` at `TRAMPOLINE` and the trapframe page mapped `R|W` at `TRAPFRAME`,
neither with `PTE_U`; `none` when a frame is missing.  `trampoline` and
`trapframe` are the physical addresses of the two pages. -/
def proc_pagetable (trampoline trapframe : Nat) (fl : List Nat) :
    Option pagetable_t × outcome × List Nat :=
  match uvmcreate fl with
  | (none, fl1) => (none, outcome.ok, fl1)
  | (some pt, fl1) =>
    let m := mappages pt fl1 TRAMPOLINE PGSIZE trampoline (PTE_R ||| PTE_X)
    match m.1 with
    | outcome.panic => (none, outcome.panic, m.2.2)
    | outcome.fail =>
      let f := uvmfree m.2.1 m.2.2 0
      (none, f.1, f.2)
    | outcome.ok =>
      let m2 := mappages m.2.1 m.2.2 TRAPFRAME PGSIZE trapframe (PTE_R ||| PTE_W)
      match m2.1 with
      | outcome.panic => (none, outcome.panic, m2.2.2)
      | outcome.fail =>
        let u := uvmunmap m2.2.1 m2.2.2 TRAMPOLINE 1 false
        let f := uvmfree u.2.1 u.2.2 0
        (none, if u.1 = outcome.panic then outcome.panic else f.1, f.2)
      | outcome.ok => (some m2.2.1, outcome.ok, m2.2.2)

/-- Modelled from the spec: `proc.c` is not among the sources.  The function
`proc_freepagetable(pagetable, sz)` of xv6: unmap the trampoline and the
trapframe without freeing them, then `uvmfree(pagetable, sz)`. -/
def proc_freepagetable (pt : pagetable_t) (fl : List Nat) (sz : Nat) : outcome × List Nat :=
  let u1 := uvmunmap pt fl TRAMPOLINE 1 false
  if u1.1 = outcome.panic then (outcome.panic, u1.2.2)
  else
    let u2 := uvmunmap u1.2.1 u1.2.2 TRAPFRAME 1 false
    if u2.1 = outcome.panic then (outcome.panic, u2.2.2)
    else uvmfree u2.2.1 u2.2.2 sz

/-! ## Copying to user memory through a given page table

During `kexec` the copy routines and `vmfault` work on the page table under
construction, which is not yet `p->pagetable`, while `evict_page` and
`swapin_page` keep using `p->pagetable`.  The functions below carry that page
table next to the kernel state. -/

/-- The function `is_valid_user_va(p, va)`. -/
def is_valid_user_va (p : proc) (va0 : Nat) : Bool :=
  let va := PGROUNDDOWN va0
  if va ≥ MAXVA then false
  else
    let swapped_pi : Bool :=
      match find_page_info p va with
      | some pi => (p.pages pi).swapped
      | none => false
    if swapped_pi then true
    else if (find_segment p.segments va p.nsegments 0).isSome then true
    else if va ≥ p.heap_start ∧ va < PGROUNDUP p.sz ∧ va < p.stack_bottom then true
    else
      let sp := p.trapframe_sp
      decide (va ≥ p.stack_bottom) && decide (va < PGROUNDUP p.sz) &&
        (decide (va ≥ (PGROUNDDOWN sp + U64 - PGSIZE) % U64) || decide (sp ≥ p.sz))

/-- The end of each of the three branches of `vmfault(pagetable, va, scause)` for a
page table `pt` other than `p->pagetable`; see `vmfault_map`. -/
def vmfault_map_on (k : kernel) (pt : pagetable_t) (va scause mem perm : Nat) (line : log_line) :
    Nat × kernel × pagetable_t :=
  let m := mappages pt k.freelist va PGSIZE mem perm
  let k3 := { k with freelist := m.2.2 }
  match m.1 with
  | outcome.panic => (0, do_panic k3, m.2.1)
  | outcome.fail => (0, { k3 with freelist := kfree k3.freelist mem }, m.2.1)
  | outcome.ok =>
    let k4 := printf k3 line
    let a := add_page_info k4.p va
    match a.1 with
    | none =>
      let u := uvmunmap m.2.1 k4.freelist va 1 true
      let k5 := { k4 with freelist := u.2.2 }
      (0, if u.1 = outcome.panic then do_panic k5 else k5, u.2.1)
    | some pi =>
      let p5 : proc :=
        if is_write scause then
          { a.2 with pages := Function.update a.2.pages pi { a.2.pages pi with dirty := true } }
        else a.2
      (mem, printf { k4 with p := p5 } (log_line.RESIDENT va (p5.pages pi).seq), m.2.1)

/-- The part of `vmfault(pagetable, va, scause)` after the frame has been allocated, for a
page table `pt` other than `p->pagetable`; see `vmfault_fill`. -/
def vmfault_fill_on (k : kernel) (pt : pagetable_t) (va scause mem : Nat) (seg : Option Nat) :
    Nat × kernel × pagetable_t :=
  match seg with
  | some si =>
    let k1 := printf k (log_line.PAGEFAULT va (access_of scause) cause.exec)
    let sg := k1.p.segments si
    let offset_in_seg := va - sg.vaddr
    let file_offset := (sg.off + offset_in_seg) % U64
    let k2 := { k1 with mem := memset_page k1.mem mem }
    if offset_in_seg < sg.filesz then
      let to_read :=
        if (offset_in_seg + PGSIZE) % U64 > sg.filesz then sg.filesz - offset_in_seg
        else PGSIZE
      let r := readi k2.p.exec_inode k2.mem mem file_offset to_read
      let k3 := { k2 with mem := r.2 }
      if r.1 ≠ to_read then (0, { k3 with freelist := kfree k3.freelist mem }, pt)
      else vmfault_map_on k3 pt va scause mem (sg.perm ||| PTE_U ||| PTE_R) (log_line.LOADEXEC va)
    else vmfault_map_on k2 pt va scause mem (sg.perm ||| PTE_U ||| PTE_R) (log_line.LOADEXEC va)
  | none =>
    let c := if in_heap k.p va then cause.heap else cause.stack
    let k1 := printf k (log_line.PAGEFAULT va (access_of scause) c)
    let k2 := { k1 with mem := memset_page k1.mem mem }
    vmfault_map_on k2 pt va scause mem (PTE_W ||| PTE_U ||| PTE_R) (log_line.ALLOC va)

/-- The part of `vmfault(pagetable, va, scause)` from the frame allocation on, for a page
table `pt` other than `p->pagetable`; see `vmfault_alloc`. -/
def vmfault_alloc_on (k : kernel) (pt : pagetable_t) (va scause : Nat) (seg : Option Nat) :
    Nat × kernel × pagetable_t :=
  let r := kalloc k.freelist
  if r.1 = 0 then
    let k1 := printf { k with freelist := r.2 } log_line.MEMFULL
    let e := evict_page k1
    if e.2.panicked then (0, e.2, pt)
    else if e.1 = 0 then (0, e.2, pt)
    else
      let r2 := kalloc e.2.freelist
      if r2.1 = 0 then (0, { e.2 with freelist := r2.2 }, pt)
      else vmfault_fill_on { e.2 with freelist := r2.2 } pt va scause r2.1 seg
  else vmfault_fill_on { k with freelist := r.2 } pt va scause r.1 seg

/-- The function `vmfault(pagetable, va, scause)` called with a page table `pt` other than
`p->pagetable`, as `copyout` does during `kexec`.  The result is the physical
address of the page, or 0, the kernel and the page table `pt`. -/
def vmfault_on (k : kernel) (pt : pagetable_t) (va0 scause : Nat) : Nat × kernel × pagetable_t :=
  let va := PGROUNDDOWN va0
  if va ≥ MAXVA then ((kill_invalid k va scause).1, (kill_invalid k va scause).2, pt)
  else if ismapped pt va then
    match walk pt va with
    | none => ((kill_invalid k va scause).1, (kill_invalid k va scause).2, pt)
    | some e =>
      if e &&& PTE_V = 0 ∨ e &&& PTE_U = 0 then
        ((kill_invalid k va scause).1, (kill_invalid k va scause).2, pt)
      else
        let ok : Bool :=
          if scause = 12 then decide (e &&& PTE_X ≠ 0)
          else if scause = 13 then decide (e &&& PTE_R ≠ 0)
          else decide (e &&& PTE_W ≠ 0)
        if ok = false then ((kill_invalid k va scause).1, (kill_invalid k va scause).2, pt)
        else
          let k1 := if is_write scause then { k with p := mark_page_dirty k.p va } else k
          (walkaddr pt va, k1, pt)
  else
    let swapped_pi : Bool :=
      match find_page_info k.p va with
      | some pi => (k.p.pages pi).swapped
      | none => false
    if swapped_pi then
      let k1 := printf k (log_line.PAGEFAULT va (access_of scause) cause.swap)
      let r := swapin_page k1 va
      if r.2.panicked then (0, r.2, pt)
      else if r.1 < 0 then (0, r.2, pt)
      else
        let k2 := if is_write scause then { r.2 with p := mark_page_dirty r.2.p va } else r.2
        (walkaddr pt va, k2, pt)
    else
      let seg := find_segment k.p.segments va k.p.nsegments 0
      if seg.isNone ∧ in_heap k.p va = false ∧ in_stack k.p va = false then
        ((kill_invalid k va scause).1, (kill_invalid k va scause).2, pt)
      else vmfault_alloc_on k pt va scause seg

/-- The call `memmove((void*)dst, src, n)` from a kernel buffer, given as the list of
its bytes, to physical memory. -/
def memmove_in (mem : Nat → Nat) (dst : Nat) (src : List Nat) (n : Nat) : Nat → Nat :=
  fun a => if dst ≤ a ∧ a < dst + n then src.getD (a - dst) 0 else mem a

/-- The loop of `copyout`: `n + 1` iterations are left when `len > 0`; the
number of iterations is the number of pages the destination range touches. -/
def copyout_loop : Nat → kernel → pagetable_t → Nat → List Nat → Nat → Int × kernel × pagetable_t
  | 0, k, pt, _, _, _ => (0, k, pt)
  | n + 1, k, pt, dstva, src, len =>
    if len = 0 then (0, k, pt)
    else
      let va0 := PGROUNDDOWN dstva
      if va0 ≥ MAXVA then (-1, k, pt)
      else
        let pa := walkaddr pt va0
        let f : Nat × kernel × pagetable_t :=
          if pa = 0 then
            if is_valid_user_va k.p va0 = false then (0, k, pt)
            else vmfault_on k pt va0 15
          else (pa, k, pt)
        if f.2.1.panicked then (-1, f.2.1, f.2.2)
        else if f.1 = 0 then (-1, f.2.1, f.2.2)
        else
          match walk f.2.2 va0 with
          | none => (-1, do_panic f.2.1, f.2.2)
          | some e =>
            if e &&& PTE_W = 0 then (-1, f.2.1, f.2.2)
            else
              let c := if PGSIZE - (dstva - va0) > len then len else PGSIZE - (dstva - va0)
              let k1 := { f.2.1 with mem := memmove_in f.2.1.mem (f.1 + (dstva - va0)) src c }
              copyout_loop n k1 f.2.2 (va0 + PGSIZE) (src.drop c) (len - c)

/-- The function `copyout(pagetable, dstva, src, len)` on a page table `pt` other than
`p->pagetable`: 0 on success, -1 on error.  A null `pte` after a successful
lookup would be dereferenced; the model records that as `panic`. -/
def copyout (k : kernel) (pt : pagetable_t) (dstva : Nat) (src : List Nat) (len : Nat) :
    Int × kernel × pagetable_t :=
  copyout_loop ((dstva % PGSIZE + len + PGSIZE - 1) / PGSIZE) k pt dstva src len

/-! ## `exec.c` -/

/-- Modelled from the spec: `elf.h` is not among the sources; the magic number
of an ELF file, `"\x7FELF"` in little endian. -/
def ELF_MAGIC : Nat := 0x464C457F

/-- Modelled from the spec: `elf.h` is not among the sources; the type of a
loadable program header. -/
def ELF_PROG_LOAD : Nat := 1

/-- Modelled from the spec: `param.h` is not among the sources; the largest
number of arguments of exec. -/
def MAXARG : Nat := 32

/-- Modelled from the spec: `elf.h` is not among the sources.  The fields of a
program header (`struct proghdr`) that `kexec` reads. -/
structure proghdr where
  type : Nat
  flags : Nat
  off : Nat
  vaddr : Nat
  filesz : Nat
  memsz : Nat

/-- Modelled from the spec: the file system and the ELF format are external.
What `namei` and `readi` deliver for the path given to exec: the inode, whether
the read of the ELF header was complete, the header fields `kexec` uses, and
the program header read at each index (`none` when that read comes back
short). -/
structure exec_file where
  ip : inode
  elf_read : Bool
  magic : Nat
  entry : Nat
  phnum : Nat
  ph : Nat → Option proghdr

/-- The function `flags2perm(flags)`. -/
def flags2perm (flags : Nat) : Nat :=
  let perm := if flags &&& 0x1 ≠ 0 then PTE_X else 0
  if flags &&& 0x2 ≠ 0 then perm ||| PTE_W else perm

/-- The program-header loop of `kexec`: `n` headers left, next index `i`, the
process and the local `sz`.  The Boolean is false when the loop leaves with
`goto bad`. -/
def exec_segments (f : exec_file) : Nat → Nat → proc → Nat → Bool × proc × Nat
  | 0, _, p, sz => (true, p, sz)
  | n + 1, i, p, sz =>
    match f.ph i with
    | none => (false, p, sz)
    | some ph =>
      if ph.type ≠ ELF_PROG_LOAD then exec_segments f n (i + 1) p sz
      else if ph.memsz < ph.filesz then (false, p, sz)
      else if (ph.vaddr + ph.memsz) % U64 < ph.vaddr then (false, p, sz)
      else if ph.vaddr % PGSIZE ≠ 0 then (false, p, sz)
      else if p.nsegments ≥ 8 then (false, p, sz)
      else
        let p1 : proc :=
          { p with
            segments := Function.update p.segments p.nsegments
              { vaddr := ph.vaddr, filesz := ph.filesz, memsz := ph.memsz, off := ph.off,
                perm := flags2perm ph.flags }
            nsegments := p.nsegments + 1 }
        exec_segments f n (i + 1) p1
          (if (ph.vaddr + ph.memsz) % U64 > sz then (ph.vaddr + ph.memsz) % U64 else sz)

/-- The two scans of `kexec` for the segment printed as text or data: the
first of the `n` segments from index `i` that passes `test`. -/
def first_seg (segments : Nat → prog_segment) (test : prog_segment → Bool) :
    Nat → Nat → Option Nat
  | 0, _ => none
  | n + 1, i => if test (segments i) then some i else first_seg segments test n (i + 1)

/-- The label `bad` of `kexec` once the new page table exists: free it and
return -1. -/
def exec_bad (k : kernel) (pt : pagetable_t) (sz : Nat) : Int × kernel :=
  let f := proc_freepagetable pt k.freelist sz
  (-1, { k with freelist := f.2, panicked := k.panicked || decide (f.1 = outcome.panic) })

/-- State of the argument loop of `kexec`: whether it is still running (false
after `goto bad`), `argc`, `sp`, the array `ustack`, the kernel and the new
page table. -/
structure exec_args_state where
  ok : Bool
  argc : Nat
  sp : Nat
  ustack : List Nat
  k : kernel
  pt : pagetable_t

/-- The argument loop of `kexec`.  Each argument is the list of the bytes of
the string before its terminating 0; lengths are passed on as `uint64`. -/
def exec_args (stackbase : Nat) : List (List Nat) → exec_args_state → exec_args_state
  | [], s => s
  | a :: rest, s =>
    if s.argc ≥ MAXARG then { s with ok := false }
    else
      let sp1 := (s.sp + U64 - (a.length + 1) % U64) % U64
      let sp2 := sp1 - sp1 % 16
      if sp2 < stackbase then { s with ok := false, sp := sp2 }
      else
        let c := copyout s.k s.pt sp2 (a ++ [0]) ((a.length + 1) % U64)
        if c.2.1.panicked ∨ c.1 < 0 then { s with ok := false, sp := sp2, k := c.2.1, pt := c.2.2 }
        else
          exec_args stackbase rest
            { s with argc := s.argc + 1, sp := sp2, ustack := s.ustack ++ [sp2],
                     k := c.2.1, pt := c.2.2 }

/-- The eight bytes of a `uint64` in memory, least significant first. -/
def le64 (x : Nat) : List Nat := (List.range 8).map (fun i => x / 256 ^ i % 256)

/-- The part of `kexec` from the argument loop to the end: copy the arguments
and `ustack`, create the swap file, commit to the new image and free the old
page table.  `sz` is the local `sz`, `oldsz` the size of the old image. -/
def exec_commit (k : kernel) (pt : pagetable_t) (sz stackbase oldsz : Nat)
    (argv : List (List Nat)) : Int × kernel :=
  let a := exec_args stackbase argv
    { ok := true, argc := 0, sp := sz, ustack := [], k := k, pt := pt }
  if a.k.panicked then (-1, a.k)
  else if a.ok = false then exec_bad a.k a.pt sz
  else
    let sp1 := (a.sp + U64 - ((a.argc + 1) * 8) % U64) % U64
    let sp2 := sp1 - sp1 % 16
    if sp2 < stackbase then exec_bad a.k a.pt sz
    else
      let c := copyout a.k a.pt sp2 ((a.ustack ++ [0]).flatMap le64) (((a.argc + 1) * 8) % U64)
      if c.2.1.panicked then (-1, c.2.1)
      else if c.1 < 0 then exec_bad c.2.1 c.2.2 sz
      else
        let s := create_swapfile c.2.1
        let k2 : kernel := if s.1 < 0 then { s.2 with p := { s.2.p with swapfile := none } } else s.2
        let fr := proc_freepagetable k2.p.pagetable k2.freelist oldsz
        ((a.argc : Int),
          { k2 with
            p := { k2.p with pagetable := c.2.2, sz := sz, trapframe_sp := sp2 }
            freelist := fr.2
            panicked := k2.panicked || decide (fr.1 = outcome.panic) })

/-- The part of `kexec` after the program-header loop: log the layout, keep
the executable, lay out guard page and stack above `sz0`, map the initial
stack page and record its descriptor, then `exec_commit`. -/
def exec_stack (USERSTACK : Nat) (k : kernel) (pt : pagetable_t) (f : exec_file) (sz0 : Nat)
    (argv : List (List Nat)) : Int × kernel :=
  let text := first_seg k.p.segments (fun sg => decide (sg.perm &&& PTE_X ≠ 0)) k.p.nsegments 0
  let data := first_seg k.p.segments
    (fun sg => decide (sg.perm &&& PTE_W ≠ 0) && !decide (sg.perm &&& PTE_X ≠ 0)) k.p.nsegments 0
  let lo := fun (o : Option Nat) => match o with
    | some i => (k.p.segments i).vaddr
    | none => 0
  let hi := fun (o : Option Nat) => match o with
    | some i => ((k.p.segments i).vaddr + (k.p.segments i).memsz) % U64
    | none => 0
  let k3 := printf k (log_line.INIT_LAZYMAP (lo text) (hi text) (lo data) (hi data) sz0
    ((sz0 + USERSTACK * PGSIZE + PGSIZE) % U64))
  let oldsz := k3.p.sz
  let sz1 := PGROUNDUP sz0
  let k5 : kernel := { k3 with p := { k3.p with exec_inode := f.ip, heap_start := sz1 } }
  let sz := (sz1 + (USERSTACK + 1) * PGSIZE) % U64
  if sz1 ≥ MAXVA then (-1, do_panic k5)
  else
    let w := walk_alloc pt k5.freelist sz1
    if w.1 = false then exec_bad { k5 with freelist := w.2.2 } w.2.1 sz
    else
      let pt1 := pte_store w.2.1 sz1 0
      let stackbase := (sz + U64 - (USERSTACK * PGSIZE) % U64) % U64
      let k6 : kernel :=
        { k5 with freelist := w.2.2, p := { k5.p with stack_bottom := stackbase, stack_top := sz } }
      let r := kalloc k6.freelist
      if r.1 = 0 then exec_bad { k6 with freelist := r.2 } pt1 sz
      else
        let k7 : kernel := { k6 with freelist := r.2, mem := memset_page k6.mem r.1 }
        let m := mappages pt1 k7.freelist (PGROUNDDOWN stackbase) PGSIZE r.1
          (PTE_W ||| PTE_R ||| PTE_U)
        match m.1 with
        | outcome.panic => (-1, do_panic { k7 with freelist := m.2.2 })
        | outcome.fail => exec_bad { k7 with freelist := kfree m.2.2 r.1 } m.2.1 sz
        | outcome.ok =>
          let k8 : kernel := { k7 with freelist := m.2.2 }
          let p9 : proc :=
            if k8.p.npages < MAX_SWAP_PAGES then
              { k8.p with
                pages := Function.update k8.p.pages k8.p.npages
                  { va := PGROUNDDOWN stackbase, seq := k8.p.next_seq, dirty := false,
                    swapped := false, swap_offset := 0, resident := true }
                next_seq := (k8.p.next_seq + 1) % U64
                npages := k8.p.npages + 1 }
            else k8.p
          exec_commit { k8 with p := p9 } m.2.1 sz stackbase oldsz argv

/-- The function `kexec(path, argv)` for the current process.  `file` is what `namei(path)`
finds (`none` for the null pointer), `USERSTACK` the number of stack pages
(`param.h` is not among the sources), `trampoline` and `trapframe` the frames
`proc_pagetable` maps.  The result is `argc`, or -1. -/
def kexec (USERSTACK trampoline trapframe : Nat) (k : kernel) (file : Option exec_file)
    (argv : List (List Nat)) : Int × kernel :=
  match file with
  | none => (-1, k)
  | some f =>
    if f.elf_read = false then (-1, k)
    else if f.magic ≠ ELF_MAGIC then (-1, k)
    else
      let pp := proc_pagetable trampoline trapframe k.freelist
      match pp.1 with
      | none =>
        (-1, { k with
          freelist := pp.2.2
          panicked := k.panicked || decide (pp.2.1 = outcome.panic) })
      | some pt =>
        let k1 : kernel :=
          { k with
            freelist := pp.2.2
            p := { k.p with nsegments := 0, npages := 0, next_seq := 0 } }
        let h := exec_segments f f.phnum 0 k1.p 0
        let k2 : kernel := { k1 with p := h.2.1 }
        if h.1 = false then exec_bad k2 pt h.2.2
        else exec_stack USERSTACK k2 pt f h.2.2 argv

/-! ## Concrete executables and states for the examples of exec -/

/-- The two loadable program headers of `ex_file`, matching `ex_segments`: flags
`R|X` (5) for the text and `R|W` (6) for the data. -/
def ex_headers : Nat → Option proghdr := fun i =>
  if i = 0 then
    some { type := ELF_PROG_LOAD, flags := 5, off := 0x1000, vaddr := 0, filesz := 0x1000,
           memsz := 0x1000 }
  else
    some { type := ELF_PROG_LOAD, flags := 6, off := 0x800, vaddr := 0x1000, filesz := 0x1800,
           memsz := 0x2000 }

/-- The executable `ex_file` as exec sees it: a good ELF header and two loadable
program headers. -/
def ex_exec_file : exec_file :=
  { ip := ex_file, elf_read := true, magic := ELF_MAGIC, entry := 0, phnum := 2, ph := ex_headers }

/-- An empty descriptor of a segment. -/
def no_segment : prog_segment := { vaddr := 0, filesz := 0, memsz := 0, off := 0, perm := 0 }

/-- A process that has not run exec yet: an empty page table and no paging
metadata, with twelve free frames in the kernel. -/
def boot_kernel : kernel :=
  { p := { pid := 3, killed := false, sz := 0, pagetable := { pa := 0x87fff000, sub := fun _ => none },
           trapframe_sp := 0, segments := fun _ => no_segment, nsegments := 0,
           pages := fun _ => ex_page, npages := 0,
           swap_slots := fun _ => 0, nswap_slots := 0, swapfile := none,
           exec_inode := { size := 0, data := fun _ => 0, limit := 0 }, next_seq := 0,
           heap_start := 0, stack_bottom := 0, stack_top := 0 }
    mem := fun _ => 0
    freelist := [0x80001000, 0x80002000, 0x80003000, 0x80004000, 0x80005000, 0x80006000,
      0x80007000, 0x80008000, 0x80009000, 0x8000a000, 0x8000b000, 0x8000c000]
    fs_create := some { size := 0, data := fun _ => 0, limit := 0x400000 }
    log := [], panicked := false }

/-- Physical address of the trampoline page in the examples. -/
def ex_trampoline : Nat := 0x80000000

/-- Physical address of the trapframe page of the process in the examples. -/
def ex_trapframe : Nat := 0x87f00000

/-- The state `boot_kernel` after a successful `kexec` of `ex_exec_file` with one stack page
and no arguments. -/
def exec_done : kernel :=
  (kexec 1 ex_trampoline ex_trapframe boot_kernel (some ex_exec_file) []).2

/-- The kernel `boot_kernel` with six free frames, as many as exec needs: after exec the free
list holds the root of the old page table and nothing else. -/
def tight_kernel : kernel :=
  { boot_kernel with
    freelist := [0x80001000, 0x80002000, 0x80003000, 0x80004000, 0x80005000, 0x80006000] }

/-- The state `tight_kernel` after a successful `kexec` of `ex_exec_file` with one stack page. -/
def tight_done : kernel :=
  (kexec 1 ex_trampoline ex_trapframe tight_kernel (some ex_exec_file) []).2

/-- One call of the operations that change the paging state of a process
after exec: a page fault, an eviction, a swap-in, or `sbrk`. -/
inductive paging_step : kernel → kernel → Prop where
  | vmfault (k : kernel) (va scause : Nat) : paging_step k (vmfault k va scause).2
  | evict_page (k : kernel) : paging_step k (evict_page k).2
  | swapin_page (k : kernel) (va : Nat) : paging_step k (swapin_page k va).2
  | sys_sbrk (k : kernel) (n t : Int) : paging_step k (sys_sbrk k n t).2

/-- The states reachable from `k0` through `vmfault`, `evict_page`,
`swapin_page` and `sys_sbrk`. -/
inductive reachable (k0 : kernel) : kernel → Prop where
  | start : reachable k0 k0
  | step (k k' : kernel) : reachable k0 k → paging_step k k' → reachable k0 k'

/-- The states reachable from `k0` through the same calls when no call makes
the 64-bit counter `next_seq` wrap around. -/
inductive reachable_nowrap (k0 : kernel) : kernel → Prop where
  | start : reachable_nowrap k0 k0
  | step (k k' : kernel) : reachable_nowrap k0 k → paging_step k k' →
      k.p.next_seq ≤ k'.p.next_seq → reachable_nowrap k0 k'

/-- The state `tight_done` after a store to the data page 0x1000, a store to the data page
0x2000, an eviction, a load from 0x1000, and another eviction: the stack page
and 0x2000 are in swap, 0x1000 has been swapped out and in again and is resident
and clean, one frame is free. -/
def c18_evicted : kernel :=
  (evict_page (vmfault (evict_page (vmfault (vmfault tight_done 0x1000 15).2 0x2000 15).2).2
    0x1000 13).2).2

/-- The state `c18_evicted` after a load from the stack page 0x4000, which takes the last free
frame. -/
def c18_full : kernel := (vmfault c18_evicted 0x4000 13).2

/-- The state `c18_full` after a load from the swapped page 0x2000. -/
def c18_state : kernel := (vmfault c18_full 0x2000 13).2

/-- The state `exec_done` after a lazy `sbrk` of two pages, a store to the heap page 0x6000
and two evictions: the stack page and 0x6000 are in swap slots 0 and 1. -/
def c19_swapped : kernel :=
  (evict_page (evict_page (vmfault (sys_sbrk exec_done 0x2000 SBRK_LAZY).2 0x6000 15).2).2).2

/-- The state `c19_swapped` after `sbrk` shrank the process by one page. -/
def c19_state : kernel := (sys_sbrk c19_swapped (-0x1000) SBRK_LAZY).2

/-- An executable whose second loadable header has `memsz < filesz`. -/
def c12_bad_file : exec_file :=
  { ip := { size := 0x9000, data := fun _ => 0, limit := 0x9000 }
    elf_read := true, magic := ELF_MAGIC, entry := 0, phnum := 2
    ph := fun i =>
      if i = 0 then
        some { type := ELF_PROG_LOAD, flags := 5, off := 0x1000, vaddr := 0, filesz := 0x1000,
               memsz := 0x5000 }
      else
        some { type := ELF_PROG_LOAD, flags := 6, off := 0x2000, vaddr := 0x5000, filesz := 0x2000,
               memsz := 0x1000 } }

/-- A well-formed executable with one loadable segment `[0, 0x5000)`. -/
def c12_good_file : exec_file :=
  { ip := { size := 0x9000, data := fun _ => 0, limit := 0x9000 }
    elf_read := true, magic := ELF_MAGIC, entry := 0, phnum := 1
    ph := fun _ =>
      some { type := ELF_PROG_LOAD, flags := 5, off := 0x1000, vaddr := 0, filesz := 0x1000,
             memsz := 0x5000 } }

/-- The state `exec_done` with five free frames left: enough for the page-table pages of
a new image, not for its stack page. -/
def c12_low_mem : kernel := { exec_done with freelist := exec_done.freelist.take 5 }

/-- Number of slots marked used in the swap bitmap of a process. -/
def used_slots (p : proc) : Nat :=
  ((List.range MAX_SWAP_PAGES).filter
    (fun i => decide (p.swap_slots (i / 32) &&& (1 <<< (i % 32)) ≠ 0))).length

/-- Number of descriptors in `pages[0..npages)` with `swapped` set. -/
def swapped_count (p : proc) : Nat :=
  ((List.range p.npages).filter (fun i => (p.pages i).swapped)).length

/-! ## The descriptor table as the operations change it -/

/-- The descriptor table of a process: the array `pages`, its length `npages`
and the counter `next_seq`. -/
structure dtab where
  pages : Nat → page_info
  npages : Nat
  next_seq : Nat

/-- The descriptor table of `p`. -/
def dt (p : proc) : dtab := { pages := p.pages, npages := p.npages, next_seq := p.next_seq }

/-- The fields of a process that describe its image and are fixed between
exec and `sbrk`: segments, landmarks, executable, size, `sp` and pid. -/
def img (p : proc) :
    (Nat → prog_segment) × Nat × Nat × Nat × Nat × inode × Nat × Nat × Nat :=
  (p.segments, p.nsegments, p.heap_start, p.stack_bottom, p.stack_top, p.exec_inode, p.sz,
    p.trapframe_sp, p.pid)

/-- The changes the code makes to a descriptor table `d`, `run d m d'` counting
the `m` sequence numbers handed out on the way from `d` to `d'`: a store to
one descriptor that keeps its `seq` and either keeps `resident` and `swapped`
or marks it swapped out (`set`), the removal of a descriptor by shifting the
table down (`remove`), a new descriptor at the end as `add_page_info` and
`kexec` make it (`append`), and the stores of `swapin_page` through its
descriptor pointer (`refresh`). -/
inductive run (d : dtab) : Nat → dtab → Prop where
  | refl : run d 0 d
  | set (m : Nat) (d' : dtab) (i : Nat) (e : page_info) : run d m d' →
      e.seq = (d'.pages i).seq →
      ((e.resident = (d'.pages i).resident ∧ e.swapped = (d'.pages i).swapped) ∨
        (e.resident = false ∧ e.swapped = true)) →
      run d m { d' with pages := Function.update d'.pages i e }
  | remove (m : Nat) (d' : dtab) (i : Nat) : run d m d' → i < d'.npages →
      run d m
        { d' with
          pages := shift_down d'.pages (d'.npages - 1 - i) i
          npages := d'.npages - 1 }
  | append (m : Nat) (d' : dtab) (va : Nat) : run d m d' →
      run d (m + 1)
        { pages := Function.update d'.pages d'.npages
            { va := va, seq := d'.next_seq, dirty := false, swapped := false,
              swap_offset := 0, resident := true }
          npages := d'.npages + 1
          next_seq := (d'.next_seq + 1) % U64 }
  | refresh (m : Nat) (d' : dtab) (i : Nat) : run d m d' →
      run d (m + 1)
        { pages := Function.update d'.pages i
            { d'.pages i with resident := true, seq := d'.next_seq, dirty := false,
                              swapped := false }
          npages := d'.npages
          next_seq := (d'.next_seq + 1) % U64 }

/-- The relation between a process before and after a call that hands out `m`
sequence numbers and leaves the image alone. -/
def evolves (m : Nat) (p q : proc) : Prop := run (dt p) m (dt q) ∧ img q = img p

/-- Every descriptor in `pages[0..npages)` has exactly one of `resident` and
`swapped` set. -/
def resident_xor_swapped (d : dtab) : Prop :=
  ∀ i, i < d.npages → ((d.pages i).resident = true ↔ (d.pages i).swapped = false)

/-- The sequence numbers of the descriptors in `pages[0..npages)` are pairwise
distinct and below `next_seq`, a 64-bit value. -/
def seq_inv (d : dtab) : Prop :=
  d.next_seq < U64 ∧ (∀ i, i < d.npages → (d.pages i).seq < d.next_seq) ∧
    ∀ i j, i < d.npages → j < d.npages → i ≠ j → (d.pages i).seq ≠ (d.pages j).seq

/-- The relation `evolves` with at most `n` sequence numbers handed out. -/
def evolves_le (n : Nat) (p q : proc) : Prop := ∃ m, m ≤ n ∧ evolves m p q

/-- The checks `kexec` makes on a loadable program header: `memsz >= filesz`,
`vaddr + memsz` does not wrap, and `vaddr` is page-aligned. -/
def header_ok (ph : proghdr) : Prop :=
  ph.filesz ≤ ph.memsz ∧ ph.vaddr ≤ (ph.vaddr + ph.memsz) % U64 ∧ ph.vaddr % PGSIZE = 0

/-- The segment `kexec` records for a loadable program header. -/
def seg_of (ph : proghdr) : prog_segment :=
  { vaddr := ph.vaddr, filesz := ph.filesz, memsz := ph.memsz, off := ph.off,
    perm := flags2perm ph.flags }

/-- The loadable program headers among the `n` headers from index `i`, in
file order; a header whose read comes back short is not counted. -/
def loads (f : exec_file) (i n : Nat) : List proghdr :=
  (List.range' i n).filterMap (fun j =>
    match f.ph j with
    | some ph => if ph.type = ELF_PROG_LOAD then some ph else none
    | none => none)

/-- An executable with one loadable segment `[0, 0x2801)`, which does not end on a
page boundary. -/
def c13_file : exec_file :=
  { ip := { size := 0x4000, data := fun _ => 0, limit := 0x4000 }
    elf_read := true, magic := ELF_MAGIC, entry := 0, phnum := 1
    ph := fun _ =>
      some { type := ELF_PROG_LOAD, flags := 7, off := 0x1000, vaddr := 0, filesz := 0x2000,
             memsz := 0x2801 } }

/-- Every valid entry of a level-0 table carries one of `R`, `W`, `X`, so that
`freewalk` takes it for a leaf. -/
def leaves_ok (pt : pagetable_t) : Prop :=
  ∀ i d j l x, pt.sub i = some d → d.sub j = some l → l.pte x &&& PTE_V ≠ 0 →
    l.pte x &&& (PTE_R ||| PTE_W ||| PTE_X) ≠ 0

/-- The state `c19_swapped` after another successful exec of `ex_file`. -/
def c19_reexec : kernel :=
  (kexec 1 ex_trampoline ex_trapframe c19_swapped (some ex_exec_file) []).2

/-- The state `boot_kernel` after an exec of `ex_file` when the file system has room for one
page of swap only. -/
def c19_small_swap : kernel :=
  (kexec 1 ex_trampoline ex_trapframe
    { boot_kernel with fs_create := some { size := 0, data := fun _ => 0, limit := 0x1000 } }
    (some ex_exec_file) []).2

/-- The state `c19_small_swap` after a store to the data page 0x1000 and two evictions: the
first writes the stack page to slot 0, the second allocates slot 1 for 0x1000 and
fails to write it. -/
def c19_write_failed : kernel :=
  (evict_page (evict_page (vmfault c19_small_swap 0x1000 15).2).2).2

/-- The state `exec_done` after a store to the guard page 0x3000. -/
def c21_state : kernel := (vmfault exec_done 0x3000 15).2

/-- The state `ex_kernel` after a store fault on the data page 0x1000 and the store of the
byte 0x5A at 0x1005: the page is resident, dirty and holds the byte. -/
def c27_written : kernel := user_store (vmfault ex_kernel 0x1000 15).2 0x1005 0x5A

/-- The state `c27_written` after the page has been evicted to swap and read back by a
load from 0x1000. -/
def c27_swapped_in : kernel := (vmfault (evict_page c27_written).2 0x1000 13).2

/-- The state `c27_swapped_in` after another eviction and another load from 0x1000. -/
def c27_reloaded : kernel := (vmfault (evict_page c27_swapped_in).2 0x1000 13).2

/-- An executable whose only loadable segment is `[0, MAXVA)`. -/
def c30_file : exec_file :=
  { ip := { size := 0x2000, data := fun _ => 0, limit := 0x2000 }
    elf_read := true, magic := ELF_MAGIC, entry := 0, phnum := 1
    ph := fun _ =>
      some { type := ELF_PROG_LOAD, flags := 5, off := 0x1000, vaddr := 0, filesz := 0x1000,
             memsz := MAXVA } }

/-- An executable whose only loadable segment ends at `TRAPFRAME - PGSIZE`: the guard
page is the page below the trapframe page and, with one stack page, the stack
page is the trapframe page. -/
def c30_remap_file : exec_file :=
  { ip := { size := 0x2000, data := fun _ => 0, limit := 0x2000 }
    elf_read := true, magic := ELF_MAGIC, entry := 0, phnum := 1
    ph := fun _ =>
      some { type := ELF_PROG_LOAD, flags := 5, off := 0x1000, vaddr := 0, filesz := 0x1000,
             memsz := TRAPFRAME - PGSIZE } }

/-- The state `c19_small_swap` after a store to the data page 0x1000 and one eviction: the
stack page is in slot 0 of the swap file, which has no room for another page. -/
def c25_before : kernel := (evict_page (vmfault c19_small_swap 0x1000 15).2).2

/-- Whether `vmfault` goes on to bring in the page `va` (page-aligned, below
`MAXVA`, not mapped) instead of killing the process: the page has a swapped
descriptor, or lies in a segment, in the heap or in the stack, in the terms of
`vmfault`. -/
def vmfault_accepts (p : proc) (va : Nat) : Bool :=
  (match find_page_info p va with
    | some pi => (p.pages pi).swapped
    | none => false) ||
  (find_segment p.segments va p.nsegments 0).isSome || in_heap p va || in_stack p va

/-! ## `sys_memstat` -/

/-- Modelled from the spec: `memstat.h` is not among the sources; the three
states of a page record. -/
inductive page_state where
  | UNMAPPED
  | RESIDENT
  | SWAPPED
  deriving DecidableEq, Repr

/-- Modelled from the spec: `memstat.h` is not among the sources.  One per-page
record of `struct proc_mem_stat`, with the fields `sys_memstat` assigns. -/
structure page_stat where
  va : Nat
  state : page_state
  is_dirty : Bool
  seq : Nat
  swap_slot : Int
  deriving DecidableEq

/-- Modelled from the spec: `memstat.h` is not among the sources.  The structure
`struct proc_mem_stat` with the fields `sys_memstat` assigns; the array `pages` is
the list of its first `i` records, the counters are values before any
narrowing to the field types. -/
structure proc_mem_stat where
  pid : Nat
  num_pages_total : Nat
  num_resident_pages : Nat
  num_swapped_pages : Nat
  next_fifo_seq : Nat
  pages : List page_stat

/-- The first loop of `sys_memstat`, over the descriptors: `n` iterations left, index `i`. -/
def memstat_known (MAX_PAGES_INFO : Nat) (p : proc) : Nat → Nat → proc_mem_stat → proc_mem_stat
  | 0, _, st => st
  | n + 1, i, st =>
    if i < p.npages ∧ i < MAX_PAGES_INFO then
      let d := p.pages i
      let st1 : proc_mem_stat :=
        if d.resident then
          { st with
            pages := st.pages ++
              [{ va := d.va, state := page_state.RESIDENT, is_dirty := d.dirty, seq := d.seq,
                 swap_slot := -1 }]
            num_resident_pages := st.num_resident_pages + 1 }
        else if d.swapped then
          { st with
            pages := st.pages ++
              [{ va := d.va, state := page_state.SWAPPED, is_dirty := d.dirty, seq := d.seq,
                 swap_slot := (d.swap_offset : Int) }]
            num_swapped_pages := st.num_swapped_pages + 1 }
        else
          { st with
            pages := st.pages ++
              [{ va := d.va, state := page_state.UNMAPPED, is_dirty := d.dirty, seq := d.seq,
                 swap_slot := -1 }] }
      memstat_known MAX_PAGES_INFO p n (i + 1) st1
    else st

/-- The second loop of `sys_memstat`, which fills the remaining records with the
pages below `sz` that have no descriptor: `n` iterations left, next address
`page_va`; the index `i` is the number of records so far. -/
def memstat_unmapped (MAX_PAGES_INFO : Nat) (p : proc) : Nat → Nat → proc_mem_stat → proc_mem_stat
  | 0, _, st => st
  | n + 1, page_va, st =>
    if st.pages.length < MAX_PAGES_INFO ∧ page_va < p.sz then
      if (find_page_info p page_va).isNone then
        memstat_unmapped MAX_PAGES_INFO p n ((page_va + PGSIZE) % U64)
          { st with
            pages := st.pages ++
              [{ va := page_va, state := page_state.UNMAPPED, is_dirty := false, seq := 0,
                 swap_slot := -1 }] }
      else memstat_unmapped MAX_PAGES_INFO p n ((page_va + PGSIZE) % U64) st
    else st

/-- The structure `st` that `sys_memstat` has filled when it calls `copyout`, for the
process `p`.  `MAX_PAGES_INFO` is the length of the record array (`memstat.h` is not
among the sources).  The first loop runs at most `npages` times; the second
adds a record or passes a page that has a descriptor, at most
`MAX_PAGES_INFO + npages` times while `page_va` does not wrap.  The copy of the
structure to user space depends on its layout and is left out. -/
def sys_memstat (MAX_PAGES_INFO : Nat) (p : proc) : proc_mem_stat :=
  let st0 : proc_mem_stat :=
    { pid := p.pid, num_pages_total := PGROUNDUP p.sz / PGSIZE, num_resident_pages := 0,
      num_swapped_pages := 0, next_fifo_seq := p.next_seq, pages := [] }
  memstat_unmapped MAX_PAGES_INFO p (MAX_PAGES_INFO + p.npages) 0
    (memstat_known MAX_PAGES_INFO p p.npages 0 st0)

/-- Number of descriptors in `pages[0..npages)` with `resident` set. -/
def resident_count (p : proc) : Nat :=
  ((List.range p.npages).filter (fun i => (p.pages i).resident)).length

/-- A process with 130 descriptors, for the pages `0x10000 + i * 0x1000`: the first 100
swapped out to the slots `0..99`, the last 30 resident. -/
def c22_proc : proc :=
  { ex_proc with
    sz := 0x100000
    pages := fun i =>
      if i < 100 then
        { va := 0x10000 + i * 0x1000, seq := i, dirty := true, resident := false,
          swapped := true, swap_offset := i }
      else
        { va := 0x10000 + i * 0x1000, seq := i, dirty := true, resident := true,
          swapped := false, swap_offset := 0 }
    npages := 130
    next_seq := 130 }

/-! ## Copying an address space: `uvmcopy` -/

/-- The call `memmove((void*)dst, (void*)src, n)` between two ranges of physical memory that
do not overlap. -/
def memmove (mem : Nat → Nat) (dst src n : Nat) : Nat → Nat :=
  fun a => if dst ≤ a ∧ a < dst + n then mem (src + (a - dst)) else mem a

/-- The label `err` of `uvmcopy`: unmap and free the pages copied so far; the result is
the return value -1, or `panic`. -/
def uvmcopy_err (new : pagetable_t) (fl : List Nat) (mem : Nat → Nat) (i : Nat) :
    outcome × pagetable_t × List Nat × (Nat → Nat) :=
  let u := uvmunmap new fl 0 (unmap_count 0 (i / PGSIZE)) true
  (if u.1 = outcome.panic then outcome.panic else outcome.fail, u.2.1, u.2.2, mem)

/-- The loop of `uvmcopy`: `n` iterations left, next address `i`.  The table `old` is
only read.  An address at or above `MAXVA` stops the kernel in the `panic` of
`walk`, so `i + PGSIZE` does not wrap. -/
def uvmcopy_loop (old : pagetable_t) (sz : Nat) :
    Nat → pagetable_t → List Nat → (Nat → Nat) → Nat →
      outcome × pagetable_t × List Nat × (Nat → Nat)
  | 0, new, fl, mem, _ => (outcome.ok, new, fl, mem)
  | n + 1, new, fl, mem, i =>
    if i < sz then
      if i ≥ MAXVA then (outcome.panic, new, fl, mem)
      else
        match walk old i with
        | none => uvmcopy_loop old sz n new fl mem (i + PGSIZE)
        | some e =>
          if e &&& PTE_V = 0 then uvmcopy_loop old sz n new fl mem (i + PGSIZE)
          else
            let r := kalloc fl
            if r.1 = 0 then uvmcopy_err new r.2 mem i
            else
              let mem1 := memmove mem r.1 (PTE2PA e) PGSIZE
              let m := mappages new r.2 i PGSIZE r.1 (PTE_FLAGS e)
              match m.1 with
              | outcome.panic => (outcome.panic, m.2.1, m.2.2, mem1)
              | outcome.fail => uvmcopy_err m.2.1 (kfree m.2.2 r.1) mem1 i
              | outcome.ok => uvmcopy_loop old sz n m.2.1 m.2.2 mem1 (i + PGSIZE)
    else (outcome.ok, new, fl, mem)

/-- The function `uvmcopy(old, new, sz)`: `ok` is the return value 0, `fail` the return
value -1; with it the table `new`, the free list and physical memory after
the call.  The loop runs once for each page below `sz`. -/
def uvmcopy (old new : pagetable_t) (fl : List Nat) (mem : Nat → Nat) (sz : Nat) :
    outcome × pagetable_t × List Nat × (Nat → Nat) :=
  uvmcopy_loop old sz ((sz + PGSIZE - 1) / PGSIZE) new fl mem 0

/-- An empty page table for the child of the examples. -/
def c24_new : pagetable_t := { pa := 0x87000000, sub := fun _ => none }

/-- The free frames of the examples of `uvmcopy`. -/
def c24_frames : List Nat := [0x80010000, 0x80011000, 0x80012000, 0x80013000, 0x80014000]

/-- The result of `uvmcopy` from the page table of `c1_written`, where the data page
0x1000 is mapped and holds the byte 0x5A at offset 5, to `c24_new`. -/
def c24_copy : outcome × pagetable_t × List Nat × (Nat → Nat) :=
  uvmcopy c1_written.p.pagetable c24_new c24_frames c1_written.mem 0x5000

/-- The state after the page faults `(va, scause)` of the list, taken in order. -/
def after_faults : kernel → List (Nat × Nat) → kernel
  | k, [] => k
  | k, f :: rest => after_faults (vmfault k f.1 f.2).2 rest

/-- Whether every page fault of the list, taken in order, is resolved: `vmfault` returns
a frame each time. -/
def faults_resolved : kernel → List (Nat × Nat) → Bool
  | _, [] => true
  | k, f :: rest => decide ((vmfault k f.1 f.2).1 ≠ 0) && faults_resolved (vmfault k f.1 f.2).2 rest

/-- The state `tight_done` after a lazy `sbrk` of three pages: `sz = 0x8000`, the heap
pages 0x5000, 0x6000 and 0x7000 can be faulted in.  The process has the frame of
its stack page and one free frame. -/
def tight_grown : kernel := (sys_sbrk tight_done 0x3000 SBRK_LAZY).2

/-- The state `tight_grown` after stores to the data page 0x1000, the heap page 0x5000 and the
data page 0x2000, and loads from 0x1000 and from the stack page 0x4000: the
descriptors are those of 0x4000 (resident), 0x1000 (resident, swapped in and
clean), 0x5000 (slot 2) and 0x2000 (slot 1); no frame is free. -/
def c4_full : kernel :=
  after_faults tight_grown [(0x1000, 15), (0x5000, 15), (0x2000, 15), (0x1000, 13), (0x4000, 13)]

/-- The state `c4_full` after a load from the swapped heap page 0x5000 and a fetch from the
text page 0. -/
def c4_stuck : kernel := after_faults c4_full [(0x5000, 13), (0, 12)]

/-- The state `tight_grown` after stores to the data page 0x1000 and the heap pages 0x7000
and 0x5000, and loads from 0x1000 and from the stack page 0x4000: the descriptors
are those of 0x4000 (resident), 0x1000 (resident, swapped in and clean), 0x7000
(slot 2) and 0x5000 (slot 1); no frame is free. -/
def c3_full : kernel :=
  after_faults tight_grown [(0x1000, 15), (0x7000, 15), (0x5000, 15), (0x1000, 13), (0x4000, 13)]

/-- The state `c3_full` after a load from the swapped heap page 0x7000 and stores to the heap
pages 0x5000 and 0x6000. -/
def c3_twice : kernel := after_faults c3_full [(0x7000, 13), (0x5000, 15), (0x6000, 15)]

/-- The state `c3_twice` after `sbrk` shrank the process by one page, which frees the frame
of 0x7000, and a load from 0x5000. -/
def c3_dup : kernel := (vmfault (sys_sbrk c3_twice (-0x1000) SBRK_LAZY).2 0x5000 13).2

/-- An executable whose first loadable header, `[0, MAXVA + PGSIZE)`, passes the three
checks of the header loop and whose second loadable header has `memsz < filesz`. -/
def c11_file : exec_file :=
  { ip := { size := 0x9000, data := fun _ => 0, limit := 0x9000 }
    elf_read := true, magic := ELF_MAGIC, entry := 0, phnum := 2
    ph := fun i =>
      if i = 0 then
        some { type := ELF_PROG_LOAD, flags := 5, off := 0x1000, vaddr := 0, filesz := 0x1000,
               memsz := MAXVA + PGSIZE }
      else
        some { type := ELF_PROG_LOAD, flags := 6, off := 0x2000, vaddr := 0x5000, filesz := 0x2000,
               memsz := 0x1000 } }

/-! ## The copy routines on the process's own page table -/

/-- An executable whose only loadable segment is `[0, 2^64 - 1)`, readable and writable
(flags 6): the header passes the three checks of the header loop, and
`PGROUNDUP` of its end is 0 in 64-bit arithmetic. -/
def c14_file : exec_file :=
  { ip := { size := 0x2000, data := fun _ => 0, limit := 0x2000 }
    elf_read := true, magic := ELF_MAGIC, entry := 0, phnum := 1
    ph := fun _ =>
      some { type := ELF_PROG_LOAD, flags := 6, off := 0x1000, vaddr := 0, filesz := 0x1000,
             memsz := U64 - 1 } }

/-! ## Lemmas on entries and page tables -/

theorem and_flag_ne_zero (x i : Nat) : x &&& 2 ^ i ≠ 0 ↔ x.testBit i = true := by
  rw [Nat.and_two_pow]
  cases h : x.testBit i <;> simp

theorem and_flag_eq_zero (x i : Nat) : x &&& 2 ^ i = 0 ↔ x.testBit i = false := by
  rw [Nat.and_two_pow]
  cases h : x.testBit i <;> simp

theorem testBit_PA2PTE_low (pa i : Nat) (h : i < 10) : (PA2PTE pa).testBit i = false := by
  unfold PA2PTE
  rw [Nat.testBit_shiftLeft]
  simp; omega

theorem testBit_high (x i j : Nat) (hx : x < 2 ^ i) (hij : i ≤ j) : x.testBit j = false :=
  Nat.testBit_lt_two_pow (lt_of_lt_of_le hx (Nat.pow_le_pow_right (by norm_num : 0 < 2) hij))

theorem testBit_aligned (pa i : Nat) (hpa : pa % PGSIZE = 0) (h : i < 12) :
    pa.testBit i = false := by
  have h0 : pa % 2 ^ 12 = 0 := hpa
  have h3 := Nat.testBit_mod_two_pow pa 12 i
  rw [h0] at h3
  simp [h] at h3
  exact h3

theorem PTE2PA_map (pa perm : Nat) (hpa : pa % PGSIZE = 0) (hperm : perm < 1024) :
    PTE2PA (PA2PTE pa ||| perm ||| PTE_V) = pa := by
  apply Nat.eq_of_testBit_eq
  intro i
  unfold PTE2PA PA2PTE PTE_V
  simp only [Nat.testBit_shiftLeft, Nat.testBit_shiftRight, Nat.testBit_lor]
  by_cases h : i ≥ 12
  · have h1 : perm.testBit (10 + (i - 12)) = false := testBit_high perm 10 _ hperm (by omega)
    have h2 : (1 : Nat).testBit (10 + (i - 12)) = false :=
      testBit_high 1 10 _ (by norm_num) (by omega)
    simp [h, h1, h2]
  · simp [h]
    exact (testBit_aligned pa i hpa (by omega))

theorem PTE_FLAGS_map (pa perm : Nat) (hperm : perm < 1024) :
    PTE_FLAGS (PA2PTE pa ||| perm ||| PTE_V) = perm ||| PTE_V := by
  apply Nat.eq_of_testBit_eq
  intro i
  unfold PTE_FLAGS PTE_V
  have hm : (0x3FF : Nat) = 2 ^ 10 - 1 := by norm_num
  rw [hm, Nat.and_pow_two_sub_one_eq_mod, Nat.testBit_mod_two_pow]
  simp only [Nat.testBit_lor]
  by_cases h : i < 10
  · simp [h, testBit_PA2PTE_low pa i h]
  · have h1 : perm.testBit i = false := testBit_high perm 10 _ hperm (by omega)
    have h2 : (1 : Nat).testBit i = false := testBit_high 1 10 _ (by norm_num) (by omega)
    simp [h, h1, h2]

theorem map_and_flag (pa perm i : Nat) (h : i < 10) :
    (PA2PTE pa ||| perm ||| PTE_V) &&& 2 ^ i = (perm ||| PTE_V) &&& 2 ^ i := by
  rw [Nat.and_two_pow, Nat.and_two_pow]
  simp [Nat.testBit_lor, testBit_PA2PTE_low pa i h]

theorem map_valid (pa perm : Nat) : (PA2PTE pa ||| perm ||| PTE_V) &&& PTE_V ≠ 0 := by
  have := (and_flag_ne_zero (PA2PTE pa ||| perm ||| PTE_V) 0)
  simp only [pow_zero] at this
  show (PA2PTE pa ||| perm ||| PTE_V) &&& 1 ≠ 0
  rw [this]
  simp [Nat.testBit_lor, PTE_V]

theorem PX_inj (a b : Nat) (ha : a < 2 ^ 39) (hb : b < 2 ^ 39)
    (ha0 : a % PGSIZE = 0) (hb0 : b % PGSIZE = 0)
    (h2 : PX 2 a = PX 2 b) (h1 : PX 1 a = PX 1 b) (h0 : PX 0 a = PX 0 b) : a = b := by
  unfold PX at h2 h1 h0
  unfold PGSIZE at ha0 hb0
  norm_num at h2 h1 h0 ha hb
  omega

theorem walk_pte_store_same (pt : pagetable_t) (va v e : Nat) (h : walk pt va = some e) :
    walk (pte_store pt va v) va = some v := by
  unfold walk at h
  unfold pte_store walk
  cases h2 : pt.sub (PX 2 va) with
  | none => simp [h2] at h
  | some d =>
    cases h1 : d.sub (PX 1 va) with
    | none => simp [h2, h1] at h
    | some l => simp [h1]

theorem pte_store_of_none (pt : pagetable_t) (va v : Nat) (h : walk pt va = none) :
    pte_store pt va v = pt := by
  unfold walk at h
  unfold pte_store
  cases h2 : pt.sub (PX 2 va) with
  | none => rfl
  | some d =>
    cases h1 : d.sub (PX 1 va) with
    | none => simp [h1]
    | some l => simp [h2, h1] at h

theorem pte_at_pte_store_same (pt : pagetable_t) (va v : Nat) (h : walk pt va ≠ none) :
    pte_at (pte_store pt va v) va = v := by
  cases hw : walk pt va with
  | none => exact absurd hw h
  | some e => simp [pte_at, walk_pte_store_same pt va v e hw]

theorem walk_pte_store_other (pt : pagetable_t) (va va' v : Nat)
    (hne : ¬(PX 2 va = PX 2 va' ∧ PX 1 va = PX 1 va' ∧ PX 0 va = PX 0 va')) :
    walk (pte_store pt va v) va' = walk pt va' := by
  cases h2 : pt.sub (PX 2 va) with
  | none => simp [pte_store, h2]
  | some d =>
    cases h1 : d.sub (PX 1 va) with
    | none => simp [pte_store, h2, h1]
    | some l =>
      simp only [pte_store, h2, h1, walk]
      by_cases e2 : PX 2 va' = PX 2 va
      · rw [e2, Function.update_same, h2]
        simp only
        by_cases e1 : PX 1 va' = PX 1 va
        · have e0 : PX 0 va' ≠ PX 0 va := fun e0 => hne ⟨e2.symm, e1.symm, e0.symm⟩
          rw [e1, Function.update_same, h1]
          simp only [Function.update_noteq e0]
        · rw [Function.update_noteq e1]
      · rw [Function.update_noteq e2]

theorem walk_walk_alloc (pt : pagetable_t) (fl : List Nat) (va va' : Nat) :
    walk (walk_alloc pt fl va).2.1 va' = walk pt va' ∨
      (walk pt va' = none ∧ walk (walk_alloc pt fl va).2.1 va' = some 0) ∨
      (walk pt va' = none ∧ walk (walk_alloc pt fl va).2.1 va' = none) := by
  cases h2 : pt.sub (PX 2 va) with
  | some d =>
    cases h1 : d.sub (PX 1 va) with
    | some l => simp [walk_alloc, h2, h1]
    | none =>
      simp only [walk_alloc, h2, h1]
      by_cases hk : (kalloc fl).1 = 0
      · simp [hk]
      · simp only [hk, if_false, walk]
        by_cases e2 : PX 2 va' = PX 2 va
        · rw [e2, Function.update_same, h2]
          simp only
          by_cases e1 : PX 1 va' = PX 1 va
          · rw [e1, Function.update_same, h1]
            simp
          · rw [Function.update_noteq e1]
            simp
        · rw [Function.update_noteq e2]
          simp
  | none =>
    simp only [walk_alloc, h2]
    by_cases hk : (kalloc fl).1 = 0
    · simp [hk]
    · simp only [hk, if_false]
      by_cases hk2 : (kalloc (kalloc fl).2).1 = 0
      · simp only [hk2, if_true, walk]
        by_cases e2 : PX 2 va' = PX 2 va
        · rw [e2, Function.update_same, h2]
          simp
        · rw [Function.update_noteq e2]
          simp
      · simp only [hk2, if_false, walk]
        by_cases e2 : PX 2 va' = PX 2 va
        · rw [e2, Function.update_same, h2]
          simp only
          by_cases e1 : PX 1 va' = PX 1 va
          · rw [e1, Function.update_same]
            simp
          · rw [Function.update_noteq e1]
            simp
        · rw [Function.update_noteq e2]
          simp

theorem pte_at_walk_alloc (pt : pagetable_t) (fl : List Nat) (va va' : Nat) :
    pte_at (walk_alloc pt fl va).2.1 va' = pte_at pt va' := by
  unfold pte_at
  rcases walk_walk_alloc pt fl va va' with h | ⟨h1, h2⟩ | ⟨h1, h2⟩
  · rw [h]
  · rw [h1, h2]
  · rw [h1, h2]

theorem walk_walk_alloc_ok (pt : pagetable_t) (fl : List Nat) (va : Nat)
    (h : (walk_alloc pt fl va).1 = true) :
    ∃ e, walk (walk_alloc pt fl va).2.1 va = some e := by
  cases h2 : pt.sub (PX 2 va) with
  | some d =>
    cases h1 : d.sub (PX 1 va) with
    | some l => simp [walk_alloc, walk, h2, h1]
    | none =>
      simp only [walk_alloc, h2, h1] at h ⊢
      by_cases hk : (kalloc fl).1 = 0
      · simp [hk] at h
      · simp [hk, walk]
  | none =>
    simp only [walk_alloc, h2] at h ⊢
    by_cases hk : (kalloc fl).1 = 0
    · simp [hk] at h
    · by_cases hk2 : (kalloc (kalloc fl).2).1 = 0
      · simp [hk, hk2] at h
      · simp [hk, hk2, walk]

theorem victim_scan_inv (pages : Nat → page_info) (n : Nat) :
    ∀ (i : Nat) (victim : Option Nat) (m : Nat), scan_inv pages i victim m →
      ∃ m', scan_inv pages (i + n) (victim_scan pages n i victim m) m' := by
  induction n with
  | zero => intro i victim m h; exact ⟨m, h⟩
  | succ n ih =>
    intro i victim m h
    unfold victim_scan
    have hidx : i + (n + 1) = (i + 1) + n := by omega
    rw [hidx]
    by_cases hc : (pages i).resident = true ∧ (pages i).seq < m
    · rw [if_pos hc]
      apply ih
      cases victim with
      | none =>
        obtain ⟨hm, hall⟩ := h
        refine ⟨by omega, hc.1, rfl, by omega, ?_⟩
        intro j hj hr
        by_cases hji : j = i
        · subst hji; exact ⟨le_refl _, fun h => absurd h (lt_irrefl _)⟩
        · have := hall j (by omega) hr
          exact ⟨by omega, fun _ => by omega⟩
      | some v =>
        obtain ⟨hv, hrv, hsv, hm, hall⟩ := h
        refine ⟨by omega, hc.1, rfl, by omega, ?_⟩
        intro j hj hr
        by_cases hji : j = i
        · subst hji; exact ⟨le_refl _, fun h => absurd h (lt_irrefl _)⟩
        · have := (hall j (by omega) hr).1
          exact ⟨by omega, fun _ => by omega⟩
    · rw [if_neg hc]
      apply ih
      cases victim with
      | none =>
        obtain ⟨hm, hall⟩ := h
        refine ⟨hm, ?_⟩
        intro j hj hr
        by_cases hji : j = i
        · subst hji
          have : ¬ (pages j).seq < m := fun h => hc ⟨hr, h⟩
          omega
        · exact hall j (by omega) hr
      | some v =>
        obtain ⟨hv, hrv, hsv, hm, hall⟩ := h
        refine ⟨by omega, hrv, hsv, hm, ?_⟩
        intro j hj hr
        by_cases hji : j = i
        · subst hji
          have : ¬ (pages j).seq < m := fun h => hc ⟨hr, h⟩
          exact ⟨by omega, fun h => by omega⟩
        · exact hall j (by omega) hr

theorem evict_victim_inv (p : proc) : ∃ m, scan_inv p.pages p.npages (evict_victim p) m := by
  have h := victim_scan_inv p.pages p.npages 0 none (U64 - 1)
    ⟨rfl, fun j hj => absurd hj (Nat.not_lt_zero j)⟩
  simpa [evict_victim] using h

theorem evict_victim_some (p : proc) (vi : Nat) (h : evict_victim p = some vi) :
    vi < p.npages ∧ (p.pages vi).resident = true ∧ (p.pages vi).seq < U64 - 1 ∧
      ∀ j, j < p.npages → (p.pages j).resident = true →
        (p.pages vi).seq ≤ (p.pages j).seq ∧ (j < vi → (p.pages vi).seq < (p.pages j).seq) := by
  obtain ⟨m, hm⟩ := evict_victim_inv p
  rw [h] at hm
  obtain ⟨hv, hrv, hsv, hlt, hall⟩ := hm
  subst hsv
  exact ⟨hv, hrv, hlt, hall⟩

theorem evict_victim_none (p : proc) (h : evict_victim p = none) :
    ∀ j, j < p.npages → (p.pages j).resident = true → U64 - 1 ≤ (p.pages j).seq := by
  obtain ⟨m, hm⟩ := evict_victim_inv p
  rw [h] at hm
  exact hm.2

/-! ## Lemmas on the scans -/

theorem find_from_some (pages : Nat → page_info) (va : Nat) (n : Nat) :
    ∀ (i j : Nat), find_from pages va n i = some j →
      i ≤ j ∧ j < i + n ∧ (pages j).va = va ∧ ∀ l, i ≤ l → l < j → (pages l).va ≠ va := by
  induction n with
  | zero => intro i j h; simp [find_from] at h
  | succ n ih =>
    intro i j h
    unfold find_from at h
    by_cases hc : (pages i).va = va
    · rw [if_pos hc] at h
      injection h with h
      subst h
      exact ⟨le_refl _, by omega, hc, fun l h1 h2 => by omega⟩
    · rw [if_neg hc] at h
      obtain ⟨h1, h2, h3, h4⟩ := ih (i + 1) j h
      refine ⟨by omega, by omega, h3, ?_⟩
      intro l hl1 hl2
      by_cases hli : l = i
      · subst hli; exact hc
      · exact h4 l (by omega) hl2

theorem find_from_none (pages : Nat → page_info) (va : Nat) (n : Nat) :
    ∀ (i : Nat), find_from pages va n i = none →
      ∀ l, i ≤ l → l < i + n → (pages l).va ≠ va := by
  induction n with
  | zero => intro i _ l h1 h2; omega
  | succ n ih =>
    intro i h l h1 h2
    unfold find_from at h
    by_cases hc : (pages i).va = va
    · rw [if_pos hc] at h; exact absurd h (by simp)
    · rw [if_neg hc] at h
      by_cases hli : l = i
      · subst hli; exact hc
      · exact ih (i + 1) h l (by omega) (by omega)

theorem find_from_first (pages : Nat → page_info) (va : Nat) (n : Nat) :
    ∀ (i j : Nat), i ≤ j → j < i + n → (pages j).va = va →
      (∀ l, i ≤ l → l < j → (pages l).va ≠ va) → find_from pages va n i = some j := by
  induction n with
  | zero => intro i j h1 h2; omega
  | succ n ih =>
    intro i j h1 h2 h3 h4
    unfold find_from
    by_cases hji : j = i
    · subst hji; rw [if_pos h3]
    · rw [if_neg (h4 i (le_refl _) (by omega))]
      exact ih (i + 1) j (by omega) (by omega) h3 (fun l hl1 hl2 => h4 l (by omega) hl2)

theorem find_from_congr (pages pages' : Nat → page_info) (va : Nat) (n : Nat) :
    ∀ (i : Nat), (∀ l, i ≤ l → l < i + n → (pages' l).va = (pages l).va) →
      find_from pages' va n i = find_from pages va n i := by
  induction n with
  | zero => intro i _; rfl
  | succ n ih =>
    intro i h
    unfold find_from
    rw [h i (le_refl _) (by omega), ih (i + 1) (fun l h1 h2 => h l (by omega) (by omega))]

theorem find_segment_some (segments : Nat → prog_segment) (va : Nat) (n : Nat) :
    ∀ (i j : Nat), find_segment segments va n i = some j →
      i ≤ j ∧ j < i + n ∧
        (va ≥ (segments j).vaddr ∧ va < ((segments j).vaddr + (segments j).memsz) % U64) ∧
        ∀ l, i ≤ l → l < j →
          ¬(va ≥ (segments l).vaddr ∧ va < ((segments l).vaddr + (segments l).memsz) % U64) := by
  induction n with
  | zero => intro i j h; simp [find_segment] at h
  | succ n ih =>
    intro i j h
    unfold find_segment at h
    by_cases hc : va ≥ (segments i).vaddr ∧ va < ((segments i).vaddr + (segments i).memsz) % U64
    · rw [if_pos hc] at h
      injection h with h
      subst h
      exact ⟨le_refl _, by omega, hc, fun l h1 h2 => by omega⟩
    · rw [if_neg hc] at h
      obtain ⟨h1, h2, h3, h4⟩ := ih (i + 1) j h
      refine ⟨by omega, by omega, h3, ?_⟩
      intro l hl1 hl2
      by_cases hli : l = i
      · subst hli; exact hc
      · exact h4 l (by omega) hl2

theorem find_segment_none (segments : Nat → prog_segment) (va : Nat) (n : Nat) :
    ∀ (i : Nat), find_segment segments va n i = none ↔
      ∀ l, i ≤ l → l < i + n →
        ¬(va ≥ (segments l).vaddr ∧ va < ((segments l).vaddr + (segments l).memsz) % U64) := by
  induction n with
  | zero => intro i; simp [find_segment]; intro l h1 h2; omega
  | succ n ih =>
    intro i
    unfold find_segment
    by_cases hc : va ≥ (segments i).vaddr ∧ va < ((segments i).vaddr + (segments i).memsz) % U64
    · rw [if_pos hc]
      constructor
      · intro h; exact absurd h (by simp)
      · intro h; exact absurd hc (h i (le_refl _) (by omega))
    · rw [if_neg hc, ih (i + 1)]
      constructor
      · intro h l h1 h2
        by_cases hli : l = i
        · subst hli; exact hc
        · exact h l (by omega) (by omega)
      · intro h l h1 h2
        exact h l (by omega) (by omega)

theorem shift_down_eq (n : Nat) :
    ∀ (pages : Nat → page_info) (i j : Nat),
      shift_down pages n i j = if i ≤ j ∧ j < i + n then pages (j + 1) else pages j := by
  induction n with
  | zero =>
    intro pages i j
    rw [if_neg (by omega)]
    rfl
  | succ n ih =>
    intro pages i j
    unfold shift_down
    rw [ih]
    by_cases h1 : i + 1 ≤ j ∧ j < i + 1 + n
    · rw [if_pos h1, if_pos (by omega), Function.update_noteq (by omega)]
    · rw [if_neg h1]
      by_cases h2 : j = i
      · subst h2; rw [Function.update_same, if_pos (by omega)]
      · rw [Function.update_noteq h2, if_neg (by omega)]

theorem first_clear_some (slots : Nat → Nat) (n : Nat) :
    ∀ (i j : Nat), first_clear slots n i = some j →
      i ≤ j ∧ j < i + n ∧ slots (j / 32) &&& (1 <<< (j % 32)) = 0 ∧
        ∀ l, i ≤ l → l < j → slots (l / 32) &&& (1 <<< (l % 32)) ≠ 0 := by
  induction n with
  | zero => intro i j h; simp [first_clear] at h
  | succ n ih =>
    intro i j h
    unfold first_clear at h
    by_cases hc : slots (i / 32) &&& (1 <<< (i % 32)) = 0
    · rw [if_pos hc] at h
      injection h with h
      subst h
      exact ⟨le_refl _, by omega, hc, fun l h1 h2 => by omega⟩
    · rw [if_neg hc] at h
      obtain ⟨h1, h2, h3, h4⟩ := ih (i + 1) j h
      refine ⟨by omega, by omega, h3, ?_⟩
      intro l hl1 hl2
      by_cases hli : l = i
      · subst hli; exact hc
      · exact h4 l (by omega) hl2

/-! ## Lemmas on `mappages` of one page -/

theorem pte_at_pte_store_other (pt : pagetable_t) (a b v : Nat)
    (ha : a < MAXVA) (hb : b < MAXVA) (ha0 : a % PGSIZE = 0) (hb0 : b % PGSIZE = 0)
    (hne : a ≠ b) : pte_at (pte_store pt a v) b = pte_at pt b := by
  unfold pte_at
  rw [walk_pte_store_other]
  intro h
  have hM : MAXVA < 2 ^ 39 := by unfold MAXVA; norm_num
  exact hne (PX_inj a b (by omega) (by omega) ha0 hb0 h.1 h.2.1 h.2.2)

theorem mappages_one (pt : pagetable_t) (fl : List Nat) (va pa perm : Nat)
    (hva : va % PGSIZE = 0) (hlt : va < MAXVA) (hinv : pte_at pt va &&& PTE_V = 0)
    (hw : (walk_alloc pt fl va).1 = true) :
    mappages pt fl va PGSIZE pa perm =
      (outcome.ok, pte_store (walk_alloc pt fl va).2.1 va (PA2PTE pa ||| perm ||| PTE_V),
        (walk_alloc pt fl va).2.2) := by
  obtain ⟨e, he⟩ := walk_walk_alloc_ok pt fl va hw
  have hpe : pte_at (walk_alloc pt fl va).2.1 va = e := by simp [pte_at, he]
  rw [pte_at_walk_alloc] at hpe
  rw [hpe] at hinv
  have hM : MAXVA < U64 := by unfold MAXVA U64; norm_num
  have hlast : (va + PGSIZE + U64 - PGSIZE) % U64 = va := by
    have : va + PGSIZE + U64 - PGSIZE = va + U64 := by omega
    rw [this, Nat.add_mod_right, Nat.mod_eq_of_lt (by omega)]
  have h1 : PGSIZE / PGSIZE = 1 := by unfold PGSIZE; norm_num
  unfold mappages
  rw [if_neg (by simp [hva]), if_neg (by simp), if_neg (by unfold PGSIZE; norm_num), h1, hlast]
  unfold mappages_loop
  rw [if_neg (by omega)]
  simp only [hw, he, hinv]
  simp

theorem mappages_fail (pt : pagetable_t) (fl : List Nat) (va pa perm : Nat)
    (hva : va % PGSIZE = 0) (hlt : va < MAXVA) (hw : (walk_alloc pt fl va).1 = false) :
    mappages pt fl va PGSIZE pa perm =
      (outcome.fail, (walk_alloc pt fl va).2.1, (walk_alloc pt fl va).2.2) := by
  have h1 : PGSIZE / PGSIZE = 1 := by unfold PGSIZE; norm_num
  unfold mappages
  rw [if_neg (by simp [hva]), if_neg (by simp), if_neg (by unfold PGSIZE; norm_num), h1]
  unfold mappages_loop
  rw [if_neg (by omega)]
  simp [hw]

theorem PGROUNDDOWN_aligned (a : Nat) : PGROUNDDOWN a % PGSIZE = 0 := by
  unfold PGROUNDDOWN; exact Nat.mul_mod_left _ _

theorem PGROUNDDOWN_le (a : Nat) : PGROUNDDOWN a ≤ a := by
  unfold PGROUNDDOWN; exact Nat.div_mul_le_self a PGSIZE

theorem PGROUNDDOWN_of_aligned (a : Nat) (h : a % PGSIZE = 0) : PGROUNDDOWN a = a := by
  unfold PGROUNDDOWN; exact Nat.div_mul_cancel (Nat.dvd_of_mod_eq_zero h)

/-! ## C2: FIFO victim selection -/

theorem evict_page_of_no_victim (k : kernel) (h : evict_victim k.p = none) :
    evict_page k = (0, k) := by
  simp [evict_page, h]

@[simp] theorem printf_p (k : kernel) (l : log_line) : (printf k l).p = k.p := rfl
@[simp] theorem printf_mem (k : kernel) (l : log_line) : (printf k l).mem = k.mem := rfl
@[simp] theorem printf_freelist (k : kernel) (l : log_line) :
    (printf k l).freelist = k.freelist := rfl
@[simp] theorem printf_fs_create (k : kernel) (l : log_line) :
    (printf k l).fs_create = k.fs_create := rfl
@[simp] theorem printf_panicked (k : kernel) (l : log_line) :
    (printf k l).panicked = k.panicked := rfl
@[simp] theorem printf_log (k : kernel) (l : log_line) : (printf k l).log = k.log ++ [l] := rfl

theorem evict_page_ret (k : kernel) (h : (evict_page k).1 ≠ 0) :
    ∃ vi, evict_victim k.p = some vi ∧
      (evict_page k).1 = PTE2PA (pte_at k.p.pagetable (k.p.pages vi).va) := by
  cases hv : evict_victim k.p with
  | none => simp [evict_page, hv] at h
  | some vi =>
    refine ⟨vi, rfl, ?_⟩
    unfold evict_page at h ⊢
    simp only [hv, printf_p] at h ⊢
    by_cases hlt : (k.p.pages vi).va ≥ MAXVA
    · simp [hlt] at h
    · simp only [hlt, if_false] at h ⊢
      cases hw : walk k.p.pagetable (k.p.pages vi).va with
      | none => simp [hw] at h
      | some e =>
        simp only [hw, pte_at] at h ⊢
        by_cases he : e &&& PTE_V = 0
        · simp [he] at h
        · simp only [he, if_false] at h ⊢
          by_cases hs : ((k.p.pages vi).dirty || !has_backing_store k.p (k.p.pages vi).va) = true
          · simp only [hs, if_true] at h ⊢
            split_ifs at h ⊢ with h1 h2
            · simp at h
            · simp at h
            · rfl
          · simp only [hs] at h ⊢
            rfl

/-- The starting value `~0ULL` of `min_seq` is never selected: a process whose
only resident descriptor carries the sequence number `2^64 - 1` (which
`next_seq` cannot exceed) gets no victim and `evict_page` returns 0. -/
theorem evict_victim_sentinel :
    sentinel_kernel.p.npages = 1 ∧ (sentinel_kernel.p.pages 0).resident = true ∧
      (sentinel_kernel.p.pages 0).seq < U64 ∧
      pte_at sentinel_kernel.p.pagetable (sentinel_kernel.p.pages 0).va &&& PTE_V ≠ 0 ∧
      evict_victim sentinel_kernel.p = none ∧ (evict_page sentinel_kernel).1 = 0 := by
  decide

/-- C2: FIFO victim selection.  The victim `evict_page` selects is a resident
descriptor of `pages[0..npages)` whose `seq` is smallest among the resident
ones (the first such in table order), so a descriptor with `resident = 0` is
never selected.  In every state where `next_seq`, a 64-bit counter, exceeds
the `seq` of every resident descriptor (invariant 5 of the specification) a
process with at least one resident descriptor gets a victim; in general one
is selected exactly when some resident descriptor has `seq` below `2^64 - 1`,
the starting value of `min_seq`.  The frame `evict_page` releases is the one
mapped at the victim, and when no descriptor is resident `evict_page` returns
0 and changes nothing. -/
theorem C2_fifo_victim (k : kernel) :
    (∀ vi, evict_victim k.p = some vi →
      vi < k.p.npages ∧ (k.p.pages vi).resident = true ∧
        ∀ j, j < k.p.npages → (k.p.pages j).resident = true →
          (k.p.pages vi).seq ≤ (k.p.pages j).seq ∧
            (j < vi → (k.p.pages vi).seq < (k.p.pages j).seq)) ∧
    (k.p.next_seq < U64 →
      (∀ j, j < k.p.npages → (k.p.pages j).resident = true → (k.p.pages j).seq < k.p.next_seq) →
      (∃ j, j < k.p.npages ∧ (k.p.pages j).resident = true) →
      ∃ vi, evict_victim k.p = some vi) ∧
    ((∃ vi, evict_victim k.p = some vi) ↔
      ∃ j, j < k.p.npages ∧ (k.p.pages j).resident = true ∧ (k.p.pages j).seq < U64 - 1) ∧
    ((evict_page k).1 ≠ 0 →
      ∃ vi, evict_victim k.p = some vi ∧
        (evict_page k).1 = PTE2PA (pte_at k.p.pagetable (k.p.pages vi).va)) ∧
    ((∀ j, j < k.p.npages → (k.p.pages j).resident = false) → evict_page k = (0, k)) := by
  have hex : (∃ j, j < k.p.npages ∧ (k.p.pages j).resident = true ∧
      (k.p.pages j).seq < U64 - 1) → ∃ vi, evict_victim k.p = some vi := by
    rintro ⟨j, hj, hr, hs⟩
    cases hv : evict_victim k.p with
    | some vi => exact ⟨vi, rfl⟩
    | none =>
      have := evict_victim_none k.p hv j hj hr
      omega
  refine ⟨?_, ?_, ⟨?_, hex⟩, evict_page_ret k, ?_⟩
  · intro vi h
    obtain ⟨h1, h2, _, h4⟩ := evict_victim_some k.p vi h
    exact ⟨h1, h2, h4⟩
  · rintro hns hinv ⟨j, hj, hr⟩
    have := hinv j hj hr
    exact hex ⟨j, hj, hr, by omega⟩
  · rintro ⟨vi, h⟩
    obtain ⟨h1, h2, h3, _⟩ := evict_victim_some k.p vi h
    exact ⟨vi, h1, h2, h3⟩
  · intro h
    apply evict_page_of_no_victim
    cases hv : evict_victim k.p with
    | none => rfl
    | some vi =>
      obtain ⟨h1, h2, _⟩ := evict_victim_some k.p vi hv
      rw [h vi h1] at h2
      exact absurd h2 (by simp)

/-- C2 (witness): with a swapped descriptor of `seq` 1 and resident ones of
`seq` 5 and 2 and `next_seq = 6`, the victim is the resident descriptor of
`seq` 2. -/
theorem C2_fifo_victim_witness :
    (evict_victim c2_fifo_kernel.p = some 2 ∧ c2_fifo_kernel.p.next_seq < U64 ∧
      (∀ j, j < c2_fifo_kernel.p.npages → (c2_fifo_kernel.p.pages j).resident = true →
        (c2_fifo_kernel.p.pages j).seq < c2_fifo_kernel.p.next_seq)) ∧
      (2 < c2_fifo_kernel.p.npages ∧ (c2_fifo_kernel.p.pages 2).resident = true ∧
        ∀ j, j < c2_fifo_kernel.p.npages → (c2_fifo_kernel.p.pages j).resident = true →
          (c2_fifo_kernel.p.pages 2).seq ≤ (c2_fifo_kernel.p.pages j).seq ∧
            (j < 2 → (c2_fifo_kernel.p.pages 2).seq < (c2_fifo_kernel.p.pages j).seq)) ∧
      (∃ vi, evict_victim c2_fifo_kernel.p = some vi) :=
  ⟨⟨by decide, by decide, by decide⟩, (C2_fifo_victim c2_fifo_kernel).1 2 (by decide),
    (C2_fifo_victim c2_fifo_kernel).2.1 (by decide) (by decide) ⟨1, by decide, by decide⟩⟩

/-! ## Swap-out by `evict_page` -/

theorem walk_of_valid (pt : pagetable_t) (va : Nat) (h : pte_at pt va &&& PTE_V ≠ 0) :
    walk pt va = some (pte_at pt va) := by
  unfold pte_at at h ⊢
  cases hw : walk pt va with
  | none => simp [hw] at h
  | some e => rfl

theorem swapout_page_ok (k : kernel) (va pi slot : Nat) (f : inode)
    (hva : va % PGSIZE = 0) (hlt : va < MAXVA)
    (hfind : find_page_info k.p va = some pi)
    (hns : (k.p.pages pi).swapped = false)
    (hmap : pte_at k.p.pagetable va &&& PTE_V ≠ 0)
    (hfile : (if k.p.swapfile.isNone then k.fs_create else k.p.swapfile) = some f)
    (hfree : k.p.nswap_slots < MAX_SWAP_PAGES)
    (hslot : first_clear k.p.swap_slots MAX_SWAP_PAGES 0 = some slot)
    (hwrite : slot * PGSIZE + PGSIZE ≤ f.limit) :
    swapout_page k va =
      (0, printf
        { k with
          p := { k.p with
            swapfile := some (writei f k.mem (PTE2PA (pte_at k.p.pagetable va)) (slot * PGSIZE) PGSIZE).2
            swap_slots := Function.update k.p.swap_slots (slot / 32)
              (k.p.swap_slots (slot / 32) ||| (1 <<< (slot % 32)))
            nswap_slots := k.p.nswap_slots + 1
            pages := Function.update k.p.pages pi { k.p.pages pi with swap_offset := slot } } }
        (log_line.SWAPOUT va slot)) := by
  have hw := walk_of_valid _ _ hmap
  have hnlt : ¬ va ≥ MAXVA := by omega
  have hnf : ¬ k.p.nswap_slots ≥ MAX_SWAP_PAGES := by omega
  have hwi : (writei f k.mem (PTE2PA (pte_at k.p.pagetable va)) (slot * PGSIZE) PGSIZE).1
      = (PGSIZE : Int) := by
    simp [writei, hwrite]
  have hcast : ¬ ((slot : Int) < 0) := by omega
  cases hsf : k.p.swapfile with
  | none =>
    simp only [hsf, Option.isNone_none, if_true] at hfile
    simp [swapout_page, hcast, PGROUNDDOWN_of_aligned va hva, hfind, hsf, create_swapfile, hfile,
      alloc_swap_slot, hnf, hslot, hns, hnlt, hw, hmap, hwi, printf, do_panic]
  | some g =>
    simp only [hsf, Option.isNone_some] at hfile
    simp at hfile
    subst hfile
    simp [swapout_page, hcast, PGROUNDDOWN_of_aligned va hva, hfind, hsf,
      alloc_swap_slot, hnf, hslot, hns, hnlt, hw, hmap, hwi, printf, do_panic]

theorem find_segment_first (segments : Nat → prog_segment) (va : Nat) (n : Nat) :
    ∀ (i j : Nat), i ≤ j → j < i + n → seg_contains (segments j) va →
      (∀ l, i ≤ l → l < j → ¬ seg_contains (segments l) va) →
      find_segment segments va n i = some j := by
  unfold seg_contains
  induction n with
  | zero => intro i j h1 h2; omega
  | succ n ih =>
    intro i j h1 h2 h3 h4
    unfold find_segment
    by_cases hji : j = i
    · subst hji; rw [if_pos h3]
    · rw [if_neg (h4 i (le_refl _) (by omega))]
      exact ih (i + 1) j (by omega) (by omega) h3 (fun l hl1 hl2 => h4 l (by omega) hl2)

theorem find_page_info_of_first (p : proc) (va vi : Nat) (hva : va % PGSIZE = 0)
    (hvi : vi < p.npages) (h : (p.pages vi).va = va)
    (huniq : ∀ j, j < vi → (p.pages j).va ≠ va) : find_page_info p va = some vi := by
  unfold find_page_info
  rw [PGROUNDDOWN_of_aligned va hva]
  exact find_from_first p.pages va p.npages 0 vi (Nat.zero_le _) (by omega) h
    (fun l _ hl => huniq l hl)

/-- Swap-out postcondition of `evict_page`.  In a running kernel where the victim's
page is mapped, its descriptor is the first one of that page and is not marked
swapped, if the victim
is dirty, or lies in no segment (a heap or stack page), or lies in a segment at
an offset at least `filesz`, and the swap file exists or can be created, slot
`slot` is the first free one, and the file can take the page, then
`evict_page` returns the victim's frame and afterwards the victim's descriptor
has `swapped = 1`, `resident = 0`, `swap_offset = slot` and its other fields
as before, the swap file holds the frame's `PGSIZE` bytes at `slot * PGSIZE`,
the entry of the victim's page is invalid, and `npages` and every other
descriptor are unchanged. -/
theorem evict_page_swapout_spec (k : kernel) (vi slot : Nat) (f : inode)
    (hrun : k.panicked = false)
    (hv : evict_victim k.p = some vi)
    (hva : (k.p.pages vi).va % PGSIZE = 0) (hlt : (k.p.pages vi).va < MAXVA)
    (hmap : pte_at k.p.pagetable (k.p.pages vi).va &&& PTE_V ≠ 0)
    (huniq : ∀ j, j < vi → (k.p.pages j).va ≠ (k.p.pages vi).va)
    (hns : (k.p.pages vi).swapped = false)
    (hswap : (k.p.pages vi).dirty = true ∨
      (∀ i, i < k.p.nsegments → ¬ seg_contains (k.p.segments i) (k.p.pages vi).va) ∨
      (∃ si, si < k.p.nsegments ∧ seg_contains (k.p.segments si) (k.p.pages vi).va ∧
        (∀ l, l < si → ¬ seg_contains (k.p.segments l) (k.p.pages vi).va) ∧
        (k.p.segments si).filesz ≤ (k.p.pages vi).va - (k.p.segments si).vaddr))
    (hfile : (if k.p.swapfile.isNone then k.fs_create else k.p.swapfile) = some f)
    (hfree : k.p.nswap_slots < MAX_SWAP_PAGES)
    (hslot : first_clear k.p.swap_slots MAX_SWAP_PAGES 0 = some slot)
    (hwrite : slot * PGSIZE + PGSIZE ≤ f.limit) :
    (evict_page k).1 = PTE2PA (pte_at k.p.pagetable (k.p.pages vi).va) ∧
    (evict_page k).2.p.pages vi =
      { k.p.pages vi with swapped := true, resident := false, swap_offset := slot } ∧
    (∃ f', (evict_page k).2.p.swapfile = some f' ∧
      ∀ i, i < PGSIZE →
        f'.data (slot * PGSIZE + i) =
          k.mem (PTE2PA (pte_at k.p.pagetable (k.p.pages vi).va) + i)) ∧
    pte_at (evict_page k).2.p.pagetable (k.p.pages vi).va &&& PTE_V = 0 ∧
    (evict_page k).2.p.npages = k.p.npages ∧
    (∀ j, j ≠ vi → (evict_page k).2.p.pages j = k.p.pages j) ∧
    (evict_page k).2.p.killed = k.p.killed := by
  obtain ⟨hvi, _, _, _⟩ := evict_victim_some k.p vi hv
  have hfind := find_page_info_of_first k.p _ vi hva hvi rfl huniq
  have hw := walk_of_valid _ _ hmap
  have hnlt : ¬ (k.p.pages vi).va ≥ MAXVA := by omega
  have hss : ((k.p.pages vi).dirty || !has_backing_store k.p (k.p.pages vi).va) = true := by
    rcases hswap with h | h | ⟨si, h1, h2, h3, h4⟩
    · simp [h]
    · have : find_segment k.p.segments (k.p.pages vi).va k.p.nsegments 0 = none :=
        (find_segment_none _ _ _ 0).2 (fun l _ hl => h l (by omega))
      simp [has_backing_store, this]
    · have : find_segment k.p.segments (k.p.pages vi).va k.p.nsegments 0 = some si :=
        find_segment_first _ _ _ 0 si (Nat.zero_le _) (by omega) h2 (fun l _ hl => h3 l hl)
      simp [has_backing_store, this]
      right; omega
  have hso := swapout_page_ok (printf k (log_line.VICTIM (k.p.pages vi).va (k.p.pages vi).seq))
    (k.p.pages vi).va vi slot f hva hlt hfind hns hmap hfile hfree hslot hwrite
  have hevict : evict_page k = evict_release
      (printf
        { k with
          log := k.log ++ [log_line.VICTIM (k.p.pages vi).va (k.p.pages vi).seq,
            log_line.SWAPOUT (k.p.pages vi).va slot]
          p := { k.p with
            swapfile := some (writei f k.mem (PTE2PA (pte_at k.p.pagetable (k.p.pages vi).va))
              (slot * PGSIZE) PGSIZE).2
            swap_slots := Function.update k.p.swap_slots (slot / 32)
              (k.p.swap_slots (slot / 32) ||| (1 <<< (slot % 32)))
            nswap_slots := k.p.nswap_slots + 1
            pages := Function.update k.p.pages vi
              { k.p.pages vi with swapped := true, resident := false, swap_offset := slot } } }
        (log_line.EVICT (k.p.pages vi).va (k.p.pages vi).dirty))
      (k.p.pages vi).va (PTE2PA (pte_at k.p.pagetable (k.p.pages vi).va)) := by
    unfold evict_page
    simp only [hv, printf_p, hnlt, if_false, hw, hmap, hss, if_true, hso]
    simp [printf, hrun]
  rw [hevict]
  refine ⟨rfl, ?_, ⟨_, rfl, ?_⟩, ?_, rfl, ?_, rfl⟩
  · simp [evict_release, printf]
  · intro i hi
    simp [writei, hwrite]
    omega
  · simp only [evict_release, printf]
    rw [pte_at_pte_store_same _ _ _ (by rw [hw]; simp)]
    rfl
  · intro j hj
    simp [evict_release, printf, Function.update_noteq hj]

/-- Example of `evict_page_swapout_spec`: the dirty data page 0x1000 of `c3_kernel` is swapped
out to slot 0 of a newly created swap file. -/
theorem evict_page_swapout_example :
    (evict_victim c3_kernel.p = some 0 ∧ (c3_kernel.p.pages 0).dirty = true ∧
      first_clear c3_kernel.p.swap_slots MAX_SWAP_PAGES 0 = some 0) ∧
    ((evict_page c3_kernel).1 = PTE2PA (pte_at c3_kernel.p.pagetable (c3_kernel.p.pages 0).va) ∧
    (evict_page c3_kernel).2.p.pages 0 =
      { c3_kernel.p.pages 0 with swapped := true, resident := false, swap_offset := 0 } ∧
    (∃ f', (evict_page c3_kernel).2.p.swapfile = some f' ∧
      ∀ i, i < PGSIZE →
        f'.data (0 * PGSIZE + i) =
          c3_kernel.mem (PTE2PA (pte_at c3_kernel.p.pagetable (c3_kernel.p.pages 0).va) + i)) ∧
    pte_at (evict_page c3_kernel).2.p.pagetable (c3_kernel.p.pages 0).va &&& PTE_V = 0 ∧
    (evict_page c3_kernel).2.p.npages = c3_kernel.p.npages ∧
    (∀ j, j ≠ 0 → (evict_page c3_kernel).2.p.pages j = c3_kernel.p.pages j) ∧
    (evict_page c3_kernel).2.p.killed = c3_kernel.p.killed) :=
  ⟨⟨by decide, by decide, by decide⟩,
    evict_page_swapout_spec c3_kernel 0 0 { size := 0, data := fun _ => 0, limit := 0x400000 }
      rfl (by decide) (by decide) (by decide) (by decide) (by decide) (by decide)
      (Or.inl (by decide)) rfl (by decide) (by decide) (by decide)⟩

/-! ## Clean discard by `evict_page` -/

theorem find_from_none_of_forall (pages : Nat → page_info) (va : Nat) (n : Nat) :
    ∀ (i : Nat), (∀ l, i ≤ l → l < i + n → (pages l).va ≠ va) →
      find_from pages va n i = none := by
  induction n with
  | zero => intro i _; rfl
  | succ n ih =>
    intro i h
    unfold find_from
    rw [if_neg (h i (le_refl _) (by omega))]
    exact ih (i + 1) (fun l h1 h2 => h l (by omega) (by omega))

/-- Clean discard by `evict_page`.  When the victim's page is mapped, the
victim has `dirty = 0` and lies in a segment at an offset below `filesz`,
`evict_page` returns the victim's frame, `npages` decreases by exactly one,
the descriptors before the victim stay in place and those after it move down
by one position with their fields unchanged, no descriptor of the page is
left when the victim was the only one, the entry of the victim's page becomes
invalid, and the swap bitmap, `nswap_slots` and the swap file are unchanged. -/
theorem evict_page_discard_spec (k : kernel) (vi si : Nat)
    (hv : evict_victim k.p = some vi)
    (hlt : (k.p.pages vi).va < MAXVA)
    (hmap : pte_at k.p.pagetable (k.p.pages vi).va &&& PTE_V ≠ 0)
    (hclean : (k.p.pages vi).dirty = false)
    (hsi : si < k.p.nsegments)
    (hseg : seg_contains (k.p.segments si) (k.p.pages vi).va)
    (hfirst : ∀ l, l < si → ¬ seg_contains (k.p.segments l) (k.p.pages vi).va)
    (hoff : (k.p.pages vi).va - (k.p.segments si).vaddr < (k.p.segments si).filesz) :
    (evict_page k).1 = PTE2PA (pte_at k.p.pagetable (k.p.pages vi).va) ∧
    (evict_page k).2.p.npages + 1 = k.p.npages ∧
    (∀ j, j < vi → (evict_page k).2.p.pages j = k.p.pages j) ∧
    (∀ j, vi ≤ j → j < (evict_page k).2.p.npages →
      (evict_page k).2.p.pages j = k.p.pages (j + 1)) ∧
    ((∀ j, j < k.p.npages → j ≠ vi → (k.p.pages j).va ≠ (k.p.pages vi).va) →
      find_from (evict_page k).2.p.pages (k.p.pages vi).va (evict_page k).2.p.npages 0 = none) ∧
    pte_at (evict_page k).2.p.pagetable (k.p.pages vi).va &&& PTE_V = 0 ∧
    (evict_page k).2.p.swap_slots = k.p.swap_slots ∧
    (evict_page k).2.p.nswap_slots = k.p.nswap_slots ∧
    (evict_page k).2.p.swapfile = k.p.swapfile := by
  obtain ⟨hvi, _, _, _⟩ := evict_victim_some k.p vi hv
  have hw := walk_of_valid _ _ hmap
  have hnlt : ¬ (k.p.pages vi).va ≥ MAXVA := by omega
  have hfs : find_segment k.p.segments (k.p.pages vi).va k.p.nsegments 0 = some si :=
    find_segment_first _ _ _ 0 si (Nat.zero_le _) (by omega) hseg (fun l _ hl => hfirst l hl)
  have hss : ((k.p.pages vi).dirty || !has_backing_store k.p (k.p.pages vi).va) = false := by
    simp [has_backing_store, hfs, hclean, hoff]
  have hevict : evict_page k = evict_release
      { k with
        log := k.log ++ [log_line.VICTIM (k.p.pages vi).va (k.p.pages vi).seq,
          log_line.EVICT (k.p.pages vi).va false, log_line.DISCARD (k.p.pages vi).va]
        p := { k.p with
          pages := shift_down k.p.pages (k.p.npages - 1 - vi) vi
          npages := k.p.npages - 1 } }
      (k.p.pages vi).va (PTE2PA (pte_at k.p.pagetable (k.p.pages vi).va)) := by
    unfold evict_page
    simp only [hv, printf_p, hnlt, if_false, hw, hmap, hss]
    simp [printf]
  rw [hevict]
  refine ⟨rfl, ?_, ?_, ?_, ?_, ?_, rfl, rfl, rfl⟩
  · simp only [evict_release]; omega
  · intro j hj
    simp only [evict_release, shift_down_eq]
    rw [if_neg (by omega)]
  · intro j hj1 hj2
    simp only [evict_release] at hj2 ⊢
    rw [shift_down_eq, if_pos (by omega)]
  · intro huniq
    simp only [evict_release]
    apply find_from_none_of_forall
    intro l _ hl
    rw [shift_down_eq]
    by_cases hc : vi ≤ l ∧ l < vi + (k.p.npages - 1 - vi)
    · rw [if_pos hc]; exact huniq (l + 1) (by omega) (by omega)
    · rw [if_neg hc]; exact huniq l (by omega) (by omega)
  · simp only [evict_release]
    rw [pte_at_pte_store_same _ _ _ (by rw [hw]; simp)]
    rfl

/-- Example of `evict_page_discard_spec`: the clean text page 0 of `c4_kernel` is discarded
and the swapped descriptor after it moves to index 0. -/
theorem evict_page_discard_example :
    (evict_victim c4_kernel.p = some 0 ∧ (c4_kernel.p.pages 0).dirty = false) ∧
    ((evict_page c4_kernel).1 = PTE2PA (pte_at c4_kernel.p.pagetable (c4_kernel.p.pages 0).va) ∧
    (evict_page c4_kernel).2.p.npages + 1 = c4_kernel.p.npages ∧
    (∀ j, j < 0 → (evict_page c4_kernel).2.p.pages j = c4_kernel.p.pages j) ∧
    (∀ j, 0 ≤ j → j < (evict_page c4_kernel).2.p.npages →
      (evict_page c4_kernel).2.p.pages j = c4_kernel.p.pages (j + 1)) ∧
    ((∀ j, j < c4_kernel.p.npages → j ≠ 0 →
        (c4_kernel.p.pages j).va ≠ (c4_kernel.p.pages 0).va) →
      find_from (evict_page c4_kernel).2.p.pages (c4_kernel.p.pages 0).va
        (evict_page c4_kernel).2.p.npages 0 = none) ∧
    pte_at (evict_page c4_kernel).2.p.pagetable (c4_kernel.p.pages 0).va &&& PTE_V = 0 ∧
    (evict_page c4_kernel).2.p.swap_slots = c4_kernel.p.swap_slots ∧
    (evict_page c4_kernel).2.p.nswap_slots = c4_kernel.p.nswap_slots ∧
    (evict_page c4_kernel).2.p.swapfile = c4_kernel.p.swapfile) :=
  ⟨⟨by decide, by decide⟩,
    evict_page_discard_spec c4_kernel 0 0 (by decide) (by decide) (by decide) (by decide) (by decide)
      (by decide) (by decide) (by decide)⟩

/-! ## C5: swap-in after an eviction that discards -/

/-- C5 (code at the failing input): `swapin_page(p, 0x5000)` in `c5_kernel`
finds no free frame, `evict_page` discards the clean text page whose
descriptor precedes the one of 0x5000, and the descriptor pointer taken before
the eviction then names the descriptor of 0x6000.  The call returns 0, yet the
descriptor of 0x5000 is still `swapped = 1, resident = 0`, its slot 0 is
still set in the bitmap, the frame mapped at 0x5000 holds the bytes of slot 1,
and the descriptor of 0x6000 is marked resident with slot 1 freed. -/
theorem C5_swapin_after_discard :
    (find_page_info c5_kernel.p 0x5000 = some 1 ∧
      (c5_kernel.p.pages 1).swapped = true ∧ (c5_kernel.p.pages 1).swap_offset = 0 ∧
      pte_at c5_kernel.p.pagetable 0x5000 &&& PTE_V = 0 ∧
      c5_kernel.p.swap_slots 0 &&& (1 <<< 0) ≠ 0) ∧
    (swapin_page c5_kernel 0x5000).1 = 0 ∧
    (swapin_page c5_kernel 0x5000).2.panicked = false ∧
    find_page_info (swapin_page c5_kernel 0x5000).2.p 0x5000 = some 0 ∧
    ((swapin_page c5_kernel 0x5000).2.p.pages 0).resident = false ∧
    ((swapin_page c5_kernel 0x5000).2.p.pages 0).swapped = true ∧
    ((swapin_page c5_kernel 0x5000).2.p.pages 0).seq = 1 ∧
    (swapin_page c5_kernel 0x5000).2.p.next_seq = 5 ∧
    (swapin_page c5_kernel 0x5000).2.p.swap_slots 0 &&& (1 <<< 0) ≠ 0 ∧
    pte_at (swapin_page c5_kernel 0x5000).2.p.pagetable 0x5000 &&& PTE_V ≠ 0 ∧
    (swapin_page c5_kernel 0x5000).2.mem
      (PTE2PA (pte_at (swapin_page c5_kernel 0x5000).2.p.pagetable 0x5000) + 0) = 0xBB ∧
    ((swapin_page c5_kernel 0x5000).2.p.pages 1).va = 0x6000 ∧
    ((swapin_page c5_kernel 0x5000).2.p.pages 1).resident = true ∧
    pte_at (swapin_page c5_kernel 0x5000).2.p.pagetable 0x6000 &&& PTE_V = 0 := by
  decide

/-! ## C1: write, evict, read -/

/-- C1 (code at the failing input): the writable, file-backed data page 0x1000
is first read, so `vmfault` maps it `W|U|R` with `dirty = 0`; the state
satisfies the paging invariants.  The user then stores 0x5A at 0x1005, which
needs no fault and leaves `dirty = 0`; `evict_page` discards the page as
clean; and the read fault `vmfault(0x1000, 13)` reloads it from the
executable, so the frame mapped at 0x1000 holds the executable's byte 45 at
offset 5, not 0x5A. -/
theorem C1_write_evict_read_loses_store :
    (c1_loaded.p.npages = 1 ∧ (c1_loaded.p.pages 0).va = 0x1000 ∧
      (c1_loaded.p.pages 0).resident = true ∧ (c1_loaded.p.pages 0).swapped = false ∧
      (c1_loaded.p.pages 0).dirty = false ∧ (c1_loaded.p.pages 0).seq < c1_loaded.p.next_seq ∧
      PTE_FLAGS (pte_at c1_loaded.p.pagetable 0x1000) = (PTE_W ||| PTE_U ||| PTE_R ||| PTE_V) ∧
      c1_loaded.p.nswap_slots = 0 ∧ c1_loaded.p.swap_slots 0 = 0) ∧
    (c1_written.mem (PTE2PA (pte_at c1_written.p.pagetable 0x1000) + 5) = 0x5A ∧
      (c1_written.p.pages 0).dirty = false ∧ c1_written.log = c1_loaded.log) ∧
    ((evict_page c1_written).1 ≠ 0 ∧ c1_evicted.p.npages = 0 ∧
      pte_at c1_evicted.p.pagetable 0x1000 &&& PTE_V = 0 ∧ c1_evicted.p.swapfile.isNone = true) ∧
    ((vmfault c1_evicted 0x1000 13).1 ≠ 0 ∧
      (vmfault c1_evicted 0x1000 13).2.p.killed = false ∧
      (vmfault c1_evicted 0x1000 13).1 =
        PTE2PA (pte_at (vmfault c1_evicted 0x1000 13).2.p.pagetable 0x1000) ∧
      (vmfault c1_evicted 0x1000 13).2.mem ((vmfault c1_evicted 0x1000 13).1 + 5) = 45 ∧
      ex_file.data (0x800 + 5) = 45) := by
  decide

/-! ## C6: classification of the faulting address -/

theorem ismapped_eq (pt : pagetable_t) (va : Nat) :
    ismapped pt va = decide (pte_at pt va &&& PTE_V ≠ 0) := by
  unfold ismapped pte_at
  cases walk pt va <;> simp

theorem PGROUNDDOWN_idem (a : Nat) : PGROUNDDOWN (PGROUNDDOWN a) = PGROUNDDOWN a :=
  PGROUNDDOWN_of_aligned _ (PGROUNDDOWN_aligned a)

theorem find_page_info_round (p : proc) (a : Nat) :
    find_page_info p (PGROUNDDOWN a) = find_page_info p a := by
  unfold find_page_info
  rw [PGROUNDDOWN_idem]

theorem vmfault_round (k : kernel) (va0 scause : Nat) :
    vmfault k va0 scause = vmfault k (PGROUNDDOWN va0) scause := by
  unfold vmfault
  rw [PGROUNDDOWN_idem]

theorem in_heap_iff (p : proc) (va : Nat) :
    in_heap p va = true ↔
      (p.heap_start ≤ va ∧ va < p.stack_bottom) ∨
        (0 < p.stack_top ∧ p.stack_top ≤ va ∧ va < PGROUNDUP p.sz) := by
  unfold in_heap
  by_cases h : p.stack_top > 0
  · simp [h]
  · simp [h]

theorem in_stack_iff (p : proc) (va : Nat) :
    in_stack p va = true ↔
      (0 < p.stack_top ∧ p.stack_bottom ≤ va ∧ va < p.stack_top ∧
        ((PGROUNDDOWN p.trapframe_sp + U64 - PGSIZE) % U64 ≤ va ∨ p.stack_top ≤ p.trapframe_sp)) ∨
      (p.stack_top = 0 ∧ p.stack_bottom ≤ va ∧ va < PGROUNDUP p.sz ∧
        ((PGROUNDDOWN p.trapframe_sp + U64 - PGSIZE) % U64 ≤ va ∨ p.sz ≤ p.trapframe_sp)) := by
  simp only [in_stack]
  by_cases h : p.stack_top > 0
  · have h0 : p.stack_top ≠ 0 := by omega
    rw [if_pos h]
    simp only [Bool.and_eq_true, Bool.or_eq_true, decide_eq_true_eq, ge_iff_le]
    constructor
    · rintro ⟨⟨h1, h2⟩, h3⟩
      exact Or.inl ⟨h, h1, h2, h3⟩
    · rintro (⟨_, h1, h2, h3⟩ | ⟨h4, _⟩)
      · exact ⟨⟨h1, h2⟩, h3⟩
      · exact absurd h4 h0
  · have h0 : p.stack_top = 0 := by omega
    rw [if_neg h]
    simp only [Bool.and_eq_true, Bool.or_eq_true, decide_eq_true_eq, ge_iff_le]
    constructor
    · rintro ⟨⟨h1, h2⟩, h3⟩
      exact Or.inr ⟨h0, h1, h2, h3⟩
    · rintro (⟨h4, _⟩ | ⟨_, h1, h2, h3⟩)
      · omega
      · exact ⟨⟨h1, h2⟩, h3⟩

theorem vmfault_unmapped (k : kernel) (va scause : Nat) (hal : va % PGSIZE = 0)
    (hlt : va < MAXVA) (hinv : pte_at k.p.pagetable va &&& PTE_V = 0)
    (hnsw : ∀ pi, find_page_info k.p va = some pi → (k.p.pages pi).swapped = false) :
    vmfault k va scause =
      if (find_segment k.p.segments va k.p.nsegments 0).isNone ∧ in_heap k.p va = false ∧
          in_stack k.p va = false then kill_invalid k va scause
      else vmfault_alloc k va scause (find_segment k.p.segments va k.p.nsegments 0) := by
  have hnlt : ¬ va ≥ MAXVA := by omega
  have hsw : (match find_page_info k.p va with
      | some pi => (k.p.pages pi).swapped
      | none => false) = false := by
    cases hf : find_page_info k.p va with
    | none => rfl
    | some pi => exact hnsw pi hf
  unfold vmfault
  simp only [PGROUNDDOWN_of_aligned va hal, hnlt, if_false, ismapped_eq, hinv, hsw]
  simp

theorem vmfault_mapped (k : kernel) (va scause : Nat) (hal : va % PGSIZE = 0)
    (hlt : va < MAXVA) (hmap : pte_at k.p.pagetable va &&& PTE_V ≠ 0) :
    vmfault k va scause =
      if pte_at k.p.pagetable va &&& PTE_U ≠ 0 ∧
          pte_at k.p.pagetable va &&&
            (if scause = 12 then PTE_X else if scause = 13 then PTE_R else PTE_W) ≠ 0 then
        (PTE2PA (pte_at k.p.pagetable va),
          if is_write scause then { k with p := mark_page_dirty k.p va } else k)
      else kill_invalid k va scause := by
  have hnlt : ¬ va ≥ MAXVA := by omega
  have hw := walk_of_valid _ _ hmap
  have hism : ismapped k.p.pagetable va = true := by rw [ismapped_eq]; simp [hmap]
  unfold vmfault
  simp only [PGROUNDDOWN_of_aligned va hal, hnlt, if_false, hism, if_true, hw]
  by_cases hu : pte_at k.p.pagetable va &&& PTE_U = 0
  · simp [hu]
  · have hwa : ∀ k1 : kernel, k1.p.pagetable = k.p.pagetable →
        walkaddr k1.p.pagetable va = PTE2PA (pte_at k.p.pagetable va) := by
      intro k1 h1
      simp [walkaddr, h1, hnlt, hw, hmap, hu]
    by_cases h12 : scause = 12
    · by_cases hx : pte_at k.p.pagetable va &&& PTE_X = 0
      · simp [hu, h12, hx]
      · have := hwa k rfl
        simp [hmap, hu, h12, hx, is_write, this]
    · by_cases h13 : scause = 13
      · by_cases hx : pte_at k.p.pagetable va &&& PTE_R = 0
        · simp [hu, h13, hx]
        · have := hwa k rfl
          simp [hmap, hu, h13, hx, is_write, this]
      · by_cases hx : pte_at k.p.pagetable va &&& PTE_W = 0
        · simp [hu, h12, h13, hx]
        · have h1 := hwa { k with p := mark_page_dirty k.p va }
            (by unfold mark_page_dirty; cases find_page_info k.p va <;> rfl)
          simp [hmap, hu, h12, h13, hx, is_write, h1]

theorem mark_page_dirty_frame (p : proc) (va : Nat) :
    (mark_page_dirty p va).pagetable = p.pagetable ∧
    (mark_page_dirty p va).npages = p.npages ∧
    (mark_page_dirty p va).next_seq = p.next_seq ∧
    (mark_page_dirty p va).swap_slots = p.swap_slots ∧
    (mark_page_dirty p va).nswap_slots = p.nswap_slots ∧
    (mark_page_dirty p va).killed = p.killed ∧
    (∀ j, ((mark_page_dirty p va).pages j).seq = (p.pages j).seq) := by
  unfold mark_page_dirty
  cases find_page_info p va with
  | none => exact ⟨rfl, rfl, rfl, rfl, rfl, rfl, fun _ => rfl⟩
  | some i =>
    refine ⟨rfl, rfl, rfl, rfl, rfl, rfl, ?_⟩
    intro j
    by_cases hj : j = i
    · subst hj; simp
    · simp [Function.update_noteq hj]

/-- C7: the already-valid path of `vmfault`.  For `scause` 12, 13 or 15 and a
page `va < MAXVA` whose entry is valid: if the entry has `U` and the bit the
access requires (`X` for 12, `R` for 13, `W` for 15), `vmfault` returns the
mapped physical address without killing, and it sets `dirty` in the page's
descriptor, changing no other descriptor, when the access is a write and
leaves every descriptor as it was when it is not; otherwise it sets `killed`,
returns 0 and leaves every descriptor as it was.  In both cases the page
table, `npages`, every `seq`, `next_seq` and the swap bitmap with its count
are unchanged. -/
theorem C7_valid_entry_path (k : kernel) (va scause : Nat) (hal : va % PGSIZE = 0)
    (hlt : va < MAXVA) (hmap : pte_at k.p.pagetable va &&& PTE_V ≠ 0)
    (hsc : scause = 12 ∨ scause = 13 ∨ scause = 15) :
    ((pte_at k.p.pagetable va &&& PTE_U ≠ 0 ∧
        pte_at k.p.pagetable va &&&
          (if scause = 12 then PTE_X else if scause = 13 then PTE_R else PTE_W) ≠ 0) →
      (vmfault k va scause).1 = PTE2PA (pte_at k.p.pagetable va) ∧
      (vmfault k va scause).2.p.killed = k.p.killed ∧
      (scause = 15 →
        (∀ pi, find_page_info k.p va = some pi →
          (vmfault k va scause).2.p.pages pi = { k.p.pages pi with dirty := true } ∧
          ∀ j, j ≠ pi → (vmfault k va scause).2.p.pages j = k.p.pages j) ∧
        (find_page_info k.p va = none → (vmfault k va scause).2.p.pages = k.p.pages)) ∧
      (scause ≠ 15 → (vmfault k va scause).2.p.pages = k.p.pages)) ∧
    (¬ (pte_at k.p.pagetable va &&& PTE_U ≠ 0 ∧
        pte_at k.p.pagetable va &&&
          (if scause = 12 then PTE_X else if scause = 13 then PTE_R else PTE_W) ≠ 0) →
      (vmfault k va scause).1 = 0 ∧ (vmfault k va scause).2.p.killed = true ∧
      (vmfault k va scause).2.p.pages = k.p.pages) ∧
    ((vmfault k va scause).2.p.pagetable = k.p.pagetable ∧
      (vmfault k va scause).2.p.npages = k.p.npages ∧
      (∀ j, ((vmfault k va scause).2.p.pages j).seq = (k.p.pages j).seq) ∧
      (vmfault k va scause).2.p.next_seq = k.p.next_seq ∧
      (vmfault k va scause).2.p.swap_slots = k.p.swap_slots ∧
      (vmfault k va scause).2.p.nswap_slots = k.p.nswap_slots) := by
  rw [vmfault_mapped k va scause hal hlt hmap]
  have hmd := mark_page_dirty_frame k.p va
  refine ⟨?_, ?_, ?_⟩
  · intro hok
    rw [if_pos hok]
    refine ⟨rfl, ?_, ?_, ?_⟩
    · by_cases hwr : is_write scause = true
      · simp only [hwr, if_true]; exact hmd.2.2.2.2.2.1
      · simp only [hwr]; rfl
    · intro h15
      subst h15
      have hwr : is_write 15 = true := by decide
      simp only [hwr, if_true]
      constructor
      · intro pi hpi
        simp only [mark_page_dirty, hpi]
        refine ⟨by simp, ?_⟩
        intro j hj
        simp [Function.update_noteq hj]
      · intro hnone
        simp only [mark_page_dirty, hnone]
    · intro h15
      have hwr : is_write scause = false := by
        rcases hsc with h | h | h
        · subst h; decide
        · subst h; decide
        · exact absurd h h15
      simp only [hwr]
      rfl
  · intro hbad
    rw [if_neg hbad]
    exact ⟨rfl, rfl, rfl⟩
  · by_cases hok : pte_at k.p.pagetable va &&& PTE_U ≠ 0 ∧
        pte_at k.p.pagetable va &&&
          (if scause = 12 then PTE_X else if scause = 13 then PTE_R else PTE_W) ≠ 0
    · rw [if_pos hok]
      by_cases hwr : is_write scause = true
      · simp only [hwr, if_true]
        exact ⟨hmd.1, hmd.2.1, hmd.2.2.2.2.2.2, hmd.2.2.1, hmd.2.2.2.1, hmd.2.2.2.2.1⟩
      · simp only [hwr]
        exact ⟨rfl, rfl, fun _ => rfl, rfl, rfl, rfl⟩
    · rw [if_neg hok]
      exact ⟨rfl, rfl, fun _ => rfl, rfl, rfl, rfl⟩

/-- C7 (witness): a write fault on the mapped writable data page of
`c7_kernel` returns its frame and marks its descriptor dirty; a write fault on
the mapped read-only text page of `c8_kernel` kills the process. -/
theorem C7_valid_entry_path_witness :
    (0x1000 % PGSIZE = 0 ∧ 0x1000 < MAXVA ∧ pte_at c7_kernel.p.pagetable 0x1000 &&& PTE_V ≠ 0 ∧
      pte_at c7_kernel.p.pagetable 0x1000 &&& PTE_U ≠ 0 ∧
      pte_at c7_kernel.p.pagetable 0x1000 &&& PTE_W ≠ 0 ∧
      find_page_info c7_kernel.p 0x1000 = some 0) ∧
    (vmfault c7_kernel 0x1000 15).1 = PTE2PA (pte_at c7_kernel.p.pagetable 0x1000) ∧
    (vmfault c7_kernel 0x1000 15).2.p.pages 0 = { c7_kernel.p.pages 0 with dirty := true } ∧
    (pte_at c8_kernel.p.pagetable 0 &&& PTE_V ≠ 0 ∧ pte_at c8_kernel.p.pagetable 0 &&& PTE_W = 0) ∧
    ((vmfault c8_kernel 0 15).1 = 0 ∧ (vmfault c8_kernel 0 15).2.p.killed = true ∧
      (vmfault c8_kernel 0 15).2.p.pages = c8_kernel.p.pages) :=
  ⟨⟨by decide, by decide, by decide, by decide, by decide, by decide⟩,
    ((C7_valid_entry_path c7_kernel 0x1000 15 (by decide) (by decide) (by decide)
      (Or.inr (Or.inr rfl))).1 ⟨by decide, by decide⟩).1,
    ((((C7_valid_entry_path c7_kernel 0x1000 15 (by decide) (by decide) (by decide)
      (Or.inr (Or.inr rfl))).1 ⟨by decide, by decide⟩).2.2.1 rfl).1 0 (by decide)).1,
    ⟨by decide, by decide⟩,
    (C7_valid_entry_path c8_kernel 0 15 (by decide) (by decide) (by decide)
      (Or.inr (Or.inr rfl))).2.1 (by decide)⟩

/-! ## Fresh faults: the computation of `vmfault` when a page is materialized -/

theorem vmfault_map_ok (p : proc) (m : Nat → Nat) (fl : List Nat) (c : Option inode)
    (lg : List log_line) (b : Bool) (va scause mem perm : Nat) (line : log_line)
    (hal : va % PGSIZE = 0) (hlt : va < MAXVA)
    (hinv : pte_at p.pagetable va &&& PTE_V = 0)
    (hw : (walk_alloc p.pagetable fl va).1 = true)
    (hroom : p.npages < MAX_SWAP_PAGES) :
    vmfault_map { p := p, mem := m, freelist := fl, fs_create := c, log := lg, panicked := b }
        va scause mem perm line =
      (mem,
        { p := { p with
            pagetable := pte_store (walk_alloc p.pagetable fl va).2.1 va
              (PA2PTE mem ||| perm ||| PTE_V)
            pages := Function.update p.pages p.npages
              { va := va, seq := p.next_seq, dirty := is_write scause, swapped := false,
                swap_offset := 0, resident := true }
            next_seq := (p.next_seq + 1) % U64
            npages := p.npages + 1 }
          mem := m
          freelist := (walk_alloc p.pagetable fl va).2.2
          fs_create := c
          log := lg ++ [line, log_line.RESIDENT va p.next_seq]
          panicked := b }) := by
  have hnr : ¬ p.npages ≥ MAX_SWAP_PAGES := by omega
  unfold vmfault_map
  simp only []
  rw [mappages_one _ _ va mem perm hal hlt hinv hw]
  by_cases hwr : is_write scause = true
  · simp [add_page_info, hnr, PGROUNDDOWN_of_aligned va hal, hwr, printf]
  · have hwr2 : is_write scause = false := by simpa using hwr
    simp [add_page_info, hnr, PGROUNDDOWN_of_aligned va hal, hwr2, printf]

theorem readi_full (ip : inode) (mem : Nat → Nat) (dst off n : Nat) (h : off + n ≤ ip.size) :
    (readi ip mem dst off n).1 = n ∧
      (readi ip mem dst off n).2 =
        fun a => if dst ≤ a ∧ a < dst + n then ip.data (off + (a - dst)) else mem a := by
  have h1 : ¬ off > ip.size := by omega
  have h2 : ¬ off + n > ip.size := by omega
  simp [readi, h1, h2]

theorem to_read_eq (o filesz : Nat) (ho : o + PGSIZE < U64) (hlt : o < filesz) :
    (if (o + PGSIZE) % U64 > filesz then filesz - o else PGSIZE) = min PGSIZE (filesz - o) := by
  rw [Nat.mod_eq_of_lt ho]
  by_cases h : o + PGSIZE > filesz
  · rw [if_pos h, Nat.min_eq_right (by omega)]
  · rw [if_neg h, Nat.min_eq_left (by omega)]

theorem vmfault_fill_file (k : kernel) (va scause mem si : Nat) (hlt : va < MAXVA)
    (hoff : va - (k.p.segments si).vaddr < (k.p.segments si).filesz)
    (hread : ((k.p.segments si).off + (va - (k.p.segments si).vaddr)) % U64 +
        min PGSIZE ((k.p.segments si).filesz - (va - (k.p.segments si).vaddr)) ≤
      k.p.exec_inode.size) :
    vmfault_fill k va scause mem (some si) =
      vmfault_map
        { k with
          log := k.log ++ [log_line.PAGEFAULT va (access_of scause) cause.exec]
          mem := fun a =>
            if mem ≤ a ∧
                a < mem + min PGSIZE ((k.p.segments si).filesz - (va - (k.p.segments si).vaddr)) then
              k.p.exec_inode.data
                (((k.p.segments si).off + (va - (k.p.segments si).vaddr)) % U64 + (a - mem))
            else memset_page k.mem mem a }
        va scause mem ((k.p.segments si).perm ||| PTE_U ||| PTE_R) (log_line.LOADEXEC va) := by
  have ho : va - (k.p.segments si).vaddr + PGSIZE < U64 := by
    have : MAXVA + PGSIZE < U64 := by unfold MAXVA PGSIZE U64; norm_num
    omega
  have htr := to_read_eq _ _ ho hoff
  obtain ⟨hr1, hr2⟩ := readi_full k.p.exec_inode (memset_page k.mem mem) mem _ _ hread
  unfold vmfault_fill
  simp only [printf_p, printf_mem, hoff, if_true, htr, hr1, hr2]
  simp [printf]

theorem vmfault_fill_bss (k : kernel) (va scause mem si : Nat)
    (hoff : ¬ va - (k.p.segments si).vaddr < (k.p.segments si).filesz) :
    vmfault_fill k va scause mem (some si) =
      vmfault_map
        { k with
          log := k.log ++ [log_line.PAGEFAULT va (access_of scause) cause.exec]
          mem := memset_page k.mem mem }
        va scause mem ((k.p.segments si).perm ||| PTE_U ||| PTE_R) (log_line.LOADEXEC va) := by
  unfold vmfault_fill
  simp only [printf_p, printf_mem, hoff, if_false]
  simp [printf]

theorem vmfault_fill_anon (k : kernel) (va scause mem : Nat) :
    vmfault_fill k va scause mem none =
      vmfault_map
        { k with
          log := k.log ++ [log_line.PAGEFAULT va (access_of scause)
            (if in_heap k.p va then cause.heap else cause.stack)]
          mem := memset_page k.mem mem }
        va scause mem (PTE_W ||| PTE_U ||| PTE_R) (log_line.ALLOC va) := by
  unfold vmfault_fill
  simp [printf]

theorem vmfault_fresh (k : kernel) (va scause mem perm : Nat) (rest : List Nat)
    (M : Nat → Nat) (hal : va % PGSIZE = 0) (hlt : va < MAXVA)
    (hinv : pte_at k.p.pagetable va &&& PTE_V = 0)
    (hnsw : ∀ pi, find_page_info k.p va = some pi → (k.p.pages pi).swapped = false)
    (hfl : k.freelist = mem :: rest) (hmem : mem ≠ 0)
    (hw : (walk_alloc k.p.pagetable rest va).1 = true)
    (hroom : k.p.npages < MAX_SWAP_PAGES)
    (hcase :
      (∃ si, find_segment k.p.segments va k.p.nsegments 0 = some si ∧
        perm = (k.p.segments si).perm ||| PTE_U ||| PTE_R ∧
        ((va - (k.p.segments si).vaddr < (k.p.segments si).filesz ∧
            ((k.p.segments si).off + (va - (k.p.segments si).vaddr)) % U64 +
                min PGSIZE ((k.p.segments si).filesz - (va - (k.p.segments si).vaddr)) ≤
              k.p.exec_inode.size ∧
            M = fun a =>
              if mem ≤ a ∧
                  a < mem +
                    min PGSIZE ((k.p.segments si).filesz - (va - (k.p.segments si).vaddr)) then
                k.p.exec_inode.data
                  (((k.p.segments si).off + (va - (k.p.segments si).vaddr)) % U64 + (a - mem))
              else memset_page k.mem mem a) ∨
          (¬ va - (k.p.segments si).vaddr < (k.p.segments si).filesz ∧
            M = memset_page k.mem mem))) ∨
      (find_segment k.p.segments va k.p.nsegments 0 = none ∧
        (in_heap k.p va = true ∨ in_stack k.p va = true) ∧
        perm = PTE_W ||| PTE_U ||| PTE_R ∧ M = memset_page k.mem mem)) :
    (vmfault k va scause).1 = mem ∧
    (vmfault k va scause).2.mem = M ∧
    (vmfault k va scause).2.p.pagetable =
      pte_store (walk_alloc k.p.pagetable rest va).2.1 va (PA2PTE mem ||| perm ||| PTE_V) ∧
    (vmfault k va scause).2.p.pages =
      Function.update k.p.pages k.p.npages
        { va := va, seq := k.p.next_seq, dirty := is_write scause, swapped := false,
          swap_offset := 0, resident := true } ∧
    (vmfault k va scause).2.p.npages = k.p.npages + 1 ∧
    (vmfault k va scause).2.p.next_seq = (k.p.next_seq + 1) % U64 ∧
    (vmfault k va scause).2.p.killed = k.p.killed ∧
    (vmfault k va scause).2.p.swap_slots = k.p.swap_slots ∧
    (vmfault k va scause).2.p.nswap_slots = k.p.nswap_slots ∧
    (vmfault k va scause).2.p.swapfile = k.p.swapfile ∧
    (vmfault k va scause).2.freelist = (walk_alloc k.p.pagetable rest va).2.2 ∧
    (vmfault k va scause).2.panicked = k.panicked := by
  have hcond : ¬ ((find_segment k.p.segments va k.p.nsegments 0).isNone ∧
      in_heap k.p va = false ∧ in_stack k.p va = false) := by
    rintro ⟨h1, h2, h3⟩
    rcases hcase with ⟨si, hs, _⟩ | ⟨_, h | h, _⟩
    · rw [hs] at h1; exact absurd h1 (by simp)
    · rw [h] at h2; exact absurd h2 (by simp)
    · rw [h] at h3; exact absurd h3 (by simp)
  have heq := vmfault_unmapped k va scause hal hlt hinv hnsw
  rw [if_neg hcond] at heq
  have halloc : vmfault_alloc k va scause (find_segment k.p.segments va k.p.nsegments 0) =
      vmfault_fill { k with freelist := rest } va scause mem
        (find_segment k.p.segments va k.p.nsegments 0) := by
    simp [vmfault_alloc, kalloc, hfl, hmem]
  rw [heq, halloc]
  rcases hcase with ⟨si, hs, hp, (⟨hoff, hread, hM⟩ | ⟨hoff, hM⟩)⟩ | ⟨hs, _, hp, hM⟩
  · subst hp hM
    rw [hs, vmfault_fill_file { k with freelist := rest } va scause mem si hlt hoff hread,
      vmfault_map_ok k.p _ rest _ _ _ va scause mem _ _ hal hlt hinv hw hroom]
    exact ⟨rfl, rfl, rfl, rfl, rfl, rfl, rfl, rfl, rfl, rfl, rfl, rfl⟩
  · subst hp hM
    rw [hs, vmfault_fill_bss { k with freelist := rest } va scause mem si hoff,
      vmfault_map_ok k.p _ rest _ _ _ va scause mem _ _ hal hlt hinv hw hroom]
    exact ⟨rfl, rfl, rfl, rfl, rfl, rfl, rfl, rfl, rfl, rfl, rfl, rfl⟩
  · subst hp hM
    rw [hs, vmfault_fill_anon { k with freelist := rest } va scause mem,
      vmfault_map_ok k.p _ rest _ _ _ va scause mem _ _ hal hlt hinv hw hroom]
    exact ⟨rfl, rfl, rfl, rfl, rfl, rfl, rfl, rfl, rfl, rfl, rfl, rfl⟩

/-! ## C9: postcondition of a fresh fault -/

/-- C9: fresh-fault postcondition of `vmfault`.  For `scause` 12, 13 or 15
and a page `va < MAXVA` whose entry is not valid and which has no swapped
descriptor, when the allocator's first frame is `mem`, the page-table page for
`va` exists or can be allocated, the descriptor table has room, and `va` is
either a segment page (whose bytes, if any, the executable holds) or outside
all segments in the heap or stack band, `vmfault` returns `mem`, which is not
0, installs at `va` the valid entry `PA2PTE(mem) | perm | PTE_V` with
`perm = seg.perm|U|R` for the segment page and `W|U|R` for the heap or stack
page, appends exactly one descriptor, with that `va`, `resident = 1`,
`swapped = 0`, `seq` the previous `next_seq` and `dirty = 1` exactly when
`scause` is 15, leaves the earlier descriptors as they were, and increments
`next_seq` (a 64-bit counter) by one. -/
theorem C9_fresh_fault_postcondition (k : kernel) (va scause mem perm : Nat) (rest : List Nat)
    (hal : va % PGSIZE = 0) (hlt : va < MAXVA)
    (hsc : scause = 12 ∨ scause = 13 ∨ scause = 15)
    (hinv : pte_at k.p.pagetable va &&& PTE_V = 0)
    (hnsw : ∀ pi, find_page_info k.p va = some pi → (k.p.pages pi).swapped = false)
    (hfl : k.freelist = mem :: rest) (hmem : mem ≠ 0)
    (hw : (walk_alloc k.p.pagetable rest va).1 = true)
    (hroom : k.p.npages < MAX_SWAP_PAGES)
    (hcls :
      (∃ si, si < k.p.nsegments ∧ seg_contains (k.p.segments si) va ∧
        (∀ l, l < si → ¬ seg_contains (k.p.segments l) va) ∧
        perm = (k.p.segments si).perm ||| PTE_U ||| PTE_R ∧
        (va - (k.p.segments si).vaddr < (k.p.segments si).filesz →
          ((k.p.segments si).off + (va - (k.p.segments si).vaddr)) % U64 +
              min PGSIZE ((k.p.segments si).filesz - (va - (k.p.segments si).vaddr)) ≤
            k.p.exec_inode.size)) ∨
      ((∀ i, i < k.p.nsegments → ¬ seg_contains (k.p.segments i) va) ∧
        (((k.p.heap_start ≤ va ∧ va < k.p.stack_bottom) ∨
            (0 < k.p.stack_top ∧ k.p.stack_top ≤ va ∧ va < PGROUNDUP k.p.sz)) ∨
          ((0 < k.p.stack_top ∧ k.p.stack_bottom ≤ va ∧ va < k.p.stack_top ∧
              ((PGROUNDDOWN k.p.trapframe_sp + U64 - PGSIZE) % U64 ≤ va ∨
                k.p.stack_top ≤ k.p.trapframe_sp)) ∨
            (k.p.stack_top = 0 ∧ k.p.stack_bottom ≤ va ∧ va < PGROUNDUP k.p.sz ∧
              ((PGROUNDDOWN k.p.trapframe_sp + U64 - PGSIZE) % U64 ≤ va ∨
                k.p.sz ≤ k.p.trapframe_sp)))) ∧
        perm = PTE_W ||| PTE_U ||| PTE_R)) :
    (vmfault k va scause).1 = mem ∧ (vmfault k va scause).1 ≠ 0 ∧
    pte_at (vmfault k va scause).2.p.pagetable va = PA2PTE mem ||| perm ||| PTE_V ∧
    pte_at (vmfault k va scause).2.p.pagetable va &&& PTE_V ≠ 0 ∧
    (perm < 1024 → PTE_FLAGS (pte_at (vmfault k va scause).2.p.pagetable va) = perm ||| PTE_V) ∧
    (perm < 1024 → mem % PGSIZE = 0 →
      PTE2PA (pte_at (vmfault k va scause).2.p.pagetable va) = mem) ∧
    (vmfault k va scause).2.p.npages = k.p.npages + 1 ∧
    ((vmfault k va scause).2.p.pages k.p.npages).va = va ∧
    ((vmfault k va scause).2.p.pages k.p.npages).resident = true ∧
    ((vmfault k va scause).2.p.pages k.p.npages).swapped = false ∧
    ((vmfault k va scause).2.p.pages k.p.npages).seq = k.p.next_seq ∧
    (((vmfault k va scause).2.p.pages k.p.npages).dirty = true ↔ scause = 15) ∧
    (∀ j, j < k.p.npages → (vmfault k va scause).2.p.pages j = k.p.pages j) ∧
    (vmfault k va scause).2.p.next_seq = (k.p.next_seq + 1) % U64 ∧
    (k.p.next_seq + 1 < U64 → (vmfault k va scause).2.p.next_seq = k.p.next_seq + 1) ∧
    (vmfault k va scause).2.p.killed = k.p.killed := by
  have hcase : ∃ M,
      (∃ si, find_segment k.p.segments va k.p.nsegments 0 = some si ∧
        perm = (k.p.segments si).perm ||| PTE_U ||| PTE_R ∧
        ((va - (k.p.segments si).vaddr < (k.p.segments si).filesz ∧
            ((k.p.segments si).off + (va - (k.p.segments si).vaddr)) % U64 +
                min PGSIZE ((k.p.segments si).filesz - (va - (k.p.segments si).vaddr)) ≤
              k.p.exec_inode.size ∧
            M = fun a =>
              if mem ≤ a ∧
                  a < mem +
                    min PGSIZE ((k.p.segments si).filesz - (va - (k.p.segments si).vaddr)) then
                k.p.exec_inode.data
                  (((k.p.segments si).off + (va - (k.p.segments si).vaddr)) % U64 + (a - mem))
              else memset_page k.mem mem a) ∨
          (¬ va - (k.p.segments si).vaddr < (k.p.segments si).filesz ∧
            M = memset_page k.mem mem))) ∨
      (find_segment k.p.segments va k.p.nsegments 0 = none ∧
        (in_heap k.p va = true ∨ in_stack k.p va = true) ∧
        perm = PTE_W ||| PTE_U ||| PTE_R ∧ M = memset_page k.mem mem) := by
    rcases hcls with ⟨si, h1, h2, h3, h4, h5⟩ | ⟨h1, h2, h3⟩
    · have hfs := find_segment_first k.p.segments va k.p.nsegments 0 si (Nat.zero_le _)
        (by omega) h2 (fun l _ hl => h3 l hl)
      by_cases hoff : va - (k.p.segments si).vaddr < (k.p.segments si).filesz
      · exact ⟨_, Or.inl ⟨si, hfs, h4, Or.inl ⟨hoff, h5 hoff, rfl⟩⟩⟩
      · exact ⟨_, Or.inl ⟨si, hfs, h4, Or.inr ⟨hoff, rfl⟩⟩⟩
    · have hfs : find_segment k.p.segments va k.p.nsegments 0 = none :=
        (find_segment_none _ _ _ 0).2 (fun l _ hl => h1 l (by omega))
      refine ⟨_, Or.inr ⟨hfs, ?_, h3, rfl⟩⟩
      rcases h2 with h | h
      · exact Or.inl ((in_heap_iff k.p va).2 h)
      · exact Or.inr ((in_stack_iff k.p va).2 h)
  obtain ⟨M, hM⟩ := hcase
  obtain ⟨r1, _, r3, r4, r5, r6, r7, _⟩ :=
    vmfault_fresh k va scause mem perm rest M hal hlt hinv hnsw hfl hmem hw hroom hM
  obtain ⟨e, he⟩ := walk_walk_alloc_ok _ _ _ hw
  have hpte : pte_at (vmfault k va scause).2.p.pagetable va = PA2PTE mem ||| perm ||| PTE_V := by
    rw [r3]
    exact pte_at_pte_store_same _ _ _ (by rw [he]; simp)
  refine ⟨r1, by rw [r1]; exact hmem, hpte, by rw [hpte]; exact map_valid mem perm, ?_, ?_, r5,
    by rw [r4]; simp, by rw [r4]; simp, by rw [r4]; simp, by rw [r4]; simp, ?_, ?_, r6, ?_, r7⟩
  · intro hp; rw [hpte]; exact PTE_FLAGS_map mem perm hp
  · intro hp hm; rw [hpte]; exact PTE2PA_map mem perm hm hp
  · rw [r4]
    simp only [Function.update_same]
    rcases hsc with h | h | h <;> subst h <;> decide
  · intro j hj
    rw [r4, Function.update_noteq (by omega)]
  · intro h
    rw [r6, Nat.mod_eq_of_lt h]

/-- C9 (witness): a write fault on the data page 0x1000 of `ex_kernel` takes
the frame 0x80001000, maps it `W|U|R` and appends a dirty descriptor with
`seq` 0. -/
theorem C9_fresh_fault_postcondition_witness :
    (0x1000 % PGSIZE = 0 ∧ 0x1000 < MAXVA ∧ pte_at ex_kernel.p.pagetable 0x1000 &&& PTE_V = 0 ∧
      find_page_info ex_kernel.p 0x1000 = none ∧
      ex_kernel.freelist = 0x80001000 :: [0x80002000, 0x80003000] ∧
      (walk_alloc ex_kernel.p.pagetable [0x80002000, 0x80003000] 0x1000).1 = true ∧
      ex_kernel.p.npages < MAX_SWAP_PAGES ∧ seg_contains (ex_kernel.p.segments 1) 0x1000) ∧
    (vmfault ex_kernel 0x1000 15).1 = 0x80001000 ∧
    pte_at (vmfault ex_kernel 0x1000 15).2.p.pagetable 0x1000 =
      PA2PTE 0x80001000 ||| (PTE_W ||| PTE_U ||| PTE_R) ||| PTE_V ∧
    (vmfault ex_kernel 0x1000 15).2.p.npages = ex_kernel.p.npages + 1 ∧
    ((vmfault ex_kernel 0x1000 15).2.p.pages ex_kernel.p.npages).seq = ex_kernel.p.next_seq ∧
    (((vmfault ex_kernel 0x1000 15).2.p.pages ex_kernel.p.npages).dirty = true ↔ 15 = 15) ∧
    (vmfault ex_kernel 0x1000 15).2.p.next_seq = (ex_kernel.p.next_seq + 1) % U64 := by
  have h := C9_fresh_fault_postcondition ex_kernel 0x1000 15 0x80001000
    (PTE_W ||| PTE_U ||| PTE_R) [0x80002000, 0x80003000] (by decide) (by decide)
    (Or.inr (Or.inr rfl)) (by decide)
    (fun pi h => by
      rw [show find_page_info ex_kernel.p 0x1000 = none from by decide] at h
      cases h)
    rfl (by decide) (by decide) (by decide)
    (Or.inl ⟨1, by decide, by decide, by decide, by decide, fun _ => by decide⟩)
  exact ⟨⟨by decide, by decide, by decide, by decide, rfl, by decide, by decide, by decide⟩,
    h.1, h.2.2.1, h.2.2.2.2.2.2.1, h.2.2.2.2.2.2.2.2.2.2.1, h.2.2.2.2.2.2.2.2.2.2.2.1,
    h.2.2.2.2.2.2.2.2.2.2.2.2.2.1⟩

/-! ## C10: contents of a freshly loaded page -/

theorem memset_page_at (m : Nat → Nat) (pa i : Nat) (h : i < PGSIZE) :
    memset_page m pa (pa + i) = 0 := by
  unfold memset_page
  rw [if_pos ⟨by omega, by omega⟩]

/-- C10: page contents on first load.  Under the conditions of a fresh fault
(entry not valid, no swapped descriptor, first free frame `mem`, page-table
page and descriptor slot available, `va` classified), `vmfault` returns `mem`,
maps it at `va`, and: for a page of segment `si`, the first segment holding `va`, at offset
`o = va - vaddr` with `off + o` below `2^64`, the first
`min(PGSIZE, filesz - o)` bytes of the frame are the executable's bytes from
file offset `off + o` and the remaining bytes are zero, so that the whole
frame is zero when `o >= filesz`; for a page outside all segments (heap or
stack) the whole frame is zero. -/
theorem C10_first_load_contents (k : kernel) (va scause mem si : Nat) (rest : List Nat)
    (hal : va % PGSIZE = 0) (hlt : va < MAXVA)
    (hinv : pte_at k.p.pagetable va &&& PTE_V = 0)
    (hnsw : ∀ pi, find_page_info k.p va = some pi → (k.p.pages pi).swapped = false)
    (hfl : k.freelist = mem :: rest) (hmem : mem ≠ 0)
    (hw : (walk_alloc k.p.pagetable rest va).1 = true)
    (hroom : k.p.npages < MAX_SWAP_PAGES)
    (hcls :
      (si < k.p.nsegments ∧ seg_contains (k.p.segments si) va ∧
        (∀ l, l < si → ¬ seg_contains (k.p.segments l) va) ∧
        (k.p.segments si).off + (va - (k.p.segments si).vaddr) < U64 ∧
        (va - (k.p.segments si).vaddr < (k.p.segments si).filesz →
          (k.p.segments si).off + (va - (k.p.segments si).vaddr) +
              min PGSIZE ((k.p.segments si).filesz - (va - (k.p.segments si).vaddr)) ≤
            k.p.exec_inode.size)) ∨
      ((∀ i, i < k.p.nsegments → ¬ seg_contains (k.p.segments i) va) ∧
        (((k.p.heap_start ≤ va ∧ va < k.p.stack_bottom) ∨
            (0 < k.p.stack_top ∧ k.p.stack_top ≤ va ∧ va < PGROUNDUP k.p.sz)) ∨
          ((0 < k.p.stack_top ∧ k.p.stack_bottom ≤ va ∧ va < k.p.stack_top ∧
              ((PGROUNDDOWN k.p.trapframe_sp + U64 - PGSIZE) % U64 ≤ va ∨
                k.p.stack_top ≤ k.p.trapframe_sp)) ∨
            (k.p.stack_top = 0 ∧ k.p.stack_bottom ≤ va ∧ va < PGROUNDUP k.p.sz ∧
              ((PGROUNDDOWN k.p.trapframe_sp + U64 - PGSIZE) % U64 ≤ va ∨
                k.p.sz ≤ k.p.trapframe_sp)))))) :
    (vmfault k va scause).1 = mem ∧
    (∃ perm, pte_at (vmfault k va scause).2.p.pagetable va = PA2PTE mem ||| perm ||| PTE_V) ∧
    ((si < k.p.nsegments ∧ seg_contains (k.p.segments si) va ∧
        (∀ l, l < si → ¬ seg_contains (k.p.segments l) va)) →
      (∀ i, i < min PGSIZE ((k.p.segments si).filesz - (va - (k.p.segments si).vaddr)) →
        (vmfault k va scause).2.mem (mem + i) =
          k.p.exec_inode.data ((k.p.segments si).off + (va - (k.p.segments si).vaddr) + i)) ∧
      (∀ i, min PGSIZE ((k.p.segments si).filesz - (va - (k.p.segments si).vaddr)) ≤ i →
        i < PGSIZE → (vmfault k va scause).2.mem (mem + i) = 0) ∧
      ((k.p.segments si).filesz ≤ va - (k.p.segments si).vaddr →
        ∀ i, i < PGSIZE → (vmfault k va scause).2.mem (mem + i) = 0)) ∧
    ((∀ i, i < k.p.nsegments → ¬ seg_contains (k.p.segments i) va) →
      ∀ i, i < PGSIZE → (vmfault k va scause).2.mem (mem + i) = 0) := by
  rcases hcls with ⟨h1, h2, h3, h4, h5⟩ | ⟨h1, h2⟩
  · have hfs := find_segment_first k.p.segments va k.p.nsegments 0 si (Nat.zero_le _)
      (by omega) h2 (fun l _ hl => h3 l hl)
    have hfo : ((k.p.segments si).off + (va - (k.p.segments si).vaddr)) % U64 =
        (k.p.segments si).off + (va - (k.p.segments si).vaddr) := Nat.mod_eq_of_lt h4
    by_cases hoff : va - (k.p.segments si).vaddr < (k.p.segments si).filesz
    · obtain ⟨r1, r2, r3, _⟩ := vmfault_fresh k va scause mem
        ((k.p.segments si).perm ||| PTE_U ||| PTE_R) rest _ hal hlt hinv hnsw hfl hmem hw hroom
        (Or.inl ⟨si, hfs, rfl, Or.inl ⟨hoff, by rw [hfo]; exact h5 hoff, rfl⟩⟩)
      obtain ⟨e, he⟩ := walk_walk_alloc_ok _ _ _ hw
      refine ⟨r1, ?_, ?_, ?_⟩
      · rw [r3, pte_at_pte_store_same _ _ _ (by rw [he]; simp)]
        exact ⟨_, rfl⟩
      · intro _
        refine ⟨?_, ?_, ?_⟩
        · intro i hi
          rw [r2]
          simp only
          rw [if_pos ⟨by omega, by omega⟩, hfo]
          congr 1
          omega
        · intro i hi1 hi2
          rw [r2]
          simp only
          rw [if_neg (by omega)]
          exact memset_page_at _ _ _ hi2
        · intro hge
          omega
      · intro hno
        exact absurd h2 (hno si h1)
    · obtain ⟨r1, r2, r3, _⟩ := vmfault_fresh k va scause mem
        ((k.p.segments si).perm ||| PTE_U ||| PTE_R) rest _ hal hlt hinv hnsw hfl hmem hw hroom
        (Or.inl ⟨si, hfs, rfl, Or.inr ⟨hoff, rfl⟩⟩)
      obtain ⟨e, he⟩ := walk_walk_alloc_ok _ _ _ hw
      refine ⟨r1, ?_, ?_, ?_⟩
      · rw [r3, pte_at_pte_store_same _ _ _ (by rw [he]; simp)]
        exact ⟨_, rfl⟩
      · intro _
        refine ⟨?_, ?_, ?_⟩
        · intro i hi
          have : (k.p.segments si).filesz - (va - (k.p.segments si).vaddr) = 0 := by omega
          rw [this] at hi
          simp at hi
        · intro i _ hi2
          rw [r2]
          exact memset_page_at _ _ _ hi2
        · intro _ i hi
          rw [r2]
          exact memset_page_at _ _ _ hi
      · intro hno
        exact absurd h2 (hno si h1)
  · have hfs : find_segment k.p.segments va k.p.nsegments 0 = none :=
      (find_segment_none _ _ _ 0).2 (fun l _ hl => h1 l (by omega))
    have hb : in_heap k.p va = true ∨ in_stack k.p va = true := by
      rcases h2 with h | h
      · exact Or.inl ((in_heap_iff k.p va).2 h)
      · exact Or.inr ((in_stack_iff k.p va).2 h)
    obtain ⟨r1, r2, r3, _⟩ := vmfault_fresh k va scause mem
      (PTE_W ||| PTE_U ||| PTE_R) rest _ hal hlt hinv hnsw hfl hmem hw hroom
      (Or.inr ⟨hfs, hb, rfl, rfl⟩)
    obtain ⟨e, he⟩ := walk_walk_alloc_ok _ _ _ hw
    refine ⟨r1, ?_, ?_, ?_⟩
    · rw [r3, pte_at_pte_store_same _ _ _ (by rw [he]; simp)]
      exact ⟨_, rfl⟩
    · rintro ⟨hsi, hc, _⟩
      exact absurd hc (h1 si hsi)
    · intro _ i hi
      rw [r2]
      exact memset_page_at _ _ _ hi

/-- C10 (witness): a read fault on the data page 0x2000 of `ex_kernel`, at
offset 0x1000 of a segment with `filesz = 0x1800`, fills the first 0x800 bytes
of the frame from file offset 0x1800 and zeroes the rest. -/
theorem C10_first_load_contents_witness :
    (0x2000 % PGSIZE = 0 ∧ 0x2000 < MAXVA ∧ pte_at ex_kernel.p.pagetable 0x2000 &&& PTE_V = 0 ∧
      find_page_info ex_kernel.p 0x2000 = none ∧
      ex_kernel.freelist = 0x80001000 :: [0x80002000, 0x80003000] ∧
      1 < ex_kernel.p.nsegments ∧ seg_contains (ex_kernel.p.segments 1) 0x2000 ∧
      (∀ l, l < 1 → ¬ seg_contains (ex_kernel.p.segments l) 0x2000) ∧
      min PGSIZE ((ex_kernel.p.segments 1).filesz - (0x2000 - (ex_kernel.p.segments 1).vaddr))
        = 0x800) ∧
    (vmfault ex_kernel 0x2000 13).1 = 0x80001000 ∧
    (∀ i, i < min PGSIZE
        ((ex_kernel.p.segments 1).filesz - (0x2000 - (ex_kernel.p.segments 1).vaddr)) →
      (vmfault ex_kernel 0x2000 13).2.mem (0x80001000 + i) =
        ex_kernel.p.exec_inode.data
          ((ex_kernel.p.segments 1).off + (0x2000 - (ex_kernel.p.segments 1).vaddr) + i)) ∧
    (∀ i, min PGSIZE
        ((ex_kernel.p.segments 1).filesz - (0x2000 - (ex_kernel.p.segments 1).vaddr)) ≤ i →
      i < PGSIZE → (vmfault ex_kernel 0x2000 13).2.mem (0x80001000 + i) = 0) := by
  have h := C10_first_load_contents ex_kernel 0x2000 13 0x80001000 1 [0x80002000, 0x80003000]
    (by decide) (by decide) (by decide)
    (fun pi h => by
      rw [show find_page_info ex_kernel.p 0x2000 = none from by decide] at h
      cases h)
    rfl (by decide) (by decide) (by decide)
    (Or.inl ⟨by decide, by decide, by decide, by decide, fun _ => by decide⟩)
  have hs := h.2.2.1 ⟨by decide, by decide, by decide⟩
  exact ⟨⟨by decide, by decide, by decide, by decide, rfl, by decide, by decide, by decide,
    by decide⟩, h.1, hs.1, hs.2.1⟩

/-! ## C8: faults the permissions do not allow -/

theorem map_and_req (pa perm i : Nat) (h1 : 1 ≤ i) (h : i < 10) :
    (PA2PTE pa ||| perm ||| PTE_V) &&& 2 ^ i = perm &&& 2 ^ i := by
  rw [Nat.and_two_pow, Nat.and_two_pow]
  have hv : PTE_V.testBit i = false := testBit_high 1 1 i (by norm_num) h1
  simp [Nat.testBit_lor, testBit_PA2PTE_low pa i h, hv]

theorem req_bit_cases (scause : Nat) :
    (if scause = 12 then PTE_X else if scause = 13 then PTE_R else PTE_W) = 2 ^ 3 ∨
    (if scause = 12 then PTE_X else if scause = 13 then PTE_R else PTE_W) = 2 ^ 1 ∨
    (if scause = 12 then PTE_X else if scause = 13 then PTE_R else PTE_W) = 2 ^ 2 := by
  by_cases h12 : scause = 12
  · left; rw [if_pos h12]; rfl
  · by_cases h13 : scause = 13
    · right; left; rw [if_neg h12, if_pos h13]; rfl
    · right; right; rw [if_neg h12, if_neg h13]; rfl

theorem map_and_req_bit (pa perm scause : Nat) :
    (PA2PTE pa ||| perm ||| PTE_V) &&&
        (if scause = 12 then PTE_X else if scause = 13 then PTE_R else PTE_W) =
      perm &&& (if scause = 12 then PTE_X else if scause = 13 then PTE_R else PTE_W) := by
  rcases req_bit_cases scause with h | h | h <;> rw [h]
  · exact map_and_req pa perm 3 (by norm_num) (by norm_num)
  · exact map_and_req pa perm 1 (by norm_num) (by norm_num)
  · exact map_and_req pa perm 2 (by norm_num) (by norm_num)

/-- C8 (counterexample): a write fault on the not yet loaded page 0 of the
text segment of `ex_kernel`, whose `perm` is `X` without `W`, does not set
`killed` and does not return 0: `vmfault` loads the page, maps it without `W`
and creates a descriptor for it, marked dirty. -/
theorem C8_counterexample :
    (seg_contains (ex_kernel.p.segments 0) 0 ∧ (ex_kernel.p.segments 0).perm &&& PTE_W = 0 ∧
      pte_at ex_kernel.p.pagetable 0 &&& PTE_V = 0 ∧ ex_kernel.p.npages = 0) ∧
    (vmfault ex_kernel 0 15).1 ≠ 0 ∧
    (vmfault ex_kernel 0 15).2.p.killed = false ∧
    (vmfault ex_kernel 0 15).2.p.npages = 1 ∧
    ((vmfault ex_kernel 0 15).2.p.pages 0).va = 0 ∧
    ((vmfault ex_kernel 0 15).2.p.pages 0).dirty = true ∧
    pte_at (vmfault ex_kernel 0 15).2.p.pagetable 0 &&& PTE_V ≠ 0 ∧
    pte_at (vmfault ex_kernel 0 15).2.p.pagetable 0 &&& PTE_W = 0 := by
  decide

/-- C8 (amended): a fault on a page below `MAXVA` whose entry is valid but
lacks `U` or the bit the access requires sets `killed`, returns 0
and leaves the descriptor table as it was.  A fault on a not yet loaded page
of a segment whose `perm|U|R` lacks the required bit is not refused by that
call: with a frame, the page-table page and a descriptor slot available and
the executable readable, `vmfault` loads the page, maps it with `perm|U|R`,
creates its descriptor and returns the frame without setting `killed`; the
same access repeated on the resulting state then finds the page mapped
without the required bit, sets `killed`, returns 0 and creates no further
descriptor. -/
theorem C8_permission_mismatch (k : kernel) (va scause : Nat)
    (hal : va % PGSIZE = 0) (hlt : va < MAXVA) :
    (pte_at k.p.pagetable va &&& PTE_V ≠ 0 →
      ¬ (pte_at k.p.pagetable va &&& PTE_U ≠ 0 ∧
        pte_at k.p.pagetable va &&&
          (if scause = 12 then PTE_X else if scause = 13 then PTE_R else PTE_W) ≠ 0) →
      (vmfault k va scause).1 = 0 ∧ (vmfault k va scause).2.p.killed = true ∧
      (vmfault k va scause).2.p.npages = k.p.npages ∧
      (vmfault k va scause).2.p.pages = k.p.pages) ∧
    (∀ (mem si : Nat) (rest : List Nat),
      pte_at k.p.pagetable va &&& PTE_V = 0 →
      (∀ pi, find_page_info k.p va = some pi → (k.p.pages pi).swapped = false) →
      k.freelist = mem :: rest → mem ≠ 0 →
      (walk_alloc k.p.pagetable rest va).1 = true →
      k.p.npages < MAX_SWAP_PAGES →
      si < k.p.nsegments → seg_contains (k.p.segments si) va →
      (∀ l, l < si → ¬ seg_contains (k.p.segments l) va) →
      (va - (k.p.segments si).vaddr < (k.p.segments si).filesz →
        ((k.p.segments si).off + (va - (k.p.segments si).vaddr)) % U64 +
            min PGSIZE ((k.p.segments si).filesz - (va - (k.p.segments si).vaddr)) ≤
          k.p.exec_inode.size) →
      ((k.p.segments si).perm ||| PTE_U ||| PTE_R) &&&
          (if scause = 12 then PTE_X else if scause = 13 then PTE_R else PTE_W) = 0 →
      ((vmfault k va scause).1 = mem ∧ (vmfault k va scause).2.p.killed = k.p.killed ∧
        (vmfault k va scause).2.p.npages = k.p.npages + 1 ∧
        ((vmfault k va scause).2.p.pages k.p.npages).va = va ∧
        pte_at (vmfault k va scause).2.p.pagetable va =
          PA2PTE mem ||| ((k.p.segments si).perm ||| PTE_U ||| PTE_R) ||| PTE_V) ∧
      ((vmfault (vmfault k va scause).2 va scause).1 = 0 ∧
        (vmfault (vmfault k va scause).2 va scause).2.p.killed = true ∧
        (vmfault (vmfault k va scause).2 va scause).2.p.npages = k.p.npages + 1)) := by
  constructor
  · intro hmap hbad
    rw [vmfault_mapped k va scause hal hlt hmap, if_neg hbad]
    exact ⟨rfl, rfl, rfl, rfl⟩
  · intro mem si rest hinv hnsw hfl hmem hw hroom hsi hc hfirst hread hperm
    have hfs := find_segment_first k.p.segments va k.p.nsegments 0 si (Nat.zero_le _)
      (by omega) hc (fun l _ hl => hfirst l hl)
    have hfresh : (vmfault k va scause).1 = mem ∧
        (vmfault k va scause).2.p.pagetable =
          pte_store (walk_alloc k.p.pagetable rest va).2.1 va
            (PA2PTE mem ||| ((k.p.segments si).perm ||| PTE_U ||| PTE_R) ||| PTE_V) ∧
        (vmfault k va scause).2.p.pages =
          Function.update k.p.pages k.p.npages
            { va := va, seq := k.p.next_seq, dirty := is_write scause, swapped := false,
              swap_offset := 0, resident := true } ∧
        (vmfault k va scause).2.p.npages = k.p.npages + 1 ∧
        (vmfault k va scause).2.p.killed = k.p.killed := by
      by_cases hoff : va - (k.p.segments si).vaddr < (k.p.segments si).filesz
      · obtain ⟨q1, _, q3, q4, q5, _, q7, _⟩ := vmfault_fresh k va scause mem
          ((k.p.segments si).perm ||| PTE_U ||| PTE_R)
          rest _ hal hlt hinv hnsw hfl hmem hw hroom
          (Or.inl ⟨si, hfs, rfl, Or.inl ⟨hoff, hread hoff, rfl⟩⟩)
        exact ⟨q1, q3, q4, q5, q7⟩
      · obtain ⟨q1, _, q3, q4, q5, _, q7, _⟩ := vmfault_fresh k va scause mem
          ((k.p.segments si).perm ||| PTE_U ||| PTE_R)
          rest (memset_page k.mem mem) hal hlt hinv hnsw hfl hmem hw hroom
          (Or.inl ⟨si, hfs, rfl, Or.inr ⟨hoff, rfl⟩⟩)
        exact ⟨q1, q3, q4, q5, q7⟩
    obtain ⟨r1, r3', r4', r7, r16⟩ := hfresh
    obtain ⟨e, he⟩ := walk_walk_alloc_ok _ _ _ hw
    have r3 : pte_at (vmfault k va scause).2.p.pagetable va =
        PA2PTE mem ||| ((k.p.segments si).perm ||| PTE_U ||| PTE_R) ||| PTE_V := by
      rw [r3']
      exact pte_at_pte_store_same _ _ _ (by rw [he]; simp)
    have r4 : pte_at (vmfault k va scause).2.p.pagetable va &&& PTE_V ≠ 0 := by
      rw [r3]; exact map_valid _ _
    have r8 : ((vmfault k va scause).2.p.pages k.p.npages).va = va := by
      rw [r4']; simp
    refine ⟨⟨r1, r16, r7, r8, r3⟩, ?_⟩
    have hbad : ¬ (pte_at (vmfault k va scause).2.p.pagetable va &&& PTE_U ≠ 0 ∧
        pte_at (vmfault k va scause).2.p.pagetable va &&&
          (if scause = 12 then PTE_X else if scause = 13 then PTE_R else PTE_W) ≠ 0) := by
      rintro ⟨_, h2⟩
      rw [r3, map_and_req_bit] at h2
      exact h2 hperm
    rw [vmfault_mapped _ va scause hal hlt r4, if_neg hbad]
    exact ⟨rfl, rfl, r7⟩

/-- C8 (witness): a write fault on the mapped text page of `c8_kernel` kills
the process; a write fault on the not yet loaded text page of `ex_kernel`
loads it, and the repeated write fault kills the process. -/
theorem C8_permission_mismatch_witness :
    (pte_at c8_kernel.p.pagetable 0 &&& PTE_V ≠ 0 ∧ pte_at c8_kernel.p.pagetable 0 &&& PTE_W = 0) ∧
    ((vmfault c8_kernel 0 15).1 = 0 ∧ (vmfault c8_kernel 0 15).2.p.killed = true ∧
      (vmfault c8_kernel 0 15).2.p.npages = c8_kernel.p.npages ∧
      (vmfault c8_kernel 0 15).2.p.pages = c8_kernel.p.pages) ∧
    (pte_at ex_kernel.p.pagetable 0 &&& PTE_V = 0 ∧ seg_contains (ex_kernel.p.segments 0) 0 ∧
      ((ex_kernel.p.segments 0).perm ||| PTE_U ||| PTE_R) &&& PTE_W = 0) ∧
    ((vmfault (vmfault ex_kernel 0 15).2 0 15).1 = 0 ∧
      (vmfault (vmfault ex_kernel 0 15).2 0 15).2.p.killed = true ∧
      (vmfault (vmfault ex_kernel 0 15).2 0 15).2.p.npages = ex_kernel.p.npages + 1) :=
  ⟨⟨by decide, by decide⟩,
    (C8_permission_mismatch c8_kernel 0 15 (by decide) (by decide)).1 (by decide) (by decide),
    ⟨by decide, by decide, by decide⟩,
    ((C8_permission_mismatch ex_kernel 0 15 (by decide) (by decide)).2 0x80001000 0
      [0x80002000, 0x80003000] (by decide)
      (fun pi h => by
        rw [show find_page_info ex_kernel.p 0 = none from by decide] at h
        cases h)
      rfl (by decide) (by decide) (by decide) (by decide) (by decide) (by decide)
      (fun _ => by decide) (by decide)).2⟩

/-! ## C15, C16: `sys_sbrk` -/

theorem growproc_pages (k : kernel) (n : Int) :
    (growproc k n).2.p.pages = k.p.pages ∧ (growproc k n).2.p.npages = k.p.npages ∧
    (growproc k n).2.p.next_seq = k.p.next_seq := by
  unfold growproc
  simp only []
  split_ifs <;> simp

theorem map_range_shift (pages pages' : Nat → page_info) (i m : Nat)
    (h : ∀ j, i ≤ j → j < i + m → pages' j = pages (j + 1)) :
    (List.range' i m).map pages' = (List.range' (i + 1) m).map pages := by
  rw [List.range'_eq_map_range, List.range'_eq_map_range, List.map_map, List.map_map]
  apply List.map_congr_left
  intro a ha
  rw [List.mem_range] at ha
  simp only [Function.comp]
  rw [h (i + a) (by omega) (by omega)]
  congr 1
  omega

theorem sbrk_prune_spec (newsz : Nat) (fuel : Nat) :
    ∀ (i : Nat) (pages : Nat → page_info) (npages : Nat), i ≤ npages → npages - i ≤ fuel →
      (List.range (sbrk_prune newsz fuel i pages npages).2).map
          (sbrk_prune newsz fuel i pages npages).1 =
        (List.range i).map pages ++
          ((List.range' i (npages - i)).map pages).filter (fun d => decide (d.va < newsz)) := by
  induction fuel with
  | zero =>
    intro i pages npages h1 h2
    have : npages - i = 0 := by omega
    have hi : i = npages := by omega
    simp [sbrk_prune, this, hi]
  | succ fuel ih =>
    intro i pages npages h1 h2
    unfold sbrk_prune
    by_cases hlt : i < npages
    · rw [if_pos hlt]
      have hsplit : npages - i = (npages - 1 - i) + 1 := by omega
      by_cases hge : (pages i).va ≥ newsz
      · rw [if_pos hge, ih i _ (npages - 1) (by omega) (by omega)]
        have hlow : (List.range i).map (shift_down pages (npages - 1 - i) i) =
            (List.range i).map pages := by
          apply List.map_congr_left
          intro a ha
          rw [List.mem_range] at ha
          rw [shift_down_eq, if_neg (by omega)]
        have hhigh := map_range_shift pages (shift_down pages (npages - 1 - i) i) i
          (npages - 1 - i) (by
            intro j hj1 hj2
            rw [shift_down_eq, if_pos ⟨hj1, by omega⟩])
        rw [hlow, hhigh, hsplit, List.range'_succ, List.map_cons, List.filter_cons_of_neg]
        simp only [decide_eq_true_eq]
        omega
      · rw [if_neg hge, ih (i + 1) _ npages (by omega) (by omega)]
        have e1 : npages - (i + 1) = npages - 1 - i := by omega
        rw [e1, hsplit, List.range'_succ, List.map_cons, List.filter_cons_of_pos,
          List.range_succ, List.map_append, List.append_assoc]
        · simp
        · simp only [decide_eq_true_eq]
          omega
    · rw [if_neg hlt]
      have : npages - i = 0 := by omega
      have hi : i = npages := by omega
      simp [this, hi]

/-- C15: `sys_sbrk` in lazy mode (any mode other than `SBRK_EAGER`, in particular
`SBRK_LAZY`) with `0 ≤ n`: when `sz + n` does not wrap and is at most
`TRAPFRAME` the call returns the previous `sz` and only changes `sz`, to
`sz + n` - the page table, the descriptors and the swap bitmap are the same;
otherwise it returns `(uint64)-1` and changes nothing. -/
theorem C15_lazy_sbrk (k : kernel) (n t : Int)
    (ht : t ≠ SBRK_EAGER) (hn : 0 ≤ n) (hn32 : n < 2 ^ 31) (hsz : k.p.sz < U64) :
    (k.p.sz + n.toNat < U64 ∧ k.p.sz + n.toNat ≤ TRAPFRAME →
      (sys_sbrk k n t).1 = k.p.sz ∧
      (sys_sbrk k n t).2 = { k with p := { k.p with sz := k.p.sz + n.toNat } } ∧
      (sys_sbrk k n t).2.p.pagetable = k.p.pagetable ∧
      (sys_sbrk k n t).2.p.pages = k.p.pages ∧
      (sys_sbrk k n t).2.p.npages = k.p.npages ∧
      (sys_sbrk k n t).2.p.swap_slots = k.p.swap_slots ∧
      (sys_sbrk k n t).2.p.nswap_slots = k.p.nswap_slots ∧
      (sys_sbrk k n t).2.freelist = k.freelist) ∧
    (¬ (k.p.sz + n.toNat < U64 ∧ k.p.sz + n.toNat ≤ TRAPFRAME) →
      (sys_sbrk k n t).1 = U64 - 1 ∧ (sys_sbrk k n t).2 = k) := by
  have hb : ¬ (t = SBRK_EAGER ∨ n < 0) := by
    rintro (h | h)
    · exact ht h
    · omega
  have hU : U64 = 18446744073709551616 := by norm_num [U64]
  have hT : TRAPFRAME = 274877898752 := by norm_num [TRAPFRAME, TRAMPOLINE, MAXVA, PGSIZE]
  have hnn : n.toNat < 2 ^ 31 := by omega
  constructor
  · rintro ⟨h1, h2⟩
    have hm : (k.p.sz + n.toNat) % U64 = k.p.sz + n.toNat := Nat.mod_eq_of_lt h1
    unfold sys_sbrk
    simp only []
    rw [if_neg hb, hm, if_neg (by omega), if_neg (by omega)]
    simp
  · intro h
    unfold sys_sbrk
    simp only []
    rw [if_neg hb]
    by_cases hw : k.p.sz + n.toNat < U64
    · have hm : (k.p.sz + n.toNat) % U64 = k.p.sz + n.toNat := Nat.mod_eq_of_lt hw
      have h2 : ¬ k.p.sz + n.toNat ≤ TRAPFRAME := fun h2 => h ⟨hw, h2⟩
      rw [hm, if_neg (by omega), if_pos (by omega)]
      exact ⟨rfl, rfl⟩
    · have hm : (k.p.sz + n.toNat) % U64 = k.p.sz + n.toNat - U64 := by
        rw [Nat.mod_eq_sub_mod (by omega), Nat.mod_eq_of_lt (by omega)]
      rw [hm, if_pos (by omega)]
      exact ⟨rfl, rfl⟩

/-- C15 (witness): `ex_kernel` (`sz = 0x5000`) grows lazily by ten pages. -/
theorem C15_lazy_sbrk_witness :
    (sys_sbrk ex_kernel 40960 SBRK_LAZY).1 = 0x5000 ∧
    (sys_sbrk ex_kernel 40960 SBRK_LAZY).2.p.sz = 0xf000 ∧
    (sys_sbrk ex_kernel 40960 SBRK_LAZY).2.p.npages = 0 ∧
    (sys_sbrk ex_kernel 40960 SBRK_LAZY).2.freelist = ex_kernel.freelist := by
  have h := (C15_lazy_sbrk ex_kernel 40960 SBRK_LAZY (by decide) (by decide) (by decide)
    (by decide)).1 (by decide)
  refine ⟨h.1, ?_, h.2.2.2.2.1, h.2.2.2.2.2.2.2⟩
  rw [h.2.1]
  rfl

/-- C16: after `sys_sbrk` with `n < 0` returned without error (in either mode),
the descriptors `pages[0..npages)` are exactly the previous descriptors whose
`va` is below the new `sz`, unchanged and in their previous order; none of them
has `va` at or above the new `sz`. -/
theorem C16_shrink_prunes (k : kernel) (n t : Int) (hn : n < 0)
    (hrun : (sys_sbrk k n t).2.panicked = false)
    (hret : (sys_sbrk k n t).1 ≠ U64 - 1) :
    (List.range (sys_sbrk k n t).2.p.npages).map (sys_sbrk k n t).2.p.pages =
      ((List.range k.p.npages).map k.p.pages).filter
        (fun d => decide (d.va < (sys_sbrk k n t).2.p.sz)) ∧
    (∀ j, j < (sys_sbrk k n t).2.p.npages →
      ((sys_sbrk k n t).2.p.pages j).va < (sys_sbrk k n t).2.p.sz) ∧
    (sys_sbrk k n t).1 = k.p.sz := by
  have hb : t = SBRK_EAGER ∨ n < 0 := Or.inr hn
  obtain ⟨hgp, hgn, _⟩ := growproc_pages k n
  have hp : (growproc k n).2.panicked = false := by
    by_contra hc
    have hc' : (growproc k n).2.panicked = true := by simpa using hc
    apply absurd hrun
    unfold sys_sbrk
    simp only []
    rw [if_pos hb, if_pos hc']
    simp [hc']
  have hg : ¬ (growproc k n).1 < 0 := by
    intro hc
    apply hret
    unfold sys_sbrk
    simp only []
    rw [if_pos hb, if_neg (by simp [hp]), if_pos hc]
  have hE : sys_sbrk k n t = (k.p.sz,
      { (growproc k n).2 with
        p := { (growproc k n).2.p with
          pages := (sbrk_prune (growproc k n).2.p.sz (growproc k n).2.p.npages 0
            (growproc k n).2.p.pages (growproc k n).2.p.npages).1
          npages := (sbrk_prune (growproc k n).2.p.sz (growproc k n).2.p.npages 0
            (growproc k n).2.p.pages (growproc k n).2.p.npages).2 } }) := by
    unfold sys_sbrk
    simp only []
    rw [if_pos hb, if_neg (by simp [hp]), if_neg hg, if_pos hn]
  have hspec := sbrk_prune_spec (growproc k n).2.p.sz (growproc k n).2.p.npages 0
    (growproc k n).2.p.pages (growproc k n).2.p.npages (Nat.zero_le _) (by omega)
  rw [hE]
  simp only []
  have hL : (List.range (sbrk_prune (growproc k n).2.p.sz (growproc k n).2.p.npages 0
        (growproc k n).2.p.pages (growproc k n).2.p.npages).2).map
        (sbrk_prune (growproc k n).2.p.sz (growproc k n).2.p.npages 0
          (growproc k n).2.p.pages (growproc k n).2.p.npages).1 =
      ((List.range k.p.npages).map k.p.pages).filter
        (fun d => decide (d.va < (growproc k n).2.p.sz)) := by
    rw [hspec, hgp, hgn]
    simp [List.range_eq_range']
  refine ⟨hL, ?_, trivial⟩
  intro j hj
  have hmem : (sbrk_prune (growproc k n).2.p.sz (growproc k n).2.p.npages 0
        (growproc k n).2.p.pages (growproc k n).2.p.npages).1 j ∈
      (List.range (sbrk_prune (growproc k n).2.p.sz (growproc k n).2.p.npages 0
        (growproc k n).2.p.pages (growproc k n).2.p.npages).2).map
        (sbrk_prune (growproc k n).2.p.sz (growproc k n).2.p.npages 0
          (growproc k n).2.p.pages (growproc k n).2.p.npages).1 :=
    List.mem_map.mpr ⟨j, List.mem_range.mpr hj, rfl⟩
  rw [hL, List.mem_filter] at hmem
  simpa using hmem.2

/-- C16 (witness): `c5_kernel` (`sz = 0x8000`, descriptors of the pages 0,
0x5000 and 0x6000) shrinks by two pages; the descriptor of 0x6000 goes. -/
theorem C16_shrink_prunes_witness :
    (sys_sbrk c5_kernel (-8192) SBRK_LAZY).2.p.sz = 0x6000 ∧
    (sys_sbrk c5_kernel (-8192) SBRK_LAZY).2.p.npages = 2 ∧
    (List.range (sys_sbrk c5_kernel (-8192) SBRK_LAZY).2.p.npages).map
        (sys_sbrk c5_kernel (-8192) SBRK_LAZY).2.p.pages =
      ((List.range c5_kernel.p.npages).map c5_kernel.p.pages).filter
        (fun d => decide (d.va < (sys_sbrk c5_kernel (-8192) SBRK_LAZY).2.p.sz)) :=
  ⟨by decide, by decide,
    (C16_shrink_prunes c5_kernel (-8192) SBRK_LAZY (by decide) (by decide) (by decide)).1⟩

/-! ## C12: a failing exec -/

set_option maxRecDepth 8000

/-- C12 (code at the failing inputs): two failing calls of the process `exec_done`, which runs
`ex_file` (two segments, one descriptor, `next_seq = 1`, `heap_start = 0x3000`).
An exec of a file whose second program header is invalid returns -1 with
`nsegments = 1`, `npages = 0`, `next_seq = 0` and segment 0 replaced.  An exec of
a valid file when no frame is left for the stack page (`c12_low_mem`) returns -1
with the segments, `exec_inode`, `heap_start`, `stack_bottom` and `stack_top` of the
new image and no descriptor, while `sz` is that of the old one. -/
theorem C12_failed_exec_clobbers_image :
    exec_done.p.nsegments = 2 ∧ exec_done.p.npages = 1 ∧ exec_done.p.next_seq = 1 ∧
    (exec_done.p.segments 0).memsz = 0x1000 ∧ exec_done.p.heap_start = 0x3000 ∧
    exec_done.p.stack_bottom = 0x4000 ∧ exec_done.p.stack_top = 0x5000 ∧
    exec_done.p.exec_inode.size = 0x3000 ∧ (exec_done.p.pages 0).va = 0x4000 ∧
    (kexec 1 ex_trampoline ex_trapframe exec_done (some c12_bad_file) []).1 = -1 ∧
    (kexec 1 ex_trampoline ex_trapframe exec_done (some c12_bad_file) []).2.panicked = false ∧
    (kexec 1 ex_trampoline ex_trapframe exec_done (some c12_bad_file) []).2.p.nsegments = 1 ∧
    (kexec 1 ex_trampoline ex_trapframe exec_done (some c12_bad_file) []).2.p.npages = 0 ∧
    (kexec 1 ex_trampoline ex_trapframe exec_done (some c12_bad_file) []).2.p.next_seq = 0 ∧
    ((kexec 1 ex_trampoline ex_trapframe exec_done (some c12_bad_file) []).2.p.segments 0).memsz
      = 0x5000 ∧
    (kexec 1 ex_trampoline ex_trapframe c12_low_mem (some c12_good_file) []).1 = -1 ∧
    (kexec 1 ex_trampoline ex_trapframe c12_low_mem (some c12_good_file) []).2.panicked = false ∧
    (kexec 1 ex_trampoline ex_trapframe c12_low_mem (some c12_good_file) []).2.p.nsegments = 1 ∧
    (kexec 1 ex_trampoline ex_trapframe c12_low_mem (some c12_good_file) []).2.p.heap_start = 0x5000 ∧
    (kexec 1 ex_trampoline ex_trapframe c12_low_mem (some c12_good_file) []).2.p.stack_bottom = 0x6000 ∧
    (kexec 1 ex_trampoline ex_trapframe c12_low_mem (some c12_good_file) []).2.p.stack_top = 0x7000 ∧
    (kexec 1 ex_trampoline ex_trapframe c12_low_mem (some c12_good_file) []).2.p.exec_inode.size = 0x9000 ∧
    (kexec 1 ex_trampoline ex_trapframe c12_low_mem (some c12_good_file) []).2.p.sz = 0x5000 := by
  decide

/-! ## C18: descriptors, page table and bitmap after a swap-in that discards -/

/-- C18 (code at the failing input): a state reached from a successful exec
through `vmfault` and `evict_page` only.  In `c18_full` the free list is empty, the clean data page
0x1000 is resident with the smallest sequence number, and the data page 0x2000 is
in swap slot 1.  The load from 0x2000 succeeds, and in the state it leaves
(`c18_state`) the descriptor of 0x2000 still has `swapped = 1` and `resident = 0`
while the page is mapped with `V = 1` and the bit of its slot in the bitmap is
clear. -/
theorem C18_swapped_descriptor_mapped :
    (kexec 1 ex_trampoline ex_trapframe tight_kernel (some ex_exec_file) []).1 = 0 ∧
    reachable tight_done c18_state ∧
    c18_full.freelist = [] ∧
    (vmfault c18_full 0x2000 13).1 ≠ 0 ∧
    c18_state.panicked = false ∧ c18_state.p.killed = false ∧
    c18_state.p.npages = 2 ∧
    (c18_state.p.pages 1).va = 0x2000 ∧
    (c18_state.p.pages 1).swapped = true ∧
    (c18_state.p.pages 1).resident = false ∧
    (c18_state.p.pages 1).swap_offset = 1 ∧
    pte_at c18_state.p.pagetable 0x2000 &&& PTE_V ≠ 0 ∧
    c18_state.p.swap_slots 0 &&& (1 <<< 1) = 0 := by
  refine ⟨by decide, ?_, ?_⟩
  · exact reachable.step _ _ (reachable.step _ _ (reachable.step _ _ (reachable.step _ _
      (reachable.step _ _ (reachable.step _ _ (reachable.step _ _ reachable.start
        (paging_step.vmfault tight_done 0x1000 15))
        (paging_step.vmfault _ 0x2000 15))
        (paging_step.evict_page _))
        (paging_step.vmfault _ 0x1000 13))
        (paging_step.evict_page _))
        (paging_step.vmfault c18_evicted 0x4000 13))
        (paging_step.vmfault c18_full 0x2000 13)
  · decide

/-! ## C19: slot accounting after a shrinking `sbrk` -/

/-- C19 (code at the failing inputs): three states.  In `c19_swapped`, reached from a successful exec
through `sys_sbrk`, `vmfault` and `evict_page`, the stack page and the heap page
0x6000 are in swap: two bits set in the bitmap, `nswap_slots = 2`, two swapped
descriptors.  After `sbrk(-4096)` (`c19_state`) the descriptor of 0x6000 is gone
but its slot is still marked used: two bits set, `nswap_slots = 2`, one swapped
descriptor.  After another successful exec from `c19_swapped` (`c19_reexec`) the
descriptors are those of the new image, none swapped, and the two slots are
still marked used.  In `c19_write_failed` the write of the second eviction failed:
its slot stays marked used (two bits set, `nswap_slots = 2`) while only one
descriptor is swapped. -/
theorem C19_slots_leak :
    (kexec 1 ex_trampoline ex_trapframe boot_kernel (some ex_exec_file) []).1 = 0 ∧
    reachable exec_done c19_state ∧
    used_slots c19_swapped.p = 2 ∧ c19_swapped.p.nswap_slots = 2 ∧
    swapped_count c19_swapped.p = 2 ∧
    (sys_sbrk c19_swapped (-0x1000) SBRK_LAZY).1 = 0x7000 ∧
    c19_state.panicked = false ∧ c19_state.p.killed = false ∧
    c19_state.p.sz = 0x6000 ∧
    used_slots c19_state.p = 2 ∧ c19_state.p.nswap_slots = 2 ∧
    swapped_count c19_state.p = 1 ∧
    (kexec 1 ex_trampoline ex_trapframe c19_swapped (some ex_exec_file) []).1 = 0 ∧
    c19_reexec.panicked = false ∧
    used_slots c19_reexec.p = 2 ∧ c19_reexec.p.nswap_slots = 2 ∧
    swapped_count c19_reexec.p = 0 ∧
    (evict_page (evict_page (vmfault c19_small_swap 0x1000 15).2).2).1 = 0 ∧
    c19_write_failed.panicked = false ∧
    used_slots c19_write_failed.p = 2 ∧ c19_write_failed.p.nswap_slots = 2 ∧
    swapped_count c19_write_failed.p = 1 := by
  refine ⟨by decide, ?_, ?_⟩
  · exact reachable.step _ _ (reachable.step _ _ (reachable.step _ _ (reachable.step _ _
      (reachable.step _ _ reachable.start
        (paging_step.sys_sbrk exec_done 0x2000 SBRK_LAZY))
        (paging_step.vmfault _ 0x6000 15))
        (paging_step.evict_page _))
        (paging_step.evict_page _))
        (paging_step.sys_sbrk c19_swapped (-0x1000) SBRK_LAZY)
  · decide

/-! ## Changes of the descriptor table -/

theorem run_trans {m n : Nat} {a b c : dtab} (h1 : run a m b) (h2 : run b n c) :
    run a (m + n) c := by
  induction h2 with
  | refl => exact h1
  | set n c' i e _ hs hf ih => exact run.set _ _ i e ih hs hf
  | remove n c' i _ hi ih => exact run.remove _ _ i ih hi
  | append n c' va _ ih => exact run.append _ _ va ih
  | refresh n c' i _ ih => exact run.refresh _ _ i ih

theorem run_xor {m : Nat} {a b : dtab} (h : run a m b) (hx : resident_xor_swapped a) :
    resident_xor_swapped b := by
  induction h with
  | refl => exact hx
  | set n c i e _ hs hf ih =>
    intro j hj
    by_cases hji : j = i
    · subst hji
      simp only [Function.update_same]
      rcases hf with ⟨h1, h2⟩ | ⟨h1, h2⟩
      · rw [h1, h2]; exact ih j hj
      · rw [h1, h2]; simp
    · simp only [Function.update_noteq hji]
      exact ih j hj
  | remove n c i _ hi ih =>
    intro j hj
    simp only at hj ⊢
    rw [shift_down_eq]
    split_ifs
    · exact ih (j + 1) (by omega)
    · exact ih j (by omega)
  | append n c va _ ih =>
    intro j hj
    simp only at hj ⊢
    by_cases hji : j = c.npages
    · subst hji; simp
    · rw [Function.update_noteq hji]; exact ih j (by omega)
  | refresh n c i _ ih =>
    intro j hj
    simp only at hj ⊢
    by_cases hji : j = i
    · subst hji; simp
    · rw [Function.update_noteq hji]; exact ih j hj

theorem run_next_seq {m : Nat} {a b : dtab} (h : run a m b) :
    (m = 0 → b.next_seq = a.next_seq) ∧ (0 < m → b.next_seq = (a.next_seq + m) % U64) := by
  induction h with
  | refl => exact ⟨fun _ => rfl, fun h => absurd h (by omega)⟩
  | set n c i e _ hs hf ih => exact ih
  | remove n c i _ hi ih => exact ih
  | append n c va _ ih =>
    refine ⟨fun h => absurd h (by omega), fun _ => ?_⟩
    simp only
    rcases Nat.eq_zero_or_pos n with h0 | h0
    · rw [ih.1 h0, h0]
    · rw [ih.2 h0, Nat.add_mod, Nat.mod_mod, ← Nat.add_mod, Nat.add_assoc]
  | refresh n c i _ ih =>
    refine ⟨fun h => absurd h (by omega), fun _ => ?_⟩
    simp only
    rcases Nat.eq_zero_or_pos n with h0 | h0
    · rw [ih.1 h0, h0]
    · rw [ih.2 h0, Nat.add_mod, Nat.mod_mod, ← Nat.add_mod, Nat.add_assoc]

theorem run_seq {m : Nat} {a b : dtab} (h : run a m b) (hs : seq_inv a)
    (hm : a.next_seq + m < U64) : seq_inv b ∧ b.next_seq = a.next_seq + m := by
  induction h with
  | refl => exact ⟨hs, rfl⟩
  | set n c i e _ he hf ih =>
    obtain ⟨⟨h1, h2, h3⟩, h4⟩ := ih hm
    refine ⟨⟨h1, ?_, ?_⟩, h4⟩
    · intro j hj
      simp only at hj ⊢
      by_cases hji : j = i
      · subst hji; rw [Function.update_same, he]; exact h2 j hj
      · rw [Function.update_noteq hji]; exact h2 j hj
    · intro j l hj hl hne
      simp only at hj hl ⊢
      have key : ∀ x, (Function.update c.pages i e x).seq = (c.pages x).seq := by
        intro x
        by_cases hx : x = i
        · subst hx; rw [Function.update_same, he]
        · rw [Function.update_noteq hx]
      rw [key, key]
      exact h3 j l hj hl hne
  | remove n c i _ hi ih =>
    obtain ⟨⟨h1, h2, h3⟩, h4⟩ := ih hm
    refine ⟨⟨h1, ?_, ?_⟩, h4⟩
    · intro j hj
      simp only at hj ⊢
      rw [shift_down_eq]
      split_ifs
      · exact h2 (j + 1) (by omega)
      · exact h2 j (by omega)
    · intro j l hj hl hne
      simp only at hj hl ⊢
      rw [shift_down_eq, shift_down_eq]
      split_ifs with c1 c2 c2
      · exact h3 _ _ (by omega) (by omega) (by omega)
      · exact h3 _ _ (by omega) (by omega) (by omega)
      · exact h3 _ _ (by omega) (by omega) (by omega)
      · exact h3 _ _ (by omega) (by omega) (by omega)
  | append n c va _ ih =>
    obtain ⟨⟨h1, h2, h3⟩, h4⟩ := ih (by omega)
    have hmod : (c.next_seq + 1) % U64 = c.next_seq + 1 := Nat.mod_eq_of_lt (by omega)
    refine ⟨⟨?_, ?_, ?_⟩, ?_⟩
    · simp only; rw [hmod]; omega
    · intro j hj
      simp only at hj ⊢
      rw [hmod]
      by_cases hji : j = c.npages
      · subst hji; rw [Function.update_same]; simp
      · rw [Function.update_noteq hji]
        have := h2 j (by omega)
        omega
    · intro j l hj hl hne
      simp only at hj hl ⊢
      by_cases hj' : j = c.npages
      · have hl' : l ≠ c.npages := by omega
        rw [hj', Function.update_same, Function.update_noteq hl']
        have := h2 l (by omega)
        simp only
        omega
      · rw [Function.update_noteq hj']
        by_cases hl' : l = c.npages
        · rw [hl', Function.update_same]
          have := h2 j (by omega)
          simp only
          omega
        · rw [Function.update_noteq hl']
          exact h3 j l (by omega) (by omega) hne
    · simp only; rw [hmod]; omega
  | refresh n c i _ ih =>
    obtain ⟨⟨h1, h2, h3⟩, h4⟩ := ih (by omega)
    have hmod : (c.next_seq + 1) % U64 = c.next_seq + 1 := Nat.mod_eq_of_lt (by omega)
    refine ⟨⟨?_, ?_, ?_⟩, ?_⟩
    · simp only; rw [hmod]; omega
    · intro j hj
      simp only at hj ⊢
      rw [hmod]
      by_cases hji : j = i
      · subst hji; rw [Function.update_same]; simp
      · rw [Function.update_noteq hji]
        have := h2 j (by omega)
        omega
    · intro j l hj hl hne
      simp only at hj hl ⊢
      by_cases hj' : j = i
      · have hl' : l ≠ i := by omega
        rw [hj', Function.update_same, Function.update_noteq hl']
        have := h2 l (by omega)
        simp only
        omega
      · rw [Function.update_noteq hj']
        by_cases hl' : l = i
        · rw [hl', Function.update_same]
          have := h2 j (by omega)
          simp only
          omega
        · rw [Function.update_noteq hl']
          exact h3 j l (by omega) (by omega) hne
    · simp only; rw [hmod]; omega

theorem evolves_refl (p : proc) : evolves 0 p p := ⟨run.refl, rfl⟩

theorem evolves_trans {m n : Nat} {p q r : proc} (h1 : evolves m p q) (h2 : evolves n q r) :
    evolves (m + n) p r := ⟨run_trans h1.1 h2.1, h2.2.trans h1.2⟩

theorem evolves_of_eq {p q : proc} (h1 : dt q = dt p) (h2 : img q = img p) : evolves 0 p q := by
  refine ⟨?_, h2⟩
  rw [h1]
  exact run.refl

theorem evolves_le_of {m n : Nat} {p q : proc} (h : evolves m p q) (hm : m ≤ n) :
    evolves_le n p q := ⟨m, hm, h⟩

theorem evolves_le_refl (n : Nat) (p : proc) : evolves_le n p p :=
  ⟨0, Nat.zero_le _, evolves_refl p⟩

theorem evolves_le_trans {a b : Nat} {p q r : proc} (h1 : evolves_le a p q)
    (h2 : evolves_le b q r) : evolves_le (a + b) p r := by
  obtain ⟨m, hm, h⟩ := h1
  obtain ⟨n, hn, h'⟩ := h2
  exact ⟨m + n, by omega, evolves_trans h h'⟩

theorem evolves_le_mono {a b : Nat} {p q : proc} (h : evolves_le a p q) (hab : a ≤ b) :
    evolves_le b p q := by
  obtain ⟨m, hm, h⟩ := h
  exact ⟨m, by omega, h⟩

theorem evolves_step {n : Nat} {p q r : proc} (h1 : evolves 0 p q) (h2 : evolves n q r) :
    evolves n p r := by
  have h := evolves_trans h1 h2
  rwa [Nat.zero_add] at h

theorem evolves_then {m : Nat} {p q r : proc} (h1 : evolves m p q) (h2 : evolves 0 q r) :
    evolves m p r := evolves_trans h1 h2

theorem evolves_le_step {n : Nat} {p q r : proc} (h1 : evolves 0 p q) (h2 : evolves_le n q r) :
    evolves_le n p r := by
  obtain ⟨m, hm, h⟩ := h2
  exact ⟨m, hm, evolves_step h1 h⟩

theorem evolves_le_then {n : Nat} {p q r : proc} (h1 : evolves_le n p q) (h2 : evolves 0 q r) :
    evolves_le n p r := by
  obtain ⟨m, hm, h⟩ := h1
  exact ⟨m, hm, evolves_then h h2⟩

theorem evolves_set (p : proc) (i : Nat) (e : page_info) (hs : e.seq = (p.pages i).seq)
    (hf : (e.resident = (p.pages i).resident ∧ e.swapped = (p.pages i).swapped) ∨
      (e.resident = false ∧ e.swapped = true)) :
    evolves 0 p { p with pages := Function.update p.pages i e } :=
  ⟨run.set 0 (dt p) i e run.refl hs hf, rfl⟩

theorem mark_page_dirty_evolves (p : proc) (va : Nat) : evolves 0 p (mark_page_dirty p va) := by
  unfold mark_page_dirty
  split
  · rename_i i _
    exact evolves_set p i _ rfl (Or.inl ⟨rfl, rfl⟩)
  · exact evolves_refl p

theorem add_page_info_evolves (p : proc) (va : Nat) :
    evolves_le 1 p (add_page_info p va).2 := by
  unfold add_page_info
  split_ifs
  · exact evolves_le_refl 1 p
  · exact ⟨1, le_refl _, run.append 0 (dt p) (PGROUNDDOWN va) run.refl, rfl⟩

theorem alloc_swap_slot_evolves (p : proc) : evolves 0 p (alloc_swap_slot p).2 := by
  unfold alloc_swap_slot
  split_ifs
  · exact evolves_refl p
  · split
    · exact evolves_of_eq rfl rfl
    · exact evolves_refl p

theorem free_swap_slot_evolves (p : proc) (slot : Int) : evolves 0 p (free_swap_slot p slot) := by
  unfold free_swap_slot
  simp only []
  split_ifs
  · exact evolves_refl p
  · exact evolves_of_eq rfl rfl
  · exact evolves_refl p

theorem create_swapfile_evolves (k : kernel) : evolves 0 k.p (create_swapfile k).2.p := by
  unfold create_swapfile
  split
  · exact evolves_refl _
  · exact evolves_of_eq rfl rfl

theorem swapout_page_evolves (k : kernel) (va0 : Nat) :
    evolves 0 k.p (swapout_page k va0).2.p := by
  unfold swapout_page
  simp only []
  split
  · exact evolves_refl _
  · rename_i pi _
    have hc : evolves 0 k.p
        (if k.p.swapfile.isNone then create_swapfile k else ((0 : Int), k)).2.p := by
      split_ifs
      · exact create_swapfile_evolves k
      · exact evolves_refl _
    generalize (if k.p.swapfile.isNone then create_swapfile k else ((0 : Int), k)) = c at hc ⊢
    by_cases h1 : c.1 < 0
    · rw [if_pos h1]; exact hc
    · rw [if_neg h1]
      have ha : evolves 0 c.2.p
          (if (c.2.p.pages pi).swapped = false then
            if (alloc_swap_slot c.2.p).1 < 0 then
              ((-1 : Int), printf { c.2 with p := (alloc_swap_slot c.2.p).2 } log_line.SWAPFULL)
            else
              ((alloc_swap_slot c.2.p).1,
                { c.2 with
                  p := { (alloc_swap_slot c.2.p).2 with
                    pages := Function.update (alloc_swap_slot c.2.p).2.pages pi
                      { (alloc_swap_slot c.2.p).2.pages pi with
                        swap_offset := (alloc_swap_slot c.2.p).1.toNat } } })
          else (((c.2.p.pages pi).swap_offset : Nat), c.2)).2.p := by
        split_ifs
        · exact alloc_swap_slot_evolves _
        · refine evolves_step (alloc_swap_slot_evolves c.2.p) ?_
          exact evolves_set _ pi _ rfl (Or.inl ⟨rfl, rfl⟩)
        · exact evolves_refl _
      generalize (if (c.2.p.pages pi).swapped = false then
            if (alloc_swap_slot c.2.p).1 < 0 then
              ((-1 : Int), printf { c.2 with p := (alloc_swap_slot c.2.p).2 } log_line.SWAPFULL)
            else
              ((alloc_swap_slot c.2.p).1,
                { c.2 with
                  p := { (alloc_swap_slot c.2.p).2 with
                    pages := Function.update (alloc_swap_slot c.2.p).2.pages pi
                      { (alloc_swap_slot c.2.p).2.pages pi with
                        swap_offset := (alloc_swap_slot c.2.p).1.toNat } } })
          else (((c.2.p.pages pi).swap_offset : Nat), c.2)) = a at ha ⊢
      have hca := evolves_step hc ha
      split_ifs
      · exact hca
      · exact hca
      · split
        · exact hca
        · split_ifs
          · exact hca
          · split
            · exact hca
            · split_ifs
              · exact evolves_then hca (evolves_of_eq rfl rfl)
              · exact evolves_then hca (evolves_of_eq rfl rfl)

theorem evolves_remove (p : proc) (i : Nat) (hi : i < p.npages) :
    evolves 0 p
      { p with pages := shift_down p.pages (p.npages - 1 - i) i, npages := p.npages - 1 } :=
  ⟨run.remove 0 (dt p) i run.refl hi, rfl⟩

theorem evict_page_evolves (k : kernel) : evolves 0 k.p (evict_page k).2.p := by
  unfold evict_page
  simp only []
  split
  · exact evolves_refl _
  · rename_i vi hv
    obtain ⟨hvi, hres, _⟩ := evict_victim_some k.p vi hv
    split
    · exact evolves_refl _
    · split
      · exact evolves_refl _
      · rename_i e _
        split
        · exact evolves_refl _
        · split
          · have hr := swapout_page_evolves
              (printf k (log_line.VICTIM (k.p.pages vi).va (k.p.pages vi).seq)) (k.p.pages vi).va
            generalize swapout_page
              (printf k (log_line.VICTIM (k.p.pages vi).va (k.p.pages vi).seq))
              (k.p.pages vi).va = r at hr ⊢
            have hr' : evolves 0 k.p r.2.p := hr
            split
            · exact hr'
            · split
              · exact evolves_then hr' (evolves_of_eq rfl rfl)
              · unfold evict_release
                refine evolves_then (evolves_then hr' ?_) (evolves_of_eq rfl rfl)
                exact evolves_set _ vi _ rfl (Or.inr ⟨rfl, rfl⟩)
          · unfold evict_release
            exact evolves_then (evolves_remove k.p vi hvi) (evolves_of_eq rfl rfl)

theorem evolves_refresh (p : proc) (i : Nat) :
    evolves 1 p
      { p with
        pages := Function.update p.pages i
          { p.pages i with resident := true, seq := p.next_seq, dirty := false, swapped := false }
        next_seq := (p.next_seq + 1) % U64 } :=
  ⟨run.refresh 0 (dt p) i run.refl, rfl⟩

theorem swapin_fill_evolves (k : kernel) (va pi mem : Nat) :
    evolves_le 1 k.p (swapin_fill k va pi mem).2.p := by
  unfold swapin_fill
  simp only []
  split
  · exact evolves_le_refl 1 _
  · split
    · exact evolves_le_refl 1 _
    · split
      · exact evolves_le_of (evolves_of_eq rfl rfl) (Nat.zero_le _)
      · exact evolves_le_of (evolves_of_eq rfl rfl) (Nat.zero_le _)
      · refine ⟨1, le_refl _, ?_⟩
        generalize hp4 : free_swap_slot _ _ = p4
        have h4 : evolves 0 k.p p4 := by
          rw [← hp4]
          refine evolves_step ?_ (free_swap_slot_evolves _ _)
          exact evolves_of_eq rfl rfl
        exact evolves_step h4 (evolves_then (evolves_refresh p4 pi) (evolves_of_eq rfl rfl))

theorem swapin_page_evolves (k : kernel) (va0 : Nat) :
    evolves_le 1 k.p (swapin_page k va0).2.p := by
  unfold swapin_page
  simp only []
  split
  · exact evolves_le_refl 1 _
  · rename_i pi _
    split
    · exact evolves_le_refl 1 _
    · split
      · have he := evict_page_evolves
          (printf { k with freelist := (kalloc k.freelist).2 } log_line.MEMFULL)
        generalize evict_page
          (printf { k with freelist := (kalloc k.freelist).2 } log_line.MEMFULL) = e at he ⊢
        have he' : evolves 0 k.p e.2.p := he
        split
        · exact evolves_le_of he' (Nat.zero_le _)
        · split
          · exact evolves_le_of he' (Nat.zero_le _)
          · split
            · exact evolves_le_of he' (Nat.zero_le _)
            · exact evolves_le_step he' (swapin_fill_evolves
                { e.2 with freelist := (kalloc e.2.freelist).2 } (PGROUNDDOWN va0) pi
                (kalloc e.2.freelist).1)
      · exact swapin_fill_evolves { k with freelist := (kalloc k.freelist).2 } (PGROUNDDOWN va0) pi
          (kalloc k.freelist).1

theorem kill_invalid_evolves (k : kernel) (va scause : Nat) :
    evolves 0 k.p (kill_invalid k va scause).2.p := evolves_of_eq rfl rfl

theorem vmfault_map_evolves (k : kernel) (va scause mem perm : Nat) (line : log_line) :
    evolves_le 1 k.p (vmfault_map k va scause mem perm line).2.p := by
  unfold vmfault_map
  simp only []
  split
  · exact evolves_le_of (evolves_of_eq rfl rfl) (Nat.zero_le _)
  · exact evolves_le_of (evolves_of_eq rfl rfl) (Nat.zero_le _)
  · generalize ha : add_page_info _ _ = a
    have h4 : evolves_le 1 k.p a.2 := by
      rw [← ha]
      refine evolves_le_step ?_ (add_page_info_evolves _ _)
      exact evolves_of_eq rfl rfl
    split
    · split
      · exact evolves_le_of (evolves_of_eq rfl rfl) (Nat.zero_le _)
      · exact evolves_le_of (evolves_of_eq rfl rfl) (Nat.zero_le _)
    · rename_i pi _
      refine evolves_le_then (q := if is_write scause = true then
          { a.2 with pages := Function.update a.2.pages pi { a.2.pages pi with dirty := true } }
          else a.2) ?_ (evolves_of_eq rfl rfl)
      split
      · exact evolves_le_then h4 (evolves_set _ pi _ rfl (Or.inl ⟨rfl, rfl⟩))
      · exact h4

theorem vmfault_map_evolves_from (k : kernel) (va scause mem perm : Nat) (line : log_line)
    (p0 : proc) (h : k.p = p0) :
    evolves_le 1 p0 (vmfault_map k va scause mem perm line).2.p := by
  subst h
  exact vmfault_map_evolves k va scause mem perm line

theorem vmfault_fill_evolves (k : kernel) (va scause mem : Nat) (seg : Option Nat) :
    evolves_le 1 k.p (vmfault_fill k va scause mem seg).2.p := by
  unfold vmfault_fill
  simp only []
  repeat' split
  all_goals first
    | exact evolves_le_of (evolves_of_eq rfl rfl) (Nat.zero_le _)
    | exact vmfault_map_evolves_from _ _ _ _ _ _ _ rfl

theorem vmfault_fill_evolves_from (k : kernel) (va scause mem : Nat) (seg : Option Nat)
    (p0 : proc) (h : k.p = p0) :
    evolves_le 1 p0 (vmfault_fill k va scause mem seg).2.p := by
  subst h
  exact vmfault_fill_evolves k va scause mem seg

theorem evict_page_evolves_from (k : kernel) (p0 : proc) (h : k.p = p0) :
    evolves 0 p0 (evict_page k).2.p := by
  subst h
  exact evict_page_evolves k

theorem vmfault_alloc_evolves (k : kernel) (va scause : Nat) (seg : Option Nat) :
    evolves_le 1 k.p (vmfault_alloc k va scause seg).2.p := by
  unfold vmfault_alloc
  simp only []
  split
  · have he := evict_page_evolves_from
      (printf { k with freelist := (kalloc k.freelist).2 } log_line.MEMFULL) k.p rfl
    generalize evict_page
      (printf { k with freelist := (kalloc k.freelist).2 } log_line.MEMFULL) = e at he ⊢
    split
    · exact evolves_le_of he (Nat.zero_le _)
    · split
      · exact evolves_le_of he (Nat.zero_le _)
      · split
        · exact evolves_le_of he (Nat.zero_le _)
        · exact evolves_le_step he (vmfault_fill_evolves_from _ _ _ _ _ _ rfl)
  · exact vmfault_fill_evolves_from _ _ _ _ _ _ rfl

theorem swapin_page_evolves_from (k : kernel) (va0 : Nat) (p0 : proc) (h : k.p = p0) :
    evolves_le 1 p0 (swapin_page k va0).2.p := by
  subst h
  exact swapin_page_evolves k va0

theorem vmfault_evolves (k : kernel) (va0 scause : Nat) :
    evolves_le 1 k.p (vmfault k va0 scause).2.p := by
  unfold vmfault
  simp only []
  split
  · exact evolves_le_of (kill_invalid_evolves _ _ _) (Nat.zero_le _)
  · split
    · repeat' split
      all_goals first
        | exact evolves_le_of (kill_invalid_evolves _ _ _) (Nat.zero_le _)
        | exact evolves_le_of (mark_page_dirty_evolves _ _) (Nat.zero_le _)
        | exact evolves_le_refl 1 _
    · split
      · have hr := swapin_page_evolves_from
          (printf k (log_line.PAGEFAULT (PGROUNDDOWN va0) (access_of scause) cause.swap))
          (PGROUNDDOWN va0) k.p rfl
        generalize swapin_page
          (printf k (log_line.PAGEFAULT (PGROUNDDOWN va0) (access_of scause) cause.swap))
          (PGROUNDDOWN va0) = r at hr ⊢
        split
        · exact hr
        · split
          · exact hr
          · split
            · exact evolves_le_then hr (mark_page_dirty_evolves _ _)
            · exact hr
      · split
        · exact evolves_le_of (kill_invalid_evolves _ _ _) (Nat.zero_le _)
        · exact vmfault_alloc_evolves _ _ _ _

theorem sbrk_prune_run (newsz : Nat) (fuel : Nat) :
    ∀ (i : Nat) (d : dtab),
      run d 0
        { d with
          pages := (sbrk_prune newsz fuel i d.pages d.npages).1
          npages := (sbrk_prune newsz fuel i d.pages d.npages).2 } := by
  induction fuel with
  | zero => intro i d; exact run.refl
  | succ fuel ih =>
    intro i d
    unfold sbrk_prune
    split
    · rename_i hi
      split
      · have h1 : run d 0
            { d with pages := shift_down d.pages (d.npages - 1 - i) i, npages := d.npages - 1 } :=
          run.remove 0 d i run.refl hi
        exact run_trans h1
          (ih i { d with pages := shift_down d.pages (d.npages - 1 - i) i, npages := d.npages - 1 })
      · exact ih (i + 1) d
    · exact run.refl

theorem sys_sbrk_run (k : kernel) (n t : Int) : run (dt k.p) 0 (dt (sys_sbrk k n t).2.p) := by
  obtain ⟨h1, h2, h3⟩ := growproc_pages k n
  have hg : dt (growproc k n).2.p = dt k.p := by
    unfold dt
    rw [h1, h2, h3]
  unfold sys_sbrk
  simp only []
  split
  · split
    · rw [hg]; exact run.refl
    · split
      · rw [hg]; exact run.refl
      · split
        · rw [← hg]
          exact sbrk_prune_run (growproc k n).2.p.sz (growproc k n).2.p.npages 0
            (dt (growproc k n).2.p)
        · rw [hg]; exact run.refl
  · split
    · exact run.refl
    · split
      · exact run.refl
      · exact run.refl

theorem paging_step_run (k k' : kernel) (h : paging_step k k') :
    ∃ m, m ≤ 1 ∧ run (dt k.p) m (dt k'.p) := by
  cases h with
  | vmfault va scause =>
    obtain ⟨m, hm, h, _⟩ := vmfault_evolves k va scause
    exact ⟨m, hm, h⟩
  | evict_page => exact ⟨0, Nat.zero_le _, (evict_page_evolves k).1⟩
  | swapin_page va =>
    obtain ⟨m, hm, h, _⟩ := swapin_page_evolves k va
    exact ⟨m, hm, h⟩
  | sys_sbrk n t => exact ⟨0, Nat.zero_le _, sys_sbrk_run k n t⟩

theorem reachable_xor (k0 k : kernel) (h : reachable k0 k)
    (h0 : resident_xor_swapped (dt k0.p)) : resident_xor_swapped (dt k.p) := by
  induction h with
  | start => exact h0
  | step k1 k2 _ hs ih =>
    obtain ⟨m, _, hr⟩ := paging_step_run k1 k2 hs
    exact run_xor hr ih

theorem reachable_nowrap_seq (k0 k : kernel) (h : reachable_nowrap k0 k)
    (h0 : seq_inv (dt k0.p)) : seq_inv (dt k.p) := by
  induction h with
  | start => exact h0
  | step k1 k2 _ hs hle ih =>
    obtain ⟨m, hm, hr⟩ := paging_step_run k1 k2 hs
    have h1 : (dt k1.p).next_seq < U64 := ih.1
    have hU : 1 < U64 := by norm_num [U64]
    rcases Nat.eq_zero_or_pos m with h0' | hpos
    · subst h0'
      exact (run_seq hr ih (by omega)).1
    · have hm1 : m = 1 := by omega
      subst hm1
      have hn := (run_next_seq hr).2 hpos
      have hle' : (dt k1.p).next_seq ≤ (dt k2.p).next_seq := hle
      rw [hn] at hle'
      have hlt : (dt k1.p).next_seq + 1 < U64 := by
        by_contra hc
        have he : (dt k1.p).next_seq + 1 = U64 := by omega
        rw [he, Nat.mod_self] at hle'
        omega
      exact (run_seq hr ih hlt).1

/-! ## The descriptor table during exec -/

theorem vmfault_map_on_evolves (k : kernel) (pt : pagetable_t) (va scause mem perm : Nat)
    (line : log_line) (p0 : proc) (h : k.p = p0) :
    evolves_le 1 p0 (vmfault_map_on k pt va scause mem perm line).2.1.p := by
  subst h
  unfold vmfault_map_on
  simp only []
  split
  · exact evolves_le_of (evolves_of_eq rfl rfl) (Nat.zero_le _)
  · exact evolves_le_of (evolves_of_eq rfl rfl) (Nat.zero_le _)
  · generalize ha : add_page_info _ _ = a
    have h4 : evolves_le 1 k.p a.2 := by
      rw [← ha]
      refine evolves_le_step ?_ (add_page_info_evolves _ _)
      exact evolves_of_eq rfl rfl
    split
    · split
      · exact evolves_le_of (evolves_of_eq rfl rfl) (Nat.zero_le _)
      · exact evolves_le_of (evolves_of_eq rfl rfl) (Nat.zero_le _)
    · rename_i pi _
      refine evolves_le_then (q := if is_write scause = true then
          { a.2 with pages := Function.update a.2.pages pi { a.2.pages pi with dirty := true } }
          else a.2) ?_ (evolves_of_eq rfl rfl)
      split
      · exact evolves_le_then h4 (evolves_set _ pi _ rfl (Or.inl ⟨rfl, rfl⟩))
      · exact h4

theorem vmfault_fill_on_evolves (k : kernel) (pt : pagetable_t) (va scause mem : Nat)
    (seg : Option Nat) (p0 : proc) (h : k.p = p0) :
    evolves_le 1 p0 (vmfault_fill_on k pt va scause mem seg).2.1.p := by
  subst h
  unfold vmfault_fill_on
  simp only []
  repeat' split
  all_goals first
    | exact evolves_le_of (evolves_of_eq rfl rfl) (Nat.zero_le _)
    | exact vmfault_map_on_evolves _ _ _ _ _ _ _ _ rfl

theorem vmfault_alloc_on_evolves (k : kernel) (pt : pagetable_t) (va scause : Nat)
    (seg : Option Nat) :
    evolves_le 1 k.p (vmfault_alloc_on k pt va scause seg).2.1.p := by
  unfold vmfault_alloc_on
  simp only []
  split
  · have he := evict_page_evolves_from
      (printf { k with freelist := (kalloc k.freelist).2 } log_line.MEMFULL) k.p rfl
    generalize evict_page
      (printf { k with freelist := (kalloc k.freelist).2 } log_line.MEMFULL) = e at he ⊢
    split
    · exact evolves_le_of he (Nat.zero_le _)
    · split
      · exact evolves_le_of he (Nat.zero_le _)
      · split
        · exact evolves_le_of he (Nat.zero_le _)
        · exact evolves_le_step he (vmfault_fill_on_evolves _ _ _ _ _ _ _ rfl)
  · exact vmfault_fill_on_evolves _ _ _ _ _ _ _ rfl

theorem vmfault_on_evolves (k : kernel) (pt : pagetable_t) (va0 scause : Nat) :
    evolves_le 1 k.p (vmfault_on k pt va0 scause).2.1.p := by
  unfold vmfault_on
  simp only []
  split
  · exact evolves_le_of (kill_invalid_evolves _ _ _) (Nat.zero_le _)
  · split
    · repeat' split
      all_goals first
        | exact evolves_le_of (kill_invalid_evolves _ _ _) (Nat.zero_le _)
        | exact evolves_le_of (mark_page_dirty_evolves _ _) (Nat.zero_le _)
        | exact evolves_le_refl 1 _
    · split
      · have hr := swapin_page_evolves_from
          (printf k (log_line.PAGEFAULT (PGROUNDDOWN va0) (access_of scause) cause.swap))
          (PGROUNDDOWN va0) k.p rfl
        generalize swapin_page
          (printf k (log_line.PAGEFAULT (PGROUNDDOWN va0) (access_of scause) cause.swap))
          (PGROUNDDOWN va0) = r at hr ⊢
        split
        · exact hr
        · split
          · exact hr
          · split
            · exact evolves_le_then hr (mark_page_dirty_evolves _ _)
            · exact hr
      · split
        · exact evolves_le_of (kill_invalid_evolves _ _ _) (Nat.zero_le _)
        · exact vmfault_alloc_on_evolves _ _ _ _ _

theorem copyout_loop_evolves (n : Nat) :
    ∀ (k : kernel) (pt : pagetable_t) (dstva : Nat) (src : List Nat) (len : Nat),
      evolves_le n k.p (copyout_loop n k pt dstva src len).2.1.p := by
  induction n with
  | zero => intro k pt dstva src len; exact evolves_le_refl 0 _
  | succ n ih =>
    intro k pt dstva src len
    unfold copyout_loop
    simp only []
    split
    · exact evolves_le_refl _ _
    · split
      · exact evolves_le_refl _ _
      · have hf : evolves_le 1 k.p
            (if walkaddr pt (PGROUNDDOWN dstva) = 0 then
              if is_valid_user_va k.p (PGROUNDDOWN dstva) = false then ((0 : Nat), k, pt)
              else vmfault_on k pt (PGROUNDDOWN dstva) 15
            else (walkaddr pt (PGROUNDDOWN dstva), k, pt)).2.1.p := by
          split
          · split
            · exact evolves_le_refl 1 _
            · exact vmfault_on_evolves _ _ _ _
          · exact evolves_le_refl 1 _
        generalize (if walkaddr pt (PGROUNDDOWN dstva) = 0 then
              if is_valid_user_va k.p (PGROUNDDOWN dstva) = false then ((0 : Nat), k, pt)
              else vmfault_on k pt (PGROUNDDOWN dstva) 15
            else (walkaddr pt (PGROUNDDOWN dstva), k, pt)) = f at hf ⊢
        have hf' : evolves_le (n + 1) k.p f.2.1.p := evolves_le_mono hf (by omega)
        split
        · exact hf'
        · split
          · exact hf'
          · split
            · exact evolves_le_then hf' (evolves_of_eq rfl rfl)
            · split
              · exact hf'
              · have h2 := ih
                  { f.2.1 with
                    mem := memmove_in f.2.1.mem (f.1 + (dstva - PGROUNDDOWN dstva)) src
                      (if PGSIZE - (dstva - PGROUNDDOWN dstva) > len then len
                        else PGSIZE - (dstva - PGROUNDDOWN dstva)) }
                  f.2.2 (PGROUNDDOWN dstva + PGSIZE)
                  (src.drop (if PGSIZE - (dstva - PGROUNDDOWN dstva) > len then len
                    else PGSIZE - (dstva - PGROUNDDOWN dstva)))
                  (len - (if PGSIZE - (dstva - PGROUNDDOWN dstva) > len then len
                    else PGSIZE - (dstva - PGROUNDDOWN dstva)))
                have h3 := evolves_le_trans hf h2
                rw [Nat.add_comm] at h3
                exact h3

theorem copyout_evolves (k : kernel) (pt : pagetable_t) (dstva : Nat) (src : List Nat) (len : Nat)
    (hlen : len < U64) :
    evolves_le (U64 / PGSIZE + 2) k.p (copyout k pt dstva src len).2.1.p := by
  unfold copyout
  refine evolves_le_mono (copyout_loop_evolves _ k pt dstva src len) ?_
  have hU : U64 = 18446744073709551616 := by norm_num [U64]
  have hP : PGSIZE = 4096 := rfl
  rw [hU] at hlen
  rw [hU, hP]
  omega

theorem exec_args_evolves (stackbase : Nat) (argv : List (List Nat)) :
    ∀ s : exec_args_state,
      evolves_le ((MAXARG - s.argc) * (U64 / PGSIZE + 2)) s.k.p (exec_args stackbase argv s).k.p := by
  induction argv with
  | nil => intro s; exact evolves_le_refl _ _
  | cons a rest ih =>
    intro s
    unfold exec_args
    simp only []
    split
    · exact evolves_le_refl _ _
    · rename_i hlt
      split
      · exact evolves_le_refl _ _
      · have hU : 0 < U64 := by norm_num [U64]
        have hc := copyout_evolves s.k s.pt
          ((s.sp + U64 - (a.length + 1) % U64) % U64 -
            (s.sp + U64 - (a.length + 1) % U64) % U64 % 16) (a ++ [0])
          ((a.length + 1) % U64) (Nat.mod_lt _ hU)
        generalize copyout s.k s.pt
          ((s.sp + U64 - (a.length + 1) % U64) % U64 -
            (s.sp + U64 - (a.length + 1) % U64) % U64 % 16) (a ++ [0])
          ((a.length + 1) % U64) = c at hc ⊢
        obtain ⟨d, hd⟩ : ∃ d, MAXARG - s.argc = d + 1 := ⟨MAXARG - s.argc - 1, by omega⟩
        split
        · refine evolves_le_mono hc ?_
          rw [hd, Nat.succ_mul]
          omega
        · have h2 := ih
            { s with
              argc := s.argc + 1
              sp := (s.sp + U64 - (a.length + 1) % U64) % U64 -
                (s.sp + U64 - (a.length + 1) % U64) % U64 % 16
              ustack := s.ustack ++
                [(s.sp + U64 - (a.length + 1) % U64) % U64 -
                  (s.sp + U64 - (a.length + 1) % U64) % U64 % 16]
              k := c.2.1
              pt := c.2.2 }
          have h3 := evolves_le_trans hc h2
          refine evolves_le_mono h3 ?_
          have e1 : MAXARG - (s.argc + 1) = d := by omega
          simp only [e1]
          rw [hd, Nat.succ_mul]
          omega

theorem exec_bad_ret (k : kernel) (pt : pagetable_t) (sz : Nat) : (exec_bad k pt sz).1 = -1 := rfl

theorem exec_commit_ok (k : kernel) (pt : pagetable_t) (sz stackbase oldsz : Nat)
    (argv : List (List Nat)) (h : (exec_commit k pt sz stackbase oldsz argv).1 ≠ -1) :
    ∃ (q : proc) (pt1 : pagetable_t) (sp : Nat),
      evolves_le (33 * (U64 / PGSIZE + 2)) k.p q ∧
      (exec_commit k pt sz stackbase oldsz argv).2.p =
        { q with pagetable := pt1, sz := sz, trapframe_sp := sp } := by
  have ha := exec_args_evolves stackbase argv
    { ok := true, argc := 0, sp := sz, ustack := [], k := k, pt := pt }
  have ha' : evolves_le (32 * (U64 / PGSIZE + 2)) k.p
      (exec_args stackbase argv
        { ok := true, argc := 0, sp := sz, ustack := [], k := k, pt := pt }).k.p := ha
  clear ha
  unfold exec_commit at h ⊢
  simp only [] at h ⊢
  generalize exec_args stackbase argv
    { ok := true, argc := 0, sp := sz, ustack := [], k := k, pt := pt } = a at ha' h ⊢
  have hU : 0 < U64 := by norm_num [U64]
  split at h
  · exact absurd rfl h
  · rename_i h1
    rw [if_neg h1]
    split at h
    · exact absurd rfl h
    · rename_i h2
      rw [if_neg h2]
      split at h
      · exact absurd rfl h
      · rename_i h3
        rw [if_neg h3]
        have hc := copyout_evolves a.k a.pt
          ((a.sp + U64 - (a.argc + 1) * 8 % U64) % U64 -
            (a.sp + U64 - (a.argc + 1) * 8 % U64) % U64 % 16)
          ((a.ustack ++ [0]).flatMap le64) ((a.argc + 1) * 8 % U64) (Nat.mod_lt _ hU)
        generalize copyout a.k a.pt
          ((a.sp + U64 - (a.argc + 1) * 8 % U64) % U64 -
            (a.sp + U64 - (a.argc + 1) * 8 % U64) % U64 % 16)
          ((a.ustack ++ [0]).flatMap le64) ((a.argc + 1) * 8 % U64) = c at hc h ⊢
        split at h
        · exact absurd rfl h
        · rename_i h4
          rw [if_neg h4]
          split at h
          · exact absurd rfl h
          · rename_i h5
            rw [if_neg h5]
            have hk2 : evolves 0 c.2.1.p
                (if (create_swapfile c.2.1).1 < 0 then
                  { (create_swapfile c.2.1).2 with
                    p := { (create_swapfile c.2.1).2.p with swapfile := none } }
                else (create_swapfile c.2.1).2).p := by
              split
              · exact evolves_then (create_swapfile_evolves _) (evolves_of_eq rfl rfl)
              · exact create_swapfile_evolves _
            refine ⟨_, c.2.2, _, ?_, rfl⟩
            have h6 := evolves_le_then (evolves_le_trans ha' hc) hk2
            refine evolves_le_mono h6 ?_
            omega

theorem exec_stack_ok (USERSTACK : Nat) (k : kernel) (pt : pagetable_t) (f : exec_file)
    (sz0 : Nat) (argv : List (List Nat)) (h : (exec_stack USERSTACK k pt f sz0 argv).1 ≠ -1) :
    PGROUNDUP sz0 < MAXVA ∧
    ∃ (q : proc) (pt1 : pagetable_t) (sp : Nat),
      evolves_le (33 * (U64 / PGSIZE + 2) + 1)
        { k.p with
          exec_inode := f.ip
          heap_start := PGROUNDUP sz0
          stack_bottom := ((PGROUNDUP sz0 + (USERSTACK + 1) * PGSIZE) % U64 + U64 -
            (USERSTACK * PGSIZE) % U64) % U64
          stack_top := (PGROUNDUP sz0 + (USERSTACK + 1) * PGSIZE) % U64 } q ∧
      (exec_stack USERSTACK k pt f sz0 argv).2.p =
        { q with
          pagetable := pt1
          sz := (PGROUNDUP sz0 + (USERSTACK + 1) * PGSIZE) % U64
          trapframe_sp := sp } := by
  unfold exec_stack at h ⊢
  simp only [] at h ⊢
  generalize log_line.INIT_LAZYMAP _ _ _ _ _ _ = l at h ⊢
  split at h
  · exact absurd rfl h
  · rename_i h1
    rw [if_neg h1]
    refine ⟨by omega, ?_⟩
    split at h
    · exact absurd rfl h
    · rename_i h2
      rw [if_neg h2]
      split at h
      · exact absurd rfl h
      · rename_i h3
        rw [if_neg h3]
        split at h
        · exact absurd rfl h
        · exact absurd rfl h
        · rename_i hm
          obtain ⟨q, pt1, sp, hq, he⟩ := exec_commit_ok _ _ _ _ _ _ h
          refine ⟨q, pt1, sp, ?_, he⟩
          rw [Nat.add_comm]
          refine evolves_le_trans ?_ hq
          split
          · exact ⟨1, le_refl _, run.append 0 _ _ run.refl, rfl⟩
          · exact evolves_le_refl 1 _

/-! ## The program-header loop of exec -/

theorem exec_segments_induct (f : exec_file) (P : Nat → proc → Nat → Prop)
    (hskip : ∀ i p sz ph, f.ph i = some ph → ph.type ≠ ELF_PROG_LOAD → P i p sz → P (i + 1) p sz)
    (hstep : ∀ i p sz ph, f.ph i = some ph → ph.type = ELF_PROG_LOAD → header_ok ph →
      p.nsegments < 8 → P i p sz →
      P (i + 1)
        { p with
          segments := Function.update p.segments p.nsegments (seg_of ph)
          nsegments := p.nsegments + 1 }
        (if (ph.vaddr + ph.memsz) % U64 > sz then (ph.vaddr + ph.memsz) % U64 else sz)) :
    ∀ (n i : Nat) (p : proc) (sz : Nat), P i p sz → (exec_segments f n i p sz).1 = true →
      P (i + n) (exec_segments f n i p sz).2.1 (exec_segments f n i p sz).2.2 := by
  intro n
  induction n with
  | zero => intro i p sz h _; exact h
  | succ n ih =>
    intro i p sz h hok
    unfold exec_segments at hok ⊢
    have e : i + (n + 1) = i + 1 + n := by omega
    rw [e]
    cases hph : f.ph i with
    | none => simp [hph] at hok
    | some ph =>
      simp only [hph] at hok ⊢
      by_cases h1 : ph.type ≠ ELF_PROG_LOAD
      · rw [if_pos h1] at hok ⊢
        exact ih (i + 1) p sz (hskip i p sz ph hph h1 h) hok
      · rw [if_neg h1] at hok ⊢
        by_cases h2 : ph.memsz < ph.filesz
        · rw [if_pos h2] at hok; simp at hok
        · rw [if_neg h2] at hok ⊢
          by_cases h3 : (ph.vaddr + ph.memsz) % U64 < ph.vaddr
          · rw [if_pos h3] at hok; simp at hok
          · rw [if_neg h3] at hok ⊢
            by_cases h4 : ph.vaddr % PGSIZE ≠ 0
            · rw [if_pos h4] at hok; simp at hok
            · rw [if_neg h4] at hok ⊢
              by_cases h5 : p.nsegments ≥ 8
              · rw [if_pos h5] at hok; simp at hok
              · rw [if_neg h5] at hok ⊢
                exact ih (i + 1) _ _
                  (hstep i p sz ph hph (by simpa using h1)
                    ⟨by omega, by omega, by simpa using h4⟩ (by omega) h) hok

theorem loads_succ (f : exec_file) (i : Nat) :
    loads f 0 (i + 1) = loads f 0 i ++
      (match f.ph i with
       | some ph => if ph.type = ELF_PROG_LOAD then [ph] else []
       | none => []) := by
  unfold loads
  rw [List.range'_concat, List.filterMap_append]
  congr 1
  simp only [List.filterMap_cons, List.filterMap_nil, Nat.one_mul, Nat.zero_add]
  cases f.ph i with
  | none => rfl
  | some ph =>
    simp only
    split_ifs <;> rfl

theorem exec_segments_spec (f : exec_file) (p0 : proc) (h0 : p0.nsegments = 0)
    (hok : (exec_segments f f.phnum 0 p0 0).1 = true) :
    (exec_segments f f.phnum 0 p0 0).2.1 =
      { p0 with
        segments := (exec_segments f f.phnum 0 p0 0).2.1.segments
        nsegments := (exec_segments f f.phnum 0 p0 0).2.1.nsegments } ∧
    (∀ j, j < f.phnum → ∃ ph, f.ph j = some ph ∧ (ph.type = ELF_PROG_LOAD → header_ok ph)) ∧
    (exec_segments f f.phnum 0 p0 0).2.1.nsegments = (loads f 0 f.phnum).length ∧
    (exec_segments f f.phnum 0 p0 0).2.1.nsegments ≤ 8 ∧
    (∀ s, s < (exec_segments f f.phnum 0 p0 0).2.1.nsegments →
      ∃ j ph, j < f.phnum ∧ f.ph j = some ph ∧ ph.type = ELF_PROG_LOAD ∧ header_ok ph ∧
        (exec_segments f f.phnum 0 p0 0).2.1.segments s = seg_of ph) ∧
    (∀ s, s < (exec_segments f f.phnum 0 p0 0).2.1.nsegments →
      (((exec_segments f f.phnum 0 p0 0).2.1.segments s).vaddr +
        ((exec_segments f f.phnum 0 p0 0).2.1.segments s).memsz) % U64 ≤
          (exec_segments f f.phnum 0 p0 0).2.2) ∧
    ((exec_segments f f.phnum 0 p0 0).2.2 = 0 ∨
      ∃ s, s < (exec_segments f f.phnum 0 p0 0).2.1.nsegments ∧
        (exec_segments f f.phnum 0 p0 0).2.2 =
          (((exec_segments f f.phnum 0 p0 0).2.1.segments s).vaddr +
            ((exec_segments f f.phnum 0 p0 0).2.1.segments s).memsz) % U64) := by
  have key := exec_segments_induct f
    (fun i p sz =>
      p = { p0 with segments := p.segments, nsegments := p.nsegments } ∧
      (∀ j, j < i → ∃ ph, f.ph j = some ph ∧ (ph.type = ELF_PROG_LOAD → header_ok ph)) ∧
      p.nsegments = (loads f 0 i).length ∧
      p.nsegments ≤ 8 ∧
      (∀ s, s < p.nsegments →
        ∃ j ph, j < i ∧ f.ph j = some ph ∧ ph.type = ELF_PROG_LOAD ∧ header_ok ph ∧
          p.segments s = seg_of ph) ∧
      (∀ s, s < p.nsegments → ((p.segments s).vaddr + (p.segments s).memsz) % U64 ≤ sz) ∧
      (sz = 0 ∨ ∃ s, s < p.nsegments ∧ sz = ((p.segments s).vaddr + (p.segments s).memsz) % U64))
    ?_ ?_ f.phnum 0 p0 0 ?_ hok
  · rw [Nat.zero_add] at key
    exact key
  · rintro i p sz ph hph hty ⟨h1, h2, h3, h4, h5, h6, h7⟩
    refine ⟨h1, ?_, ?_, h4, ?_, h6, h7⟩
    · intro j hj
      by_cases hji : j = i
      · subst hji; exact ⟨ph, hph, fun h => absurd h hty⟩
      · exact h2 j (by omega)
    · rw [loads_succ, hph]
      simp [hty, h3]
    · intro s hs
      obtain ⟨j, ph', hj, r⟩ := h5 s hs
      exact ⟨j, ph', by omega, r⟩
  · rintro i p sz ph hph hty hokh hlt ⟨h1, h2, h3, h4, h5, h6, h7⟩
    refine ⟨?_, ?_, ?_, ?_, ?_, ?_, ?_⟩
    · simp only
      rw [h1]
    · intro j hj
      by_cases hji : j = i
      · subst hji; exact ⟨ph, hph, fun _ => hokh⟩
      · exact h2 j (by omega)
    · rw [loads_succ, hph]
      simp [hty, h3]
    · simp only; omega
    · intro s hs
      simp only at hs ⊢
      by_cases hsn : s = p.nsegments
      · subst hsn
        rw [Function.update_same]
        exact ⟨i, ph, by omega, hph, hty, hokh, rfl⟩
      · rw [Function.update_noteq hsn]
        obtain ⟨j, ph', hj, r⟩ := h5 s (by omega)
        exact ⟨j, ph', by omega, r⟩
    · intro s hs
      simp only at hs ⊢
      by_cases hsn : s = p.nsegments
      · subst hsn
        rw [Function.update_same]
        simp only [seg_of]
        split_ifs <;> omega
      · rw [Function.update_noteq hsn]
        have := h6 s (by omega)
        split_ifs <;> omega
    · right
      simp only
      by_cases hgt : (ph.vaddr + ph.memsz) % U64 > sz
      · rw [if_pos hgt]
        exact ⟨p.nsegments, by omega, by rw [Function.update_same]; rfl⟩
      · rw [if_neg hgt]
        rcases h7 with h7 | ⟨s, hs, h7⟩
        · exact ⟨p.nsegments, by omega, by rw [Function.update_same]; simp only [seg_of]; omega⟩
        · refine ⟨s, by omega, ?_⟩
          rw [Function.update_noteq (by omega)]
          exact h7
  · refine ⟨?_, ?_, ?_, ?_, ?_, ?_, ?_⟩
    · rfl
    · intro j hj; omega
    · rw [h0]; rfl
    · omega
    · intro s hs; omega
    · intro s hs; omega
    · left; rfl

theorem kexec_ok (USERSTACK trampoline trapframe : Nat) (k : kernel) (file : Option exec_file)
    (argv : List (List Nat))
    (h : (kexec USERSTACK trampoline trapframe k file argv).1 ≠ -1) :
    ∃ f, file = some f ∧ f.elf_read = true ∧ f.magic = ELF_MAGIC ∧
      (exec_segments f f.phnum 0 { k.p with nsegments := 0, npages := 0, next_seq := 0 } 0).1
        = true ∧
      PGROUNDUP (exec_segments f f.phnum 0
        { k.p with nsegments := 0, npages := 0, next_seq := 0 } 0).2.2 < MAXVA ∧
      ∃ (q : proc) (pt1 : pagetable_t) (sp : Nat),
        evolves_le (33 * (U64 / PGSIZE + 2) + 1)
          { (exec_segments f f.phnum 0
              { k.p with nsegments := 0, npages := 0, next_seq := 0 } 0).2.1 with
            exec_inode := f.ip
            heap_start := PGROUNDUP (exec_segments f f.phnum 0
              { k.p with nsegments := 0, npages := 0, next_seq := 0 } 0).2.2
            stack_bottom := ((PGROUNDUP (exec_segments f f.phnum 0
              { k.p with nsegments := 0, npages := 0, next_seq := 0 } 0).2.2 +
                (USERSTACK + 1) * PGSIZE) % U64 + U64 - (USERSTACK * PGSIZE) % U64) % U64
            stack_top := (PGROUNDUP (exec_segments f f.phnum 0
              { k.p with nsegments := 0, npages := 0, next_seq := 0 } 0).2.2 +
                (USERSTACK + 1) * PGSIZE) % U64 } q ∧
        (kexec USERSTACK trampoline trapframe k file argv).2.p =
          { q with
            pagetable := pt1
            sz := (PGROUNDUP (exec_segments f f.phnum 0
              { k.p with nsegments := 0, npages := 0, next_seq := 0 } 0).2.2 +
                (USERSTACK + 1) * PGSIZE) % U64
            trapframe_sp := sp } := by
  unfold kexec at h ⊢
  cases file with
  | none => exact absurd rfl h
  | some f =>
    simp only [] at h ⊢
    refine ⟨f, rfl, ?_⟩
    split at h
    · exact absurd rfl h
    · rename_i h1
      rw [if_neg h1]
      split at h
      · exact absurd rfl h
      · rename_i h2
        rw [if_neg h2]
        refine ⟨by simpa using h1, by simpa using h2, ?_⟩
        split at h
        · exact absurd rfl h
        · rename_i pt hpt
          split at h
          · exact absurd rfl h
          · rename_i h3
            rw [if_neg h3]
            refine ⟨by simpa using h3, ?_⟩
            exact exec_stack_ok _ _ _ _ _ _ h

theorem kexec_ok_dt (USERSTACK trampoline trapframe : Nat) (k : kernel) (file : Option exec_file)
    (argv : List (List Nat))
    (h : (kexec USERSTACK trampoline trapframe k file argv).1 ≠ -1) :
    resident_xor_swapped (dt (kexec USERSTACK trampoline trapframe k file argv).2.p) ∧
    seq_inv (dt (kexec USERSTACK trampoline trapframe k file argv).2.p) := by
  obtain ⟨f, _, _, _, hseg, _, q, pt1, sp, ⟨m, hm, hrun, _⟩, he⟩ :=
    kexec_ok USERSTACK trampoline trapframe k file argv h
  obtain ⟨hfr, _⟩ := exec_segments_spec f { k.p with nsegments := 0, npages := 0, next_seq := 0 }
    rfl hseg
  have hn : (exec_segments f f.phnum 0
      { k.p with nsegments := 0, npages := 0, next_seq := 0 } 0).2.1.npages = 0 := by
    rw [hfr]
  have hs : (exec_segments f f.phnum 0
      { k.p with nsegments := 0, npages := 0, next_seq := 0 } 0).2.1.next_seq = 0 := by
    rw [hfr]
  have hd : dt (kexec USERSTACK trampoline trapframe k file argv).2.p = dt q := by rw [he]; rfl
  rw [hd]
  have hU : U64 = 18446744073709551616 := by norm_num [U64]
  have hP : PGSIZE = 4096 := rfl
  constructor
  · refine run_xor hrun ?_
    intro i hi
    simp [dt, hn] at hi
  · refine (run_seq hrun ⟨?_, ?_, ?_⟩ ?_).1
    · show (exec_segments f f.phnum 0
        { k.p with nsegments := 0, npages := 0, next_seq := 0 } 0).2.1.next_seq < U64
      rw [hs, hU]; omega
    · intro i hi
      simp [dt, hn] at hi
    · intro i j hi
      simp [dt, hn] at hi
    · show (exec_segments f f.phnum 0
        { k.p with nsegments := 0, npages := 0, next_seq := 0 } 0).2.1.next_seq + m < U64
      rw [hs]
      rw [hU, hP] at hm
      rw [hU]
      omega

/-! ## C17: resident XOR swapped -/

/-- C17: in every state reachable from a successful exec through `vmfault`,
`evict_page`, `swapin_page` and `sys_sbrk`, every descriptor in
`pages[0..npages)` has exactly one of `resident` and `swapped` set. -/
theorem C17_resident_xor_swapped (USERSTACK trampoline trapframe : Nat) (k0 : kernel)
    (file : Option exec_file) (argv : List (List Nat))
    (hok : (kexec USERSTACK trampoline trapframe k0 file argv).1 ≠ -1) (k : kernel)
    (hreach : reachable (kexec USERSTACK trampoline trapframe k0 file argv).2 k) :
    ∀ i, i < k.p.npages → ((k.p.pages i).resident = true ↔ (k.p.pages i).swapped = false) :=
  reachable_xor _ k hreach (kexec_ok_dt USERSTACK trampoline trapframe k0 file argv hok).1

/-- C17 (witness): after the exec of `ex_file` from `tight_kernel` and the faults
and evictions that lead to `c18_state`, both descriptors have exactly one flag set
(the swapped descriptor of 0x2000 is the one whose page is mapped). -/
theorem C17_resident_xor_swapped_witness :
    (kexec 1 ex_trampoline ex_trapframe tight_kernel (some ex_exec_file) []).1 ≠ -1 ∧
    reachable (kexec 1 ex_trampoline ex_trapframe tight_kernel (some ex_exec_file) []).2
      c18_state ∧
    c18_state.p.npages = 2 ∧
    ((c18_state.p.pages 0).resident = true ↔ (c18_state.p.pages 0).swapped = false) ∧
    ((c18_state.p.pages 1).resident = true ↔ (c18_state.p.pages 1).swapped = false) :=
  have hr : reachable (kexec 1 ex_trampoline ex_trapframe tight_kernel
      (some ex_exec_file) []).2 c18_state :=
    reachable.step _ _ (reachable.step _ _ (reachable.step _ _ (reachable.step _ _
      (reachable.step _ _ (reachable.step _ _ (reachable.step _ _ reachable.start
        (paging_step.vmfault tight_done 0x1000 15))
        (paging_step.vmfault _ 0x2000 15))
        (paging_step.evict_page _))
        (paging_step.vmfault _ 0x1000 13))
        (paging_step.evict_page _))
        (paging_step.vmfault c18_evicted 0x4000 13))
        (paging_step.vmfault c18_full 0x2000 13)
  have h := C17_resident_xor_swapped 1 ex_trampoline ex_trapframe tight_kernel
    (some ex_exec_file) [] (by decide) c18_state hr
  ⟨by decide, hr, by decide, h 0 (by decide), h 1 (by decide)⟩

/-! ## C20: sequence numbers -/

/-- C20: in every state reachable from a successful exec through `vmfault`,
`evict_page`, `swapin_page` and `sys_sbrk` without a wrap of `next_seq`, the
`seq` values of the resident descriptors are pairwise distinct and `next_seq`
is strictly greater than each of them; both hold for all descriptors in
`pages[0..npages)`, resident or not. -/
theorem C20_sequence_numbers (USERSTACK trampoline trapframe : Nat) (k0 : kernel)
    (file : Option exec_file) (argv : List (List Nat))
    (hok : (kexec USERSTACK trampoline trapframe k0 file argv).1 ≠ -1) (k : kernel)
    (hreach : reachable_nowrap (kexec USERSTACK trampoline trapframe k0 file argv).2 k) :
    (∀ i j, i < k.p.npages → j < k.p.npages → i ≠ j →
      (k.p.pages i).resident = true → (k.p.pages j).resident = true →
      (k.p.pages i).seq ≠ (k.p.pages j).seq) ∧
    (∀ i, i < k.p.npages → (k.p.pages i).resident = true → (k.p.pages i).seq < k.p.next_seq) ∧
    (∀ i j, i < k.p.npages → j < k.p.npages → i ≠ j → (k.p.pages i).seq ≠ (k.p.pages j).seq) ∧
    (∀ i, i < k.p.npages → (k.p.pages i).seq < k.p.next_seq) := by
  obtain ⟨_, h2, h3⟩ := reachable_nowrap_seq _ k hreach
    (kexec_ok_dt USERSTACK trampoline trapframe k0 file argv hok).2
  exact ⟨fun i j hi hj hne _ _ => h3 i j hi hj hne, fun i hi _ => h2 i hi, h3, h2⟩

/-- C20 (witness): `c18_state`, reached from the exec of `ex_file` without a
wrap of `next_seq`, has two descriptors with distinct `seq` values below
`next_seq`. -/
theorem C20_sequence_numbers_witness :
    (kexec 1 ex_trampoline ex_trapframe tight_kernel (some ex_exec_file) []).1 ≠ -1 ∧
    reachable_nowrap (kexec 1 ex_trampoline ex_trapframe tight_kernel
      (some ex_exec_file) []).2 c18_state ∧
    c18_state.p.npages = 2 ∧
    (c18_state.p.pages 0).seq ≠ (c18_state.p.pages 1).seq ∧
    (c18_state.p.pages 0).seq < c18_state.p.next_seq ∧
    (c18_state.p.pages 1).seq < c18_state.p.next_seq :=
  have hr : reachable_nowrap (kexec 1 ex_trampoline ex_trapframe tight_kernel
      (some ex_exec_file) []).2 c18_state :=
    reachable_nowrap.step _ _ (reachable_nowrap.step _ _ (reachable_nowrap.step _ _
      (reachable_nowrap.step _ _ (reachable_nowrap.step _ _ (reachable_nowrap.step _ _
        (reachable_nowrap.step _ _ reachable_nowrap.start
        (paging_step.vmfault tight_done 0x1000 15) (by decide))
        (paging_step.vmfault _ 0x2000 15) (by decide))
        (paging_step.evict_page _) (by decide))
        (paging_step.vmfault _ 0x1000 13) (by decide))
        (paging_step.evict_page _) (by decide))
        (paging_step.vmfault c18_evicted 0x4000 13) (by decide))
        (paging_step.vmfault c18_full 0x2000 13) (by decide)
  have h := C20_sequence_numbers 1 ex_trampoline ex_trapframe tight_kernel
    (some ex_exec_file) [] (by decide) c18_state hr
  ⟨by decide, hr, by decide, h.2.2.1 0 1 (by decide) (by decide) (by decide),
    h.2.2.2 0 (by decide), h.2.2.2 1 (by decide)⟩

/-! ## C13: the layout exec sets up -/

theorem kexec_ok_image (USERSTACK trampoline trapframe : Nat) (k : kernel)
    (file : Option exec_file) (argv : List (List Nat))
    (h : (kexec USERSTACK trampoline trapframe k file argv).1 ≠ -1) :
    ∃ f, file = some f ∧ f.elf_read = true ∧ f.magic = ELF_MAGIC ∧
      (exec_segments f f.phnum 0 { k.p with nsegments := 0, npages := 0, next_seq := 0 } 0).1
        = true ∧
      PGROUNDUP (exec_segments f f.phnum 0
        { k.p with nsegments := 0, npages := 0, next_seq := 0 } 0).2.2 < MAXVA ∧
      (kexec USERSTACK trampoline trapframe k file argv).2.p.segments =
        (exec_segments f f.phnum 0
          { k.p with nsegments := 0, npages := 0, next_seq := 0 } 0).2.1.segments ∧
      (kexec USERSTACK trampoline trapframe k file argv).2.p.nsegments =
        (exec_segments f f.phnum 0
          { k.p with nsegments := 0, npages := 0, next_seq := 0 } 0).2.1.nsegments ∧
      (kexec USERSTACK trampoline trapframe k file argv).2.p.exec_inode = f.ip ∧
      (kexec USERSTACK trampoline trapframe k file argv).2.p.heap_start =
        PGROUNDUP (exec_segments f f.phnum 0
          { k.p with nsegments := 0, npages := 0, next_seq := 0 } 0).2.2 ∧
      (kexec USERSTACK trampoline trapframe k file argv).2.p.stack_bottom =
        ((PGROUNDUP (exec_segments f f.phnum 0
          { k.p with nsegments := 0, npages := 0, next_seq := 0 } 0).2.2 +
            (USERSTACK + 1) * PGSIZE) % U64 + U64 - (USERSTACK * PGSIZE) % U64) % U64 ∧
      (kexec USERSTACK trampoline trapframe k file argv).2.p.stack_top =
        (PGROUNDUP (exec_segments f f.phnum 0
          { k.p with nsegments := 0, npages := 0, next_seq := 0 } 0).2.2 +
            (USERSTACK + 1) * PGSIZE) % U64 ∧
      (kexec USERSTACK trampoline trapframe k file argv).2.p.sz =
        (PGROUNDUP (exec_segments f f.phnum 0
          { k.p with nsegments := 0, npages := 0, next_seq := 0 } 0).2.2 +
            (USERSTACK + 1) * PGSIZE) % U64 := by
  obtain ⟨f, hf, h1, h2, hseg, hlt, q, pt1, sp, ⟨m, hm, _, himg⟩, he⟩ :=
    kexec_ok USERSTACK trampoline trapframe k file argv h
  refine ⟨f, hf, h1, h2, hseg, hlt, ?_⟩
  rw [he]
  simp only [img, Prod.mk.injEq] at himg
  obtain ⟨i1, i2, i3, i4, i5, i6, _⟩ := himg
  exact ⟨i1, i2, i6, i3, i4, i5, rfl⟩

theorem layout_arith (a us : Nat) (ha : a < MAXVA) (hus : (us + 1) * PGSIZE ≤ U64 - MAXVA) :
    (a + (us + 1) * PGSIZE) % U64 = a + (us + 1) * PGSIZE ∧
    ((a + (us + 1) * PGSIZE) % U64 + U64 - (us * PGSIZE) % U64) % U64 = a + PGSIZE := by
  have hU : U64 = 18446744073709551616 := by norm_num [U64]
  have hM : MAXVA = 274877906944 := by norm_num [MAXVA]
  have hP : PGSIZE = 4096 := rfl
  rw [hU, hM, hP] at hus
  rw [hM] at ha
  rw [hU, hP]
  have h1 : (a + (us + 1) * 4096) % 18446744073709551616 = a + (us + 1) * 4096 :=
    Nat.mod_eq_of_lt (by omega)
  have h2 : us * 4096 % 18446744073709551616 = us * 4096 := Nat.mod_eq_of_lt (by omega)
  rw [h1, h2]
  refine ⟨rfl, ?_⟩
  have h3 : a + (us + 1) * 4096 + 18446744073709551616 - us * 4096 =
      a + 4096 + 18446744073709551616 := by omega
  rw [h3, Nat.add_mod_right]
  exact Nat.mod_eq_of_lt (by omega)

/-- C13 (counterexample): the exec of `c13_file`, whose only segment ends at
`sz0 = 0x2801`, with `USERSTACK = 1` succeeds with
`heap_start = 0x3000`, `stack_bottom = 0x4000`, `stack_top = 0x5000` and `sz = 0x5000`,
not with `heap_start = stack_bottom = 0x2801`, `stack_top = 0x3801` and
`sz = stack_top + 0x1000`.  For `ex_file`, whose segments end at the page boundary
0x3000, `heap_start = 0x3000` but `stack_bottom = 0x4000` and `sz = stack_top = 0x5000`. -/
theorem C13_counterexample :
    (kexec 1 ex_trampoline ex_trapframe boot_kernel (some c13_file) []).1 = 0 ∧
    (kexec 1 ex_trampoline ex_trapframe boot_kernel (some c13_file) []).2.panicked = false ∧
    (kexec 1 ex_trampoline ex_trapframe boot_kernel (some c13_file) []).2.p.nsegments = 1 ∧
    ((kexec 1 ex_trampoline ex_trapframe boot_kernel (some c13_file) []).2.p.segments 0).vaddr +
      ((kexec 1 ex_trampoline ex_trapframe boot_kernel (some c13_file) []).2.p.segments 0).memsz
        = 0x2801 ∧
    (kexec 1 ex_trampoline ex_trapframe boot_kernel (some c13_file) []).2.p.heap_start = 0x3000 ∧
    (kexec 1 ex_trampoline ex_trapframe boot_kernel (some c13_file) []).2.p.stack_bottom
      = 0x4000 ∧
    (kexec 1 ex_trampoline ex_trapframe boot_kernel (some c13_file) []).2.p.stack_top = 0x5000 ∧
    (kexec 1 ex_trampoline ex_trapframe boot_kernel (some c13_file) []).2.p.sz = 0x5000 ∧
    exec_done.p.heap_start = 0x3000 ∧ exec_done.p.stack_bottom = 0x4000 ∧
    exec_done.p.stack_top = 0x5000 ∧ exec_done.p.sz = 0x5000 := by
  decide

/-- C13 (amended): after a successful exec whose recorded segments
end at `sz0` (the largest `vaddr + memsz`, 0 when there is none),
`heap_start = PGROUNDUP(sz0)`, `stack_bottom = heap_start + PGSIZE` (the page
between them is the one exec sets aside as the stack guard),
`stack_top = heap_start + (USERSTACK+1)*PGSIZE` and `sz = stack_top`; the
rounded `sz0` is below `MAXVA`.  `USERSTACK` is any number of pages whose
size fits the 64-bit address arithmetic. -/
theorem C13_exec_layout (USERSTACK trampoline trapframe : Nat) (k : kernel)
    (file : Option exec_file) (argv : List (List Nat))
    (hok : (kexec USERSTACK trampoline trapframe k file argv).1 ≠ -1)
    (hus : (USERSTACK + 1) * PGSIZE ≤ U64 - MAXVA) :
    ∃ sz0,
      (∀ s, s < (kexec USERSTACK trampoline trapframe k file argv).2.p.nsegments →
        (((kexec USERSTACK trampoline trapframe k file argv).2.p.segments s).vaddr +
          ((kexec USERSTACK trampoline trapframe k file argv).2.p.segments s).memsz) % U64
            ≤ sz0) ∧
      (sz0 = 0 ∨ ∃ s, s < (kexec USERSTACK trampoline trapframe k file argv).2.p.nsegments ∧
        sz0 = (((kexec USERSTACK trampoline trapframe k file argv).2.p.segments s).vaddr +
          ((kexec USERSTACK trampoline trapframe k file argv).2.p.segments s).memsz) % U64) ∧
      PGROUNDUP sz0 < MAXVA ∧
      (kexec USERSTACK trampoline trapframe k file argv).2.p.heap_start = PGROUNDUP sz0 ∧
      (kexec USERSTACK trampoline trapframe k file argv).2.p.stack_bottom =
        PGROUNDUP sz0 + PGSIZE ∧
      (kexec USERSTACK trampoline trapframe k file argv).2.p.stack_top =
        PGROUNDUP sz0 + (USERSTACK + 1) * PGSIZE ∧
      (kexec USERSTACK trampoline trapframe k file argv).2.p.sz =
        (kexec USERSTACK trampoline trapframe k file argv).2.p.stack_top := by
  obtain ⟨f, _, _, _, hseg, hlt, e1, e2, _, e3, e4, e5, e6⟩ :=
    kexec_ok_image USERSTACK trampoline trapframe k file argv hok
  obtain ⟨_, _, _, _, _, h6, h7⟩ :=
    exec_segments_spec f { k.p with nsegments := 0, npages := 0, next_seq := 0 } rfl hseg
  refine ⟨(exec_segments f f.phnum 0
    { k.p with nsegments := 0, npages := 0, next_seq := 0 } 0).2.2, ?_, ?_, hlt, e3, ?_, ?_, ?_⟩
  · rw [e1, e2]; exact h6
  · rw [e1, e2]; exact h7
  · rw [e4]; exact (layout_arith _ USERSTACK hlt hus).2
  · rw [e5]; exact (layout_arith _ USERSTACK hlt hus).1
  · rw [e6, e5]

/-- C13 (witness): the exec of `c13_file` with `USERSTACK = 1`. -/
theorem C13_exec_layout_witness :
    ∃ sz0,
      (∀ s, s < (kexec 1 ex_trampoline ex_trapframe boot_kernel (some c13_file) []).2.p.nsegments →
        (((kexec 1 ex_trampoline ex_trapframe boot_kernel (some c13_file) []).2.p.segments s).vaddr +
          ((kexec 1 ex_trampoline ex_trapframe boot_kernel (some c13_file)
            []).2.p.segments s).memsz) % U64 ≤ sz0) ∧
      (sz0 = 0 ∨
        ∃ s, s < (kexec 1 ex_trampoline ex_trapframe boot_kernel (some c13_file) []).2.p.nsegments ∧
        sz0 = (((kexec 1 ex_trampoline ex_trapframe boot_kernel (some c13_file)
            []).2.p.segments s).vaddr +
          ((kexec 1 ex_trampoline ex_trapframe boot_kernel (some c13_file)
            []).2.p.segments s).memsz) % U64) ∧
      PGROUNDUP sz0 < MAXVA ∧
      (kexec 1 ex_trampoline ex_trapframe boot_kernel (some c13_file) []).2.p.heap_start
        = PGROUNDUP sz0 ∧
      (kexec 1 ex_trampoline ex_trapframe boot_kernel (some c13_file) []).2.p.stack_bottom =
        PGROUNDUP sz0 + PGSIZE ∧
      (kexec 1 ex_trampoline ex_trapframe boot_kernel (some c13_file) []).2.p.stack_top =
        PGROUNDUP sz0 + (1 + 1) * PGSIZE ∧
      (kexec 1 ex_trampoline ex_trapframe boot_kernel (some c13_file) []).2.p.sz =
        (kexec 1 ex_trampoline ex_trapframe boot_kernel (some c13_file) []).2.p.stack_top :=
  C13_exec_layout 1 ex_trampoline ex_trapframe boot_kernel (some c13_file) [] (by decide)
    (by decide)

/-! ## Freeing a page table does not panic -/

theorem rwx_of_read (x : Nat) (h : x.testBit 1 = true) :
    x &&& (PTE_R ||| PTE_W ||| PTE_X) ≠ 0 := by
  intro h0
  have h2 : (x &&& (PTE_R ||| PTE_W ||| PTE_X)).testBit 1 = true := by
    rw [Nat.testBit_land, h]
    decide
  rw [h0] at h2
  simp at h2

theorem leaves_ok_pte_store (pt : pagetable_t) (va v : Nat)
    (hv : v &&& PTE_V ≠ 0 → v &&& (PTE_R ||| PTE_W ||| PTE_X) ≠ 0) (h : leaves_ok pt) :
    leaves_ok (pte_store pt va v) := by
  cases h2 : pt.sub (PX 2 va) with
  | none => simp only [pte_store, h2]; exact h
  | some d =>
    cases h1 : d.sub (PX 1 va) with
    | none => simp only [pte_store, h2, h1]; exact h
    | some l =>
      simp only [pte_store, h2, h1]
      intro i d' j l' x hi hj hx
      simp only at hi
      by_cases e2 : i = PX 2 va
      · subst e2
        rw [Function.update_same] at hi
        cases hi
        simp only at hj
        by_cases e1 : j = PX 1 va
        · subst e1
          rw [Function.update_same] at hj
          cases hj
          simp only at hx ⊢
          by_cases e0 : x = PX 0 va
          · subst e0
            rw [Function.update_same] at hx ⊢
            exact hv hx
          · rw [Function.update_noteq e0] at hx ⊢
            exact h _ d _ l x h2 h1 hx
        · rw [Function.update_noteq e1] at hj
          exact h _ d j l' x h2 hj hx
      · rw [Function.update_noteq e2] at hi
        exact h i d' j l' x hi hj hx

theorem leaves_ok_walk_alloc (pt : pagetable_t) (fl : List Nat) (va : Nat) (h : leaves_ok pt) :
    leaves_ok (walk_alloc pt fl va).2.1 := by
  cases h2 : pt.sub (PX 2 va) with
  | some d =>
    cases h1 : d.sub (PX 1 va) with
    | some l => simp only [walk_alloc, h2, h1]; exact h
    | none =>
      simp only [walk_alloc, h2, h1]
      split
      · exact h
      · intro i d' j l' x hi hj hx
        simp only at hi
        by_cases e2 : i = PX 2 va
        · subst e2
          rw [Function.update_same] at hi
          cases hi
          simp only at hj
          by_cases e1 : j = PX 1 va
          · subst e1
            rw [Function.update_same] at hj
            cases hj
            simp at hx
          · rw [Function.update_noteq e1] at hj
            exact h _ d j l' x h2 hj hx
        · rw [Function.update_noteq e2] at hi
          exact h i d' j l' x hi hj hx
  | none =>
    simp only [walk_alloc, h2]
    split
    · exact h
    · split
      · intro i d' j l' x hi hj hx
        simp only at hi
        by_cases e2 : i = PX 2 va
        · subst e2
          rw [Function.update_same] at hi
          cases hi
          simp at hj
        · rw [Function.update_noteq e2] at hi
          exact h i d' j l' x hi hj hx
      · intro i d' j l' x hi hj hx
        simp only at hi
        by_cases e2 : i = PX 2 va
        · subst e2
          rw [Function.update_same] at hi
          cases hi
          simp only at hj
          by_cases e1 : j = PX 1 va
          · subst e1
            rw [Function.update_same] at hj
            cases hj
            simp at hx
          · rw [Function.update_noteq e1] at hj
            simp at hj
        · rw [Function.update_noteq e2] at hi
          exact h i d' j l' x hi hj hx

theorem leaves_ok_mappages (pt : pagetable_t) (fl : List Nat) (va pa perm : Nat)
    (hp : perm.testBit 1 = true) (h : leaves_ok pt) :
    leaves_ok (mappages pt fl va PGSIZE pa perm).2.1 := by
  have h1 : PGSIZE / PGSIZE = 1 := by unfold PGSIZE; norm_num
  have hv : (PA2PTE pa ||| perm ||| PTE_V) &&& PTE_V ≠ 0 →
      (PA2PTE pa ||| perm ||| PTE_V) &&& (PTE_R ||| PTE_W ||| PTE_X) ≠ 0 := by
    intro _
    apply rwx_of_read
    simp [Nat.testBit_lor, hp]
  unfold mappages
  rw [h1]
  unfold mappages_loop
  simp only []
  repeat' split
  all_goals first
    | exact h
    | exact leaves_ok_walk_alloc _ _ _ h
    | exact leaves_ok_pte_store _ _ _ hv (leaves_ok_walk_alloc _ _ _ h)

theorem uvmunmap_loop_ok (do_free : Bool) (n : Nat) :
    ∀ (pt : pagetable_t) (fl : List Nat) (a : Nat), a + n * PGSIZE ≤ MAXVA → leaves_ok pt →
      (uvmunmap_loop do_free n pt fl a).1 = outcome.ok ∧
      leaves_ok (uvmunmap_loop do_free n pt fl a).2.1 := by
  induction n with
  | zero => intro pt fl a _ h; exact ⟨rfl, h⟩
  | succ n ih =>
    intro pt fl a ha h
    have hP : PGSIZE = 4096 := rfl
    have hlt : ¬ a ≥ MAXVA := by rw [hP] at ha; omega
    have hn : a + PGSIZE + n * PGSIZE ≤ MAXVA := by rw [hP] at ha ⊢; omega
    unfold uvmunmap_loop
    rw [if_neg hlt]
    split
    · exact ih pt fl _ hn h
    · split
      · exact ih pt fl _ hn h
      · exact ih _ _ _ hn (leaves_ok_pte_store _ _ _ (fun h0 => absurd rfl h0) h)

theorem freewalk_leaf_ok (l : leaf_table)
    (hl : ∀ x, l.pte x &&& PTE_V ≠ 0 → l.pte x &&& (PTE_R ||| PTE_W ||| PTE_X) ≠ 0) (n : Nat) :
    ∀ (i : Nat) (r : outcome × List Nat), (freewalk_leaf l n i r).1 = r.1 := by
  induction n with
  | zero => intro i r; rfl
  | succ n ih =>
    intro i r
    unfold freewalk_leaf
    split
    · rename_i hc
      exact absurd hc.2 (hl i hc.1)
    · split
      · rw [ih]
      · rw [ih]

theorem freewalk_dir_ok (d : dir_table)
    (hd : ∀ j l x, d.sub j = some l → l.pte x &&& PTE_V ≠ 0 →
      l.pte x &&& (PTE_R ||| PTE_W ||| PTE_X) ≠ 0) (n : Nat) :
    ∀ (i : Nat) (r : outcome × List Nat), r.1 = outcome.ok →
      (freewalk_dir d n i r).1 = outcome.ok := by
  induction n with
  | zero => intro i r hr; exact hr
  | succ n ih =>
    intro i r hr
    unfold freewalk_dir
    split
    · exact ih _ _ hr
    · rename_i l hl
      have h1 := freewalk_leaf_ok l (fun x => hd i l x hl) 512 0 r
      simp only []
      rw [if_neg (by rw [h1, hr]; decide)]
      exact ih _ _ (by rw [h1, hr])

theorem freewalk_root_ok (pt : pagetable_t) (h : leaves_ok pt) (n : Nat) :
    ∀ (i : Nat) (r : outcome × List Nat), r.1 = outcome.ok →
      (freewalk_root pt n i r).1 = outcome.ok := by
  induction n with
  | zero => intro i r hr; exact hr
  | succ n ih =>
    intro i r hr
    unfold freewalk_root
    split
    · exact ih _ _ hr
    · rename_i d hd
      have h1 := freewalk_dir_ok d (fun j l x hj hx => h i d j l x hd hj hx) 512 0 r hr
      simp only []
      rw [if_neg (by rw [h1]; decide)]
      exact ih _ _ h1

theorem freewalk_ok (pt : pagetable_t) (fl : List Nat) (h : leaves_ok pt) :
    (freewalk pt fl).1 = outcome.ok := by
  unfold freewalk
  have h1 := freewalk_root_ok pt h 512 0 (outcome.ok, fl) rfl
  simp only []
  rw [if_neg (by rw [h1]; decide)]
theorem uvmunmap_ok (pt : pagetable_t) (fl : List Nat) (va n : Nat) (do_free : Bool)
    (hva : va % PGSIZE = 0) (hn : va + n * PGSIZE ≤ MAXVA) (h : leaves_ok pt) :
    (uvmunmap pt fl va n do_free).1 = outcome.ok ∧
    leaves_ok (uvmunmap pt fl va n do_free).2.1 := by
  unfold uvmunmap
  rw [if_neg (by simp [hva])]
  exact uvmunmap_loop_ok do_free n pt fl va hn h

theorem PGROUNDUP_le_MAXVA (sz : Nat) (h : sz ≤ MAXVA) : PGROUNDUP sz ≤ MAXVA := by
  have hU : U64 = 18446744073709551616 := by norm_num [U64]
  have hM : MAXVA = 274877906944 := by norm_num [MAXVA]
  have hP : PGSIZE = 4096 := rfl
  unfold PGROUNDUP
  rw [hM] at h
  rw [hU, hM, hP]
  omega

theorem uvmfree_ok (pt : pagetable_t) (fl : List Nat) (sz : Nat) (hsz : PGROUNDUP sz ≤ MAXVA)
    (h : leaves_ok pt) : (uvmfree pt fl sz).1 = outcome.ok := by
  have hcount : 0 + unmap_count 0 (PGROUNDUP sz / PGSIZE) * PGSIZE ≤ MAXVA := by
    have hU : U64 = 18446744073709551616 := by norm_num [U64]
    have hM : MAXVA = 274877906944 := by norm_num [MAXVA]
    have hP : PGSIZE = 4096 := rfl
    unfold unmap_count
    rw [hM] at hsz
    rw [hU, hM, hP]
    omega
  have hu : (if sz > 0 then uvmunmap pt fl 0 (unmap_count 0 (PGROUNDUP sz / PGSIZE)) true
      else (outcome.ok, pt, fl)).1 = outcome.ok ∧
      leaves_ok (if sz > 0 then uvmunmap pt fl 0 (unmap_count 0 (PGROUNDUP sz / PGSIZE)) true
      else (outcome.ok, pt, fl)).2.1 := by
    split
    · exact uvmunmap_ok pt fl 0 _ true rfl hcount h
    · exact ⟨rfl, h⟩
  unfold uvmfree
  simp only []
  rw [if_neg (by rw [hu.1]; decide)]
  exact freewalk_ok _ _ hu.2

theorem proc_freepagetable_ok (pt : pagetable_t) (fl : List Nat) (sz : Nat)
    (hsz : PGROUNDUP sz ≤ MAXVA) (h : leaves_ok pt) :
    (proc_freepagetable pt fl sz).1 = outcome.ok := by
  have hM : MAXVA = 274877906944 := by norm_num [MAXVA]
  have hP : PGSIZE = 4096 := rfl
  have h1 := uvmunmap_ok pt fl TRAMPOLINE 1 false (by decide)
    (by unfold TRAMPOLINE; rw [hM, hP]) h
  have h2 := uvmunmap_ok (uvmunmap pt fl TRAMPOLINE 1 false).2.1
    (uvmunmap pt fl TRAMPOLINE 1 false).2.2 TRAPFRAME 1 false (by decide)
    (by unfold TRAPFRAME TRAMPOLINE; rw [hM, hP]; norm_num) h1.2
  unfold proc_freepagetable
  simp only []
  rw [if_neg (by rw [h1.1]; decide), if_neg (by rw [h2.1]; decide)]
  exact uvmfree_ok _ _ sz hsz h2.2

theorem exec_bad_ok (k : kernel) (pt : pagetable_t) (sz : Nat) (hrun : k.panicked = false)
    (hsz : PGROUNDUP sz ≤ MAXVA) (h : leaves_ok pt) : (exec_bad k pt sz).2.panicked = false := by
  unfold exec_bad
  simp [hrun, proc_freepagetable_ok pt k.freelist sz hsz h]
theorem mappages_other (pt : pagetable_t) (fl : List Nat) (va pa perm b : Nat)
    (hva : va % PGSIZE = 0) (hlt : va < MAXVA) (hinv : pte_at pt va &&& PTE_V = 0)
    (hb : b < MAXVA) (hb0 : b % PGSIZE = 0) (hne : va ≠ b) :
    (mappages pt fl va PGSIZE pa perm).1 ≠ outcome.panic ∧
    pte_at (mappages pt fl va PGSIZE pa perm).2.1 b = pte_at pt b := by
  cases hw : (walk_alloc pt fl va).1 with
  | true =>
    rw [mappages_one pt fl va pa perm hva hlt hinv hw]
    constructor
    · intro h; cases h
    · simp only
      rw [pte_at_pte_store_other _ va b _ hlt hb hva hb0 hne, pte_at_walk_alloc]
  | false =>
    rw [mappages_fail pt fl va pa perm hva hlt hw]
    constructor
    · intro h; cases h
    · simp only
      rw [pte_at_walk_alloc]

theorem proc_pagetable_ok (trampoline trapframe : Nat) (fl : List Nat) :
    (proc_pagetable trampoline trapframe fl).2.1 = outcome.ok ∧
    ∀ pt, (proc_pagetable trampoline trapframe fl).1 = some pt → leaves_ok pt := by
  have hM : MAXVA = 274877906944 := by norm_num [MAXVA]
  have hP : PGSIZE = 4096 := rfl
  have hT1 : TRAMPOLINE < MAXVA := by unfold TRAMPOLINE; rw [hM, hP]; norm_num
  have hT2 : TRAPFRAME < MAXVA := by unfold TRAPFRAME TRAMPOLINE; rw [hM, hP]; norm_num
  have hne : TRAMPOLINE ≠ TRAPFRAME := by decide
  unfold proc_pagetable uvmcreate
  simp only []
  by_cases hk : (kalloc fl).1 = 0
  · simp [hk]
  · simp only [hk, if_false]
    have h0 : leaves_ok { pa := (kalloc fl).1, sub := fun _ => none } := by
      intro i d j l x hi
      simp at hi
    have hz : ∀ b, pte_at { pa := (kalloc fl).1, sub := fun _ => none } b = 0 := by
      intro b
      simp [pte_at, walk]
    have hm := mappages_other { pa := (kalloc fl).1, sub := fun _ => none } (kalloc fl).2
      TRAMPOLINE trampoline (PTE_R ||| PTE_X) TRAPFRAME (by decide) hT1
      (by rw [hz]; rfl) hT2 (by decide) hne
    have hl := leaves_ok_mappages { pa := (kalloc fl).1, sub := fun _ => none } (kalloc fl).2
      TRAMPOLINE trampoline (PTE_R ||| PTE_X) (by decide) h0
    rw [hz] at hm
    generalize mappages { pa := (kalloc fl).1, sub := fun _ => none } (kalloc fl).2
      TRAMPOLINE PGSIZE trampoline (PTE_R ||| PTE_X) = m at hm hl ⊢
    cases hm1 : m.1 with
    | panic => exact absurd hm1 hm.1
    | fail =>
      simp only
      exact ⟨uvmfree_ok _ _ 0 (by decide) hl, fun pt h => (by cases h)⟩
    | ok =>
      simp only
      have hm2 := mappages_other m.2.1 m.2.2 TRAPFRAME trapframe (PTE_R ||| PTE_W) TRAMPOLINE
        (by decide) hT2 (by rw [hm.2]; rfl) hT1 (by decide) (Ne.symm hne)
      have hl2 := leaves_ok_mappages m.2.1 m.2.2 TRAPFRAME trapframe (PTE_R ||| PTE_W)
        (by decide) hl
      generalize mappages m.2.1 m.2.2 TRAPFRAME PGSIZE trapframe (PTE_R ||| PTE_W) = m2
        at hm2 hl2 ⊢
      cases hm3 : m2.1 with
      | panic => exact absurd hm3 hm2.1
      | fail =>
        simp only
        have hu := uvmunmap_ok m2.2.1 m2.2.2 TRAMPOLINE 1 false (by decide)
          (by unfold TRAMPOLINE; rw [hM, hP]) hl2
        refine ⟨?_, fun pt h => (by cases h)⟩
        rw [if_neg (by rw [hu.1]; decide)]
        exact uvmfree_ok _ _ 0 (by decide) hu.2
      | ok =>
        simp only
        refine ⟨trivial, ?_⟩
        intro pt h
        cases h
        exact hl2
theorem exec_segments_sz_le (f : exec_file) (n : Nat) :
    ∀ (i : Nat) (p : proc) (sz : Nat),
      (∀ j ph, i ≤ j → j < i + n → f.ph j = some ph → ph.type = ELF_PROG_LOAD →
        (ph.vaddr + ph.memsz) % U64 ≤ MAXVA) →
      sz ≤ MAXVA → (exec_segments f n i p sz).2.2 ≤ MAXVA := by
  induction n with
  | zero => intro i p sz _ h; exact h
  | succ n ih =>
    intro i p sz hM h
    have hM' : ∀ j ph, i + 1 ≤ j → j < i + 1 + n → f.ph j = some ph → ph.type = ELF_PROG_LOAD →
        (ph.vaddr + ph.memsz) % U64 ≤ MAXVA := fun j ph h1 h2 => hM j ph (by omega) (by omega)
    unfold exec_segments
    cases hph : f.ph i with
    | none => exact h
    | some ph =>
      simp only
      split
      · exact ih _ _ _ hM' h
      · rename_i hty
        split
        · exact h
        · split
          · exact h
          · split
            · exact h
            · split
              · exact h
              · refine ih _ _ _ hM' ?_
                have := hM i ph (le_refl _) (by omega) hph (by simpa using hty)
                split <;> omega

theorem kexec_bad_headers (USERSTACK trampoline trapframe : Nat) (k : kernel) (f : exec_file)
    (argv : List (List Nat))
    (hfail : (exec_segments f f.phnum 0
      { k.p with nsegments := 0, npages := 0, next_seq := 0 } 0).1 = false) :
    (kexec USERSTACK trampoline trapframe k (some f) argv).1 = -1 ∧
    (k.panicked = false →
      (∀ j ph, j < f.phnum → f.ph j = some ph → ph.type = ELF_PROG_LOAD →
        (ph.vaddr + ph.memsz) % U64 ≤ MAXVA) →
      (kexec USERSTACK trampoline trapframe k (some f) argv).2.panicked = false) := by
  have hpp := proc_pagetable_ok trampoline trapframe k.freelist
  unfold kexec
  simp only []
  split
  · exact ⟨rfl, fun h _ => h⟩
  · split
    · exact ⟨rfl, fun h _ => h⟩
    · split
      · refine ⟨rfl, fun h _ => ?_⟩
        simp [h, hpp.1]
      · rename_i pt hpt
        refine ⟨rfl, fun hrun hM => ?_⟩
        refine exec_bad_ok _ pt _ hrun (PGROUNDUP_le_MAXVA _ ?_) (hpp.2 pt hpt)
        exact exec_segments_sz_le f f.phnum 0 _ 0
          (fun j ph _ hj => hM j ph (by omega)) (Nat.zero_le _)

theorem flags2perm_spec (flags : Nat) :
    (flags2perm flags &&& PTE_X ≠ 0 ↔ flags &&& 0x1 ≠ 0) ∧
    (flags2perm flags &&& PTE_W ≠ 0 ↔ flags &&& 0x2 ≠ 0) ∧
    (flags2perm flags = 0 ∨ flags2perm flags = PTE_X ∨ flags2perm flags = PTE_W ∨
      flags2perm flags = PTE_X ||| PTE_W) := by
  unfold flags2perm
  by_cases h1 : flags &&& 0x1 ≠ 0 <;> by_cases h2 : flags &&& 0x2 ≠ 0 <;>
    simp only [h1, h2, if_true, if_false, not_true_eq_false, not_false_eq_true, ne_eq] <;> decide

theorem uvmunmap_loop_panic (do_free : Bool) (n : Nat) :
    ∀ (pt : pagetable_t) (fl : List Nat) (a : Nat), a % PGSIZE = 0 → a ≤ MAXVA →
      MAXVA < a + n * PGSIZE → (uvmunmap_loop do_free n pt fl a).1 = outcome.panic := by
  have hM : MAXVA = 274877906944 := by norm_num [MAXVA]
  have hP : PGSIZE = 4096 := rfl
  induction n with
  | zero => intro pt fl a _ h1 h2; omega
  | succ n ih =>
    intro pt fl a h0 h1 h2
    unfold uvmunmap_loop
    split
    · rfl
    · rename_i hlt
      have ha : (a + PGSIZE) % PGSIZE = 0 := by rw [hP] at h0 ⊢; omega
      have hb : a + PGSIZE ≤ MAXVA := by rw [hP] at h0 ⊢; rw [hM] at hlt ⊢; omega
      have hc : MAXVA < a + PGSIZE + n * PGSIZE := by rw [hP] at h2 ⊢; omega
      split
      · exact ih _ _ _ ha hb hc
      · split
        · exact ih _ _ _ ha hb hc
        · exact ih _ _ _ ha hb hc

theorem proc_freepagetable_panic (pt : pagetable_t) (fl : List Nat) (sz : Nat)
    (h1 : MAXVA < sz) (h2 : sz + PGSIZE ≤ U64) :
    (proc_freepagetable pt fl sz).1 = outcome.panic := by
  have hU : U64 = 18446744073709551616 := by norm_num [U64]
  have hM : MAXVA = 274877906944 := by norm_num [MAXVA]
  have hP : PGSIZE = 4096 := rfl
  unfold proc_freepagetable
  simp only []
  split
  · rfl
  · split
    · rfl
    · unfold uvmfree
      simp only []
      have hpos : sz > 0 := by omega
      rw [if_pos hpos]
      have hcount : MAXVA < 0 + unmap_count 0 (PGROUNDUP sz / PGSIZE) * PGSIZE := by
        unfold unmap_count PGROUNDUP
        rw [hM] at h1 ⊢
        rw [hU, hP] at h2 ⊢
        omega
      have hp : ∀ (p : pagetable_t) (l : List Nat),
          (uvmunmap p l 0 (unmap_count 0 (PGROUNDUP sz / PGSIZE)) true).1 = outcome.panic := by
        intro p l
        unfold uvmunmap
        rw [if_neg (by decide)]
        exact uvmunmap_loop_panic true _ p l 0 rfl (Nat.zero_le _) hcount
      rw [if_pos (hp _ _)]

theorem exec_bad_panic (k : kernel) (pt : pagetable_t) (sz : Nat)
    (h1 : MAXVA < sz) (h2 : sz + PGSIZE ≤ U64) : (exec_bad k pt sz).2.panicked = true := by
  unfold exec_bad
  simp [proc_freepagetable_panic pt k.freelist sz h1 h2]

/-! ## Validation of the program headers by `kexec` -/

/-- The exit `bad` of the header loop: the result of `kexec` is -1 when some
`PT_LOAD` header of the image has `memsz < filesz`, a sum `vaddr + memsz` that
wraps modulo 2^64, or a `vaddr` that is not page-aligned, and when the image
has more than 8 `PT_LOAD` headers; the kernel keeps running when it was running
and the `PT_LOAD` headers end at or below `MAXVA`.  After a successful exec
`nsegments <= 8` and every recorded segment comes from a `PT_LOAD` header of
the image, has its `vaddr`, `off`, `filesz` and `memsz`, a page-aligned
`vaddr`, `memsz >= filesz`, `vaddr + memsz` below 2^64 and
`perm = flags2perm(flags)`; `flags2perm` yields `X` iff flag bit 0x1 is set,
`W` iff bit 0x2 is set, and no other bit.  Header fields are 64-bit values. -/
theorem kexec_segment_validation (USERSTACK trampoline trapframe : Nat) (k : kernel)
    (f : exec_file) (argv : List (List Nat))
    (hU : ∀ j ph, f.ph j = some ph → ph.vaddr < U64 ∧ ph.memsz < U64) :
    (((∃ j ph, j < f.phnum ∧ f.ph j = some ph ∧ ph.type = ELF_PROG_LOAD ∧
          (ph.memsz < ph.filesz ∨ U64 ≤ ph.vaddr + ph.memsz ∨ ph.vaddr % PGSIZE ≠ 0)) ∨
        8 < (loads f 0 f.phnum).length) →
      (kexec USERSTACK trampoline trapframe k (some f) argv).1 = -1 ∧
      (k.panicked = false →
        (∀ j ph, j < f.phnum → f.ph j = some ph → ph.type = ELF_PROG_LOAD →
          (ph.vaddr + ph.memsz) % U64 ≤ MAXVA) →
        (kexec USERSTACK trampoline trapframe k (some f) argv).2.panicked = false)) ∧
    ((kexec USERSTACK trampoline trapframe k (some f) argv).1 ≠ -1 →
      (kexec USERSTACK trampoline trapframe k (some f) argv).2.p.nsegments ≤ 8 ∧
      (kexec USERSTACK trampoline trapframe k (some f) argv).2.p.nsegments =
        (loads f 0 f.phnum).length ∧
      ∀ s, s < (kexec USERSTACK trampoline trapframe k (some f) argv).2.p.nsegments →
        ∃ j ph, j < f.phnum ∧ f.ph j = some ph ∧ ph.type = ELF_PROG_LOAD ∧
          (kexec USERSTACK trampoline trapframe k (some f) argv).2.p.segments s =
            { vaddr := ph.vaddr, filesz := ph.filesz, memsz := ph.memsz, off := ph.off,
              perm := flags2perm ph.flags } ∧
          ph.vaddr % PGSIZE = 0 ∧ ph.filesz ≤ ph.memsz ∧ ph.vaddr + ph.memsz < U64) ∧
    (∀ flags,
      (flags2perm flags &&& PTE_X ≠ 0 ↔ flags &&& 0x1 ≠ 0) ∧
      (flags2perm flags &&& PTE_W ≠ 0 ↔ flags &&& 0x2 ≠ 0) ∧
      (flags2perm flags = 0 ∨ flags2perm flags = PTE_X ∨ flags2perm flags = PTE_W ∨
        flags2perm flags = PTE_X ||| PTE_W)) := by
  have hnowrap : ∀ ph : proghdr, ph.vaddr < U64 → ph.memsz < U64 →
      (ph.vaddr ≤ (ph.vaddr + ph.memsz) % U64 ↔ ph.vaddr + ph.memsz < U64) := by
    intro ph h1 h2
    constructor
    · intro h
      by_contra hc
      have : (ph.vaddr + ph.memsz) % U64 = ph.vaddr + ph.memsz - U64 := by
        rw [Nat.mod_eq_sub_mod (by omega), Nat.mod_eq_of_lt (by omega)]
      omega
    · intro h
      rw [Nat.mod_eq_of_lt h]
      omega
  refine ⟨?_, ?_, flags2perm_spec⟩
  · intro hbad
    apply kexec_bad_headers
    by_contra hc
    have hok : (exec_segments f f.phnum 0
        { k.p with nsegments := 0, npages := 0, next_seq := 0 } 0).1 = true := by
      simpa using hc
    obtain ⟨_, h2, h3, h4, _⟩ :=
      exec_segments_spec f { k.p with nsegments := 0, npages := 0, next_seq := 0 } rfl hok
    rcases hbad with ⟨j, ph, hj, hph, hty, hb⟩ | hmany
    · obtain ⟨ph', hph', hgood⟩ := h2 j hj
      rw [hph] at hph'
      cases hph'
      obtain ⟨g1, g2, g3⟩ := hgood hty
      obtain ⟨u1, u2⟩ := hU j ph hph
      have := (hnowrap ph u1 u2).1 g2
      rcases hb with hb | hb | hb
      · omega
      · omega
      · exact hb g3
    · omega
  · intro hok
    obtain ⟨f', hf, _, _, hseg, _, e1, e2, _⟩ :=
      kexec_ok_image USERSTACK trampoline trapframe k (some f) argv hok
    cases hf
    obtain ⟨_, _, h3, h4, h5, _⟩ :=
      exec_segments_spec f { k.p with nsegments := 0, npages := 0, next_seq := 0 } rfl hseg
    rw [e1, e2]
    refine ⟨h4, h3, ?_⟩
    intro s hs
    obtain ⟨j, ph, hj, hph, hty, ⟨g1, g2, g3⟩, hs'⟩ := h5 s hs
    obtain ⟨u1, u2⟩ := hU j ph hph
    exact ⟨j, ph, hj, hph, hty, hs', g3, g1, (hnowrap ph u1 u2).1 g2⟩

/-- Example of `kexec_segment_validation`: the process `exec_done` execs `c12_bad_file`, whose
second `PT_LOAD` header has `memsz < filesz`. -/
theorem kexec_segment_validation_example :
    (kexec 1 ex_trampoline ex_trapframe exec_done (some c12_bad_file) []).1 = -1 ∧
    (kexec 1 ex_trampoline ex_trapframe exec_done (some c12_bad_file) []).2.panicked = false := by
  have hph : ∀ j ph, c12_bad_file.ph j = some ph →
      (ph.vaddr < U64 ∧ ph.memsz < U64) ∧ (ph.vaddr + ph.memsz) % U64 ≤ MAXVA := by
    intro j ph h
    unfold c12_bad_file at h
    simp only at h
    split at h <;> cases h <;> decide
  have h := (kexec_segment_validation 1 ex_trampoline ex_trapframe exec_done c12_bad_file []
    (fun j ph h => (hph j ph h).1)).1
    (Or.inl ⟨1, _, by decide, rfl, rfl, Or.inl (by decide)⟩)
  exact ⟨h.1, h.2 (by decide) (fun j ph _ hp _ => (hph j ph hp).2)⟩

/-! ## C21: the guard page -/

theorem guard_page_in_heap (USERSTACK trampoline trapframe : Nat) (k : kernel)
    (file : Option exec_file) (argv : List (List Nat))
    (hok : (kexec USERSTACK trampoline trapframe k file argv).1 ≠ -1)
    (hus : (USERSTACK + 1) * PGSIZE ≤ U64 - MAXVA) :
    (kexec USERSTACK trampoline trapframe k file argv).2.p.heap_start < MAXVA ∧
    (kexec USERSTACK trampoline trapframe k file argv).2.p.heap_start % PGSIZE = 0 ∧
    (kexec USERSTACK trampoline trapframe k file argv).2.p.stack_bottom =
      (kexec USERSTACK trampoline trapframe k file argv).2.p.heap_start + PGSIZE ∧
    in_heap (kexec USERSTACK trampoline trapframe k file argv).2.p
      (kexec USERSTACK trampoline trapframe k file argv).2.p.heap_start = true ∧
    vmfault_accepts (kexec USERSTACK trampoline trapframe k file argv).2.p
      (kexec USERSTACK trampoline trapframe k file argv).2.p.heap_start = true := by
  obtain ⟨f, _, _, _, _, hlt, _, _, _, e3, e4, _, _⟩ :=
    kexec_ok_image USERSTACK trampoline trapframe k file argv hok
  have hsb := (layout_arith _ USERSTACK hlt hus).2
  rw [← e4, ← e3] at hsb
  have hP : PGSIZE = 4096 := rfl
  have hin : in_heap (kexec USERSTACK trampoline trapframe k file argv).2.p
      (kexec USERSTACK trampoline trapframe k file argv).2.p.heap_start = true := by
    rw [in_heap_iff]
    left
    rw [hsb, hP]
    omega
  refine ⟨by rw [e3]; exact hlt, ?_, hsb, hin, ?_⟩
  · rw [e3]
    unfold PGROUNDUP
    exact Nat.mul_mod_left _ _
  · unfold vmfault_accepts
    rw [hin]
    simp

/-- C21 (code at the failing input): after every successful exec the guard page is the page at
`heap_start`, one page below `stack_bottom`, and `vmfault` takes its address for a
heap address.  After the exec that leads to `exec_done` the guard page 0x3000 has an
entry equal to 0; a store to it is then handled as a heap fault: `vmfault` returns
a frame, the process is neither killed nor stopped, the entry of 0x3000 is valid
with `U` and `W` set, and the page has a resident descriptor. -/
theorem C21_guard_page_mapped_as_heap :
    (∀ (USERSTACK trampoline trapframe : Nat) (k : kernel) (file : Option exec_file)
        (argv : List (List Nat)),
      (kexec USERSTACK trampoline trapframe k file argv).1 ≠ -1 →
      (USERSTACK + 1) * PGSIZE ≤ U64 - MAXVA →
      (kexec USERSTACK trampoline trapframe k file argv).2.p.stack_bottom =
        (kexec USERSTACK trampoline trapframe k file argv).2.p.heap_start + PGSIZE ∧
      vmfault_accepts (kexec USERSTACK trampoline trapframe k file argv).2.p
        (kexec USERSTACK trampoline trapframe k file argv).2.p.heap_start = true) ∧
    (kexec 1 ex_trampoline ex_trapframe boot_kernel (some ex_exec_file) []).1 = 0 ∧
    exec_done.p.heap_start = 0x3000 ∧ exec_done.p.stack_bottom = 0x4000 ∧
    walk exec_done.p.pagetable 0x3000 = some 0 ∧
    in_heap exec_done.p 0x3000 = true ∧
    (vmfault exec_done 0x3000 15).1 ≠ 0 ∧
    c21_state.p.killed = false ∧ c21_state.panicked = false ∧
    log_line.PAGEFAULT 0x3000 access.write cause.heap ∈ c21_state.log ∧
    pte_at c21_state.p.pagetable 0x3000 &&& PTE_V ≠ 0 ∧
    pte_at c21_state.p.pagetable 0x3000 &&& PTE_U ≠ 0 ∧
    pte_at c21_state.p.pagetable 0x3000 &&& PTE_W ≠ 0 ∧
    c21_state.p.npages = 2 ∧ (c21_state.p.pages 1).va = 0x3000 ∧
    (c21_state.p.pages 1).resident = true := by
  refine ⟨fun us tr tf k file argv hok hus => ?_, ?_⟩
  · obtain ⟨_, _, h3, _, h5⟩ := guard_page_in_heap us tr tf k file argv hok hus
    exact ⟨h3, h5⟩
  · decide

/-! ## C25: a failed write to the swap file -/

/-- C25 (code at the failing input): in `c25_before` the swap file exists, slot 0 is
in use and the victim is the dirty data page 0x1000 at index 1.  The write of
`evict_page` fails; the call returns 0 and kills the process, the victim stays
resident with its entry unchanged, but bit 1 of the bitmap is now set,
`nswap_slots` went from 1 to 2 and the victim's `swap_offset` from 0 to 1. -/
theorem C25_failed_write_keeps_slot :
    c25_before.panicked = false ∧ c25_before.p.swapfile.isSome = true ∧
    evict_victim c25_before.p = some 1 ∧ (c25_before.p.pages 1).va = 0x1000 ∧
    (c25_before.p.pages 1).dirty = true ∧
    (evict_page c25_before).1 = 0 ∧ (evict_page c25_before).2.p.killed = true ∧
    (evict_page c25_before).2.panicked = false ∧
    (evict_page c25_before).2.p.npages = c25_before.p.npages ∧
    ((evict_page c25_before).2.p.pages 1).resident = true ∧
    ((evict_page c25_before).2.p.pages 1).swapped = false ∧
    pte_at (evict_page c25_before).2.p.pagetable 0x1000 = pte_at c25_before.p.pagetable 0x1000 ∧
    c25_before.p.swap_slots 0 = 1 ∧ (evict_page c25_before).2.p.swap_slots 0 = 3 ∧
    c25_before.p.nswap_slots = 1 ∧ (evict_page c25_before).2.p.nswap_slots = 2 ∧
    (c25_before.p.pages 1).swap_offset = 0 ∧
    ((evict_page c25_before).2.p.pages 1).swap_offset = 1 := by
  decide

/-! ## C27: a modified page after a swap-in -/

/-- C27 (code at the failing input): the data page 0x1000 of `ex_kernel` lies in a writable
segment within `filesz`.  After a store fault and the store of 0x5A at 0x1005 the
page is dirty and holds the byte (`c27_written`); after an eviction to swap and a
load it is resident again, holds the byte, and is clean (`c27_swapped_in`).  The
next eviction discards it, and after the next load the frame holds the byte of
the executable, 45, and the process is still running (`c27_reloaded`). -/
theorem C27_modified_page_discarded :
    (ex_kernel.p.segments 1).perm &&& PTE_W ≠ 0 ∧
    has_backing_store ex_kernel.p 0x1000 = true ∧
    (c27_written.p.pages 0).va = 0x1000 ∧ (c27_written.p.pages 0).dirty = true ∧
    c27_written.mem (PTE2PA (pte_at c27_written.p.pagetable 0x1000) + 5) = 0x5A ∧
    log_line.SWAPOUT 0x1000 0 ∈ (evict_page c27_written).2.log ∧
    (c27_swapped_in.p.pages 0).resident = true ∧ (c27_swapped_in.p.pages 0).dirty = false ∧
    c27_swapped_in.mem (PTE2PA (pte_at c27_swapped_in.p.pagetable 0x1000) + 5) = 0x5A ∧
    log_line.DISCARD 0x1000 ∈ (evict_page c27_swapped_in).2.log ∧
    (evict_page c27_swapped_in).2.p.npages = 0 ∧
    (vmfault (evict_page c27_swapped_in).2 0x1000 13).1 ≠ 0 ∧
    c27_reloaded.p.killed = false ∧ c27_reloaded.panicked = false ∧
    c27_reloaded.mem (PTE2PA (pte_at c27_reloaded.p.pagetable 0x1000) + 5) = 45 ∧
    ex_file.data (0x800 + 5) = 45 := by
  decide

/-! ## C30: exec of an image that reaches `MAXVA` -/

/-- C30 (code at the failing inputs): the only program header of `c30_file`, with `vaddr = 0`
and `memsz = MAXVA`, passes the checks of the header loop, and so does that of
`c30_remap_file`, which ends at `TRAPFRAME - PGSIZE`.  The exec of the
first stops the kernel in the `panic` of `walk` for the guard page at `MAXVA`; the
exec of the second stops it in the `panic` of `mappages`, the stack page being the
trapframe page. -/
theorem C30_exec_panics :
    boot_kernel.panicked = false ∧
    (exec_segments c30_file c30_file.phnum 0 boot_kernel.p 0).1 = true ∧
    (exec_segments c30_file c30_file.phnum 0 boot_kernel.p 0).2.2 = MAXVA ∧
    (kexec 1 ex_trampoline ex_trapframe boot_kernel (some c30_file) []).2.panicked = true ∧
    (exec_segments c30_remap_file c30_remap_file.phnum 0 boot_kernel.p 0).1 = true ∧
    PGROUNDUP (exec_segments c30_remap_file c30_remap_file.phnum 0 boot_kernel.p 0).2.2 + PGSIZE
      = TRAPFRAME ∧
    (kexec 1 ex_trampoline ex_trapframe boot_kernel (some c30_remap_file) []).2.panicked
      = true := by
  decide

/-! ## C23: eviction when every swap slot is in use -/

theorem alloc_swap_slot_full (p : proc)
    (hfull : ∀ i, i < MAX_SWAP_PAGES → p.swap_slots (i / 32) &&& (1 <<< (i % 32)) ≠ 0) :
    alloc_swap_slot p = (-1, p) := by
  unfold alloc_swap_slot
  split
  · rfl
  · cases h : first_clear p.swap_slots MAX_SWAP_PAGES 0 with
    | none => rfl
    | some j =>
      obtain ⟨_, h2, h3, _⟩ := first_clear_some _ _ 0 j h
      exact absurd h3 (hfull j (by omega))

theorem slot_bit_iff (s : Nat → Nat) (l : Nat) :
    s (l / 32) &&& (1 <<< (l % 32)) ≠ 0 ↔ (s (l / 32)).testBit (l % 32) = true := by
  rw [Nat.one_shiftLeft]
  exact and_flag_ne_zero _ _

theorem clear_bit_restores (w a : Nat) (hw : w < 2 ^ 32) (ha : a < 32)
    (hc : w.testBit a = false) : (w ||| (1 <<< a)) &&& (0xFFFFFFFF - (1 <<< a)) = w := by
  rw [Nat.one_shiftLeft]
  have h2 : 2 ^ a < 2 ^ 32 := Nat.pow_lt_pow_right (by decide) ha
  have h3 : 0xFFFFFFFF - 2 ^ a = 2 ^ 32 - (2 ^ a + 1) := by
    have : (2 : Nat) ^ 32 = 4294967296 := by norm_num
    omega
  rw [h3]
  apply Nat.eq_of_testBit_eq
  intro i
  rw [Nat.testBit_and, Nat.testBit_or, Nat.testBit_two_pow_sub_succ h2, Nat.testBit_two_pow]
  by_cases hi : i < 32
  · by_cases hai : a = i
    · subst hai
      simp [hc]
    · simp [hi, hai]
  · have : w.testBit i = false := testBit_high w 32 i hw (by omega)
    simp [hi, this]

theorem first_clear_none (slots : Nat → Nat) (n : Nat) :
    ∀ i, first_clear slots n i = none →
      ∀ l, i ≤ l → l < i + n → slots (l / 32) &&& (1 <<< (l % 32)) ≠ 0 := by
  induction n with
  | zero => intro i _ l h1 h2; omega
  | succ n ih =>
    intro i h l h1 h2
    unfold first_clear at h
    split at h
    · cases h
    · rename_i hb
      by_cases hli : l = i
      · subst hli; exact hb
      · exact ih (i + 1) h l (by omega) (by omega)

theorem used_slots_le (p : proc) : used_slots p ≤ MAX_SWAP_PAGES := by
  unfold used_slots
  have h := List.length_filter_le
    (fun i => decide (p.swap_slots (i / 32) &&& (1 <<< (i % 32)) ≠ 0)) (List.range MAX_SWAP_PAGES)
  rw [List.length_range] at h
  exact h

theorem used_slots_full_iff (p : proc) :
    used_slots p = MAX_SWAP_PAGES ↔
      ∀ l, l < MAX_SWAP_PAGES → p.swap_slots (l / 32) &&& (1 <<< (l % 32)) ≠ 0 := by
  unfold used_slots
  have h := @List.filter_length_eq_length _
    (fun i => decide (p.swap_slots (i / 32) &&& (1 <<< (i % 32)) ≠ 0)) (List.range MAX_SWAP_PAGES)
  rw [List.length_range] at h
  rw [h]
  constructor
  · intro hh l hl
    have := hh l (List.mem_range.2 hl)
    simpa using this
  · intro hh l hl
    have := hh l (List.mem_range.1 hl)
    simpa using this

theorem alloc_swap_slot_neg_iff (p : proc) (hcount : p.nswap_slots = used_slots p) :
    (alloc_swap_slot p).1 = -1 ↔
      ∀ l, l < MAX_SWAP_PAGES → p.swap_slots (l / 32) &&& (1 <<< (l % 32)) ≠ 0 := by
  constructor
  · intro h
    unfold alloc_swap_slot at h
    split at h
    · rename_i hge
      exact (used_slots_full_iff p).1 (by have := used_slots_le p; omega)
    · cases hf : first_clear p.swap_slots MAX_SWAP_PAGES 0 with
      | none =>
        intro l hl
        exact first_clear_none _ _ 0 hf l (Nat.zero_le _) (by omega)
      | some j =>
        rw [hf] at h
        simp only at h
        omega
  · intro h
    rw [alloc_swap_slot_full p h]

/-- C26: for a process whose bitmap words are 32-bit values and whose
`nswap_slots` is the number of set bits.  (a) When fewer than 1024 slots are in
use, `alloc_swap_slot` returns the smallest index whose bit is clear, sets that
bit and no other, and adds one to `nswap_slots`; `free_swap_slot` on that index
gives back the previous bitmap and count.  (b) It returns -1 exactly when all
1024 bits are set, and then changes nothing.  (c) `free_swap_slot` changes
nothing for a slot out of range or with a clear bit. -/
theorem C26_slot_allocation (p : proc)
    (hw : ∀ w, p.swap_slots w < 2 ^ 32)
    (hcount : p.nswap_slots = used_slots p) :
    (used_slots p < MAX_SWAP_PAGES →
      ∃ i, i < MAX_SWAP_PAGES ∧ (alloc_swap_slot p).1 = (i : Int) ∧
        p.swap_slots (i / 32) &&& (1 <<< (i % 32)) = 0 ∧
        (∀ l, l < i → p.swap_slots (l / 32) &&& (1 <<< (l % 32)) ≠ 0) ∧
        (∀ l, (alloc_swap_slot p).2.swap_slots (l / 32) &&& (1 <<< (l % 32)) ≠ 0 ↔
          (l = i ∨ p.swap_slots (l / 32) &&& (1 <<< (l % 32)) ≠ 0)) ∧
        (alloc_swap_slot p).2.nswap_slots = p.nswap_slots + 1 ∧
        (free_swap_slot (alloc_swap_slot p).2 (alloc_swap_slot p).1).swap_slots = p.swap_slots ∧
        (free_swap_slot (alloc_swap_slot p).2 (alloc_swap_slot p).1).nswap_slots
          = p.nswap_slots) ∧
    ((alloc_swap_slot p).1 = -1 ↔
      ∀ l, l < MAX_SWAP_PAGES → p.swap_slots (l / 32) &&& (1 <<< (l % 32)) ≠ 0) ∧
    ((alloc_swap_slot p).1 = -1 → (alloc_swap_slot p).2 = p) ∧
    (∀ s : Int, s < 0 ∨ s ≥ (MAX_SWAP_PAGES : Int) → free_swap_slot p s = p) ∧
    (∀ l : Nat, p.swap_slots (l / 32) &&& (1 <<< (l % 32)) = 0 →
      free_swap_slot p (l : Int) = p) := by
  refine ⟨?_, alloc_swap_slot_neg_iff p hcount, ?_, ?_, ?_⟩
  · intro hlt
    have hnf : ¬ p.nswap_slots ≥ MAX_SWAP_PAGES := by omega
    cases hf : first_clear p.swap_slots MAX_SWAP_PAGES 0 with
    | none =>
      have := (used_slots_full_iff p).2
        (fun l hl => first_clear_none _ _ 0 hf l (Nat.zero_le _) (by omega))
      omega
    | some i =>
      obtain ⟨_, hi, hclear, hmin⟩ := first_clear_some _ _ 0 i hf
      have hi' : i < MAX_SWAP_PAGES := by omega
      have hM : MAX_SWAP_PAGES = 1024 := rfl
      have halloc : alloc_swap_slot p = ((i : Int),
          { p with
            swap_slots := Function.update p.swap_slots (i / 32)
              (p.swap_slots (i / 32) ||| (1 <<< (i % 32)))
            nswap_slots := p.nswap_slots + 1 }) := by
        simp [alloc_swap_slot, hnf, hf]
      have hcb : (p.swap_slots (i / 32)).testBit (i % 32) = false := by
        have := (slot_bit_iff p.swap_slots i).not.1 (by simpa using hclear)
        simpa using this
      refine ⟨i, hi', by rw [halloc], hclear, fun l hl => hmin l (Nat.zero_le _) hl, ?_,
        by rw [halloc], ?_, ?_⟩
      · intro l
        rw [halloc]
        simp only
        rw [slot_bit_iff, slot_bit_iff]
        by_cases hq : l / 32 = i / 32
        · rw [hq, Function.update_same, Nat.testBit_or, Nat.one_shiftLeft, Nat.testBit_two_pow]
          have hli : l = i ↔ i % 32 = l % 32 := by omega
          rw [← hq]
          simp only [Bool.or_eq_true, decide_eq_true_eq]
          rw [hli]
          tauto
        · rw [Function.update_noteq hq]
          have hli : l ≠ i := fun h => hq (by rw [h])
          simp [hli]
      · rw [halloc]
        have hset : (p.swap_slots (i / 32) ||| (1 <<< (i % 32))) &&& (1 <<< (i % 32)) ≠ 0 := by
          rw [Nat.one_shiftLeft, and_flag_ne_zero, Nat.testBit_or, Nat.testBit_two_pow]
          simp
        have hneg : ¬ ((i : Int) < 0 ∨ (i : Int) ≥ (MAX_SWAP_PAGES : Int)) := by omega
        simp only [free_swap_slot, hneg, if_false, Int.toNat_ofNat, Function.update_same, hset,
          ne_eq, not_false_eq_true, if_true, Function.update_idem]
        rw [clear_bit_restores _ _ (hw _) (Nat.mod_lt _ (by decide)) hcb]
        exact Function.update_eq_self _ _
      · rw [halloc]
        have hset : (p.swap_slots (i / 32) ||| (1 <<< (i % 32))) &&& (1 <<< (i % 32)) ≠ 0 := by
          rw [Nat.one_shiftLeft, and_flag_ne_zero, Nat.testBit_or, Nat.testBit_two_pow]
          simp
        have hneg : ¬ ((i : Int) < 0 ∨ (i : Int) ≥ (MAX_SWAP_PAGES : Int)) := by omega
        simp only [free_swap_slot, hneg, if_false, Int.toNat_ofNat, Function.update_same, hset,
          ne_eq, not_false_eq_true, if_true]
        omega
  · intro h
    rw [alloc_swap_slot_full p ((alloc_swap_slot_neg_iff p hcount).1 h)]
  · intro s hs
    simp [free_swap_slot, hs]
  · intro l hl
    unfold free_swap_slot
    split
    · rfl
    · simp only [Int.toNat_ofNat]
      rw [if_neg (by simpa using hl)]

/-- C26 (witness): in the process of `c4_kernel` slot 0 is the only one in use;
`alloc_swap_slot` returns slot 1, and `free_swap_slot` on it gives back the bitmap
and the count. -/
theorem C26_slot_allocation_witness :
    c4_kernel.p.nswap_slots = used_slots c4_kernel.p ∧
    (alloc_swap_slot c4_kernel.p).1 = 1 ∧
    (free_swap_slot (alloc_swap_slot c4_kernel.p).2
      (alloc_swap_slot c4_kernel.p).1).swap_slots = c4_kernel.p.swap_slots ∧
    (free_swap_slot (alloc_swap_slot c4_kernel.p).2
      (alloc_swap_slot c4_kernel.p).1).nswap_slots = 1 := by
  have hw : ∀ w, c4_kernel.p.swap_slots w < 2 ^ 32 := by
    intro w
    show (if w = 0 then 1 else 0) < 2 ^ 32
    split <;> decide
  obtain ⟨i, _, _, _, _, _, _, h7, h8⟩ :=
    (C26_slot_allocation c4_kernel.p hw (by decide)).1 (by decide)
  exact ⟨by decide, by decide, h7, h8⟩

/-! ## C28: slot exhaustion and consistent states -/

theorem swapped_count_lt (p : proc) (pi : Nat) (hpi : pi < p.npages)
    (hns : (p.pages pi).swapped = false) : swapped_count p < p.npages := by
  unfold swapped_count
  have h := (@List.length_filter_lt_length_iff_exists _ (fun i => (p.pages i).swapped)
    (List.range p.npages)).2 ⟨pi, List.mem_range.2 hpi, by simp [hns]⟩
  rw [List.length_range] at h
  exact h

theorem first_clear_of_count (p : proc) (hbits : p.nswap_slots = used_slots p)
    (hlt : p.nswap_slots < MAX_SWAP_PAGES) :
    ∃ slot, slot < MAX_SWAP_PAGES ∧ first_clear p.swap_slots MAX_SWAP_PAGES 0 = some slot := by
  cases hf : first_clear p.swap_slots MAX_SWAP_PAGES 0 with
  | none =>
    have := (used_slots_full_iff p).2
      (fun l hl => first_clear_none _ _ 0 hf l (Nat.zero_le _) (by omega))
    omega
  | some i =>
    obtain ⟨_, hi, _, _⟩ := first_clear_some _ _ 0 i hf
    exact ⟨i, by omega, rfl⟩

theorem vmfault_map_full (k : kernel) (va scause mem perm : Nat) (line : log_line)
    (hfull : k.p.npages ≥ MAX_SWAP_PAGES) : (vmfault_map k va scause mem perm line).1 = 0 := by
  unfold vmfault_map
  simp only []
  split
  · rfl
  · rfl
  · simp [add_page_info, hfull]

theorem vmfault_fill_full (k : kernel) (va scause mem : Nat) (seg : Option Nat)
    (hfull : k.p.npages ≥ MAX_SWAP_PAGES) : (vmfault_fill k va scause mem seg).1 = 0 := by
  unfold vmfault_fill
  cases seg with
  | none => exact vmfault_map_full _ _ _ _ _ _ hfull
  | some si =>
    simp only []
    repeat' split
    all_goals first | rfl | exact vmfault_map_full _ _ _ _ _ _ hfull

/-- C28: in a process with `npages <= MAX_SWAP_PAGES` whose `nswap_slots` is both
the number of set bits of the bitmap and the number of swapped descriptors, let
`evict_page` find the victim `vi`.  (a) For the descriptor `swapout_page` looks
up, if it is not swapped, `alloc_swap_slot` returns a slot, not -1.  (b) When the
victim's page is mapped, its descriptor is the first of its page and is not
swapped, and the swap file exists or can be created and can take 1024 pages,
`evict_page` completes: `killed` is unchanged, the frame is returned, the entry
is cleared, and neither `SWAPFULL` nor `KILL swap-exhausted` is printed.  (c) With a
full descriptor table (`npages >= MAX_SWAP_PAGES`) the part of `vmfault` that
maps a new page returns 0. -/
theorem C28_slot_exhaustion_unreachable (k : kernel) (vi : Nat)
    (hcap : k.p.npages ≤ MAX_SWAP_PAGES)
    (hbits : k.p.nswap_slots = used_slots k.p)
    (hsw : k.p.nswap_slots = swapped_count k.p)
    (hv : evict_victim k.p = some vi) :
    (∀ pi, find_page_info k.p (k.p.pages vi).va = some pi → (k.p.pages pi).swapped = false →
      ∃ slot : Nat, slot < MAX_SWAP_PAGES ∧ (alloc_swap_slot k.p).1 = (slot : Int)) ∧
    (∀ f, k.panicked = false → (k.p.pages vi).va % PGSIZE = 0 → (k.p.pages vi).va < MAXVA →
      pte_at k.p.pagetable (k.p.pages vi).va &&& PTE_V ≠ 0 →
      (∀ j, j < vi → (k.p.pages j).va ≠ (k.p.pages vi).va) →
      (k.p.pages vi).swapped = false →
      (if k.p.swapfile.isNone then k.fs_create else k.p.swapfile) = some f →
      MAX_SWAP_PAGES * PGSIZE ≤ f.limit →
      (evict_page k).2.p.killed = k.p.killed ∧ (evict_page k).2.panicked = false ∧
      (evict_page k).1 = PTE2PA (pte_at k.p.pagetable (k.p.pages vi).va) ∧
      pte_at (evict_page k).2.p.pagetable (k.p.pages vi).va = 0 ∧
      ∃ lines, (evict_page k).2.log = k.log ++ lines ∧ log_line.SWAPFULL ∉ lines ∧
        log_line.KILL_swap_exhausted ∉ lines) ∧
    (∀ k' va scause mem seg, k'.p.npages ≥ MAX_SWAP_PAGES →
      (vmfault_fill k' va scause mem seg).1 = 0) := by
  obtain ⟨hvi, _, _, _⟩ := evict_victim_some k.p vi hv
  have hcount : ∀ pi, pi < k.p.npages → (k.p.pages pi).swapped = false →
      k.p.nswap_slots < MAX_SWAP_PAGES := by
    intro pi hpi hns
    have := swapped_count_lt k.p pi hpi hns
    omega
  refine ⟨?_, ?_, fun k' va scause mem seg h => vmfault_fill_full k' va scause mem seg h⟩
  · intro pi hfind hns
    unfold find_page_info at hfind
    obtain ⟨_, hpi, _, _⟩ := find_from_some _ _ _ 0 pi hfind
    have hlt := hcount pi (by omega) hns
    obtain ⟨slot, hs1, hs2⟩ := first_clear_of_count k.p hbits hlt
    refine ⟨slot, hs1, ?_⟩
    have hnf : ¬ k.p.nswap_slots ≥ MAX_SWAP_PAGES := by omega
    simp [alloc_swap_slot, hnf, hs2]
  · intro f hrun hva hlt hmap huniq hns hfile hlimit
    have hfind := find_page_info_of_first k.p _ vi hva hvi rfl huniq
    have hw := walk_of_valid _ _ hmap
    have hnlt : ¬ (k.p.pages vi).va ≥ MAXVA := by omega
    have hfree := hcount vi hvi hns
    obtain ⟨slot, hs1, hslot⟩ := first_clear_of_count k.p hbits hfree
    have hwrite : slot * PGSIZE + PGSIZE ≤ f.limit := by
      have : (slot + 1) * PGSIZE ≤ MAX_SWAP_PAGES * PGSIZE :=
        Nat.mul_le_mul_right _ (by omega)
      have h2 : (slot + 1) * PGSIZE = slot * PGSIZE + PGSIZE := by ring
      omega
    cases hss : ((k.p.pages vi).dirty || !has_backing_store k.p (k.p.pages vi).va) with
    | true =>
      have hso := swapout_page_ok
        (printf k (log_line.VICTIM (k.p.pages vi).va (k.p.pages vi).seq))
        (k.p.pages vi).va vi slot f hva hlt hfind hns hmap hfile hfree hslot hwrite
      have hevict : evict_page k = evict_release
          (printf
            { k with
              log := k.log ++ [log_line.VICTIM (k.p.pages vi).va (k.p.pages vi).seq,
                log_line.SWAPOUT (k.p.pages vi).va slot]
              p := { k.p with
                swapfile := some (writei f k.mem
                  (PTE2PA (pte_at k.p.pagetable (k.p.pages vi).va)) (slot * PGSIZE) PGSIZE).2
                swap_slots := Function.update k.p.swap_slots (slot / 32)
                  (k.p.swap_slots (slot / 32) ||| (1 <<< (slot % 32)))
                nswap_slots := k.p.nswap_slots + 1
                pages := Function.update k.p.pages vi
                  { k.p.pages vi with swapped := true, resident := false,
                                      swap_offset := slot } } }
            (log_line.EVICT (k.p.pages vi).va (k.p.pages vi).dirty))
          (k.p.pages vi).va (PTE2PA (pte_at k.p.pagetable (k.p.pages vi).va)) := by
        unfold evict_page
        simp only [hv, printf_p, hnlt, if_false, hw, hmap, hss, if_true, hso]
        simp [printf, hrun]
      rw [hevict]
      refine ⟨rfl, hrun, rfl, ?_, ⟨[log_line.VICTIM (k.p.pages vi).va (k.p.pages vi).seq,
        log_line.SWAPOUT (k.p.pages vi).va slot,
        log_line.EVICT (k.p.pages vi).va (k.p.pages vi).dirty], ?_, by simp, by simp⟩⟩
      · simp only [evict_release, printf]
        exact pte_at_pte_store_same _ _ _ (by rw [hw]; simp)
      · simp [evict_release, printf]
    | false =>
      have hevict : evict_page k = evict_release
          { k with
            log := k.log ++ [log_line.VICTIM (k.p.pages vi).va (k.p.pages vi).seq,
              log_line.EVICT (k.p.pages vi).va false, log_line.DISCARD (k.p.pages vi).va]
            p := { k.p with
              pages := shift_down k.p.pages (k.p.npages - 1 - vi) vi
              npages := k.p.npages - 1 } }
          (k.p.pages vi).va (PTE2PA (pte_at k.p.pagetable (k.p.pages vi).va)) := by
        unfold evict_page
        simp only [hv, printf_p, hnlt, if_false, hw, hmap, hss]
        simp [printf]
      rw [hevict]
      refine ⟨rfl, hrun, rfl, ?_, ⟨[log_line.VICTIM (k.p.pages vi).va (k.p.pages vi).seq,
        log_line.EVICT (k.p.pages vi).va false, log_line.DISCARD (k.p.pages vi).va],
        rfl, by simp, by simp⟩⟩
      simp only [evict_release]
      exact pte_at_pte_store_same _ _ _ (by rw [hw]; simp)

/-- C28 (witness): `c3_kernel` has one resident dirty page, no slot in use and no
swapped descriptor; `evict_page` swaps the page out and does not kill the
process. -/
theorem C28_slot_exhaustion_unreachable_witness :
    c3_kernel.p.npages ≤ MAX_SWAP_PAGES ∧
    c3_kernel.p.nswap_slots = used_slots c3_kernel.p ∧
    c3_kernel.p.nswap_slots = swapped_count c3_kernel.p ∧
    evict_victim c3_kernel.p = some 0 ∧
    (evict_page c3_kernel).2.p.killed = false ∧
    (evict_page c3_kernel).2.panicked = false ∧
    pte_at (evict_page c3_kernel).2.p.pagetable 0x1000 = 0 := by
  have h := (C28_slot_exhaustion_unreachable c3_kernel 0 (by decide) (by decide) (by decide)
    (by decide)).2.1 { size := 0, data := fun _ => 0, limit := 0x400000 } (by decide)
    (by decide) (by decide) (by decide) (by intro j hj; omega) (by decide) rfl
    (by decide)
  exact ⟨by decide, by decide, by decide, by decide, h.1, h.2.1, h.2.2.2.1⟩

/-! ## The console only grows -/

theorem memstat_known_spec (M : Nat) (p : proc) :
    ∀ (n i : Nat) (st : proc_mem_stat), min p.npages M ≤ i + n →
      (memstat_known M p n i st).pid = st.pid ∧
      (memstat_known M p n i st).next_fifo_seq = st.next_fifo_seq ∧
      (memstat_known M p n i st).num_pages_total = st.num_pages_total ∧
      (memstat_known M p n i st).num_resident_pages = st.num_resident_pages +
        ((List.range' i (min p.npages M - i)).filter (fun j => (p.pages j).resident)).length ∧
      (memstat_known M p n i st).num_swapped_pages = st.num_swapped_pages +
        ((List.range' i (min p.npages M - i)).filter
          (fun j => !(p.pages j).resident && (p.pages j).swapped)).length := by
  intro n
  induction n with
  | zero =>
    intro i st h
    have h0 : min p.npages M - i = 0 := by omega
    simp [memstat_known, h0]
  | succ n ih =>
    intro i st h
    unfold memstat_known
    by_cases hc : i < p.npages ∧ i < M
    · rw [if_pos hc]
      have hk : min p.npages M - i = (min p.npages M - (i + 1)) + 1 := by omega
      rw [hk, List.range'_succ]
      simp only []
      obtain ⟨h1, h2, h3, h4, h5⟩ := ih (i + 1)
        (if (p.pages i).resident = true then
          { st with
            pages := st.pages ++
              [{ va := (p.pages i).va, state := page_state.RESIDENT,
                 is_dirty := (p.pages i).dirty, seq := (p.pages i).seq, swap_slot := -1 }]
            num_resident_pages := st.num_resident_pages + 1 }
        else if (p.pages i).swapped = true then
          { st with
            pages := st.pages ++
              [{ va := (p.pages i).va, state := page_state.SWAPPED,
                 is_dirty := (p.pages i).dirty, seq := (p.pages i).seq,
                 swap_slot := ((p.pages i).swap_offset : Int) }]
            num_swapped_pages := st.num_swapped_pages + 1 }
        else
          { st with
            pages := st.pages ++
              [{ va := (p.pages i).va, state := page_state.UNMAPPED,
                 is_dirty := (p.pages i).dirty, seq := (p.pages i).seq, swap_slot := -1 }] })
        (by omega)
      rw [h1, h2, h3, h4, h5]
      rcases Bool.eq_false_or_eq_true (p.pages i).resident with hr | hr <;>
        rcases Bool.eq_false_or_eq_true (p.pages i).swapped with hs | hs <;>
        simp [hr, hs, List.filter_cons] <;> omega
    · rw [if_neg hc]
      have h0 : min p.npages M - i = 0 := by omega
      simp [h0]

theorem memstat_unmapped_spec (M : Nat) (p : proc) :
    ∀ (n page_va : Nat) (st : proc_mem_stat),
      (memstat_unmapped M p n page_va st).pid = st.pid ∧
      (memstat_unmapped M p n page_va st).next_fifo_seq = st.next_fifo_seq ∧
      (memstat_unmapped M p n page_va st).num_pages_total = st.num_pages_total ∧
      (memstat_unmapped M p n page_va st).num_resident_pages = st.num_resident_pages ∧
      (memstat_unmapped M p n page_va st).num_swapped_pages = st.num_swapped_pages := by
  intro n
  induction n with
  | zero => intro page_va st; simp [memstat_unmapped]
  | succ n ih =>
    intro page_va st
    unfold memstat_unmapped
    split
    · split
      · obtain ⟨h1, h2, h3, h4, h5⟩ := ih ((page_va + PGSIZE) % U64)
          { st with
            pages := st.pages ++
              [{ va := page_va, state := page_state.UNMAPPED, is_dirty := false, seq := 0,
                 swap_slot := -1 }] }
        exact ⟨h1, h2, h3, h4, h5⟩
      · exact ih _ _
    · simp

theorem sys_memstat_spec (M : Nat) (p : proc) :
    (sys_memstat M p).pid = p.pid ∧ (sys_memstat M p).next_fifo_seq = p.next_seq ∧
    (sys_memstat M p).num_pages_total = PGROUNDUP p.sz / PGSIZE ∧
    (sys_memstat M p).num_resident_pages =
      ((List.range (min p.npages M)).filter (fun i => (p.pages i).resident)).length ∧
    (sys_memstat M p).num_swapped_pages =
      ((List.range (min p.npages M)).filter
        (fun i => !(p.pages i).resident && (p.pages i).swapped)).length := by
  unfold sys_memstat
  simp only []
  obtain ⟨h1, h2, h3, h4, h5⟩ := memstat_unmapped_spec M p (M + p.npages) 0
    (memstat_known M p p.npages 0
      { pid := p.pid, num_pages_total := PGROUNDUP p.sz / PGSIZE, num_resident_pages := 0,
        num_swapped_pages := 0, next_fifo_seq := p.next_seq, pages := [] })
  obtain ⟨g1, g2, g3, g4, g5⟩ := memstat_known_spec M p p.npages 0
    { pid := p.pid, num_pages_total := PGROUNDUP p.sz / PGSIZE, num_resident_pages := 0,
      num_swapped_pages := 0, next_fifo_seq := p.next_seq, pages := [] }
    (by omega)
  rw [h1, h2, h3, h4, h5, g1, g2, g3, g4, g5]
  simp [List.range_eq_range']

/-- C22 (code at the failing input): for every length `MAX_PAGES_INFO` of the record array
and every process, `sys_memstat` reports `pid`, `next_seq` and
`PGROUNDUP(sz)/PGSIZE`, and its two counters count the resident descriptors and
the swapped, non-resident descriptors among the first
`min(npages, MAX_PAGES_INFO)` only.  With `MAX_PAGES_INFO = 128`, the process
`c22_proc`, whose 130 descriptors are 100 swapped and 30 resident ones, is
reported with 28 resident pages. -/
theorem C22_memstat_counts_truncated :
    (∀ (M : Nat) (p : proc),
      (sys_memstat M p).pid = p.pid ∧ (sys_memstat M p).next_fifo_seq = p.next_seq ∧
      (sys_memstat M p).num_pages_total = PGROUNDUP p.sz / PGSIZE ∧
      (sys_memstat M p).num_resident_pages =
        ((List.range (min p.npages M)).filter (fun i => (p.pages i).resident)).length ∧
      (sys_memstat M p).num_swapped_pages =
        ((List.range (min p.npages M)).filter
          (fun i => !(p.pages i).resident && (p.pages i).swapped)).length) ∧
    c22_proc.npages = 130 ∧ resident_count c22_proc = 30 ∧ swapped_count c22_proc = 100 ∧
    (sys_memstat 128 c22_proc).num_resident_pages = 28 ∧
    (sys_memstat 128 c22_proc).num_swapped_pages = 100 := by
  refine ⟨sys_memstat_spec, ?_⟩
  decide

/-! ## C24: `uvmcopy` -/

theorem kalloc_suffix (fl : List Nat) : (kalloc fl).2 <:+ fl := by
  cases fl with
  | nil => exact List.suffix_refl _
  | cons a t => exact List.suffix_cons a t

theorem walk_alloc_suffix (pt : pagetable_t) (fl : List Nat) (va : Nat) :
    (walk_alloc pt fl va).2.2 <:+ fl := by
  unfold walk_alloc
  have h1 := kalloc_suffix fl
  have h2 := kalloc_suffix (kalloc fl).2
  simp only []
  repeat' split
  all_goals first
    | exact List.suffix_refl _
    | exact h1
    | exact h2.trans h1

theorem mappages_ok_spec (pt : pagetable_t) (fl : List Nat) (va pa perm : Nat)
    (hva : va % PGSIZE = 0) (hlt : va < MAXVA) (hinv : pte_at pt va &&& PTE_V = 0)
    (hok : (mappages pt fl va PGSIZE pa perm).1 = outcome.ok) :
    pte_at (mappages pt fl va PGSIZE pa perm).2.1 va = PA2PTE pa ||| perm ||| PTE_V ∧
    (∀ b, b < MAXVA → b % PGSIZE = 0 → b ≠ va →
      pte_at (mappages pt fl va PGSIZE pa perm).2.1 b = pte_at pt b) ∧
    (mappages pt fl va PGSIZE pa perm).2.2 <:+ fl := by
  rcases Bool.eq_false_or_eq_true (walk_alloc pt fl va).1 with hw | hw
  · refine ⟨?_, fun b hb hb0 hne => (mappages_other pt fl va pa perm b hva hlt hinv hb hb0
      (Ne.symm hne)).2, ?_⟩
    · rw [mappages_one pt fl va pa perm hva hlt hinv hw]
      obtain ⟨e, he⟩ := walk_walk_alloc_ok pt fl va hw
      exact pte_at_pte_store_same _ _ _ (by rw [he]; simp)
    · rw [mappages_one pt fl va pa perm hva hlt hinv hw]
      exact walk_alloc_suffix pt fl va
  · rw [mappages_fail pt fl va pa perm hva hlt hw] at hok
    cases hok

theorem PTE2PA_aligned (e : Nat) : PTE2PA e % PGSIZE = 0 := by
  unfold PTE2PA PGSIZE
  rw [Nat.shiftLeft_eq]
  have : (2 : Nat) ^ 12 = 4096 := by norm_num
  rw [this]
  exact Nat.mul_mod_left _ _

theorem PTE_FLAGS_lt (e : Nat) : PTE_FLAGS e < 1024 := by
  unfold PTE_FLAGS
  have h : e &&& 0x3FF ≤ 0x3FF := Nat.and_le_right
  omega

theorem PTE_FLAGS_valid (e : Nat) (h : e &&& PTE_V ≠ 0) : PTE_FLAGS e ||| PTE_V = PTE_FLAGS e := by
  have hv : PTE_V = 2 ^ 0 := rfl
  rw [hv, and_flag_ne_zero] at h
  apply Nat.eq_of_testBit_eq
  intro i
  unfold PTE_FLAGS
  rw [Nat.testBit_or, Nat.testBit_and, hv, Nat.testBit_two_pow]
  by_cases hi : 0 = i
  · subst hi
    simp [h]
  · simp [hi]

theorem block_disjoint (f g j : Nat) (hf : f % PGSIZE = 0) (hg : g % PGSIZE = 0) (hne : f ≠ g)
    (hj : j < PGSIZE) : ¬ (g ≤ f + j ∧ f + j < g + PGSIZE) := by
  have hP : PGSIZE = 4096 := rfl
  rw [hP] at hf hg hj ⊢
  omega

theorem uvmcopy_err_ne_ok (new : pagetable_t) (fl : List Nat) (mem : Nat → Nat) (i : Nat) :
    (uvmcopy_err new fl mem i).1 ≠ outcome.ok := by
  unfold uvmcopy_err
  simp only []
  split <;> intro h <;> cases h

theorem uvmcopy_loop_spec (old : pagetable_t) (sz : Nat) (hsz : sz ≤ MAXVA) :
    ∀ (n : Nat) (new : pagetable_t) (fl : List Nat) (mem : Nat → Nat) (i : Nat),
      i % PGSIZE = 0 → sz ≤ i + n * PGSIZE →
      (∀ f, f ∈ fl → f % PGSIZE = 0) → fl.Nodup →
      (∀ f, f ∈ fl → ∀ va, va < sz → va % PGSIZE = 0 → pte_at old va &&& PTE_V ≠ 0 →
        PTE2PA (pte_at old va) ≠ f) →
      (∀ va, i ≤ va → va < sz → va % PGSIZE = 0 → pte_at new va &&& PTE_V = 0) →
      ∀ r, uvmcopy_loop old sz n new fl mem i = r → r.1 = outcome.ok →
        r.2.2.1 <:+ fl ∧
        (∀ a, (∀ f, f ∈ fl → f ∉ r.2.2.1 → ¬ (f ≤ a ∧ a < f + PGSIZE)) → r.2.2.2 a = mem a) ∧
        (∀ va, va < i → va % PGSIZE = 0 → pte_at r.2.1 va = pte_at new va) ∧
        (∀ va, i ≤ va → va < sz → va % PGSIZE = 0 →
          (pte_at old va &&& PTE_V ≠ 0 →
            ∃ f, f ∈ fl ∧ f ∉ r.2.2.1 ∧
              pte_at r.2.1 va = PA2PTE f ||| PTE_FLAGS (pte_at old va) ||| PTE_V ∧
              ∀ j, j < PGSIZE → r.2.2.2 (f + j) = mem (PTE2PA (pte_at old va) + j)) ∧
          (pte_at old va &&& PTE_V = 0 → pte_at r.2.1 va &&& PTE_V = 0)) := by
  have hP : PGSIZE = 4096 := rfl
  intro n
  induction n with
  | zero =>
    intro new fl mem i hi hn hal hnd hold hinv r hr hok
    unfold uvmcopy_loop at hr
    subst hr
    refine ⟨List.suffix_refl _, fun a _ => rfl, fun va _ _ => rfl, ?_⟩
    intro va h1 h2 _
    omega
  | succ n ih =>
    intro new fl mem i hi hn hal hnd hold hinv r hr hok
    unfold uvmcopy_loop at hr
    by_cases hlt : i < sz
    swap
    · rw [if_neg hlt] at hr
      subst hr
      refine ⟨List.suffix_refl _, fun a _ => rfl, fun va _ _ => rfl, ?_⟩
      intro va h1 h2 _
      omega
    have hiM : ¬ i ≥ MAXVA := by omega
    rw [if_pos hlt, if_neg hiM] at hr
    have hfuel : sz ≤ i + PGSIZE + n * PGSIZE := by
      have : (n + 1) * PGSIZE = n * PGSIZE + PGSIZE := by ring
      omega
    have hi' : (i + PGSIZE) % PGSIZE = 0 := by rw [hP] at hi ⊢; omega
    -- a page that is not mapped in `old` is passed over
    have skip : pte_at old i &&& PTE_V = 0 →
        uvmcopy_loop old sz n new fl mem (i + PGSIZE) = r →
        r.2.2.1 <:+ fl ∧
        (∀ a, (∀ f, f ∈ fl → f ∉ r.2.2.1 → ¬ (f ≤ a ∧ a < f + PGSIZE)) → r.2.2.2 a = mem a) ∧
        (∀ va, va < i → va % PGSIZE = 0 → pte_at r.2.1 va = pte_at new va) ∧
        (∀ va, i ≤ va → va < sz → va % PGSIZE = 0 →
          (pte_at old va &&& PTE_V ≠ 0 →
            ∃ f, f ∈ fl ∧ f ∉ r.2.2.1 ∧
              pte_at r.2.1 va = PA2PTE f ||| PTE_FLAGS (pte_at old va) ||| PTE_V ∧
              ∀ j, j < PGSIZE → r.2.2.2 (f + j) = mem (PTE2PA (pte_at old va) + j)) ∧
          (pte_at old va &&& PTE_V = 0 → pte_at r.2.1 va &&& PTE_V = 0)) := by
      intro hold_inv hr'
      obtain ⟨s, mm, u, pp⟩ := ih new fl mem (i + PGSIZE) hi' hfuel hal hnd hold
        (fun va h1 h2 h3 => hinv va (by omega) h2 h3) r hr' hok
      refine ⟨s, mm, fun va h1 h2 => u va (by omega) h2, ?_⟩
      intro va h1 h2 h3
      by_cases hva : va = i
      · subst hva
        refine ⟨fun h => absurd hold_inv h, fun _ => ?_⟩
        rw [u va (by rw [hP]; omega) h3]
        exact hinv va (le_refl _) h2 h3
      · exact pp va (by rw [hP] at h3 hi ⊢; omega) h2 h3
    cases hwk : walk old i with
    | none =>
      rw [hwk] at hr
      exact skip (by simp [pte_at, hwk]) hr
    | some e =>
      rw [hwk] at hr
      simp only [] at hr
      have hpe : pte_at old i = e := by simp [pte_at, hwk]
      by_cases hev : e &&& PTE_V = 0
      · rw [if_pos hev] at hr
        exact skip (by rw [hpe]; exact hev) hr
      rw [if_neg hev] at hr
      cases fl with
      | nil =>
        simp only [kalloc, if_true] at hr
        subst hr
        exact absurd hok (uvmcopy_err_ne_ok _ _ _ _)
      | cons f0 t =>
        simp only [kalloc] at hr
        by_cases hf0 : f0 = 0
        · rw [if_pos hf0] at hr
          subst hr
          exact absurd hok (uvmcopy_err_ne_ok _ _ _ _)
        rw [if_neg hf0] at hr
        have hnew_i := hinv i (le_refl _) hlt hi
        have hf0t : f0 ∉ t := (List.nodup_cons.1 hnd).1
        have hndt : t.Nodup := (List.nodup_cons.1 hnd).2
        have haf0 : f0 % PGSIZE = 0 := hal f0 (List.mem_cons_self _ _)
        cases hm : (mappages new t i PGSIZE f0 (PTE_FLAGS e)).1 with
        | panic =>
          rw [hm] at hr
          subst hr
          cases hok
        | fail =>
          rw [hm] at hr
          subst hr
          exact absurd hok (uvmcopy_err_ne_ok _ _ _ _)
        | ok =>
          rw [hm] at hr
          simp only [] at hr
          obtain ⟨hp1, hp2, hp3⟩ := mappages_ok_spec new t i f0 (PTE_FLAGS e) hi (by omega)
            hnew_i hm
          have hsub : ∀ f, f ∈ (mappages new t i PGSIZE f0 (PTE_FLAGS e)).2.2 → f ∈ t :=
            fun f hf => hp3.subset hf
          obtain ⟨s, mm, u, pp⟩ := ih _ _ (memmove mem f0 (PTE2PA e) PGSIZE) (i + PGSIZE) hi' hfuel
            (fun f hf => hal f (List.mem_cons_of_mem _ (hsub f hf)))
            (hp3.sublist.nodup hndt)
            (fun f hf => hold f (List.mem_cons_of_mem _ (hsub f hf)))
            (fun va h1 h2 h3 => by
              rw [hp2 va (by omega) h3 (by rw [hP] at *; omega)]
              exact hinv va (by omega) h2 h3)
            r hr hok
          have hf0r : f0 ∉ r.2.2.1 := fun h => hf0t (hsub f0 (s.subset h))
          have hmem1 : ∀ a, ¬ (f0 ≤ a ∧ a < f0 + PGSIZE) →
              memmove mem f0 (PTE2PA e) PGSIZE a = mem a := by
            intro a ha
            simp only [memmove, if_neg ha]
          refine ⟨s.trans (hp3.trans (List.suffix_cons f0 t)), ?_, ?_, ?_⟩
          · intro a ha
            rw [mm a (fun f hf hfr => ha f (List.mem_cons_of_mem _ (hsub f hf)) hfr)]
            exact hmem1 a (ha f0 (List.mem_cons_self _ _) hf0r)
          · intro va h1 h2
            rw [u va (by omega) h2]
            exact hp2 va (by omega) h2 (by omega)
          · intro va h1 h2 h3
            by_cases hva : va = i
            · subst hva
              refine ⟨fun _ => ⟨f0, List.mem_cons_self _ _, hf0r, ?_, ?_⟩,
                fun h => absurd (by rw [← hpe]; exact h) hev⟩
              · rw [u va (by rw [hP]; omega) h3, hp1, hpe]
              · intro j hj
                rw [mm (f0 + j) (fun f hf hfr => block_disjoint f0 f j haf0
                  (hal f (List.mem_cons_of_mem _ (hsub f hf)))
                  (fun h => hf0t (h ▸ hsub f hf)) hj)]
                simp only [memmove, hpe]
                rw [if_pos ⟨by omega, by omega⟩]
                congr 1
                omega
            · obtain ⟨q1, q2⟩ := pp va (by rw [hP] at h3 hi ⊢; omega) h2 h3
              refine ⟨fun hv => ?_, q2⟩
              obtain ⟨f, hf1, hf2, hf3, hf4⟩ := q1 hv
              refine ⟨f, List.mem_cons_of_mem _ (hsub f hf1), hf2, hf3, fun j hj => ?_⟩
              rw [hf4 j hj]
              exact hmem1 _ (block_disjoint _ f0 j (PTE2PA_aligned _) haf0
                (hold f0 (List.mem_cons_self _ _) va h2 h3 hv) hj)

theorem uvmcopy_loop_ok_le (old : pagetable_t) (sz : Nat) :
    ∀ (n : Nat) (new : pagetable_t) (fl : List Nat) (mem : Nat → Nat) (i : Nat),
      i % PGSIZE = 0 → i ≤ MAXVA → sz ≤ i + n * PGSIZE →
      (uvmcopy_loop old sz n new fl mem i).1 = outcome.ok → sz ≤ MAXVA := by
  have hP : PGSIZE = 4096 := rfl
  have hM : MAXVA = 274877906944 := by norm_num [MAXVA]
  intro n
  induction n with
  | zero =>
    intro new fl mem i _ h2 h3 _
    omega
  | succ n ih =>
    intro new fl mem i h1 h2 h3 hok
    unfold uvmcopy_loop at hok
    by_cases hlt : i < sz
    swap
    · omega
    rw [if_pos hlt] at hok
    by_cases hiM : i ≥ MAXVA
    · rw [if_pos hiM] at hok
      cases hok
    rw [if_neg hiM] at hok
    have hfuel : sz ≤ i + PGSIZE + n * PGSIZE := by
      have : (n + 1) * PGSIZE = n * PGSIZE + PGSIZE := by ring
      omega
    have hi' : (i + PGSIZE) % PGSIZE = 0 := by rw [hP] at h1 ⊢; omega
    have hle : i + PGSIZE ≤ MAXVA := by rw [hP] at h1 ⊢; rw [hM] at hiM ⊢; omega
    cases hwk : walk old i with
    | none =>
      rw [hwk] at hok
      exact ih _ _ _ _ hi' hle hfuel hok
    | some e =>
      rw [hwk] at hok
      simp only [] at hok
      split at hok
      · exact ih _ _ _ _ hi' hle hfuel hok
      · split at hok
        · exact absurd hok (uvmcopy_err_ne_ok _ _ _ _)
        · split at hok
          · cases hok
          · exact absurd hok (uvmcopy_err_ne_ok _ _ _ _)
          · exact ih _ _ _ _ hi' hle hfuel hok

/-- C24: let `uvmcopy(old, new, sz)` return 0, where `new` has no valid entry below `sz`
and the free frames are page-aligned, pairwise distinct and not mapped by
`old`.  Then for every page-aligned `va < sz` the entry of `va` in the new table is
valid exactly when the one in `old` is; when it is, both carry the same flags,
the new frame was taken from the free list and differs from every frame `old`
maps below `sz`, its `PGSIZE` bytes are those of the old frame before the call,
and the bytes of the old frame are unchanged.  The table `old` is only read. -/
theorem C24_fork_copy (old new : pagetable_t) (fl : List Nat) (mem : Nat → Nat) (sz : Nat)
    (hempty : ∀ va, va < sz → va % PGSIZE = 0 → pte_at new va &&& PTE_V = 0)
    (hal : ∀ f, f ∈ fl → f % PGSIZE = 0) (hnd : fl.Nodup)
    (hold : ∀ va, va < sz → va % PGSIZE = 0 → pte_at old va &&& PTE_V ≠ 0 →
      PTE2PA (pte_at old va) ∉ fl)
    (hok : (uvmcopy old new fl mem sz).1 = outcome.ok) :
    ∀ va, va < sz → va % PGSIZE = 0 →
      (pte_at (uvmcopy old new fl mem sz).2.1 va &&& PTE_V ≠ 0 ↔
        pte_at old va &&& PTE_V ≠ 0) ∧
      (pte_at old va &&& PTE_V ≠ 0 →
        PTE_FLAGS (pte_at (uvmcopy old new fl mem sz).2.1 va) = PTE_FLAGS (pte_at old va) ∧
        PTE2PA (pte_at (uvmcopy old new fl mem sz).2.1 va) ∈ fl ∧
        PTE2PA (pte_at (uvmcopy old new fl mem sz).2.1 va) ∉ (uvmcopy old new fl mem sz).2.2.1 ∧
        (∀ va', va' < sz → va' % PGSIZE = 0 → pte_at old va' &&& PTE_V ≠ 0 →
          PTE2PA (pte_at (uvmcopy old new fl mem sz).2.1 va) ≠ PTE2PA (pte_at old va')) ∧
        (∀ j, j < PGSIZE →
          (uvmcopy old new fl mem sz).2.2.2 (PTE2PA (pte_at (uvmcopy old new fl mem sz).2.1 va) + j)
            = mem (PTE2PA (pte_at old va) + j)) ∧
        (∀ j, j < PGSIZE →
          (uvmcopy old new fl mem sz).2.2.2 (PTE2PA (pte_at old va) + j)
            = mem (PTE2PA (pte_at old va) + j))) := by
  have hP : PGSIZE = 4096 := rfl
  have hfuel : sz ≤ 0 + (sz + PGSIZE - 1) / PGSIZE * PGSIZE := by rw [hP]; omega
  have hsz : sz ≤ MAXVA :=
    uvmcopy_loop_ok_le old sz _ new fl mem 0 (by decide) (Nat.zero_le _) hfuel hok
  have hold' : ∀ f, f ∈ fl → ∀ va, va < sz → va % PGSIZE = 0 → pte_at old va &&& PTE_V ≠ 0 →
      PTE2PA (pte_at old va) ≠ f := fun f hf va h1 h2 h3 h => hold va h1 h2 h3 (h ▸ hf)
  obtain ⟨_, mm, _, pp⟩ := uvmcopy_loop_spec old sz hsz _ new fl mem 0 (by decide) hfuel hal hnd
    hold' (fun va _ h2 h3 => hempty va h2 h3) _ rfl hok
  intro va h1 h2
  obtain ⟨q1, q2⟩ := pp va (Nat.zero_le _) h1 h2
  have hiff : pte_at (uvmcopy old new fl mem sz).2.1 va &&& PTE_V ≠ 0 ↔
      pte_at old va &&& PTE_V ≠ 0 := by
    constructor
    · intro h hv
      exact h (q2 hv)
    · intro hv
      obtain ⟨f, _, _, hf3, _⟩ := q1 hv
      show pte_at (uvmcopy_loop old sz ((sz + PGSIZE - 1) / PGSIZE) new fl mem 0).2.1 va
        &&& PTE_V ≠ 0
      rw [hf3]
      exact map_valid _ _
  refine ⟨hiff, fun hv => ?_⟩
  obtain ⟨f, hf1, hf2, hf3, hf4⟩ := q1 hv
  have hpa : PTE2PA (pte_at (uvmcopy old new fl mem sz).2.1 va) = f := by
    show PTE2PA (pte_at (uvmcopy_loop old sz ((sz + PGSIZE - 1) / PGSIZE) new fl mem 0).2.1 va)
      = f
    rw [hf3]
    exact PTE2PA_map f _ (hal f hf1) (PTE_FLAGS_lt _)
  refine ⟨?_, by rw [hpa]; exact hf1, by rw [hpa]; exact hf2, ?_, ?_, ?_⟩
  · show PTE_FLAGS (pte_at (uvmcopy_loop old sz ((sz + PGSIZE - 1) / PGSIZE) new fl mem 0).2.1
      va) = PTE_FLAGS (pte_at old va)
    rw [hf3, PTE_FLAGS_map _ _ (PTE_FLAGS_lt _)]
    exact PTE_FLAGS_valid _ hv
  · intro va' g1 g2 g3
    rw [hpa]
    exact fun h => hold va' g1 g2 g3 (h ▸ hf1)
  · intro j hj
    rw [hpa]
    exact hf4 j hj
  · intro j hj
    exact mm _ (fun g hg _ => block_disjoint _ g j (PTE2PA_aligned _) (hal g hg)
      (hold' g hg va h1 h2 hv) hj)

/-- C24 (witness): `uvmcopy` from the page table of `c1_written`, whose only mapped page
0x1000 holds the byte 0x5A at offset 5, to an empty table: the page is mapped in
the copy with the same flags and another frame, which holds the byte, and the
page 0x2000 is mapped in neither. -/
theorem C24_fork_copy_witness :
    c24_copy.1 = outcome.ok ∧
    pte_at c1_written.p.pagetable 0x1000 &&& PTE_V ≠ 0 ∧
    pte_at c24_copy.2.1 0x1000 &&& PTE_V ≠ 0 ∧
    PTE_FLAGS (pte_at c24_copy.2.1 0x1000) = PTE_FLAGS (pte_at c1_written.p.pagetable 0x1000) ∧
    PTE2PA (pte_at c24_copy.2.1 0x1000) ≠ PTE2PA (pte_at c1_written.p.pagetable 0x1000) ∧
    c24_copy.2.2.2 (PTE2PA (pte_at c24_copy.2.1 0x1000) + 5) = 0x5A ∧
    pte_at c24_copy.2.1 0x2000 &&& PTE_V = 0 := by
  have hold : ∀ va, va < 0x5000 → va % PGSIZE = 0 →
      pte_at c1_written.p.pagetable va &&& PTE_V ≠ 0 →
      PTE2PA (pte_at c1_written.p.pagetable va) ∉ c24_frames := by
    intro va h1 h2
    have hP : PGSIZE = 4096 := rfl
    rw [hP] at h2
    obtain ⟨q, rfl⟩ : ∃ q, va = 4096 * q := ⟨va / 4096, by omega⟩
    have hq : q < 5 := by omega
    interval_cases q <;> decide
  have h := C24_fork_copy c1_written.p.pagetable c24_new c24_frames c1_written.mem 0x5000
    (fun va _ _ => by simp [pte_at, walk, c24_new]) (by decide) (by decide) hold (by decide)
  have h1 := h 0x1000 (by decide) (by decide)
  have h2 := h 0x2000 (by decide) (by decide)
  have hv : pte_at c1_written.p.pagetable 0x1000 &&& PTE_V ≠ 0 := by decide
  obtain ⟨g1, _, _, g4, g5, _⟩ := h1.2 hv
  refine ⟨by decide, hv, h1.1.2 hv, g1, g4 0x1000 (by decide) (by decide) hv, ?_, ?_⟩
  · refine Eq.trans (g5 5 (by decide)) ?_
    decide
  · have hn : ¬ pte_at c1_written.p.pagetable 0x2000 &&& PTE_V ≠ 0 := by decide
    have := mt h2.1.1 hn
    simpa using this

/-! ## C3 and C4: eviction after a swap-in that used a stale descriptor -/

theorem reachable_after_faults (k0 : kernel) (l : List (Nat × Nat)) :
    ∀ k, reachable k0 k → reachable k0 (after_faults k l) := by
  induction l with
  | nil => intro k h; exact h
  | cons f rest ih =>
    intro k h
    exact ih _ (reachable.step _ _ h (paging_step.vmfault k f.1 f.2))

/-- C4 (code at the failing input): when the victim's page is mapped, a clean victim in
the file-backed part of a segment is discarded: `evict_page` returns its frame,
`npages` decreases by one, the descriptors before the victim stay and those
after it move down by one, the entry of the page becomes invalid, and the swap
bitmap, `nswap_slots` and the swap file are unchanged.  The state `c4_stuck` is
reached from a successful exec by `sbrk` and seven resolved page faults; its
victim, at index 2, is the descriptor of the data page 0x2000, resident and
clean, at offset 0x1000 below `filesz = 0x1800` of its segment, and the entry
of 0x2000 is not valid.  There `evict_page` prints `VICTIM` and returns 0: the
descriptor stays, `npages` is still 4, and the next fault that needs a frame
fails. -/
theorem C4_unmapped_victim_kept :
    (∀ (k : kernel) (vi si : Nat),
      evict_victim k.p = some vi →
      (k.p.pages vi).va < MAXVA →
      pte_at k.p.pagetable (k.p.pages vi).va &&& PTE_V ≠ 0 →
      (k.p.pages vi).dirty = false →
      si < k.p.nsegments →
      seg_contains (k.p.segments si) (k.p.pages vi).va →
      (∀ l, l < si → ¬ seg_contains (k.p.segments l) (k.p.pages vi).va) →
      (k.p.pages vi).va - (k.p.segments si).vaddr < (k.p.segments si).filesz →
      (evict_page k).1 = PTE2PA (pte_at k.p.pagetable (k.p.pages vi).va) ∧
      (evict_page k).2.p.npages + 1 = k.p.npages ∧
      (∀ j, j < vi → (evict_page k).2.p.pages j = k.p.pages j) ∧
      (∀ j, vi ≤ j → j < (evict_page k).2.p.npages →
        (evict_page k).2.p.pages j = k.p.pages (j + 1)) ∧
      ((∀ j, j < k.p.npages → j ≠ vi → (k.p.pages j).va ≠ (k.p.pages vi).va) →
        find_from (evict_page k).2.p.pages (k.p.pages vi).va (evict_page k).2.p.npages 0
          = none) ∧
      pte_at (evict_page k).2.p.pagetable (k.p.pages vi).va &&& PTE_V = 0 ∧
      (evict_page k).2.p.swap_slots = k.p.swap_slots ∧
      (evict_page k).2.p.nswap_slots = k.p.nswap_slots ∧
      (evict_page k).2.p.swapfile = k.p.swapfile) ∧
    (kexec 1 ex_trampoline ex_trapframe tight_kernel (some ex_exec_file) []).1 = 0 ∧
    reachable tight_done c4_stuck ∧
    (sys_sbrk tight_done 0x3000 SBRK_LAZY).1 = 0x5000 ∧
    faults_resolved tight_grown
      [(0x1000, 15), (0x5000, 15), (0x2000, 15), (0x1000, 13), (0x4000, 13)] = true ∧
    faults_resolved c4_full [(0x5000, 13), (0, 12)] = true ∧
    c4_stuck.panicked = false ∧ c4_stuck.p.killed = false ∧
    c4_stuck.p.npages = 4 ∧ evict_victim c4_stuck.p = some 2 ∧
    (c4_stuck.p.pages 2).va = 0x2000 ∧ (c4_stuck.p.pages 2).dirty = false ∧
    (c4_stuck.p.pages 2).resident = true ∧ (c4_stuck.p.pages 2).swapped = false ∧
    find_segment c4_stuck.p.segments 0x2000 c4_stuck.p.nsegments 0 = some 1 ∧
    (c4_stuck.p.segments 1).vaddr = 0x1000 ∧ (c4_stuck.p.segments 1).filesz = 0x1800 ∧
    pte_at c4_stuck.p.pagetable 0x2000 &&& PTE_V = 0 ∧
    (evict_page c4_stuck).1 = 0 ∧
    (evict_page c4_stuck).2.log = c4_stuck.log ++ [log_line.VICTIM 0x2000 6] ∧
    (evict_page c4_stuck).2.p.npages = 4 ∧
    ((evict_page c4_stuck).2.p.pages 2).va = 0x2000 ∧
    ((evict_page c4_stuck).2.p.pages 2).resident = true ∧
    (vmfault c4_stuck 0x6000 15).1 = 0 := by
  refine ⟨fun k vi si h1 h2 h3 h4 h5 h6 h7 h8 => ?_, by decide, ?_, ?_⟩
  · exact evict_page_discard_spec k vi si h1 h2 h3 h4 h5 h6 h7 h8
  · exact reachable_after_faults _ _ _ (reachable_after_faults _ _ _
      (reachable.step _ _ reachable.start (paging_step.sys_sbrk tight_done 0x3000 SBRK_LAZY)))
  · decide

/-- C3 (code at the failing input): when the victim's page is mapped and the victim is
the first descriptor of its page, a victim that is dirty, or a heap or stack
page, or a segment page at an offset at least `filesz`, is swapped out as the
claim says: its descriptor gets `swapped = 1`, `resident = 0` and
`swap_offset = slot`, the swap file holds the frame's bytes at `slot * PGSIZE`,
the entry is invalid, `npages` and the other descriptors are unchanged.  The state
`c3_dup` is reached from a successful exec by `sbrk` and nine resolved page
faults; the heap page 0x5000 has two descriptors there, at indices 1 and 2, the
victim is the second one, dirty, and the page is mapped; slot 1 is the first
free slot.  There `evict_page` returns the frame and writes the page to slot 1,
but the victim's descriptor is left with `swap_offset = 0`, the slot of the
stack page, while the slot number went to the first descriptor of the page. -/
theorem C3_second_descriptor_swapout :
    (∀ (k : kernel) (vi slot : Nat) (f : inode),
      k.panicked = false →
      evict_victim k.p = some vi →
      (k.p.pages vi).va % PGSIZE = 0 → (k.p.pages vi).va < MAXVA →
      pte_at k.p.pagetable (k.p.pages vi).va &&& PTE_V ≠ 0 →
      (∀ j, j < vi → (k.p.pages j).va ≠ (k.p.pages vi).va) →
      (k.p.pages vi).swapped = false →
      ((k.p.pages vi).dirty = true ∨
        (∀ i, i < k.p.nsegments → ¬ seg_contains (k.p.segments i) (k.p.pages vi).va) ∨
        (∃ si, si < k.p.nsegments ∧ seg_contains (k.p.segments si) (k.p.pages vi).va ∧
          (∀ l, l < si → ¬ seg_contains (k.p.segments l) (k.p.pages vi).va) ∧
          (k.p.segments si).filesz ≤ (k.p.pages vi).va - (k.p.segments si).vaddr)) →
      (if k.p.swapfile.isNone then k.fs_create else k.p.swapfile) = some f →
      k.p.nswap_slots < MAX_SWAP_PAGES →
      first_clear k.p.swap_slots MAX_SWAP_PAGES 0 = some slot →
      slot * PGSIZE + PGSIZE ≤ f.limit →
      (evict_page k).1 = PTE2PA (pte_at k.p.pagetable (k.p.pages vi).va) ∧
      (evict_page k).2.p.pages vi =
        { k.p.pages vi with swapped := true, resident := false, swap_offset := slot } ∧
      (∃ f', (evict_page k).2.p.swapfile = some f' ∧
        ∀ i, i < PGSIZE →
          f'.data (slot * PGSIZE + i) =
            k.mem (PTE2PA (pte_at k.p.pagetable (k.p.pages vi).va) + i)) ∧
      pte_at (evict_page k).2.p.pagetable (k.p.pages vi).va &&& PTE_V = 0 ∧
      (evict_page k).2.p.npages = k.p.npages ∧
      (∀ j, j ≠ vi → (evict_page k).2.p.pages j = k.p.pages j) ∧
      (evict_page k).2.p.killed = k.p.killed) ∧
    (kexec 1 ex_trampoline ex_trapframe tight_kernel (some ex_exec_file) []).1 = 0 ∧
    reachable tight_done c3_dup ∧
    (sys_sbrk tight_done 0x3000 SBRK_LAZY).1 = 0x5000 ∧
    faults_resolved tight_grown
      [(0x1000, 15), (0x7000, 15), (0x5000, 15), (0x1000, 13), (0x4000, 13)] = true ∧
    faults_resolved c3_full [(0x7000, 13), (0x5000, 15), (0x6000, 15)] = true ∧
    (sys_sbrk c3_twice (-0x1000) SBRK_LAZY).1 = 0x8000 ∧
    (vmfault (sys_sbrk c3_twice (-0x1000) SBRK_LAZY).2 0x5000 13).1 ≠ 0 ∧
    c3_dup.panicked = false ∧ c3_dup.p.killed = false ∧
    c3_dup.p.npages = 4 ∧
    (c3_dup.p.pages 1).va = 0x5000 ∧ (c3_dup.p.pages 1).resident = true ∧
    (c3_dup.p.pages 1).swapped = false ∧
    evict_victim c3_dup.p = some 2 ∧
    (c3_dup.p.pages 2).va = 0x5000 ∧ (c3_dup.p.pages 2).dirty = true ∧
    (c3_dup.p.pages 2).resident = true ∧ (c3_dup.p.pages 2).swapped = false ∧
    (c3_dup.p.pages 2).swap_offset = 0 ∧
    pte_at c3_dup.p.pagetable 0x5000 &&& PTE_V ≠ 0 ∧
    c3_dup.p.swapfile.isSome = true ∧
    c3_dup.p.nswap_slots < MAX_SWAP_PAGES ∧
    first_clear c3_dup.p.swap_slots MAX_SWAP_PAGES 0 = some 1 ∧
    (c3_dup.p.pages 0).swapped = true ∧ (c3_dup.p.pages 0).swap_offset = 0 ∧
    (evict_page c3_dup).1 = PTE2PA (pte_at c3_dup.p.pagetable 0x5000) ∧
    (evict_page c3_dup).1 ≠ 0 ∧
    (evict_page c3_dup).2.log = c3_dup.log ++
      [log_line.VICTIM 0x5000 7, log_line.SWAPOUT 0x5000 1, log_line.EVICT 0x5000 true] ∧
    (evict_page c3_dup).2.p.swap_slots 0 &&& (1 <<< 1) ≠ 0 ∧
    ((evict_page c3_dup).2.p.pages 2).swapped = true ∧
    ((evict_page c3_dup).2.p.pages 2).resident = false ∧
    ((evict_page c3_dup).2.p.pages 2).swap_offset = 0 ∧
    ((evict_page c3_dup).2.p.pages 1).swap_offset = 1 ∧
    ((evict_page c3_dup).2.p.pages 1).resident = true ∧
    pte_at (evict_page c3_dup).2.p.pagetable 0x5000 &&& PTE_V = 0 := by
  refine ⟨fun k vi slot f h1 h2 h3 h4 h5 h6 h7 h8 h9 h10 h11 h12 => ?_, by decide, ?_, ?_⟩
  · exact evict_page_swapout_spec k vi slot f h1 h2 h3 h4 h5 h6 h7 h8 h9 h10 h11 h12
  · exact reachable.step _ _ (reachable.step _ _ (reachable_after_faults _ _ _
      (reachable_after_faults _ _ _
        (reachable.step _ _ reachable.start (paging_step.sys_sbrk tight_done 0x3000 SBRK_LAZY))))
      (paging_step.sys_sbrk c3_twice (-0x1000) SBRK_LAZY))
      (paging_step.vmfault _ 0x5000 13)
  · decide

/-! ## C11: validation of the program headers -/

theorem kexec_bad_headers_panic (USERSTACK trampoline trapframe : Nat) (k : kernel)
    (f : exec_file) (argv : List (List Nat))
    (hr : f.elf_read = true) (hm : f.magic = ELF_MAGIC)
    (hpt : (proc_pagetable trampoline trapframe k.freelist).1.isSome = true)
    (hfail : (exec_segments f f.phnum 0
      { k.p with nsegments := 0, npages := 0, next_seq := 0 } 0).1 = false)
    (h1 : MAXVA < (exec_segments f f.phnum 0
      { k.p with nsegments := 0, npages := 0, next_seq := 0 } 0).2.2)
    (h2 : (exec_segments f f.phnum 0
      { k.p with nsegments := 0, npages := 0, next_seq := 0 } 0).2.2 + PGSIZE ≤ U64) :
    (kexec USERSTACK trampoline trapframe k (some f) argv).2.panicked = true := by
  unfold kexec
  simp only [hr, hm]
  cases hpp : (proc_pagetable trampoline trapframe k.freelist).1 with
  | none => rw [hpp] at hpt; cases hpt
  | some pt =>
    simp only [hfail, Bool.true_eq_false, if_false, ne_eq, not_true_eq_false, if_true]
    exact exec_bad_panic _ pt _ h1 h2

/-- C11 (code at the failing input): for every image whose header fields are 64-bit
values, a `PT_LOAD` header with `memsz < filesz`, a wrapping `vaddr + memsz` or
an unaligned `vaddr`, or a ninth `PT_LOAD` header, makes `kexec` take the exit
`bad`, whose result is -1, and the kernel keeps running when it was running and
the `PT_LOAD` headers end at or below `MAXVA`; after a successful exec
`nsegments <= 8` and the recorded segments are the `PT_LOAD` headers with their
fields, each having passed the three checks, with `perm = flags2perm(flags)`,
which has `X` iff flag bit 0x1 is set, `W` iff bit 0x2 is set, and no other bit.
The first `PT_LOAD` header of `c11_file` is `[0, MAXVA + PGSIZE)` and passes the
checks; the second has `memsz < filesz`.  The exec of `c11_file` by `boot_kernel`
leaves the header loop at the second header with `sz = MAXVA + PGSIZE` and stops
the kernel in the `panic` of `walk` while it frees the new page table: it does
not return -1. -/
theorem C11_bad_header_panics :
    (∀ (USERSTACK trampoline trapframe : Nat) (k : kernel) (f : exec_file)
        (argv : List (List Nat)),
      (∀ j ph, f.ph j = some ph → ph.vaddr < U64 ∧ ph.memsz < U64) →
      (((∃ j ph, j < f.phnum ∧ f.ph j = some ph ∧ ph.type = ELF_PROG_LOAD ∧
            (ph.memsz < ph.filesz ∨ U64 ≤ ph.vaddr + ph.memsz ∨ ph.vaddr % PGSIZE ≠ 0)) ∨
          8 < (loads f 0 f.phnum).length) →
        (kexec USERSTACK trampoline trapframe k (some f) argv).1 = -1 ∧
        (k.panicked = false →
          (∀ j ph, j < f.phnum → f.ph j = some ph → ph.type = ELF_PROG_LOAD →
            (ph.vaddr + ph.memsz) % U64 ≤ MAXVA) →
          (kexec USERSTACK trampoline trapframe k (some f) argv).2.panicked = false)) ∧
      ((kexec USERSTACK trampoline trapframe k (some f) argv).1 ≠ -1 →
        (kexec USERSTACK trampoline trapframe k (some f) argv).2.p.nsegments ≤ 8 ∧
        (kexec USERSTACK trampoline trapframe k (some f) argv).2.p.nsegments =
          (loads f 0 f.phnum).length ∧
        ∀ s, s < (kexec USERSTACK trampoline trapframe k (some f) argv).2.p.nsegments →
          ∃ j ph, j < f.phnum ∧ f.ph j = some ph ∧ ph.type = ELF_PROG_LOAD ∧
            (kexec USERSTACK trampoline trapframe k (some f) argv).2.p.segments s =
              { vaddr := ph.vaddr, filesz := ph.filesz, memsz := ph.memsz, off := ph.off,
                perm := flags2perm ph.flags } ∧
            ph.vaddr % PGSIZE = 0 ∧ ph.filesz ≤ ph.memsz ∧ ph.vaddr + ph.memsz < U64) ∧
      (∀ flags,
        (flags2perm flags &&& PTE_X ≠ 0 ↔ flags &&& 0x1 ≠ 0) ∧
        (flags2perm flags &&& PTE_W ≠ 0 ↔ flags &&& 0x2 ≠ 0) ∧
        (flags2perm flags = 0 ∨ flags2perm flags = PTE_X ∨ flags2perm flags = PTE_W ∨
          flags2perm flags = PTE_X ||| PTE_W))) ∧
    (kexec 1 ex_trampoline ex_trapframe boot_kernel (some c11_file) []).2.panicked = true ∧
    c11_file.elf_read = true ∧ c11_file.magic = ELF_MAGIC ∧ c11_file.phnum = 2 ∧
    (c11_file.ph 0).map (fun ph => (ph.type, ph.vaddr, ph.filesz, ph.memsz)) =
      some (ELF_PROG_LOAD, 0, 0x1000, MAXVA + PGSIZE) ∧
    (c11_file.ph 1).map (fun ph => (ph.type, ph.vaddr, ph.filesz, ph.memsz)) =
      some (ELF_PROG_LOAD, 0x5000, 0x2000, 0x1000) ∧
    (exec_segments c11_file 1 0 boot_kernel.p 0).1 = true ∧
    (exec_segments c11_file 2 0 boot_kernel.p 0).1 = false ∧
    (exec_segments c11_file 2 0 boot_kernel.p 0).2.2 = MAXVA + PGSIZE ∧
    boot_kernel.panicked = false := by
  refine ⟨kexec_segment_validation, ?_, ?_⟩
  · exact kexec_bad_headers_panic 1 ex_trampoline ex_trapframe boot_kernel c11_file [] rfl rfl
      (by decide) (by decide) (by decide) (by decide)
  · decide

/-! ## `copyout` during exec -/

theorem vmfault_on_mapped (k : kernel) (pt : pagetable_t) (va0 scause : Nat)
    (hlt : PGROUNDDOWN va0 < MAXVA) (hm : ismapped pt (PGROUNDDOWN va0) = true) :
    (vmfault_on k pt va0 scause).1 = 0 ∨
      (vmfault_on k pt va0 scause).1 = walkaddr pt (PGROUNDDOWN va0) := by
  unfold vmfault_on
  simp only [ge_iff_le, Nat.not_le.2 hlt, if_false, hm, if_true]
  repeat' split
  all_goals first
    | (left; rfl)
    | (right; rfl)

theorem copyout_len_zero (k : kernel) (pt : pagetable_t) (dstva : Nat) (src : List Nat) :
    copyout k pt dstva src 0 = (0, k, pt) := by
  unfold copyout
  cases (dstva % PGSIZE + 0 + PGSIZE - 1) / PGSIZE with
  | zero => rfl
  | succ n => unfold copyout_loop; simp

theorem copyout_in_page (k : kernel) (pt : pagetable_t) (dstva : Nat) (src : List Nat)
    (len : Nat) (hlt : PGROUNDDOWN dstva < MAXVA)
    (hmap : pte_at pt (PGROUNDDOWN dstva) &&& PTE_V ≠ 0)
    (hin : dstva % PGSIZE + len ≤ PGSIZE) :
    (copyout k pt dstva src len).1 = -1 ∨
      ((copyout k pt dstva src len).2.2 = pt ∧ (copyout k pt dstva src len).2.1.p = k.p) := by
  have hP : PGSIZE = 4096 := rfl
  by_cases hlen : len = 0
  · subst hlen
    rw [copyout_len_zero]
    exact Or.inr ⟨rfl, rfl⟩
  · have hn : (dstva % PGSIZE + len + PGSIZE - 1) / PGSIZE = 1 := by
      rw [hP] at hin ⊢
      omega
    have hw := walk_of_valid _ _ hmap
    have hm : ismapped pt (PGROUNDDOWN dstva) = true := by
      rw [ismapped_eq]; simp [hmap]
    unfold copyout
    rw [hn]
    unfold copyout_loop
    simp only [hlen, if_false, ge_iff_le, Nat.not_le.2 hlt]
    by_cases hpa : walkaddr pt (PGROUNDDOWN dstva) = 0
    · left
      simp only [hpa, if_true]
      split
      · simp
      · have hv := vmfault_on_mapped k pt (PGROUNDDOWN dstva) 15
          (by rw [PGROUNDDOWN_idem]; exact hlt) (by rw [PGROUNDDOWN_idem]; exact hm)
        rw [PGROUNDDOWN_idem, hpa, or_self] at hv
        generalize vmfault_on k pt (PGROUNDDOWN dstva) 15 = f at hv ⊢
        simp [hv]
    · simp only [hpa, if_false, hw]
      split
      · left; rfl
      · split
        · left; rfl
        · right
          unfold copyout_loop
          exact ⟨rfl, rfl⟩

theorem copyout_loop_beyond (n : Nat) :
    ∀ (k : kernel) (pt : pagetable_t) (dstva : Nat) (src : List Nat) (len : Nat),
      0 < len → MAXVA < dstva + len → dstva % PGSIZE + len ≤ n * PGSIZE →
      (copyout_loop n k pt dstva src len).1 = -1 := by
  have hP : PGSIZE = 4096 := rfl
  have hM : MAXVA = 274877906944 := by norm_num [MAXVA]
  induction n with
  | zero => intro k pt dstva src len h1 _ h3; omega
  | succ n ih =>
    intro k pt dstva src len h1 h2 h3
    have hoff : dstva - PGROUNDDOWN dstva = dstva % PGSIZE := by
      unfold PGROUNDDOWN; rw [hP]; omega
    have hnext : (PGROUNDDOWN dstva + PGSIZE) % PGSIZE = 0 := by
      unfold PGROUNDDOWN; rw [hP]; omega
    have hsum : PGROUNDDOWN dstva + PGSIZE + (len - (PGSIZE - dstva % PGSIZE)) =
        PGROUNDDOWN dstva + dstva % PGSIZE + len ∨ len ≤ PGSIZE - dstva % PGSIZE := by
      rw [hP]; omega
    have hdown : PGROUNDDOWN dstva + dstva % PGSIZE = dstva := by
      unfold PGROUNDDOWN; rw [hP]; omega
    unfold copyout_loop
    simp only [Nat.ne_of_gt h1, if_false, hoff]
    split
    · rfl
    · rename_i hlt
      have hbig : PGSIZE - dstva % PGSIZE < len := by
        have : PGROUNDDOWN dstva + PGSIZE ≤ MAXVA := by
          unfold PGROUNDDOWN at hlt ⊢
          rw [hP, hM] at hlt ⊢
          omega
        rw [hP] at this hdown ⊢
        omega
      have hc : ¬ (PGSIZE - dstva % PGSIZE > len) := by omega
      simp only [hc, if_false]
      have hrec : ∀ (k' : kernel) (pt' : pagetable_t) (src' : List Nat),
          (copyout_loop n k' pt' (PGROUNDDOWN dstva + PGSIZE) src'
            (len - (PGSIZE - dstva % PGSIZE))).1 = -1 := by
        intro k' pt' src'
        apply ih
        · omega
        · rcases hsum with hs | hs
          · rw [hs, hdown]; exact h2
          · omega
        · rw [hnext]
          rw [hP] at h3 hbig ⊢
          omega
      repeat' split
      all_goals first
        | rfl
        | exact hrec _ _ _

theorem copyout_beyond (k : kernel) (pt : pagetable_t) (dstva : Nat) (src : List Nat)
    (len : Nat) (h1 : 0 < len) (h2 : MAXVA < dstva + len) :
    (copyout k pt dstva src len).1 = -1 := by
  have hP : PGSIZE = 4096 := rfl
  unfold copyout
  apply copyout_loop_beyond _ k pt dstva src len h1 h2
  rw [hP]
  omega

theorem push_in_page (k : kernel) (pt : pagetable_t) (sp L B : Nat) (src : List Nat)
    (hB0 : B % PGSIZE = 0) (hBlt : B + PGSIZE ≤ MAXVA) (hBm : pte_at pt B &&& PTE_V ≠ 0)
    (hsp : sp ≤ B + PGSIZE) (hL : L < U64)
    (hge : ¬ ((sp + U64 - L) % U64 - (sp + U64 - L) % U64 % 16 < B)) :
    (copyout k pt ((sp + U64 - L) % U64 - (sp + U64 - L) % U64 % 16) src L).1 = -1 ∨
    ((copyout k pt ((sp + U64 - L) % U64 - (sp + U64 - L) % U64 % 16) src L).2.2 = pt ∧
      (copyout k pt ((sp + U64 - L) % U64 - (sp + U64 - L) % U64 % 16) src L).2.1.p = k.p ∧
      (sp + U64 - L) % U64 - (sp + U64 - L) % U64 % 16 ≤ B + PGSIZE) := by
  have hU : U64 = 18446744073709551616 := by norm_num [U64]
  have hM : MAXVA = 274877906944 := by norm_num [MAXVA]
  have hP : PGSIZE = 4096 := rfl
  have hB4 : B % 4096 = 0 := hB0
  rw [hP, hM] at hBlt
  rw [hP] at hsp
  rw [hU] at hL hge
  generalize hs : (sp + U64 - L) % U64 - (sp + U64 - L) % U64 % 16 = sp2 at hge ⊢
  rw [hU] at hs
  by_cases h0 : L = 0
  · subst h0
    rw [copyout_len_zero]
    refine Or.inr ⟨rfl, rfl, ?_⟩
    rw [hP]
    omega
  · by_cases hw : L ≤ sp
    · have hdown : PGROUNDDOWN sp2 = B := by
        unfold PGROUNDDOWN
        rw [hP]
        omega
      have hc := copyout_in_page k pt sp2 src L (by rw [hdown, hM]; omega)
        (by rw [hdown]; exact hBm) (by rw [hP]; omega)
      rcases hc with hc | ⟨hc1, hc2⟩
      · exact Or.inl hc
      · refine Or.inr ⟨hc1, hc2, ?_⟩
        rw [hP]
        omega
    · left
      exact copyout_beyond k pt sp2 src L (by omega) (by rw [hM]; omega)

theorem exec_args_in_page (B : Nat) (pt : pagetable_t) (p : proc)
    (hB0 : B % PGSIZE = 0) (hBlt : B + PGSIZE ≤ MAXVA) (hBm : pte_at pt B &&& PTE_V ≠ 0)
    (argv : List (List Nat)) :
    ∀ s : exec_args_state, s.pt = pt → s.k.p = p → s.sp ≤ B + PGSIZE →
      (exec_args B argv s).ok = false ∨
      ((exec_args B argv s).pt = pt ∧ (exec_args B argv s).k.p = p ∧
        (exec_args B argv s).sp ≤ B + PGSIZE) := by
  have hU : 0 < U64 := by norm_num [U64]
  induction argv with
  | nil => intro s h1 h2 h3; exact Or.inr ⟨h1, h2, h3⟩
  | cons a rest ih =>
    intro s h1 h2 h3
    unfold exec_args
    simp only []
    split
    · exact Or.inl rfl
    · split
      · exact Or.inl rfl
      · rename_i hge
        have hc := push_in_page s.k pt s.sp ((a.length + 1) % U64) B (a ++ [0]) hB0 hBlt hBm h3
          (Nat.mod_lt _ hU) hge
        rw [h1]
        generalize copyout s.k pt
          ((s.sp + U64 - (a.length + 1) % U64) % U64 -
            (s.sp + U64 - (a.length + 1) % U64) % U64 % 16)
          (a ++ [0]) ((a.length + 1) % U64) = c at hc ⊢
        split
        · exact Or.inl rfl
        · rename_i hno
          rcases hc with hc | ⟨hc1, hc2, hc3⟩
          · exact absurd (Or.inr (by rw [hc]; decide)) hno
          · exact ih _ hc1 (by rw [← h2]; exact hc2) hc3

theorem create_swapfile_pages (k : kernel) :
    (create_swapfile k).2.p.pages = k.p.pages ∧ (create_swapfile k).2.p.npages = k.p.npages ∧
    (create_swapfile k).2.p.stack_top = k.p.stack_top ∧
    (create_swapfile k).2.p.stack_bottom = k.p.stack_bottom := by
  unfold create_swapfile
  split
  · exact ⟨rfl, rfl, rfl, rfl⟩
  · exact ⟨rfl, rfl, rfl, rfl⟩

theorem exec_commit_cases (k : kernel) (pt : pagetable_t) (sz B oldsz : Nat)
    (argv : List (List Nat)) (a : exec_args_state) (c : Int × kernel × pagetable_t)
    (ha : a = exec_args B argv { ok := true, argc := 0, sp := sz, ustack := [], k := k, pt := pt })
    (hc : c = copyout a.k a.pt
      ((a.sp + U64 - (a.argc + 1) * 8 % U64) % U64 -
        (a.sp + U64 - (a.argc + 1) * 8 % U64) % U64 % 16)
      ((a.ustack ++ [0]).flatMap le64) ((a.argc + 1) * 8 % U64)) :
    (exec_commit k pt sz B oldsz argv).1 = -1 ∨
    (a.ok = true ∧
      ¬ ((a.sp + U64 - (a.argc + 1) * 8 % U64) % U64 -
        (a.sp + U64 - (a.argc + 1) * 8 % U64) % U64 % 16 < B) ∧
      ¬ c.1 < 0 ∧
      (exec_commit k pt sz B oldsz argv).2.p.pagetable = c.2.2 ∧
      (exec_commit k pt sz B oldsz argv).2.p.pages = c.2.1.p.pages ∧
      (exec_commit k pt sz B oldsz argv).2.p.npages = c.2.1.p.npages ∧
      (exec_commit k pt sz B oldsz argv).2.p.stack_top = c.2.1.p.stack_top ∧
      (exec_commit k pt sz B oldsz argv).2.p.stack_bottom = c.2.1.p.stack_bottom) := by
  unfold exec_commit
  simp only []
  rw [← ha, ← hc]
  split
  · exact Or.inl rfl
  · split
    · exact Or.inl rfl
    · rename_i h2
      split
      · exact Or.inl rfl
      · rename_i h3
        split
        · exact Or.inl rfl
        · split
          · exact Or.inl rfl
          · rename_i h5
            obtain ⟨g1, g2, g3, g4⟩ := create_swapfile_pages c.2.1
            refine Or.inr ⟨by simpa using h2, h3, h5, rfl, ?_, ?_, ?_, ?_⟩
            · split
              · exact g1
              · exact g1
            · split
              · exact g2
              · exact g2
            · split
              · exact g3
              · exact g3
            · split
              · exact g4
              · exact g4

theorem exec_commit_in_page (k : kernel) (pt : pagetable_t) (sz B oldsz : Nat)
    (argv : List (List Nat))
    (hB0 : B % PGSIZE = 0) (hBlt : B + PGSIZE ≤ MAXVA) (hBm : pte_at pt B &&& PTE_V ≠ 0)
    (hsz : sz = B + PGSIZE) (hok : (exec_commit k pt sz B oldsz argv).1 ≠ -1) :
    (exec_commit k pt sz B oldsz argv).2.p.pagetable = pt ∧
    (exec_commit k pt sz B oldsz argv).2.p.pages = k.p.pages ∧
    (exec_commit k pt sz B oldsz argv).2.p.npages = k.p.npages ∧
    (exec_commit k pt sz B oldsz argv).2.p.stack_top = k.p.stack_top ∧
    (exec_commit k pt sz B oldsz argv).2.p.stack_bottom = k.p.stack_bottom := by
  have hU : 0 < U64 := by norm_num [U64]
  have ha := exec_args_in_page B pt k.p hB0 hBlt hBm argv
    { ok := true, argc := 0, sp := sz, ustack := [], k := k, pt := pt } rfl rfl
    (by rw [hsz])
  rcases exec_commit_cases k pt sz B oldsz argv _ _ rfl rfl with h | ⟨h1, h2, h3, h4, h5, h6, h7, h8⟩
  · exact absurd h hok
  · generalize exec_args B argv
      { ok := true, argc := 0, sp := sz, ustack := [], k := k, pt := pt } = a at ha h1 h2 h3 h4 h5 h6 h7 h8
    rcases ha with ha | ⟨ha1, ha2, ha3⟩
    · rw [ha] at h1; cases h1
    · have hc := push_in_page a.k a.pt a.sp ((a.argc + 1) * 8 % U64) B
        ((a.ustack ++ [0]).flatMap le64) hB0 hBlt (by rw [ha1]; exact hBm) ha3
        (Nat.mod_lt _ hU) h2
      generalize copyout a.k a.pt
        ((a.sp + U64 - (a.argc + 1) * 8 % U64) % U64 -
          (a.sp + U64 - (a.argc + 1) * 8 % U64) % U64 % 16)
        ((a.ustack ++ [0]).flatMap le64) ((a.argc + 1) * 8 % U64) = c at hc h3 h4 h5 h6 h7 h8
      rcases hc with hc | ⟨hc1, hc2, _⟩
      · exact absurd (by rw [hc]; decide) h3
      · rw [hc2, ha2] at h5 h6 h7 h8
        rw [hc1, ha1] at h4
        exact ⟨h4, h5, h6, h7, h8⟩

theorem map_nonuser (pa perm : Nat) (h : perm &&& PTE_U = 0) :
    (PA2PTE pa ||| perm ||| PTE_V) &&& PTE_U = 0 := by
  have h1 := map_and_flag pa perm 4 (by decide)
  have h2 : (perm ||| PTE_V) &&& 2 ^ 4 = 0 := by
    show (perm ||| PTE_V) &&& PTE_U = 0
    rw [Nat.and_distrib_right, h]
    decide
  rw [h2] at h1
  exact h1

theorem mappages_ok_inv (pt : pagetable_t) (fl : List Nat) (va pa perm : Nat)
    (hva : va % PGSIZE = 0)
    (hok : (mappages pt fl va PGSIZE pa perm).1 = outcome.ok) :
    va < MAXVA ∧ pte_at pt va &&& PTE_V = 0 := by
  unfold mappages at hok
  rw [if_neg (by rw [hva]; decide), if_neg (by decide), if_neg (by decide)] at hok
  have h1 : PGSIZE / PGSIZE = 1 := by decide
  rw [h1] at hok
  unfold mappages_loop at hok
  simp only [] at hok
  split at hok
  · cases hok
  · rename_i hlt
    refine ⟨by omega, ?_⟩
    split at hok
    · cases hok
    · have hp := pte_at_walk_alloc pt fl va va
      unfold pte_at at hp
      split at hok
      · cases hok
      · rename_i e he
        rw [he] at hp
        simp only at hp
        split at hok
        · cases hok
        · rename_i hv
          unfold pte_at
          rw [← hp]
          simpa using hv

theorem proc_pagetable_nonuser (trampoline trapframe : Nat) (fl : List Nat) (pt : pagetable_t)
    (h : (proc_pagetable trampoline trapframe fl).1 = some pt) :
    ∀ b, b % PGSIZE = 0 → b < MAXVA → pte_at pt b &&& PTE_U = 0 := by
  have hM : MAXVA = 274877906944 := by norm_num [MAXVA]
  have hP : PGSIZE = 4096 := rfl
  have hT1 : TRAMPOLINE < MAXVA := by unfold TRAMPOLINE; rw [hM, hP]; norm_num
  have hT2 : TRAPFRAME < MAXVA := by unfold TRAPFRAME TRAMPOLINE; rw [hM, hP]; norm_num
  have hne : TRAMPOLINE ≠ TRAPFRAME := by decide
  unfold proc_pagetable uvmcreate at h
  simp only [] at h
  by_cases hk : (kalloc fl).1 = 0
  · simp [hk] at h
  · simp only [hk, if_false] at h
    have hz : ∀ b, pte_at { pa := (kalloc fl).1, sub := fun _ => none } b = 0 := by
      intro b
      simp [pte_at, walk]
    have hm := fun hok => mappages_ok_spec { pa := (kalloc fl).1, sub := fun _ => none }
      (kalloc fl).2 TRAMPOLINE trampoline (PTE_R ||| PTE_X) (by decide) hT1
      (by rw [hz]; rfl) hok
    generalize mappages { pa := (kalloc fl).1, sub := fun _ => none } (kalloc fl).2
      TRAMPOLINE PGSIZE trampoline (PTE_R ||| PTE_X) = m at hm h
    cases hm1 : m.1 with
    | panic => rw [hm1] at h; cases h
    | fail => rw [hm1] at h; cases h
    | ok =>
      rw [hm1] at h
      simp only at h
      obtain ⟨g1, g2, _⟩ := hm hm1
      have hm2 := fun hok => mappages_ok_spec m.2.1 m.2.2 TRAPFRAME trapframe
        (PTE_R ||| PTE_W) (by decide) hT2
        (by rw [g2 TRAPFRAME hT2 (by decide) (Ne.symm hne), hz]; rfl) hok
      generalize mappages m.2.1 m.2.2 TRAPFRAME PGSIZE trapframe (PTE_R ||| PTE_W) = m2
        at hm2 h
      cases hm3 : m2.1 with
      | panic => rw [hm3] at h; cases h
      | fail => rw [hm3] at h; cases h
      | ok =>
        rw [hm3] at h
        simp only at h
        cases h
        obtain ⟨e1, e2, _⟩ := hm2 hm3
        intro b hb0 hb
        by_cases hb1 : b = TRAPFRAME
        · rw [hb1, e1]
          exact map_nonuser _ _ (by decide)
        · rw [e2 b hb hb0 hb1]
          by_cases hb2 : b = TRAMPOLINE
          · rw [hb2, g1]
            exact map_nonuser _ _ (by decide)
          · rw [g2 b hb hb0 hb2, hz]
            rfl

theorem PGROUNDUP_aligned (a : Nat) : PGROUNDUP a % PGSIZE = 0 := by
  unfold PGROUNDUP
  exact Nat.mul_mod_left _ _

theorem exec_stack_shape (USERSTACK : Nat) (k : kernel) (pt : pagetable_t) (f : exec_file)
    (sz0 : Nat) (argv : List (List Nat))
    (hb : (USERSTACK + 1) * PGSIZE ≤ U64 - MAXVA)
    (hpt : ∀ b, b % PGSIZE = 0 → b < MAXVA → pte_at pt b &&& PTE_U = 0)
    (hnp : k.p.npages = 0) :
    (exec_stack USERSTACK k pt f sz0 argv).1 = -1 ∨
    ∃ (k9 : kernel) (pt2 : pagetable_t) (pa oldsz : Nat),
      PGROUNDUP sz0 + PGSIZE < MAXVA ∧
      exec_stack USERSTACK k pt f sz0 argv =
        exec_commit k9 pt2 (PGROUNDUP sz0 + (USERSTACK + 1) * PGSIZE) (PGROUNDUP sz0 + PGSIZE)
          oldsz argv ∧
      pte_at pt2 (PGROUNDUP sz0 + PGSIZE) =
        PA2PTE pa ||| (PTE_W ||| PTE_R ||| PTE_U) ||| PTE_V ∧
      (∀ b, b % PGSIZE = 0 → b < MAXVA → b ≠ PGROUNDUP sz0 + PGSIZE →
        pte_at pt2 b &&& PTE_U = 0) ∧
      k9.p =
        { k.p with
          exec_inode := f.ip
          heap_start := PGROUNDUP sz0
          stack_bottom := PGROUNDUP sz0 + PGSIZE
          stack_top := PGROUNDUP sz0 + (USERSTACK + 1) * PGSIZE
          pages := Function.update k.p.pages 0
            { va := PGROUNDUP sz0 + PGSIZE, seq := k.p.next_seq, dirty := false,
              swapped := false, swap_offset := 0, resident := true }
          next_seq := (k.p.next_seq + 1) % U64
          npages := 1 } := by
  have hP : PGSIZE = 4096 := rfl
  have hal := PGROUNDUP_aligned sz0
  unfold exec_stack
  simp only []
  generalize log_line.INIT_LAZYMAP _ _ _ _ _ _ = l
  by_cases h1 : PGROUNDUP sz0 ≥ MAXVA
  · rw [if_pos h1]
    exact Or.inl rfl
  · rw [if_neg h1]
    obtain ⟨hl1, hl2⟩ := layout_arith (PGROUNDUP sz0) USERSTACK (by omega) hb
    rw [hl1] at hl2
    have hsb : PGROUNDDOWN (PGROUNDUP sz0 + PGSIZE) = PGROUNDUP sz0 + PGSIZE :=
      PGROUNDDOWN_of_aligned _ (by rw [hP] at hal ⊢; omega)
    simp only [hl1, hl2, hsb]
    split
    · exact Or.inl rfl
    · rename_i hw
      split
      · exact Or.inl rfl
      · rename_i hr
        split
        · exact Or.inl rfl
        · exact Or.inl rfl
        · rename_i hm
          right
          have hw' : (walk_alloc pt (printf k l).freelist (PGROUNDUP sz0)).1 = true := by
            simpa using hw
          obtain ⟨e, he⟩ := walk_walk_alloc_ok pt _ _ hw'
          have hg : ∀ b, b % PGSIZE = 0 → b < MAXVA →
              pte_at (pte_store (walk_alloc pt (printf k l).freelist (PGROUNDUP sz0)).2.1
                (PGROUNDUP sz0) 0) b &&& PTE_U = 0 := by
            intro b hb0 hblt
            by_cases hbe : b = PGROUNDUP sz0
            · rw [hbe, pte_at_pte_store_same _ _ _ (by rw [he]; simp)]
              rfl
            · rw [pte_at_pte_store_other _ _ _ _ (by omega) hblt hal hb0 (Ne.symm hbe),
                pte_at_walk_alloc]
              exact hpt b hb0 hblt
          obtain ⟨hi1, hi2⟩ := mappages_ok_inv _ _ _ _ _ (by rw [hP] at hal ⊢; omega) hm
          obtain ⟨hs1, hs2, _⟩ := mappages_ok_spec _ _ _ _ _ (by rw [hP] at hal ⊢; omega) hi1 hi2 hm
          refine ⟨_, _, _, _, hi1, rfl, hs1, ?_, ?_⟩
          · intro b hb0 hblt hne
            rw [hs2 b hblt hb0 hne]
            exact hg b hb0 hblt
          · have hn : (printf k l).p.npages < MAX_SWAP_PAGES := by
              show k.p.npages < MAX_SWAP_PAGES
              rw [hnp]
              decide
            simp only []
            rw [if_pos hn]
            show _ = _
            simp only [printf, hnp]

theorem kexec_one_stack_page (trampoline trapframe : Nat) (k : kernel)
    (file : Option exec_file) (argv : List (List Nat))
    (hok : (kexec 1 trampoline trapframe k file argv).1 ≠ -1) :
    (kexec 1 trampoline trapframe k file argv).2.p.stack_top % PGSIZE = 0 ∧
    PGSIZE ≤ (kexec 1 trampoline trapframe k file argv).2.p.stack_top ∧
    (kexec 1 trampoline trapframe k file argv).2.p.stack_top ≤ MAXVA ∧
    (∀ va, va % PGSIZE = 0 → va < MAXVA →
      ((pte_at (kexec 1 trampoline trapframe k file argv).2.p.pagetable va &&& PTE_V ≠ 0 ∧
          pte_at (kexec 1 trampoline trapframe k file argv).2.p.pagetable va &&& PTE_U ≠ 0) ↔
        va = (kexec 1 trampoline trapframe k file argv).2.p.stack_top - PGSIZE)) ∧
    PTE_FLAGS (pte_at (kexec 1 trampoline trapframe k file argv).2.p.pagetable
      ((kexec 1 trampoline trapframe k file argv).2.p.stack_top - PGSIZE)) =
        PTE_R ||| PTE_W ||| PTE_U ||| PTE_V ∧
    (kexec 1 trampoline trapframe k file argv).2.p.npages = 1 ∧
    ((kexec 1 trampoline trapframe k file argv).2.p.pages 0).va =
      (kexec 1 trampoline trapframe k file argv).2.p.stack_top - PGSIZE ∧
    ((kexec 1 trampoline trapframe k file argv).2.p.pages 0).resident = true ∧
    ((kexec 1 trampoline trapframe k file argv).2.p.pages 0).swapped = false := by
  have hP : PGSIZE = 4096 := rfl
  have hM : MAXVA = 274877906944 := by norm_num [MAXVA]
  have hbnd : (1 + 1) * PGSIZE ≤ U64 - MAXVA := by decide
  unfold kexec at hok ⊢
  split at hok
  · exact absurd rfl hok
  · rename_i f
    simp only [] at hok ⊢
    split at hok
    · exact absurd rfl hok
    · rename_i h1
      rw [if_neg h1]
      split at hok
      · exact absurd rfl hok
      · rename_i h2
        rw [if_neg h2]
        split at hok
        · exact absurd rfl hok
        · rename_i pt hpt
          split at hok
          · exact absurd rfl hok
          · rename_i h3
            rw [if_neg h3]
            have hseg : (exec_segments f f.phnum 0
                { k.p with nsegments := 0, npages := 0, next_seq := 0 } 0).1 = true := by
              simpa using h3
            obtain ⟨hp0, _⟩ := exec_segments_spec f
              { k.p with nsegments := 0, npages := 0, next_seq := 0 } rfl hseg
            have hnp : (exec_segments f f.phnum 0
                { k.p with nsegments := 0, npages := 0, next_seq := 0 } 0).2.1.npages = 0 := by
              rw [hp0]
            have hnu := proc_pagetable_nonuser trampoline trapframe k.freelist pt hpt
            rcases exec_stack_shape 1
              { k with
                freelist := (proc_pagetable trampoline trapframe k.freelist).2.2
                p := (exec_segments f f.phnum 0
                  { k.p with nsegments := 0, npages := 0, next_seq := 0 } 0).2.1 }
              pt f (exec_segments f f.phnum 0
                { k.p with nsegments := 0, npages := 0, next_seq := 0 } 0).2.2 argv hbnd hnu hnp
              with hs | ⟨k9, pt2, pa, oldsz, hlt, heq, hpte, hoth, hk9⟩
            · exact absurd hs hok
            · rw [heq] at hok ⊢
              generalize (exec_segments f f.phnum 0
                { k.p with nsegments := 0, npages := 0, next_seq := 0 } 0).2.2 = sz0 at *
              have hal : PGROUNDUP sz0 % 4096 = 0 := PGROUNDUP_aligned sz0
              have hB0 : (PGROUNDUP sz0 + PGSIZE) % PGSIZE = 0 := by
                rw [hP]; omega
              have hBlt : PGROUNDUP sz0 + PGSIZE + PGSIZE ≤ MAXVA := by omega
              have hBm : pte_at pt2 (PGROUNDUP sz0 + PGSIZE) &&& PTE_V ≠ 0 := by
                rw [hpte]; exact map_valid _ _
              have hsz : PGROUNDUP sz0 + (1 + 1) * PGSIZE = PGROUNDUP sz0 + PGSIZE + PGSIZE := by
                omega
              obtain ⟨c1, c2, c3, c4, _⟩ := exec_commit_in_page k9 pt2 _ _ oldsz argv hB0 hBlt hBm
                hsz hok
              have htop : (exec_commit k9 pt2 (PGROUNDUP sz0 + (1 + 1) * PGSIZE)
                  (PGROUNDUP sz0 + PGSIZE) oldsz argv).2.p.stack_top - PGSIZE =
                    PGROUNDUP sz0 + PGSIZE := by
                rw [c4, hk9]
                show PGROUNDUP sz0 + (1 + 1) * PGSIZE - PGSIZE = _
                omega
              rw [htop, c1, c2, c3, c4, hk9]
              refine ⟨?_, ?_, ?_, ?_, ?_, rfl, rfl, rfl, rfl⟩
              · show (PGROUNDUP sz0 + (1 + 1) * PGSIZE) % PGSIZE = 0
                rw [hP]; omega
              · show PGSIZE ≤ PGROUNDUP sz0 + (1 + 1) * PGSIZE
                omega
              · show PGROUNDUP sz0 + (1 + 1) * PGSIZE ≤ MAXVA
                rw [hsz]; exact hBlt
              · intro va hva0 hvalt
                constructor
                · rintro ⟨_, hu⟩
                  by_contra hne
                  exact hu (hoth va hva0 hvalt hne)
                · intro hva
                  rw [hva, hpte]
                  refine ⟨map_valid _ _, ?_⟩
                  have := map_and_flag pa (PTE_W ||| PTE_R ||| PTE_U) 4 (by decide)
                  show (PA2PTE pa ||| (PTE_W ||| PTE_R ||| PTE_U) ||| PTE_V) &&& 2 ^ 4 ≠ 0
                  rw [this]
                  decide
              · rw [hpte, PTE_FLAGS_map _ _ (by decide)]
                decide

/-! ## C14: the stack page mapped by exec -/

/-- C14 (code at the failing input): with one stack page (`USERSTACK = 1`), after every
successful exec exactly one user page (an entry with `V` and `U`) is mapped in
the new page table, the page `[stack_top - PGSIZE, stack_top)`, with flags
`R|W|U|V`, and `pages[]` holds exactly one descriptor, for that page, resident
and not swapped.  With `USERSTACK = 2`, the first exec of a process (`boot_kernel`, no
image yet) of `c14_file` succeeds: the stack is `[0x1000, 0x3000)`, exec itself maps
the bottom page 0x1000 (`PGROUNDDOWN(stackbase)`) and records its descriptor, and
the copy of the argument vector to the top page 0x2000 goes through `vmfault`,
which maps that page too, so two stack pages are mapped and `pages[]` holds two
descriptors.  With the image `ex_exec_file`, whose segments end below the stack, the
same exec fails, the top page not being mapped when the arguments are copied. -/
theorem C14_exec_maps_bottom_stack_page :
    (∀ (trampoline trapframe : Nat) (k : kernel) (file : Option exec_file)
        (argv : List (List Nat)),
      (kexec 1 trampoline trapframe k file argv).1 ≠ -1 →
      (kexec 1 trampoline trapframe k file argv).2.p.stack_top % PGSIZE = 0 ∧
      PGSIZE ≤ (kexec 1 trampoline trapframe k file argv).2.p.stack_top ∧
      (kexec 1 trampoline trapframe k file argv).2.p.stack_top ≤ MAXVA ∧
      (∀ va, va % PGSIZE = 0 → va < MAXVA →
        ((pte_at (kexec 1 trampoline trapframe k file argv).2.p.pagetable va &&& PTE_V ≠ 0 ∧
            pte_at (kexec 1 trampoline trapframe k file argv).2.p.pagetable va &&& PTE_U ≠ 0) ↔
          va = (kexec 1 trampoline trapframe k file argv).2.p.stack_top - PGSIZE)) ∧
      PTE_FLAGS (pte_at (kexec 1 trampoline trapframe k file argv).2.p.pagetable
        ((kexec 1 trampoline trapframe k file argv).2.p.stack_top - PGSIZE)) =
          PTE_R ||| PTE_W ||| PTE_U ||| PTE_V ∧
      (kexec 1 trampoline trapframe k file argv).2.p.npages = 1 ∧
      ((kexec 1 trampoline trapframe k file argv).2.p.pages 0).va =
        (kexec 1 trampoline trapframe k file argv).2.p.stack_top - PGSIZE ∧
      ((kexec 1 trampoline trapframe k file argv).2.p.pages 0).resident = true ∧
      ((kexec 1 trampoline trapframe k file argv).2.p.pages 0).swapped = false) ∧
    boot_kernel.p.sz = 0 ∧ boot_kernel.p.npages = 0 ∧ boot_kernel.panicked = false ∧
    c14_file.phnum = 1 ∧
    (c14_file.ph 0).map (fun ph => (ph.type, ph.flags, ph.vaddr, ph.filesz, ph.memsz)) =
      some (ELF_PROG_LOAD, 6, 0, 0x1000, U64 - 1) ∧
    (kexec 2 ex_trampoline ex_trapframe boot_kernel (some c14_file) []).1 = 0 ∧
    (kexec 2 ex_trampoline ex_trapframe boot_kernel (some c14_file) []).2.panicked = false ∧
    (kexec 2 ex_trampoline ex_trapframe boot_kernel (some c14_file) []).2.p.stack_bottom
      = 0x1000 ∧
    (kexec 2 ex_trampoline ex_trapframe boot_kernel (some c14_file) []).2.p.stack_top = 0x3000 ∧
    (kexec 2 ex_trampoline ex_trapframe boot_kernel (some c14_file) []).2.p.sz = 0x3000 ∧
    (kexec 2 ex_trampoline ex_trapframe boot_kernel (some c14_file) []).2.p.npages = 2 ∧
    ((kexec 2 ex_trampoline ex_trapframe boot_kernel (some c14_file) []).2.p.pages 0).va
      = 0x1000 ∧
    ((kexec 2 ex_trampoline ex_trapframe boot_kernel (some c14_file) []).2.p.pages 0).resident
      = true ∧
    ((kexec 2 ex_trampoline ex_trapframe boot_kernel (some c14_file) []).2.p.pages 1).va
      = 0x2000 ∧
    ((kexec 2 ex_trampoline ex_trapframe boot_kernel (some c14_file) []).2.p.pages 1).resident
      = true ∧
    pte_at (kexec 2 ex_trampoline ex_trapframe boot_kernel (some c14_file) []).2.p.pagetable
      0x1000 &&& PTE_V ≠ 0 ∧
    pte_at (kexec 2 ex_trampoline ex_trapframe boot_kernel (some c14_file) []).2.p.pagetable
      0x1000 &&& PTE_U ≠ 0 ∧
    pte_at (kexec 2 ex_trampoline ex_trapframe boot_kernel (some c14_file) []).2.p.pagetable
      0x2000 &&& PTE_V ≠ 0 ∧
    pte_at (kexec 2 ex_trampoline ex_trapframe boot_kernel (some c14_file) []).2.p.pagetable
      0x2000 &&& PTE_U ≠ 0 ∧
    log_line.PAGEFAULT 0x2000 access.write cause.exec ∈
      (kexec 2 ex_trampoline ex_trapframe boot_kernel (some c14_file) []).2.log ∧
    (kexec 2 ex_trampoline ex_trapframe boot_kernel (some ex_exec_file) []).1 = -1 ∧
    (kexec 2 ex_trampoline ex_trapframe boot_kernel (some ex_exec_file) []).2.panicked = false := by
  refine ⟨kexec_one_stack_page, ?_⟩
  decide

end Xv6
